import Mathlib

/-!
# Secure P2P chat: rendezvous, mailbox and encrypted channel

A shallow embedding of the browser scripts `crypto.js`, `ipfs.js`, `push.js`,
`webrtc.js`, `sw.js` and `script.js`, with the browser built-ins they call
(AES-GCM, PBKDF2, the text codec, `JSON`, the content hash of the relay, the
peer connection) taken as a parameter `Platform`, and everything the scripts
themselves compute written out.  `btoa` and `atob` are written out as well,
following RFC 4648 and the forgiving decoder of the WHATWG standard.

Every `async` function is run to completion in one step: no other handler is
interleaved at an `await`.
-/

namespace P2PChat

/-! ## Bytes and base64 -/

/-- One element of a `Uint8Array`. -/
abbrev Byte := Fin 256

/-- The exceptions the scripts and the built-ins they call can raise. -/
inductive JsError where
  /-- Property access on `null`/`undefined`, a call of a non-function, iteration of a non-iterable. -/
  | typeError (what : String)
  /-- `JSON.parse` on text that is not JSON. -/
  | jsonParse
  /-- `btoa`/`atob` on a string outside their domain. -/
  | invalidCharacter
  /-- `crypto.subtle.decrypt` on a ciphertext that does not authenticate. -/
  | operationError
  /-- `new Error('Key is not derived. Cannot encrypt.')` and its decrypt twin. -/
  | keyNotDerived (op : String)
  /-- `new Error('IPFS client is not initialized. ...')`. -/
  | ipfsNotInitialized
  /-- The rejection of `web3StorageClient.put`. -/
  | ipfsUpload
  /-- The rejection of `fetch` on the gateway. -/
  | ipfsFetch
  /-- `new Error('IPFS download failed: ...')`, the gateway answered with a non-ok status. -/
  | ipfsDownloadFailed (cid : String)
  /-- `new Error('Unexpected QR code type. Expected ..., got ...')`. -/
  | unexpectedQrType (expected got : String)
  /-- `new Error('Push subscription failed. ...')`. -/
  | pushSubscriptionFailed
  /-- `new Error('Push server returned status ...')`. -/
  | pushServerStatus (status : Nat)
  /-- The rejection of `fetch` on the push worker. -/
  | pushFetch
  /-- A rejection of a peer-connection method. -/
  | rtcError (method : String)
  /-- The use of a name that no scope in reach declares. -/
  | referenceError (name : String)
  /-- `new Error('web3.storage API token is required.')`. -/
  | tokenRequired
  /-- The rejection of `navigator.mediaDevices.getUserMedia`. -/
  | mediaError
  deriving DecidableEq, Repr

/-- The 64 characters of the base64 alphabet, in value order. -/
def b64Alphabet : List Char :=
  "ABCDEFGHIJKLMNOPQRSTUVWXYZabcdefghijklmnopqrstuvwxyz0123456789+/".toList

/-- The character of a 6-bit value. -/
def b64Char (n : Nat) : Char := b64Alphabet.getD n 'A'

/-- The 6-bit value of an alphabet character, `none` outside the alphabet. -/
def b64Index (c : Char) : Option Nat :=
  if b64Alphabet.indexOf c < 64 then some (b64Alphabet.indexOf c) else none

/-- The body of `btoa`: three code units become four characters, the last
group is padded with `=`. -/
def btoaGroups : List Nat → List Char
  | [] => []
  | [a] => [b64Char (a / 4), b64Char (a % 4 * 16), '=', '=']
  | [a, b] => [b64Char (a / 4), b64Char (a % 4 * 16 + b / 16), b64Char (b % 16 * 4), '=']
  | a :: b :: c :: rest =>
    b64Char (a / 4) :: b64Char (a % 4 * 16 + b / 16) :: b64Char (b % 16 * 4 + c / 64)
      :: b64Char (c % 64) :: btoaGroups rest

/-- The built-in `window.btoa` on a binary string given by its code units:
raises when a code unit is above 0xFF. -/
def btoa (binary : List Nat) : Except JsError String :=
  if binary.all (fun u => decide (u ≤ 255)) then .ok (String.mk (btoaGroups binary))
  else .error .invalidCharacter

/-- ASCII whitespace: TAB, LF, FF, CR and SPACE. -/
def isAsciiWhitespace (c : Char) : Bool :=
  c.toNat = 9 || c.toNat = 10 || c.toNat = 12 || c.toNat = 13 || c.toNat = 32

/-- Removal of one or two trailing `=` from a string whose length is a
multiple of four. -/
def stripPadding (cs : List Char) : List Char :=
  if cs.length % 4 = 0 then
    match cs.reverse with
    | c :: d :: r =>
      if c = '=' then (if d = '=' then r.reverse else (d :: r).reverse) else cs
    | [c] => if c = '=' then [] else cs
    | [] => cs
  else cs

/-- The body of `atob`: four 6-bit values become three code units; a rest of
two or three values gives one or two code units, the spare bits dropped. -/
def atobGroups : List Nat → List Nat
  | a :: b :: c :: d :: rest =>
    (a * 4 + b / 16) :: (b % 16 * 16 + c / 4) :: (c % 4 * 64 + d) :: atobGroups rest
  | [a, b, c] => [a * 4 + b / 16, b % 16 * 16 + c / 4]
  | [a, b] => [a * 4 + b / 16]
  | _ => []

/-- The built-in `window.atob` (forgiving base64 decode), giving the code
units of the binary string. -/
def atob (data : String) : Except JsError (List Nat) :=
  let cs := stripPadding (data.toList.filter (fun c => !isAsciiWhitespace c))
  if cs.length % 4 = 1 then .error .invalidCharacter
  else if cs.all (fun c => (b64Index c).isSome) then
    .ok (atobGroups (cs.map (fun c => (b64Index c).getD 0)))
  else .error .invalidCharacter

/-- The store of a code unit into a `Uint8Array`. -/
def toByte (u : Nat) : Byte := ⟨u % 256, Nat.mod_lt _ (by decide)⟩

/-- The method `arrayBufferToBase64` of `CryptoManager`: the loop builds the binary
string one `String.fromCharCode(bytes[i])` at a time, then `btoa`. -/
def arrayBufferToBase64 (buffer : List Byte) : Except JsError String :=
  btoa (buffer.map (fun b => b.val))

/-- The method `base64ToArrayBuffer` of `CryptoManager`: `atob`, then the loop
stores `charCodeAt(i)` into a fresh `Uint8Array`. -/
def base64ToArrayBuffer (base64 : String) : Except JsError (List Byte) :=
  match atob base64 with
  | .ok binary => .ok (binary.map toByte)
  | .error e => .error e

/-! ## JavaScript values -/

/-- The values `JSON.parse` can return, and `undefined`.  Numbers are the
integers. -/
inductive JsVal where
  | undefined
  | null
  | bool (b : Bool)
  | num (n : Int)
  | str (s : String)
  | arr (items : List JsVal)
  | obj (fields : List (String × JsVal))

namespace JsVal

/-- The conversion `ToBoolean`, as applied by `!` and `if`. -/
def truthy : JsVal → Bool
  | undefined => false
  | null => false
  | bool b => b
  | num n => decide (n ≠ 0)
  | str s => decide (s ≠ "")
  | arr _ => true
  | obj _ => true

mutual
/-- The conversion `ToString`, as applied by a template literal. -/
def toText : JsVal → String
  | undefined => "undefined"
  | null => "null"
  | bool b => if b then "true" else "false"
  | num n => toString n
  | str s => s
  | arr items => joinText items
  | obj _ => "[object Object]"
/-- The method `Array.prototype.join` with the separator `","`. -/
def joinText : List JsVal → String
  | [] => ""
  | [x] => elemText x
  | x :: y :: rest => elemText x ++ "," ++ joinText (y :: rest)
/-- The text of one element in a join: empty for `null` and `undefined`. -/
def elemText : JsVal → String
  | undefined => ""
  | null => ""
  | bool b => if b then "true" else "false"
  | num n => toString n
  | str s => s
  | arr items => joinText items
  | obj _ => "[object Object]"
end

/-- The length of a string in UTF-16 code units. -/
def utf16Length (s : String) : Nat :=
  (s.toList.map (fun c => if c.toNat < 65536 then 1 else 2)).sum

/-- The property read `v.key` or `v[key]` on a parsed value. -/
def getProp (v : JsVal) (key : String) : Except JsError JsVal :=
  match v with
  | undefined => .error (.typeError key)
  | null => .error (.typeError key)
  | obj fields => .ok ((fields.lookup key).getD undefined)
  | arr items => .ok (if key = "length" then num items.length else undefined)
  | str s => .ok (if key = "length" then num (utf16Length s) else undefined)
  | _ => .ok undefined

end JsVal

/-! ## The state of one browser tab -/

/-- A `CryptoKey` handle. -/
abbrev CryptoKey := List Byte

/-- The object of class `CryptoManager`: its field `key`, `none` for `null`. -/
structure CryptoManager where
  key : Option CryptoKey

/-- The object of class `PushManager` of `push.js`. -/
structure PushManager where
  subscription : JsVal
  /-- Whether `swRegistration` is set. -/
  swRegistration : Bool

/-- The state an `RTCPeerConnection` keeps by itself. -/
structure RtcState where
  connectionState : String
  iceGatheringState : String
  localDescription : JsVal
  remoteDescription : JsVal

/-- The closure installed as `peerConnection.onconnectionstatechange`: the one
of the `WebRTCManager` constructor, or the one `createInvitation` or
`handleScannedData` assign over it, which both capture the salt. -/
inductive ConnectionHandler where
  | manager
  | invitation (salt : List Byte)
  | scanned (salt : List Byte)

/-- The closure installed as `dataChannel.onmessage`: the one of
`setupDataChannelEvents`, or the one `setupChatHandlers` or `showChatInterface`
assign over it. -/
inductive MessageHandler where
  | manager
  | chatHandlers
  | chatInterface

/-- An `RTCPeerConnection` with the handler the scripts assign to it. -/
structure PeerConnection where
  native : RtcState
  onconnectionstatechange : ConnectionHandler

/-- An `RTCDataChannel` with the handler the scripts assign to it. -/
structure DataChannel where
  readyState : String
  onmessage : MessageHandler

/-- The object of class `WebRTCManager`. -/
structure WebRTCManager where
  peerConnection : PeerConnection
  dataChannel : Option DataChannel
  isOfferer : Bool
  /-- Whether `onIceRestartNeeded` holds the closure of `setupChatHandlers`
  (the only one ever assigned) or `null`. -/
  onIceRestartNeeded : Bool
  /-- Whether the keep-alive interval is running. -/
  keepAliveInterval : Bool

/-- The singleton of class `AppState`. -/
structure AppState where
  webRtcManager : Option WebRTCManager
  /-- Whether `stream` holds a camera stream. -/
  stream : Bool
  pushManager : Option PushManager
  cryptoManager : Option CryptoManager
  peerPushSubscription : JsVal
  peerUnreadListCid : JsVal
  myUnreadListCid : JsVal

/-- The method `reset` of `AppState`. -/
def AppState.reset (_ : AppState) : AppState :=
  { webRtcManager := none, stream := false, pushManager := none, cryptoManager := none,
    peerPushSubscription := .null, peerUnreadListCid := .null, myUnreadListCid := .null }

/-- The module state of `ipfs.js` together with the relay it talks to. -/
structure Relay where
  /-- Whether `web3StorageClient` is set. -/
  client : Bool
  /-- The blobs the store holds, oldest first. -/
  blobs : List String
  /-- The fate of the coming requests to the relay, one entry a request:
  `true` is a network fault.  Past the end of the list no request fails. -/
  faults : List Bool

/-- The outcome of a `fetch` on the push worker: a response with its
status, or a rejection. -/
inductive FetchOutcome where
  | response (status : Nat)
  | reject
  deriving DecidableEq

/-- What a handler does to the outside, in the order it does it.
`console.log` is not recorded. -/
inductive Event where
  | consoleError (label : String) (e : JsError)
  | consoleWarn (text : String)
  | alert (text : String)
  /-- The call `web3StorageClient.put`. -/
  | relayPut (data : String)
  /-- The call `fetch` on the gateway, with the text put after `/ipfs/`. -/
  | relayGet (cid : String)
  /-- The call `fetch(workerUrl, ...)` with the posted body. -/
  | pushPost (workerUrl : String) (subscription payload : JsVal)
  /-- A call of a method of the peer connection. -/
  | rtcCall (method : String) (arg : JsVal)
  /-- The call `QRCode.toCanvas`. -/
  | qrCode (text : String)
  /-- The call `dataChannel.send`. -/
  | channelSend (message : String)
  /-- A call `console.error` with a text only. -/
  | consoleErrorText (text : String)
  /-- The call `alert(error.message)`. -/
  | alertError (e : JsError)

/-- What the browser around the scripts supplies. -/
structure Browser where
  /-- The items of `localStorage`. -/
  localStorage : List (String × String)
  /-- The text of the children of `#messages`, `none` when the page has no
  such element. -/
  messages : Option (List String)
  /-- Whether the page shows the set-up elements (`#connection-setup`,
  `#qr-display`, `#qr-canvas`, `#scanner-container`). -/
  setupUi : Bool
  /-- The answers to the coming `prompt` calls, `none` for a cancel. -/
  prompts : List (Option String)
  /-- The bytes `crypto.getRandomValues` hands out, and how many it has. -/
  random : Nat → Byte
  randomUsed : Nat
  /-- The outcomes of the coming `fetch` calls on the push worker; past the
  end of the list the worker answers 200. -/
  pushOutcomes : List FetchOutcome
  /-- Whether the page can use service workers and push at all. -/
  pushSupported : Bool
  /-- Whether `navigator.serviceWorker.ready` resolves. -/
  swReady : Bool
  /-- The result of `pushManager.subscribe`, `none` when it rejects. -/
  subscribeResult : Option JsVal
  /-- The value of `Notification.permission`. -/
  notificationPermission : String
  /-- Whether `getUserMedia` resolves with a camera stream. -/
  camera : Bool

/-- Everything a handler can read or change. -/
structure World where
  app : AppState
  relay : Relay
  browser : Browser
  trace : List Event

/-- The built-ins whose results the scripts only pass on. -/
structure Platform where
  /-- The content identifier `web3StorageClient.put` returns for a blob. -/
  cidOf : String → String
  /-- `JSON.parse`, `none` when it raises. -/
  jsonParse : String → Option JsVal
  /-- `JSON.stringify`. -/
  jsonStringify : JsVal → String
  /-- The comparison `v > 0` for a `v` that is a string, an array or an object. -/
  gtZeroCoerced : JsVal → Bool
  /-- `new TextEncoder().encode`. -/
  textEncode : String → List Byte
  /-- The UTF-8 decoder `new TextDecoder().decode` runs on the bytes that are left
  once a byte order mark at their start is dealt with. -/
  utf8Decode : List Byte → String
  /-- `crypto.subtle.encrypt` with AES-GCM: key, iv, data. -/
  aesGcmEncrypt : CryptoKey → List Byte → List Byte → List Byte
  /-- `crypto.subtle.decrypt` with AES-GCM: key, iv, data; `none` when it rejects. -/
  aesGcmDecrypt : CryptoKey → List Byte → List Byte → Option (List Byte)
  /-- `importKey` and `deriveKey` with PBKDF2: password, salt. -/
  pbkdf2 : String → List Byte → CryptoKey
  /-- `createOffer(options)`, with the flag `iceRestart`; `none` when it rejects. -/
  rtcCreateOffer : RtcState → Bool → Option JsVal
  /-- `createAnswer()`; `none` when it rejects. -/
  rtcCreateAnswer : RtcState → Option JsVal
  /-- `setLocalDescription`: the connection after it, `none` when it rejects. -/
  rtcSetLocal : RtcState → JsVal → Option RtcState
  /-- `setRemoteDescription`: the connection after it, `none` when it rejects. -/
  rtcSetRemote : RtcState → JsVal → Option RtcState
  /-- The `icegatheringstatechange` events still to come on a connection, each
  with the state the connection has when the event is dispatched. -/
  rtcGatheringEvents : RtcState → List RtcState

/-! ## Running a handler -/

/-- How a run of a handler ends: it returns, it throws, or it stays
suspended at an `await` for ever. -/
inductive Res (α : Type) where
  | ok (a : α) (w : World)
  | err (e : JsError) (w : World)
  | pending (w : World)

/-- The world a run ends in. -/
def Res.world {α : Type} : Res α → World
  | .ok _ w => w
  | .err _ w => w
  | .pending w => w

/-- The value a run returns, `none` when it throws or stays suspended. -/
def Res.value {α : Type} : Res α → Option α
  | .ok a _ => some a
  | .err _ _ => none
  | .pending _ => none

/-- A piece of script. -/
def JS (α : Type) : Type := World → Res α

namespace JS

/-- A `return`. -/
def ret {α : Type} (a : α) : JS α := fun w => .ok a w

/-- One statement after another. -/
def andThen {α β : Type} (x : JS α) (f : α → JS β) : JS β := fun w =>
  match x w with
  | .ok a w1 => f a w1
  | .err e w1 => .err e w1
  | .pending w1 => .pending w1

instance : Monad JS where
  pure := ret
  bind := andThen

/-- A `throw`. -/
def throw {α : Type} (e : JsError) : JS α := fun w => .err e w

/-- A promise that never settles. -/
def suspend {α : Type} : JS α := fun w => .pending w

/-- A `try ... catch (error) ...`. -/
def tryCatch {α : Type} (body : JS α) (handler : JsError → JS α) : JS α := fun w =>
  match body w with
  | .ok a w1 => .ok a w1
  | .err e w1 => handler e w1
  | .pending w1 => .pending w1

/-- A read of the state. -/
def read : JS World := fun w => .ok w w

/-- A write to the state. -/
def update (f : World → World) : JS Unit := fun w => .ok () (f w)

/-- The result of a built-in that may raise. -/
def lift {α : Type} : Except JsError α → JS α
  | .ok a => ret a
  | .error e => throw e

/-- One more entry in the trace. -/
def emit (e : Event) : JS Unit := update (fun w => { w with trace := w.trace ++ [e] })

end JS


/-! ## crypto.js -/

/-- The next `n` bytes of the random source. -/
def World.randomBytes (w : World) (n : Nat) : List Byte :=
  (List.range n).map (fun i => w.browser.random (w.browser.randomUsed + i))

/-- The world after `n` bytes were drawn from the random source. -/
def World.drew (w : World) (n : Nat) : World :=
  { w with browser := { w.browser with randomUsed := w.browser.randomUsed + n } }

/-- `window.crypto.getRandomValues(new Uint8Array(n))`. -/
def getRandomValues (n : Nat) : JS (List Byte) := fun w => .ok (w.randomBytes n) (w.drew n)

/-- The byte order mark of UTF-8. -/
def utf8Bom : List Byte := [0xEF, 0xBB, 0xBF]

/-- `new TextDecoder().decode(bytes)`.  The decoder is made without options, so
`ignoreBOM` is `false`: a byte order mark at the start of the bytes is dropped and
the bytes after it are decoded. -/
def textDecode (P : Platform) (bytes : List Byte) : String :=
  if bytes.take 3 = utf8Bom then P.utf8Decode (bytes.drop 3) else P.utf8Decode bytes

/-- The method `encrypt` of `CryptoManager`, with the IV it draws as an argument. -/
def CryptoManager.encrypt (P : Platform) (cm : CryptoManager) (iv : List Byte)
    (plaintext : String) : Except JsError String :=
  match cm.key with
  | none => .error (.keyNotDerived "encrypt")
  | some key =>
    let encodedText := P.textEncode plaintext
    let ciphertext := P.aesGcmEncrypt key iv encodedText
    let ivAndCiphertext := iv ++ ciphertext
    arrayBufferToBase64 ivAndCiphertext

/-- The method `decrypt` of `CryptoManager`. -/
def CryptoManager.decrypt (P : Platform) (cm : CryptoManager) (base64Ciphertext : String) :
    Except JsError String :=
  match cm.key with
  | none => .error (.keyNotDerived "decrypt")
  | some key =>
    match base64ToArrayBuffer base64Ciphertext with
    | .error e => .error e
    | .ok ivAndCiphertext =>
      let iv := ivAndCiphertext.take 12
      let ciphertext := ivAndCiphertext.drop 12
      match P.aesGcmDecrypt key iv ciphertext with
      | none => .error .operationError
      | some decrypted => .ok (textDecode P decrypted)

/-- The call `AppState.getInstance().cryptoManager.encrypt(message)`. -/
def encryptMessage (P : Platform) (message : String) : JS String := fun w =>
  match w.app.cryptoManager with
  | none => .err (.typeError "encrypt") w
  | some cm =>
    match cm.key with
    | none => .err (.keyNotDerived "encrypt") w
    | some _ => (getRandomValues 12 >>= fun iv => JS.lift (cm.encrypt P iv message)) w

/-- The call `AppState.getInstance().cryptoManager.decrypt(data)`. -/
def decryptMessage (P : Platform) (data : String) : JS String := fun w =>
  match w.app.cryptoManager with
  | none => .err (.typeError "decrypt") w
  | some cm => JS.lift (cm.decrypt P data) w

/-! ## ipfs.js -/

/-- Whether the next request to the relay meets a network fault. -/
def Relay.nextFails (r : Relay) : Bool := r.faults.headD false

/-- The world after one request to the relay that left the given entries in
the trace. -/
def World.afterRequest (w : World) (events : List Event) : World :=
  { w with
    relay := { w.relay with faults := w.relay.faults.tail }
    trace := w.trace ++ events }

/-- The world after a blob was stored. -/
def World.stored (w : World) (data : String) : World :=
  { w with relay := { w.relay with blobs := w.relay.blobs ++ [data] } }

/-- No network fault meets the next `n` requests to the relay. -/
def Relay.quietFor (r : Relay) (n : Nat) : Prop := ∀ b ∈ r.faults.take n, b = false

instance (r : Relay) (n : Nat) : Decidable (r.quietFor n) := by
  unfold Relay.quietFor
  infer_instance

/-- The function `uploadToIPFS`. -/
def uploadToIPFS (P : Platform) (data : String) : JS String := fun w =>
  if w.relay.client = false then .err .ipfsNotInitialized w
  else if w.relay.nextFails then
    .err .ipfsUpload (w.afterRequest [.relayPut data,
      .consoleError "Error uploading to web3.storage:" .ipfsUpload])
  else .ok (P.cidOf data) ((w.afterRequest [.relayPut data]).stored data)

/-- The blob the gateway serves under a name: the oldest one with that
content identifier. -/
def Relay.lookup (P : Platform) (r : Relay) (name : String) : Option String :=
  r.blobs.find? (fun b => decide (P.cidOf b = name))

/-- The function `downloadFromIPFS`. -/
def downloadFromIPFS (P : Platform) (cid : JsVal) : JS String := fun w =>
  if w.relay.nextFails then
    .err .ipfsFetch (w.afterRequest [.relayGet cid.toText,
      .consoleError "Error downloading from IPFS" .ipfsFetch])
  else
    match w.relay.lookup P cid.toText with
    | none =>
      .err (.ipfsDownloadFailed cid.toText) (w.afterRequest [.relayGet cid.toText,
        .consoleError "Error downloading from IPFS" (.ipfsDownloadFailed cid.toText)])
    | some content => .ok content (w.afterRequest [.relayGet cid.toText])

/-! ## storage.js -/

/-- The constant `WORKER_URL_KEY`. -/
def WORKER_URL_KEY : String := "pushWorkerUrl"

/-- The method `loadWorkerUrl` of `StorageManager`. -/
def StorageManager.loadWorkerUrl : JS (Option String) := fun w =>
  .ok (w.browser.localStorage.lookup WORKER_URL_KEY) w

/-- The test `!workerUrl` on an item of `localStorage`. -/
def falsyItem : Option String → Bool
  | none => true
  | some s => decide (s = "")

/-! ## push.js -/

/-- The outcome of the next `fetch` on the push worker. -/
def nextPushOutcome : JS FetchOutcome := fun w =>
  .ok (w.browser.pushOutcomes.headD (.response 200))
    { w with browser := { w.browser with pushOutcomes := w.browser.pushOutcomes.tail } }

/-- The world in which the coming requests to the push worker have the given
outcomes. -/
def World.withPushOutcomes (w : World) (outcomes : List FetchOutcome) : World :=
  { w with browser := { w.browser with pushOutcomes := outcomes } }

/-- The method `sendNotification` of `PushManager`. -/
def PushManager.sendNotification (subscription payload : JsVal) (workerUrl : String) :
    JS Unit :=
  JS.tryCatch
    (JS.emit (.pushPost workerUrl subscription payload) >>= fun _ =>
      nextPushOutcome >>= fun outcome =>
      match outcome with
      | .reject => JS.throw .pushFetch
      | .response status =>
        if 200 ≤ status ∧ status ≤ 299 then JS.ret () else JS.throw (.pushServerStatus status))
    (fun error => JS.emit (.consoleError "Error sending push notification:" error))

/-- The call `AppState.getInstance().pushManager.sendNotification(
AppState.getInstance().peerPushSubscription, payload, workerUrl)`. -/
def notifyPeer (payload : JsVal) (workerUrl : String) : JS Unit := fun w =>
  match w.app.pushManager with
  | none => .err (.typeError "sendNotification") w
  | some _ => PushManager.sendNotification w.app.peerPushSubscription payload workerUrl w

/-! ## script.js: the mailbox -/

/-- `JSON.parse(text)`. -/
def parseJson (P : Platform) (text : String) : JS JsVal :=
  match P.jsonParse text with
  | none => JS.throw .jsonParse
  | some v => JS.ret v

/-- The call `unreadList.push(messageCid)`: only an array has the method. -/
def arrayPush (list : JsVal) (item : JsVal) : JS JsVal :=
  match list with
  | .arr items => JS.ret (.arr (items ++ [item]))
  | _ => JS.throw (.typeError "push")

/-- The comparison `v > 0`. -/
def gtZero (P : Platform) : JsVal → Bool
  | .num n => decide (n > 0)
  | .undefined => false
  | .null => false
  | .bool b => b
  | v => P.gtZeroCoerced v

/-- The values a `for ... of` walks through: the elements of an array, the
code points of a string; nothing else parsed from JSON is iterable. -/
def iterate (v : JsVal) : JS (List JsVal) :=
  match v with
  | .arr items => JS.ret items
  | .str s => JS.ret (s.toList.map (fun c => JsVal.str (String.singleton c)))
  | _ => JS.throw (.typeError "is not iterable")

/-- The call `messagesDiv.appendChild(p)` for a paragraph with the given text. -/
def appendMessage (text : String) : JS Unit := fun w =>
  match w.browser.messages with
  | none => .err (.typeError "appendChild") w
  | some shown => .ok () { w with browser := { w.browser with messages := some (shown ++ [text]) } }

/-- The assignment `messagesDiv.scrollTop = messagesDiv.scrollHeight`. -/
def scrollMessages : JS Unit := fun w =>
  match w.browser.messages with
  | none => .err (.typeError "scrollHeight") w
  | some _ => .ok () w

/-- The function `sendOfflineMessage`. -/
def sendOfflineMessage (P : Platform) (message : String) : JS Unit :=
  JS.tryCatch
    (encryptMessage P message >>= fun encryptedMessage =>
      uploadToIPFS P encryptedMessage >>= fun messageCid =>
      JS.read >>= fun w =>
      downloadFromIPFS P w.app.peerUnreadListCid >>= fun listText =>
      parseJson P listText >>= fun parsed =>
      arrayPush parsed (.str messageCid) >>= fun unreadList =>
      uploadToIPFS P (P.jsonStringify unreadList) >>= fun newUnreadListCid =>
      JS.update (fun w => { w with app := { w.app with peerUnreadListCid := .str newUnreadListCid } })
        >>= fun _ =>
      StorageManager.loadWorkerUrl >>= fun workerUrl =>
      if falsyItem workerUrl then
        JS.emit (.alert "Push Worker URL is not set. Cannot send offline notification.")
      else
        notifyPeer (.obj [("type", .str "new_message"), ("cid", .str newUnreadListCid)])
          (workerUrl.getD ""))
    (fun error => JS.emit (.consoleError "Failed to send offline message:" error))

/-- The text `Peer: ...` of the paragraph `checkUnreadMessages` shows for a message. -/
def peerLine (message : String) : String := "Peer: " ++ message

/-- The body of the loop `for (const messageCid of unreadList)` of
`checkUnreadMessages`, over the values still to come. -/
def drainLoop (P : Platform) : List JsVal → JS Unit
  | [] => JS.ret ()
  | messageCid :: rest =>
    downloadFromIPFS P messageCid >>= fun encryptedMessage =>
    decryptMessage P encryptedMessage >>= fun message =>
    appendMessage (peerLine message) >>= fun _ =>
    drainLoop P rest

/-- The function `checkUnreadMessages`. -/
def checkUnreadMessages (P : Platform) : JS Unit :=
  JS.tryCatch
    (JS.read >>= fun w =>
      downloadFromIPFS P w.app.myUnreadListCid >>= fun listText =>
      parseJson P listText >>= fun unreadList =>
      JS.lift (unreadList.getProp "length") >>= fun length =>
      if gtZero P length then
        iterate unreadList >>= fun items =>
        drainLoop P items >>= fun _ =>
        scrollMessages >>= fun _ =>
        uploadToIPFS P (P.jsonStringify (.arr [])) >>= fun emptyCid =>
        JS.update (fun w => { w with app := { w.app with myUnreadListCid := .str emptyCid } })
      else JS.ret ())
    (fun error => JS.emit (.consoleError "Failed to check unread messages:" error))

/-! ## push.js: the subscription -/

/-- The constructor of `PushManager`. -/
def PushManager.new : PushManager := { subscription := .null, swRegistration := false }

/-- A change of the `PushManager` that `AppState` holds. -/
def setPushManager (f : PushManager → PushManager) : JS Unit :=
  JS.update (fun w => { w with app := { w.app with pushManager := w.app.pushManager.map f } })

/-- The method `initialize` of `PushManager`. -/
def PushManager.initialize : JS Unit := fun w =>
  if w.browser.pushSupported = false then
    JS.emit (.consoleWarn "Push messaging is not supported") w
  else if w.browser.swReady then setPushManager (fun pm => { pm with swRegistration := true }) w
  else .pending w

/-- The method `urlBase64ToUint8Array` of `PushManager`. -/
def urlBase64ToUint8Array (base64String : String) : Except JsError (List Byte) :=
  let padding := List.replicate ((4 - JsVal.utf16Length base64String % 4) % 4) '='
  let base64 := (base64String.toList ++ padding).map
    (fun c => if c = '-' then '+' else if c = '_' then '/' else c)
  match atob (String.mk base64) with
  | .ok rawData => .ok (rawData.map toByte)
  | .error e => .error e

/-- The method `subscribeUser` of `PushManager`, called on the one `AppState` holds. -/
def PushManager.subscribeUser (applicationServerKey : String) : JS JsVal := fun w =>
  match w.app.pushManager with
  | none => .err (.typeError "subscribeUser") w
  | some pm =>
    ((if pm.swRegistration = false then PushManager.initialize else JS.ret ()) >>= fun _ =>
      JS.lift (urlBase64ToUint8Array applicationServerKey) >>= fun _ =>
      JS.tryCatch
        (JS.read >>= fun w1 =>
          if (w1.app.pushManager.map (fun p => p.swRegistration)).getD false = false then
            JS.throw (.typeError "pushManager")
          else
            match w1.browser.subscribeResult with
            | none => JS.throw .pushSubscriptionFailed
            | some subscription =>
              setPushManager (fun p => { p with subscription := subscription }) >>= fun _ =>
              JS.ret subscription)
        (fun err =>
          JS.emit (.consoleError "Failed to subscribe the user: " err) >>= fun _ =>
          JS.read >>= fun w1 =>
          (if w1.browser.notificationPermission = "denied" then
            JS.emit (.consoleWarn "Permission for notifications was denied")
          else JS.ret ()) >>= fun _ =>
          JS.ret .undefined)) w

/-! ## webrtc.js -/

/-- The state of a fresh `RTCPeerConnection`. -/
def RtcState.fresh : RtcState :=
  { connectionState := "new", iceGatheringState := "new", localDescription := .null,
    remoteDescription := .null }

/-- The constructor of `WebRTCManager`. -/
def WebRTCManager.new (isOfferer : Bool) : WebRTCManager :=
  { peerConnection := { native := RtcState.fresh, onconnectionstatechange := .manager }
    dataChannel := none
    isOfferer := isOfferer
    onIceRestartNeeded := false
    keepAliveInterval := false }

/-- A call of a method of the peer connection of the manager `AppState`
holds: the call is traced, then the connection takes the state the built-in
gives, or the call rejects. -/
def rtcCall {α : Type} (method : String) (arg : JsVal)
    (run : RtcState → Option (α × RtcState)) : JS α := fun w =>
  match w.app.webRtcManager with
  | none => .err (.typeError method) w
  | some m =>
    match run m.peerConnection.native with
    | none => .err (.rtcError method) { w with trace := w.trace ++ [.rtcCall method arg] }
    | some (a, native) =>
      .ok a { w with
        app := { w.app with
          webRtcManager := some { m with peerConnection := { m.peerConnection with native := native } } }
        trace := w.trace ++ [.rtcCall method arg] }

/-- `peerConnection.createOffer(options)`, the argument being the flag `iceRestart`. -/
def rtcCreateOffer (P : Platform) (iceRestart : Bool) : JS JsVal :=
  rtcCall "createOffer" (.bool iceRestart)
    (fun native => (P.rtcCreateOffer native iceRestart).map (fun offer => (offer, native)))

/-- `peerConnection.createAnswer()`. -/
def rtcCreateAnswer (P : Platform) : JS JsVal :=
  rtcCall "createAnswer" .undefined
    (fun native => (P.rtcCreateAnswer native).map (fun answer => (answer, native)))

/-- `peerConnection.setLocalDescription(description)`. -/
def rtcSetLocalDescription (P : Platform) (description : JsVal) : JS Unit :=
  rtcCall "setLocalDescription" description
    (fun native => (P.rtcSetLocal native description).map (fun next => ((), next)))

/-- `peerConnection.setRemoteDescription(description)`. -/
def rtcSetRemoteDescription (P : Platform) (description : JsVal) : JS Unit :=
  rtcCall "setRemoteDescription" description
    (fun native => (P.rtcSetRemote native description).map (fun next => ((), next)))

/-- The listener `checkState` of `waitForIceGathering` over the events still to
come: the state of the connection at the first event that finds
`iceGatheringState` at `complete`, where the listener resolves the promise. -/
def checkState : List RtcState → Option RtcState
  | [] => none
  | native :: later =>
    if native.iceGatheringState = "complete" then some native else checkState later

/-- The method `waitForIceGathering` of `WebRTCManager`, awaited. -/
def WebRTCManager.waitForIceGathering (P : Platform) : JS Unit := fun w =>
  match w.app.webRtcManager with
  | none => .err (.typeError "waitForIceGathering") w
  | some m =>
    if m.peerConnection.native.iceGatheringState = "complete" then .ok () w
    else
      match checkState (P.rtcGatheringEvents m.peerConnection.native) with
      | none => .pending w
      | some native =>
        .ok () { w with
          app := { w.app with
            webRtcManager :=
              some { m with peerConnection := { m.peerConnection with native := native } } } }

/-- The read `this.peerConnection.localDescription`. -/
def localDescription : JS JsVal := fun w =>
  match w.app.webRtcManager with
  | none => .err (.typeError "localDescription") w
  | some m => .ok m.peerConnection.native.localDescription w

/-- The method `createAnswer` of `WebRTCManager`. -/
def WebRTCManager.createAnswer (P : Platform) (offerSdp : JsVal) : JS JsVal :=
  rtcSetRemoteDescription P offerSdp >>= fun _ =>
  rtcCreateAnswer P >>= fun answer =>
  rtcSetLocalDescription P answer >>= fun _ =>
  WebRTCManager.waitForIceGathering P >>= fun _ =>
  localDescription

/-- The method `setFinalRemoteDescription` of `WebRTCManager`. -/
def WebRTCManager.setFinalRemoteDescription (P : Platform) (answerSdp : JsVal) : JS Unit :=
  rtcSetRemoteDescription P answerSdp

/-- The closure `setupChatHandlers` assigns to `onIceRestartNeeded`. -/
def iceRestartNeeded (P : Platform) (offerSdp : JsVal) : JS Unit :=
  JS.tryCatch
    (uploadToIPFS P (P.jsonStringify offerSdp) >>= fun cid =>
      StorageManager.loadWorkerUrl >>= fun workerUrl =>
      if falsyItem workerUrl then
        JS.emit (.alert "Push Worker URL is not set. Cannot send ICE restart notification.")
      else
        notifyPeer (.obj [("type", .str "ice_restart"), ("cid", .str cid)]) (workerUrl.getD ""))
    (fun error => JS.emit (.consoleError "Failed to send ICE restart offer:" error))

/-- The closure the constructor of `WebRTCManager` assigns to
`peerConnection.onconnectionstatechange`, run on the manager `AppState` holds. -/
def WebRTCManager.onconnectionstatechange (P : Platform) : JS Unit := fun w =>
  match w.app.webRtcManager with
  | none => .ok () w
  | some this =>
    if this.peerConnection.native.connectionState = "failed" ∧ this.isOfferer = true then
      JS.tryCatch
        (rtcCreateOffer P true >>= fun offer =>
          rtcSetLocalDescription P offer >>= fun _ =>
          WebRTCManager.waitForIceGathering P >>= fun _ =>
          JS.read >>= fun w1 =>
          if (w1.app.webRtcManager.map (fun m => m.onIceRestartNeeded)).getD false then
            localDescription >>= fun description => iceRestartNeeded P description
          else JS.ret ())
        (fun error => JS.emit (.consoleError "ICE restart failed:" error)) w
    else .ok () w

/-! ## script.js: the rendezvous -/

/-- The comparison `v === 'text'`. -/
def JsVal.isStr (v : JsVal) (text : String) : Bool :=
  match v with
  | .str s => decide (s = text)
  | _ => false

/-- The constant `VAPID_PUBLIC_KEY`. -/
def VAPID_PUBLIC_KEY : String :=
  "BEl62iUYgUivxIkv69yQv_vPO0HCd2d9tEASlnvr2T06hkhg_Es_i1-e-2b_D-Q2y1Jg8V1Yv3E_g-h2K2B4-A"

/-- The answer to the next `prompt`. -/
def prompt : JS (Option String) := fun w =>
  .ok (w.browser.prompts.headD none)
    { w with browser := { w.browser with prompts := w.browser.prompts.tail } }

/-- The method `deriveKeyFromPassword` of `CryptoManager`, called on the one
`AppState` holds. -/
def deriveKeyFromPassword (P : Platform) (password : String) (salt : List Byte) : JS Unit :=
  fun w =>
  match w.app.cryptoManager with
  | none => .err (.typeError "deriveKeyFromPassword") w
  | some _ =>
    .ok () { w with app := { w.app with cryptoManager := some { key := some (P.pbkdf2 password salt) } } }

/-- The statements that show the QR code of the answer: the look-up of
`#qr-canvas`, the write to the style of `#qr-display`, `QRCode.toCanvas`. -/
def showAnswerQr (text : String) : JS Unit := fun w =>
  if w.browser.setupUi = false then .err (.typeError "style") w
  else JS.emit (.qrCode text) w

/-- The assignment to `peerConnection.onconnectionstatechange` of the manager
`AppState` holds. -/
def setConnectionHandler (handler : ConnectionHandler) : JS Unit := fun w =>
  match w.app.webRtcManager with
  | none => .err (.typeError "peerConnection") w
  | some m =>
    .ok () { w with
      app := { w.app with
        webRtcManager :=
          some { m with peerConnection := { m.peerConnection with onconnectionstatechange := handler } } } }

/-- The branch `parsedData.type === 'offer'` of `handleScannedData`. -/
def handleScannedOffer (P : Platform) (parsedData : JsVal) : JS Unit :=
  JS.update (fun w => { w with
    app := { w.app.reset with
      webRtcManager := some (WebRTCManager.new false)
      pushManager := some PushManager.new
      cryptoManager := some { key := none } } }) >>= fun _ =>
  JS.lift (parsedData.getProp "cid") >>= fun cid =>
  downloadFromIPFS P cid >>= fun text =>
  parseJson P text >>= fun offerPayload =>
  JS.lift (offerPayload.getProp "pushSubscription") >>= fun pushSubscription =>
  JS.update (fun w => { w with app := { w.app with peerPushSubscription := pushSubscription } })
    >>= fun _ =>
  JS.lift (offerPayload.getProp "unreadListCid") >>= fun unreadListCid =>
  JS.update (fun w => { w with app := { w.app with peerUnreadListCid := unreadListCid } })
    >>= fun _ =>
  prompt >>= fun password =>
  if falsyItem password then JS.emit (.alert "A password is required to join.")
  else
    JS.lift (offerPayload.getProp "salt") >>= fun saltText =>
    JS.lift (base64ToArrayBuffer saltText.toText) >>= fun salt =>
    deriveKeyFromPassword P (password.getD "") salt >>= fun _ =>
    PushManager.subscribeUser VAPID_PUBLIC_KEY >>= fun mySubscription =>
    uploadToIPFS P (P.jsonStringify (.arr [])) >>= fun myCid =>
    JS.update (fun w => { w with app := { w.app with myUnreadListCid := .str myCid } })
      >>= fun _ =>
    JS.lift (offerPayload.getProp "sdp") >>= fun offerSdp =>
    (fun w => match w.app.webRtcManager with
      | none => .err (.typeError "createAnswer") w
      | some _ => WebRTCManager.createAnswer P offerSdp w) >>= fun answerSdp =>
    JS.read >>= fun w =>
    uploadToIPFS P (P.jsonStringify (.obj [("sdp", answerSdp),
      ("pushSubscription", mySubscription), ("unreadListCid", w.app.myUnreadListCid)]))
      >>= fun answerCid =>
    showAnswerQr (P.jsonStringify (.obj [("type", .str "answer"), ("cid", .str answerCid)]))
      >>= fun _ =>
    setConnectionHandler (.scanned salt)

/-- The branch `parsedData.type === 'answer'` of `handleScannedData`. -/
def handleScannedAnswer (P : Platform) (parsedData : JsVal) : JS Unit :=
  JS.lift (parsedData.getProp "cid") >>= fun cid =>
  downloadFromIPFS P cid >>= fun text =>
  parseJson P text >>= fun answerPayload =>
  JS.lift (answerPayload.getProp "pushSubscription") >>= fun pushSubscription =>
  JS.update (fun w => { w with app := { w.app with peerPushSubscription := pushSubscription } })
    >>= fun _ =>
  JS.lift (answerPayload.getProp "unreadListCid") >>= fun unreadListCid =>
  JS.update (fun w => { w with app := { w.app with peerUnreadListCid := unreadListCid } })
    >>= fun _ =>
  JS.read >>= fun w =>
  match w.app.webRtcManager with
  | none => JS.throw (.typeError "setFinalRemoteDescription")
  | some _ =>
    JS.lift (answerPayload.getProp "sdp") >>= fun answerSdp =>
    WebRTCManager.setFinalRemoteDescription P answerSdp

/-- The function `handleScannedData`. -/
def handleScannedData (P : Platform) (data : String) (expectedType : String) : JS Unit :=
  JS.tryCatch
    (parseJson P data >>= fun parsedData =>
      JS.lift (parsedData.getProp "type") >>= fun type =>
      if type.isStr expectedType = false then
        JS.throw (.unexpectedQrType expectedType type.toText)
      else if type.isStr "offer" then handleScannedOffer P parsedData
      else if type.isStr "answer" then handleScannedAnswer P parsedData
      else JS.ret ())
    (fun error =>
      JS.emit (.consoleError "Error handling scanned data:" error) >>= fun _ =>
      JS.emit (.alert "Failed to handle invitation. Please try again."))

/-- The function `handleIceRestartOffer`. -/
def handleIceRestartOffer (P : Platform) (payload : JsVal) : JS Unit := fun w =>
  if w.app.webRtcManager.isNone ∨ w.app.peerPushSubscription.truthy = false then
    JS.emit (.consoleWarn "Received ICE restart offer but not ready to handle it.") w
  else
    JS.tryCatch
      (JS.lift (payload.getProp "cid") >>= fun cid =>
        downloadFromIPFS P cid >>= fun text =>
        parseJson P text >>= fun offerSdp =>
        WebRTCManager.createAnswer P offerSdp >>= fun answerSdp =>
        uploadToIPFS P (P.jsonStringify answerSdp) >>= fun answerCid =>
        StorageManager.loadWorkerUrl >>= fun workerUrl =>
        if falsyItem workerUrl then
          JS.emit (.alert "Push Worker URL is not set. Cannot send ICE restart notification.")
        else
          notifyPeer (.obj [("type", .str "ice_restart_answer"), ("cid", .str answerCid)])
            (workerUrl.getD ""))
      (fun error => JS.emit (.consoleError "Failed to handle ICE restart offer:" error)) w

/-- The function `handleIceRestartAnswer`. -/
def handleIceRestartAnswer (P : Platform) (payload : JsVal) : JS Unit := fun w =>
  if w.app.webRtcManager.isNone then
    JS.emit (.consoleWarn "Received ICE restart answer but WebRTCManager is not initialized.") w
  else
    JS.tryCatch
      (JS.lift (payload.getProp "cid") >>= fun cid =>
        downloadFromIPFS P cid >>= fun text =>
        parseJson P text >>= fun answerSdp =>
        WebRTCManager.setFinalRemoteDescription P answerSdp)
      (fun error => JS.emit (.consoleError "Failed to handle ICE restart answer:" error)) w

/-- The listener of `navigator.serviceWorker` for `message`, on `event.data`. -/
def onServiceWorkerMessage (P : Platform) (data : JsVal) : JS Unit :=
  JS.lift (data.getProp "type") >>= fun type =>
  JS.lift (data.getProp "payload") >>= fun payload =>
  if type.isStr "ice_restart_offer" then handleIceRestartOffer P payload
  else if type.isStr "ice_restart_answer" then handleIceRestartAnswer P payload
  else JS.ret ()

/-! ## sw.js -/

/-- What the service worker does on a click on a notification. -/
inductive SwAction where
  | focus
  | postMessage (data : JsVal)
  | openWindow (url : String)

/-- The listener of the service worker for `notificationclick`, on the data
of the notification and on whether a window of the app is open. -/
def notificationclick (notificationData : JsVal) (clientOpen : Bool) : List SwAction :=
  if clientOpen then
    .focus ::
      (if notificationData.truthy then
        match notificationData.getProp "type" with
        | .ok type =>
          if type.isStr "ice_restart" then
            [.postMessage (.obj [("type", .str "ice_restart_offer"),
              ("payload", notificationData)])]
          else if type.isStr "ice_restart_answer" then
            [.postMessage (.obj [("type", .str "ice_restart_answer"),
              ("payload", notificationData)])]
          else []
        | .error _ => []
      else [])
  else [.openWindow "/"]

/-- The page of the app receiving what the service worker did. -/
def receiveActions (P : Platform) : List SwAction → JS Unit
  | [] => JS.ret ()
  | .postMessage data :: rest => onServiceWorkerMessage P data >>= fun _ => receiveActions P rest
  | _ :: rest => receiveActions P rest

/-! ## The offline delivery, end to end -/

/-- The scenario of an offline delivery.  Peer A runs `sendOfflineMessage`; the
relay is one store for both peers, so peer B sees the blobs A stored; the push A
posts reaches B as a notification with the payload A built, B clicks it and
the page receives what the service worker forwards; then B runs
`checkUnreadMessages`. -/
def offlineDelivery (P : Platform) (message : String) (peerA peerB : World)
    (clientOpen : Bool) : Res Unit :=
  let sent := (sendOfflineMessage P message peerA).world
  let pushed := JsVal.obj [("type", .str "new_message"), ("cid", sent.app.peerUnreadListCid)]
  (receiveActions P (notificationclick pushed clientOpen) >>= fun _ => checkUnreadMessages P)
    { peerB with relay := { peerB.relay with blobs := sent.relay.blobs } }

/-! ## What the claims speak of -/

/-- An entry of an unread list can be delivered: the relay serves a blob under
it and the blob decrypts to the message. -/
def Delivers (P : Platform) (cm : CryptoManager) (r : Relay) (entry : JsVal)
    (message : String) : Prop :=
  ∃ blob, r.lookup P entry.toText = some blob ∧ cm.decrypt P blob = .ok message

/-- An entry of an unread list is corrupt: the relay serves a blob under it
and decrypting the blob raises. -/
def Corrupt (P : Platform) (cm : CryptoManager) (r : Relay) (entry : JsVal)
    (error : JsError) : Prop :=
  ∃ blob, r.lookup P entry.toText = some blob ∧ cm.decrypt P blob = .error error

/-- A piece of script only adds to the trace and to the blobs of the relay. -/
def Grows {α : Type} (x : JS α) : Prop :=
  ∀ w, ∃ events extra, (x w).world.trace = w.trace ++ events ∧
    (x w).world.relay.blobs = w.relay.blobs ++ extra

/-- A piece of script leaves `myUnreadListCid` and `localStorage` as they are,
however it ends. -/
def Spares {α : Type} (x : JS α) : Prop :=
  ∀ w, (x w).world.app.myUnreadListCid = w.app.myUnreadListCid ∧
    (x w).world.browser.localStorage = w.browser.localStorage

/-- A piece of script takes every world to one that stands in the relation `R`
to it, however it ends. -/
def Along {α : Type} (R : World → World → Prop) (x : JS α) : Prop := ∀ w, R w (x w).world

/-- A piece of script never stays suspended. -/
def Settles {α : Type} (x : JS α) : Prop := ∀ w w1, x w ≠ .pending w1

/-- No entry of a list of trace entries is a call on the push worker. -/
def NoPush (events : List Event) : Prop :=
  ∀ url subscription payload, Event.pushPost url subscription payload ∉ events

/-- The second world has the `AppState` of the first, and its trace is the
trace of the first with entries added of which none is a call on the push
worker. -/
def Quietly (w v : World) : Prop :=
  v.app = w.app ∧ ∃ events, v.trace = w.trace ++ events ∧ NoPush events

/-- `JSON.parse` gives back the value `JSON.stringify` was given. -/
def RoundTrips (P : Platform) (v : JsVal) : Prop := P.jsonParse (P.jsonStringify v) = some v

/-- The gateway serves a text under its own content identifier: no blob stored
before it has the same identifier. -/
def Serves (P : Platform) (blobs : List String) (text : String) : Prop :=
  blobs.find? (fun b => decide (P.cidOf b = P.cidOf text)) = some text

/-- The second world has the `localStorage` of the first. -/
def SameStorage (w v : World) : Prop := v.browser.localStorage = w.browser.localStorage

/-- The object `offerPayload` of `createInvitation`, for the given fields. -/
def offerPayload (sdp pushSubscription : JsVal) (unreadListCid salt : String) : JsVal :=
  .obj [("sdp", sdp), ("pushSubscription", pushSubscription),
    ("unreadListCid", .str unreadListCid), ("salt", .str salt)]

/-- The object `answerPayload` of `handleScannedData`, for the given fields. -/
def answerPayload (sdp pushSubscription : JsVal) (unreadListCid : String) : JsVal :=
  .obj [("sdp", sdp), ("pushSubscription", pushSubscription),
    ("unreadListCid", .str unreadListCid)]

/-- The object a QR code of the handshake carries. -/
def qrPayload (type cid : String) : JsVal := .obj [("type", .str type), ("cid", .str cid)]

/-- The object `sessionData` of the connection listeners, for the given fields. -/
def savedSession (peerPushSubscription : JsVal) (myUnreadListCid peerUnreadListCid salt : String) :
    JsVal :=
  .obj [("peerPushSubscription", peerPushSubscription), ("myUnreadListCid", .str myUnreadListCid),
    ("peerUnreadListCid", .str peerUnreadListCid), ("salt", .str salt)]

/-- The second world has the listener on the connection and the role of the
first. -/
def SameConnection (w v : World) : Prop :=
  v.app.webRtcManager.map (fun m => (m.peerConnection.onconnectionstatechange, m.isOfferer))
    = w.app.webRtcManager.map (fun m => (m.peerConnection.onconnectionstatechange, m.isOfferer))

/-! ## functions/send-push.js -/

/-- A request to the push worker: its method and the text of its body. -/
structure Request where
  method : String
  body : String

/-- How `webpush.sendNotification` ends: it resolves, or it rejects with an
error whose `statusCode` is as given, `none` when the error has none. -/
inductive PushResult where
  | sent
  | failed (statusCode : Option Nat)

/-- What a run of the worker leaves behind: the status of the response it
returns, `none` when the handler itself throws, and the calls it made of
`webpush.sendNotification`, each with its subscription and payload text. -/
structure WorkerRun where
  status : Option Nat
  pushes : List (JsVal × String)

/-- The null body statuses a response can be constructed with: 204, 205 and
304 (101 and 103 are outside the range of the constructor). -/
def nullBodyStatus (status : Nat) : Bool :=
  decide (status = 204 ∨ status = 205 ∨ status = 304)

/-- The constructor `new Response(body, { status })`, `hasBody` saying whether the
body is other than `null`: it throws a `RangeError` for a status outside 200..599
and a `TypeError` for a body with a null body status.  The value is the status of
the response, `none` when the constructor throws. -/
def responseStatus (hasBody : Bool) (status : Nat) : Option Nat :=
  if 200 ≤ status ∧ status ≤ 599 ∧ ¬ (hasBody = true ∧ nullBodyStatus status = true) then
    some status
  else none

/-- The method `fetch` of the worker, with the outcome of the push it may
attempt. -/
def workerFetch (P : Platform) (push : PushResult) (request : Request) : WorkerRun :=
  if request.method = "OPTIONS" then { status := responseStatus false 204, pushes := [] }
  else if request.method ≠ "POST" then { status := responseStatus true 405, pushes := [] }
  else
    match P.jsonParse request.body with
    | none => { status := responseStatus true 500, pushes := [] }
    | some parsed =>
      match parsed.getProp "subscription", parsed.getProp "payload" with
      | .ok subscription, .ok payload =>
        if subscription.truthy = false ∨
            ((subscription.getProp "endpoint").toOption.map JsVal.truthy).getD false = false then
          { status := responseStatus true 400, pushes := [] }
        else
          match push with
          | .sent =>
            { status := responseStatus true 200, pushes := [(subscription, P.jsonStringify payload)] }
          | .failed statusCode =>
            { status :=
                if statusCode.getD 0 ≠ 0 then responseStatus true (statusCode.getD 0)
                else responseStatus true 500
              pushes := [(subscription, P.jsonStringify payload)] }
      | _, _ => { status := responseStatus true 500, pushes := [] }

/-! ## storage.js: the session -/

/-- The constant `SESSION_STORAGE_KEY`. -/
def SESSION_STORAGE_KEY : String := "secureP2pChatSession"

/-- The constant `W3S_TOKEN_KEY`. -/
def W3S_TOKEN_KEY : String := "web3StorageApiToken"

/-- `localStorage.setItem(key, value)`. -/
def setItem (key value : String) : JS Unit :=
  JS.update (fun w => { w with
    browser := { w.browser with
      localStorage := (key, value) :: w.browser.localStorage.filter (fun kv => kv.1 ≠ key) } })

/-- `localStorage.removeItem(key)`. -/
def removeItem (key : String) : JS Unit :=
  JS.update (fun w => { w with
    browser := { w.browser with
      localStorage := w.browser.localStorage.filter (fun kv => kv.1 ≠ key) } })

/-- `localStorage.getItem(key)`. -/
def getItem (key : String) : JS (Option String) := fun w =>
  .ok (w.browser.localStorage.lookup key) w

/-- The method `saveSession` of `StorageManager`. -/
def StorageManager.saveSession (P : Platform) (sessionData : JsVal) : JS Unit :=
  JS.tryCatch (setItem SESSION_STORAGE_KEY (P.jsonStringify sessionData))
    (fun error => JS.emit (.consoleError "Failed to save session data:" error))

/-- The method `loadSession` of `StorageManager`. -/
def StorageManager.loadSession (P : Platform) : JS JsVal :=
  JS.tryCatch
    (getItem SESSION_STORAGE_KEY >>= fun data =>
      if falsyItem data then JS.ret .null else parseJson P (data.getD ""))
    (fun error =>
      JS.emit (.consoleError "Failed to load session data:" error) >>= fun _ => JS.ret .null)

/-- The method `clearSession` of `StorageManager`. -/
def StorageManager.clearSession : JS Unit := removeItem SESSION_STORAGE_KEY

/-- The method `saveApiToken` of `StorageManager`. -/
def StorageManager.saveApiToken (token : String) : JS Unit := setItem W3S_TOKEN_KEY token

/-- The method `loadApiToken` of `StorageManager`. -/
def StorageManager.loadApiToken : JS (Option String) := getItem W3S_TOKEN_KEY

/-- The method `saveWorkerUrl` of `StorageManager`. -/
def StorageManager.saveWorkerUrl (url : String) : JS Unit := setItem WORKER_URL_KEY url

/-! ## ipfs.js and crypto.js: the set-up -/

/-- The function `initializeIpfsClient`. -/
def initializeIpfsClient (token : Option String) : JS Unit := fun w =>
  if falsyItem token then .err .tokenRequired w
  else .ok () { w with relay := { w.relay with client := true } }

/-- The method `generateSalt` of `CryptoManager`. -/
def generateSalt : JS (List Byte) := getRandomValues 16

/-! ## webrtc.js: the data channel -/

/-- A change of the manager `AppState` holds; a `TypeError` when it holds none. -/
def withManager (what : String) (f : WebRTCManager → WebRTCManager) : JS Unit := fun w =>
  match w.app.webRtcManager with
  | none => .err (.typeError what) w
  | some m => .ok () { w with app := { w.app with webRtcManager := some (f m) } }

/-- The method `createDataChannel` of `WebRTCManager`, with the listeners
`setupDataChannelEvents` assigns. -/
def WebRTCManager.createDataChannel : JS Unit :=
  withManager "createDataChannel" (fun m => { m with
    dataChannel := some { readyState := "connecting", onmessage := .manager } }) >>= fun _ =>
  JS.emit (.rtcCall "createDataChannel" (.str "chat-channel"))

/-- The listener `ondatachannel` of the constructor of `WebRTCManager`, for a
channel in the given state. -/
def WebRTCManager.ondatachannel (readyState : String) : JS Unit := fun w =>
  match w.app.webRtcManager with
  | none => .ok () w
  | some m =>
    .ok () { w with
      app := { w.app with
        webRtcManager :=
          some { m with dataChannel := some { readyState := readyState, onmessage := .manager } } } }

/-- The method `createOffer` of `WebRTCManager`. -/
def WebRTCManager.createOffer (P : Platform) : JS JsVal :=
  WebRTCManager.createDataChannel >>= fun _ =>
  rtcCreateOffer P false >>= fun offer =>
  rtcSetLocalDescription P offer >>= fun _ =>
  WebRTCManager.waitForIceGathering P >>= fun _ =>
  localDescription

/-- The method `sendMessage` of `WebRTCManager`. -/
def WebRTCManager.sendMessage (message : String) : JS Unit := fun w =>
  match w.app.webRtcManager with
  | none => .err (.typeError "sendMessage") w
  | some m =>
    if m.dataChannel.map (fun channel => channel.readyState) = some "open" then
      JS.emit (.channelSend message) w
    else JS.emit (.consoleErrorText "Cannot send message, data channel is not open.") w

/-- The listener `setupDataChannelEvents` assigns to `dataChannel.onmessage`. -/
def WebRTCManager.onmessage (data : String) : JS Unit :=
  if data = "__ping__" then WebRTCManager.sendMessage "__pong__"
  else if data = "__pong__" then JS.ret ()
  else JS.ret ()

/-! ## script.js: the chat -/

/-- The function `displayMessage` that `showChatInterface` declares. -/
def displayMessage (text sender : String) : JS Unit :=
  appendMessage (sender ++ ": " ++ text) >>= fun _ => scrollMessages

/-- The listener `setupChatHandlers` assigns to `dataChannel.onmessage`.  The
callback of `then` calls `displayMessage`, a name only the body of
`showChatInterface` declares. -/
def chatHandlersMessage (P : Platform) (data : String) : JS Unit := fun w =>
  if data = "__ping__" ∨ data = "__pong__" then .ok () w
  else
    match w.app.cryptoManager with
    | none => .err (.typeError "decrypt") w
    | some cm =>
      JS.tryCatch
        (JS.lift (cm.decrypt P data) >>= fun _ => JS.throw (.referenceError "displayMessage"))
        (fun err => JS.emit (.consoleError "Decryption failed:" err)) w

/-- The listener `showChatInterface` assigns to `dataChannel.onmessage`. -/
def chatInterfaceMessage (P : Platform) (data : String) : JS Unit := fun w =>
  if data = "__ping__" ∨ data = "__pong__" then .ok () w
  else
    match w.app.cryptoManager with
    | none => .err (.typeError "decrypt") w
    | some cm =>
      JS.tryCatch
        (JS.lift (cm.decrypt P data) >>= fun decryptedMessage =>
          displayMessage decryptedMessage "Peer")
        (fun err => JS.emit (.consoleError "Decryption failed:" err)) w

/-- A `message` event on the data channel: the listener in `onmessage` runs. -/
def dataChannelMessage (P : Platform) (data : String) : JS Unit := fun w =>
  match w.app.webRtcManager with
  | none => .ok () w
  | some m =>
    match m.dataChannel with
    | none => .ok () w
    | some channel =>
      match channel.onmessage with
      | .manager => WebRTCManager.onmessage data w
      | .chatHandlers => chatHandlersMessage P data w
      | .chatInterface => chatInterfaceMessage P data w

/-- The assignment `AppState.getInstance().webRtcManager.dataChannel.onmessage = ...`. -/
def setMessageHandler (handler : MessageHandler) : JS Unit := fun w =>
  match w.app.webRtcManager with
  | none => .err (.typeError "dataChannel") w
  | some m =>
    match m.dataChannel with
    | none => .err (.typeError "onmessage") w
    | some channel =>
      .ok () { w with
        app := { w.app with
          webRtcManager := some { m with dataChannel := some { channel with onmessage := handler } } } }

/-- The function `setupChatHandlers`. -/
def setupChatHandlers : JS Unit :=
  withManager "onIceRestartNeeded" (fun m => { m with onIceRestartNeeded := true }) >>= fun _ =>
  setMessageHandler .chatHandlers

/-- The function `stopScanner`. -/
def stopScanner : JS Unit :=
  JS.update (fun w => { w with app := { w.app with stream := false } }) >>= fun _ =>
  fun w => if w.browser.setupUi = false then .err (.typeError "style") w else .ok () w

/-- The function `showChatInterface`.  The page has `#chat-interface` exactly
when it has `#messages`: every page the scripts write has both or neither. -/
def showChatInterface : JS Unit :=
  JS.update (fun w =>
    if w.browser.messages.isNone then
      { w with browser := { w.browser with messages := some [], setupUi := false } }
    else w) >>= fun _ =>
  JS.read >>= fun w =>
  (if w.browser.setupUi then stopScanner else JS.ret ()) >>= fun _ =>
  setMessageHandler .chatInterface

/-- The characters `String.prototype.trim` removes. -/
def jsWhitespace (c : Char) : Bool :=
  c.toNat ∈ [0x09, 0x0A, 0x0B, 0x0C, 0x0D, 0x20, 0xA0, 0x1680, 0x2028, 0x2029, 0x202F, 0x205F,
    0x3000, 0xFEFF] ∨ (0x2000 ≤ c.toNat ∧ c.toNat ≤ 0x200A)

/-- The listener `showChatInterface` assigns to `sendButton.onclick`, with the
value of `#message-input`.  Neither branch awaits or catches: a rejection of
`encrypt` is lost. -/
def onSendClick (P : Platform) (message : String) : JS Unit :=
  if message.toList.all jsWhitespace then JS.ret ()
  else
    displayMessage message "You" >>= fun _ =>
    JS.read >>= fun w =>
    if w.app.webRtcManager.map (fun m => m.peerConnection.native.connectionState)
        = some "connected" then
      match w.app.cryptoManager with
      | none => JS.throw (.typeError "encrypt")
      | some _ =>
        JS.tryCatch (encryptMessage P message >>= fun encryptedMessage =>
          WebRTCManager.sendMessage encryptedMessage) (fun _ => JS.ret ())
    else sendOfflineMessage P message

/-! ## script.js: the invitation -/

/-- The statement `document.getElementById('connection-setup').style.display = 'none'`. -/
def hideConnectionSetup : JS Unit := fun w =>
  if w.browser.setupUi = false then .err (.typeError "style") w else .ok () w

/-- The function `startScanner`, up to the first frame. -/
def startScanner : JS Unit := fun w =>
  if w.browser.setupUi = false then .err (.typeError "style") w
  else if w.browser.camera then .ok () { w with app := { w.app with stream := true } }
  else JS.emit (.consoleError "Failed to start scanner:" .mediaError) w

/-- The function `createInvitation`. -/
def createInvitation (P : Platform) : JS Unit :=
  hideConnectionSetup >>= fun _ =>
  JS.update (fun w => { w with
    app := { w.app.reset with
      webRtcManager := some (WebRTCManager.new true)
      pushManager := some PushManager.new
      cryptoManager := some { key := none } } }) >>= fun _ =>
  JS.tryCatch
    (prompt >>= fun password =>
      if falsyItem password then JS.emit (.alert "A password is required.")
      else
        PushManager.subscribeUser VAPID_PUBLIC_KEY >>= fun mySubscription =>
        if mySubscription.truthy = false then JS.throw .pushSubscriptionFailed
        else
          uploadToIPFS P (P.jsonStringify (.arr [])) >>= fun myCid =>
          JS.update (fun w => { w with app := { w.app with myUnreadListCid := .str myCid } })
            >>= fun _ =>
          generateSalt >>= fun salt =>
          deriveKeyFromPassword P (password.getD "") salt >>= fun _ =>
          (fun w => match w.app.webRtcManager with
            | none => .err (.typeError "createOffer") w
            | some _ => WebRTCManager.createOffer P w) >>= fun offerSdp =>
          JS.lift (arrayBufferToBase64 salt) >>= fun saltText =>
          JS.read >>= fun w =>
          uploadToIPFS P (P.jsonStringify (.obj [("sdp", offerSdp),
            ("pushSubscription", mySubscription), ("unreadListCid", w.app.myUnreadListCid),
            ("salt", .str saltText)])) >>= fun cid =>
          JS.emit (.qrCode (P.jsonStringify (.obj [("type", .str "offer"), ("cid", .str cid)])))
            >>= fun _ =>
          setConnectionHandler (.invitation salt) >>= fun _ =>
          startScanner)
    (fun error =>
      JS.emit (.consoleError "Failed to create invitation:" error) >>= fun _ =>
      JS.emit (.alertError error))

/-- The function `scanInvitation`. -/
def scanInvitation : JS Unit :=
  hideConnectionSetup >>= fun _ => startScanner

/-- The function `tick` of `startScanner` on a frame in which `jsQR` finds a
code with the given text. -/
def tick (P : Platform) (scanType : String) (data : String) : JS Unit :=
  stopScanner >>= fun _ => handleScannedData P data scanType

/-! ## script.js: once connected -/

/-- The object `sessionData` the connection listeners of `createInvitation`
and `handleScannedData` build. -/
def sessionData (salt : List Byte) : JS JsVal := fun w =>
  match w.app.cryptoManager with
  | none => .err (.typeError "arrayBufferToBase64") w
  | some _ =>
    (JS.lift (arrayBufferToBase64 salt) >>= fun saltText =>
      JS.ret (.obj [("peerPushSubscription", w.app.peerPushSubscription),
        ("myUnreadListCid", w.app.myUnreadListCid),
        ("peerUnreadListCid", w.app.peerUnreadListCid),
        ("salt", .str saltText)])) w

/-- The listener `createInvitation` and `handleScannedData` assign to
`peerConnection.onconnectionstatechange`, with the salt it captured. -/
def onConnected (P : Platform) (salt : List Byte) : JS Unit := fun w =>
  match w.app.webRtcManager with
  | none => .err (.typeError "peerConnection") w
  | some m =>
    if m.peerConnection.native.connectionState = "connected" then
      (setupChatHandlers >>= fun _ =>
        sessionData salt >>= fun data =>
        StorageManager.saveSession P data >>= fun _ =>
        showChatInterface >>= fun _ =>
        checkUnreadMessages P) w
    else .ok () w

/-- A `connectionstatechange` event: the connection has taken the given state
and the listener in `onconnectionstatechange` runs. -/
def connectionStateChange (P : Platform) (state : String) : JS Unit := fun w =>
  match w.app.webRtcManager with
  | none => .ok () w
  | some m =>
    (JS.update (fun w => { w with
        app := { w.app with
          webRtcManager := some { m with
            peerConnection := { m.peerConnection with
              native := { m.peerConnection.native with connectionState := state } } } } })
      >>= fun _ =>
      match m.peerConnection.onconnectionstatechange with
      | .manager => WebRTCManager.onconnectionstatechange P
      | .invitation salt => onConnected P salt
      | .scanned salt => onConnected P salt) w

/-! ## script.js: the saved session -/

/-- The function `showPasswordUI`, which writes the page and installs the
listener `unlock` with the session it was given. -/
def showPasswordUI : JS Unit :=
  JS.update (fun w => { w with browser := { w.browser with messages := none, setupUi := false } })

/-- The listener of `#unlock-button` that `showPasswordUI` installs, with the
session it captured and the value of `#password-input`. -/
def unlock (P : Platform) (session : JsVal) (password : String) : JS Unit :=
  if password = "" then JS.emit (.alert "Password is required.")
  else
    StorageManager.loadApiToken >>= fun token =>
    initializeIpfsClient token >>= fun _ =>
    JS.update (fun w => { w with app := w.app.reset }) >>= fun _ =>
    JS.lift (session.getProp "peerPushSubscription") >>= fun peerPushSubscription =>
    JS.update (fun w => { w with app := { w.app with peerPushSubscription := peerPushSubscription } })
      >>= fun _ =>
    JS.lift (session.getProp "myUnreadListCid") >>= fun myUnreadListCid =>
    JS.update (fun w => { w with app := { w.app with myUnreadListCid := myUnreadListCid } })
      >>= fun _ =>
    JS.lift (session.getProp "peerUnreadListCid") >>= fun peerUnreadListCid =>
    JS.update (fun w => { w with app := { w.app with peerUnreadListCid := peerUnreadListCid } })
      >>= fun _ =>
    JS.update (fun w => { w with app := { w.app with cryptoManager := some { key := none } } })
      >>= fun _ =>
    JS.lift (session.getProp "salt") >>= fun saltText =>
    JS.lift (base64ToArrayBuffer saltText.toText) >>= fun salt =>
    deriveKeyFromPassword P password salt >>= fun _ =>
    showChatInterface >>= fun _ =>
    checkUnreadMessages P

/-- The statement that writes the text of a status line of the set-up page. -/
def setStatusText : JS Unit := fun w =>
  if w.browser.setupUi = false then .err (.typeError "textContent") w else .ok () w

/-- The closure `updateApiToken` of `showInitialConnectionUI`. -/
def updateApiToken : JS Unit :=
  prompt >>= fun newToken =>
  if falsyItem newToken = false then
    StorageManager.saveApiToken (newToken.getD "") >>= fun _ =>
    initializeIpfsClient newToken >>= fun _ =>
    setStatusText
  else
    StorageManager.loadApiToken >>= fun token =>
    if falsyItem token then JS.emit (.alert "IPFS features require an API token.") else JS.ret ()

/-- The closure `updateWorkerUrl` of `showInitialConnectionUI`. -/
def updateWorkerUrl : JS Unit :=
  prompt >>= fun newUrl =>
  if falsyItem newUrl = false then
    StorageManager.saveWorkerUrl (newUrl.getD "") >>= fun _ =>
    setStatusText
  else
    StorageManager.loadWorkerUrl >>= fun url =>
    if falsyItem url then JS.emit (.alert "Push notifications require a Worker URL.")
    else JS.ret ()

/-- The function `showInitialConnectionUI`. -/
def showInitialConnectionUI : JS Unit :=
  StorageManager.loadApiToken >>= fun apiToken =>
  (if falsyItem apiToken then
    updateApiToken >>= fun _ => StorageManager.loadApiToken
  else initializeIpfsClient apiToken >>= fun _ => JS.ret apiToken) >>= fun apiToken =>
  if falsyItem apiToken then JS.ret ()
  else
    StorageManager.loadWorkerUrl >>= fun workerUrl =>
    (if falsyItem workerUrl then
      updateWorkerUrl >>= fun _ => StorageManager.loadWorkerUrl
    else JS.ret workerUrl) >>= fun workerUrl =>
    if falsyItem workerUrl then JS.ret ()
    else
      JS.update (fun w => { w with
        browser := { w.browser with messages := some [], setupUi := true } })

/-- The function `activateChat`; the value is the session `showPasswordUI`
hands to the listener `unlock`, `none` when it shows the set-up page. -/
def activateChat (P : Platform) : JS (Option JsVal) :=
  StorageManager.loadSession P >>= fun savedSession =>
  if savedSession.truthy then showPasswordUI >>= fun _ => JS.ret (some savedSession)
  else showInitialConnectionUI >>= fun _ => JS.ret none

/-- The listener of `#reset-session` on the set-up page. -/
def resetSessionSetup (P : Platform) : JS (Option JsVal) :=
  StorageManager.clearSession >>= fun _ =>
  StorageManager.saveApiToken "" >>= fun _ =>
  JS.emit (.alert "Session and API Token have been reset.") >>= fun _ =>
  activateChat P

/-- The listener of `#reset-session` on the chat page `showChatInterface` writes. -/
def resetSessionChat (P : Platform) : JS (Option JsVal) :=
  StorageManager.clearSession >>= fun _ =>
  JS.emit (.alert "Session has been reset.") >>= fun _ =>
  activateChat P

/-! ## script.js: the key sequence -/

/-- The constant `konamiCode`. -/
def konamiCode : List String :=
  ["ArrowUp", "ArrowUp", "ArrowDown", "ArrowDown", "ArrowLeft", "ArrowRight", "ArrowLeft",
    "ArrowRight", "b", "a"]

/-- The function `onKeyDown` on the module variable `index` and `event.key`, in the
world of the tab: the value of `index` after the call and, when `activateChat` was
called, how its run ended.  The statement `index = 0` follows the call of
`activateChat` and is reached only when that call returns; a call that throws leaves
`index` at the length of `konamiCode`, where `konamiCode[index]` is `undefined`. -/
def onKeyDown (P : Platform) (index : Nat) (key : String) (w : World) :
    Nat × Option (Res (Option JsVal)) :=
  if some key = konamiCode[index]? then
    if index + 1 = konamiCode.length then
      match activateChat P w with
      | .ok held w1 => (0, some (.ok held w1))
      | .err e w1 => (index + 1, some (.err e w1))
      | .pending w1 => (index + 1, some (.pending w1))
    else (index + 1, none)
  else (0, none)

/-- The module variable `index` and the world of the tab after a key event. -/
def keyDown (P : Platform) (state : Nat × World) (key : String) : Nat × World :=
  match onKeyDown P state.1 key state.2 with
  | (index, some run) => (index, run.world)
  | (index, none) => (index, state.2)

/-- The module variable `index` and the world of the tab after a sequence of key
events, on a tab that starts with `index` at 0. -/
def afterKeys (P : Platform) (w : World) (keys : List String) : Nat × World :=
  keys.foldl (keyDown P) (0, w)

/-- The value of `index` after a sequence of key events, starting from 0. -/
def indexAfter (P : Platform) (w : World) (keys : List String) : Nat :=
  (afterKeys P w keys).1

/-- Whether the key event that follows a sequence of key events calls
`activateChat`. -/
def activatesAfter (P : Platform) (w : World) (keys : List String) (key : String) : Bool :=
  (onKeyDown P (afterKeys P w keys).1 key (afterKeys P w keys).2).2.isSome

/-! ## The handshake, end to end -/

/-- The text of the QR code drawn last. -/
def lastQr : List Event → Option String
  | [] => none
  | e :: rest =>
    match lastQr rest with
    | some text => some text
    | none =>
      match e with
      | .qrCode text => some text
      | _ => none

/-- The world of a tab at a moment the relay holds the given blobs. -/
def World.seeing (w : World) (blobs : List String) : World :=
  { w with relay := { w.relay with blobs := blobs } }

/-- What a handshake leaves behind: the tab of peer A once its invitation is drawn,
the tab of peer B once it has scanned the invitation, the two tabs at the end, and
how the listener of peer B for `connected` ended. -/
structure Handshake where
  invited : World
  answering : World
  offerer : World
  answerer : World
  listenerB : Res Unit

/-- The scenario of a handshake.  Peer A runs `createInvitation`; peer B, who sees
the blobs A stored, runs `scanInvitation` and its scanner finds the QR code A
drew; the scanner of A finds the QR code B drew; the connection of A reports
`connected`.  Then two events reach peer B, in the order `channelFirst` gives: the
data channel A created arrives and the connection reports `connected`, or the
connection reports `connected` and the data channel arrives after it. -/
def handshake (P : Platform) (peerA peerB : World) (channelFirst : Bool) : Handshake :=
  let a1 := (createInvitation P peerA).world
  let b1 := ((scanInvitation >>= fun _ => tick P "offer" ((lastQr a1.trace).getD ""))
    (peerB.seeing a1.relay.blobs)).world
  let a2 := (tick P "answer" ((lastQr b1.trace).getD "") (a1.seeing b1.relay.blobs)).world
  let a3 := (connectionStateChange P "connected" a2).world
  let b2 := b1.seeing a3.relay.blobs
  let runB :=
    if channelFirst then
      connectionStateChange P "connected" (WebRTCManager.ondatachannel "open" b2).world
    else connectionStateChange P "connected" b2
  let b3 := if channelFirst then runB.world else (WebRTCManager.ondatachannel "open" runB.world).world
  { invited := a1, answering := b1, offerer := a3, answerer := b3, listenerB := runB }

/-- Every step of a handshake between two tabs up to the events on peer B succeeds:
both tabs are on the set-up page with a camera, a password is typed, the push
subscription is granted, the relay is reached without a network fault, the peer
connections accept the descriptions and complete their gathering, `JSON.parse` gives
back what `JSON.stringify` was given for the two payloads and the two QR codes, and
the gateway serves the two payloads under their identifiers. -/
structure Completes (P : Platform) (peerA peerB : World)
    (passwordA passwordB saltText : String) (subA subB offer answer : JsVal)
    (a1 a2 b0 b1 b2 a3 : RtcState) : Prop where
  huiA : peerA.browser.setupUi = true
  hcamA : peerA.browser.camera = true
  hpromptA : peerA.browser.prompts.headD none = some passwordA
  hpwA : passwordA ≠ ""
  hsupA : peerA.browser.pushSupported = true
  hreadyA : peerA.browser.swReady = true
  hsubA : peerA.browser.subscribeResult = some subA
  htruthyA : subA.truthy = true
  hclientA : peerA.relay.client = true
  hfaultsA : peerA.relay.faults = []
  huiB : peerB.browser.setupUi = true
  hcamB : peerB.browser.camera = true
  hpromptB : peerB.browser.prompts.headD none = some passwordB
  hpwB : passwordB ≠ ""
  hsupB : peerB.browser.pushSupported = true
  hreadyB : peerB.browser.swReady = true
  hsubB : peerB.browser.subscribeResult = some subB
  hclientB : peerB.relay.client = true
  hfaultsB : peerB.relay.faults = []
  hofferA : P.rtcCreateOffer RtcState.fresh false = some offer
  hlocalA : P.rtcSetLocal RtcState.fresh offer = some a1
  hnotA : a1.iceGatheringState ≠ "complete"
  hgatherA : checkState (P.rtcGatheringEvents a1) = some a2
  hremoteB : P.rtcSetRemote RtcState.fresh a2.localDescription = some b0
  hanswerB : P.rtcCreateAnswer b0 = some answer
  hlocalB : P.rtcSetLocal b0 answer = some b1
  hnotB : b1.iceGatheringState ≠ "complete"
  hgatherB : checkState (P.rtcGatheringEvents b1) = some b2
  hremoteA : P.rtcSetRemote a2 b2.localDescription = some a3
  hsalt : arrayBufferToBase64 (peerA.randomBytes 16) = .ok saltText
  hjsonOffer : RoundTrips P (offerPayload a2.localDescription subA
    (P.cidOf (P.jsonStringify (.arr []))) saltText)
  hjsonInvitation : RoundTrips P (qrPayload "offer" (P.cidOf (P.jsonStringify
    (offerPayload a2.localDescription subA (P.cidOf (P.jsonStringify (.arr []))) saltText))))
  hjsonAnswer : RoundTrips P (answerPayload b2.localDescription subB
    (P.cidOf (P.jsonStringify (.arr []))))
  hjsonReply : RoundTrips P (qrPayload "answer" (P.cidOf (P.jsonStringify
    (answerPayload b2.localDescription subB (P.cidOf (P.jsonStringify (.arr [])))))))
  hserveOffer : Serves P (peerA.relay.blobs ++ [P.jsonStringify (.arr []),
      P.jsonStringify (offerPayload a2.localDescription subA
        (P.cidOf (P.jsonStringify (.arr []))) saltText)])
    (P.jsonStringify (offerPayload a2.localDescription subA
      (P.cidOf (P.jsonStringify (.arr []))) saltText))
  hserveAnswer : Serves P (peerA.relay.blobs ++ [P.jsonStringify (.arr []),
      P.jsonStringify (offerPayload a2.localDescription subA
        (P.cidOf (P.jsonStringify (.arr []))) saltText)] ++ [P.jsonStringify (.arr []),
      P.jsonStringify (answerPayload b2.localDescription subB
        (P.cidOf (P.jsonStringify (.arr []))))])
    (P.jsonStringify (answerPayload b2.localDescription subB
      (P.cidOf (P.jsonStringify (.arr [])))))

/-! ## The mailbox of the tab itself -/

/-- A mailbox identifier that is `null` or the content identifier of the text
of the empty list. -/
def NullOrEmptyList (P : Platform) (v : JsVal) : Prop :=
  v = .null ∨ v = .str (P.cidOf (P.jsonStringify (.arr [])))

/-- A session record whose `myUnreadListCid`, where it can be read, is `null`
or names the empty list. -/
def SessionSound (P : Platform) (session : JsVal) : Prop :=
  ∀ v, session.getProp "myUnreadListCid" = .ok v → NullOrEmptyList P v

/-- The mailbox state of a tab is sound: `AppState.myUnreadListCid` is `null` or
names the empty list, and so does every session record `JSON.parse` reads from
the session item of `localStorage`. -/
def MailboxSound (P : Platform) (w : World) : Prop :=
  NullOrEmptyList P w.app.myUnreadListCid ∧
    ∀ text session, w.browser.localStorage.lookup SESSION_STORAGE_KEY = some text →
      P.jsonParse text = some session → SessionSound P session

/-- A piece of script keeps the mailbox state sound, however it ends, and a
value it returns has the property `Q`. -/
def Keeps {α : Type} (P : Platform) (x : JS α) (Q : α → Prop) : Prop :=
  ∀ w, MailboxSound P w → MailboxSound P (x w).world ∧ ∀ a w1, x w = .ok a w1 → Q a

/-- The second world has the fields of the first that go into a session
record, and its `localStorage`. -/
def SameRecord (w v : World) : Prop :=
  v.app.peerPushSubscription = w.app.peerPushSubscription ∧
    v.app.myUnreadListCid = w.app.myUnreadListCid ∧
    v.app.peerUnreadListCid = w.app.peerUnreadListCid ∧
    v.browser.localStorage = w.browser.localStorage

/-- `JSON.parse` reads from the text of a session record with the given fields
the `myUnreadListCid` the record was given. -/
def ReadsBack (P : Platform) (peerPushSubscription myUnreadListCid peerUnreadListCid : JsVal)
    (saltText : String) : Prop :=
  ∀ session,
    P.jsonParse (P.jsonStringify (.obj [("peerPushSubscription", peerPushSubscription),
      ("myUnreadListCid", myUnreadListCid), ("peerUnreadListCid", peerUnreadListCid),
      ("salt", .str saltText)])) = some session →
    session.getProp "myUnreadListCid" = .ok myUnreadListCid

/-- The salt the listener on the connection of a tab has captured. -/
def World.capturedSalt (w : World) : Option (List Byte) :=
  match w.app.webRtcManager with
  | none => none
  | some m =>
    match m.peerConnection.onconnectionstatechange with
    | .manager => none
    | .invitation salt => some salt
    | .scanned salt => some salt

/-- `JSON.parse` reads from the text of the session record the listener on the
connection of a tab would save now the `myUnreadListCid` of the record. -/
def SavesFaithfully (P : Platform) (w : World) : Prop :=
  ∀ salt saltText, w.capturedSalt = some salt → arrayBufferToBase64 salt = .ok saltText →
    ReadsBack P w.app.peerPushSubscription w.app.myUnreadListCid w.app.peerUnreadListCid saltText

/-- The session the listener `unlock` holds after a run of `activateChat`: the
one the run handed to `showPasswordUI`; the one held before when the run did
not return. -/
def heldSession (held : Option JsVal) : Res (Option JsVal) → Option JsVal
  | .ok session _ => session
  | .err _ _ => held
  | .pending _ => held

/-- The states of a tab, from a fresh start on: the world of the tab and the
session the listener `unlock` holds.  A tab starts with a new `AppState` and
an empty `localStorage`; then handlers run, one at a time, and between the
runs the world outside the scripts changes.  The listener on the connection
that saves the session meets a `JSON` that reads back what it wrote. -/
inductive Reachable (P : Platform) : World → Option JsVal → Prop
  | fresh (w : World) (happ : w.app = w.app.reset) (hstorage : w.browser.localStorage = []) :
    Reachable P w none
  | outside {w : World} {held : Option JsVal} (v : World) (hr : Reachable P w held)
    (happ : v.app = w.app) (hstorage : v.browser.localStorage = w.browser.localStorage) :
    Reachable P v held
  | reload {w : World} {held : Option JsVal} (v : World) (hr : Reachable P w held)
    (happ : v.app = v.app.reset) (hstorage : v.browser.localStorage = w.browser.localStorage) :
    Reachable P v none
  | activateChat {w : World} {held : Option JsVal} (hr : Reachable P w held) :
    Reachable P (activateChat P w).world (heldSession held (activateChat P w))
  | resetSessionSetup {w : World} {held : Option JsVal} (hr : Reachable P w held) :
    Reachable P (resetSessionSetup P w).world (heldSession held (resetSessionSetup P w))
  | resetSessionChat {w : World} {held : Option JsVal} (hr : Reachable P w held) :
    Reachable P (resetSessionChat P w).world (heldSession held (resetSessionChat P w))
  | updateApiToken {w : World} {held : Option JsVal} (hr : Reachable P w held) :
    Reachable P (updateApiToken w).world held
  | updateWorkerUrl {w : World} {held : Option JsVal} (hr : Reachable P w held) :
    Reachable P (updateWorkerUrl w).world held
  | unlock {w : World} {session : JsVal} (password : String)
    (hr : Reachable P w (some session)) :
    Reachable P (unlock P session password w).world (some session)
  | createInvitation {w : World} {held : Option JsVal} (hr : Reachable P w held) :
    Reachable P (createInvitation P w).world held
  | scanInvitation {w : World} {held : Option JsVal} (hr : Reachable P w held) :
    Reachable P (scanInvitation w).world held
  | tick {w : World} {held : Option JsVal} (scanType data : String) (hr : Reachable P w held) :
    Reachable P (tick P scanType data w).world held
  | handleScannedData {w : World} {held : Option JsVal} (data expectedType : String)
    (hr : Reachable P w held) :
    Reachable P (handleScannedData P data expectedType w).world held
  | connectionStateChange {w : World} {held : Option JsVal} (state : String)
    (hr : Reachable P w held) (hjson : SavesFaithfully P w) :
    Reachable P (connectionStateChange P state w).world held
  | ondatachannel {w : World} {held : Option JsVal} (readyState : String)
    (hr : Reachable P w held) :
    Reachable P (WebRTCManager.ondatachannel readyState w).world held
  | dataChannelMessage {w : World} {held : Option JsVal} (data : String)
    (hr : Reachable P w held) :
    Reachable P (dataChannelMessage P data w).world held
  | onSendClick {w : World} {held : Option JsVal} (message : String) (hr : Reachable P w held) :
    Reachable P (onSendClick P message w).world held
  | sendOfflineMessage {w : World} {held : Option JsVal} (message : String)
    (hr : Reachable P w held) :
    Reachable P (sendOfflineMessage P message w).world held
  | checkUnreadMessages {w : World} {held : Option JsVal} (hr : Reachable P w held) :
    Reachable P (checkUnreadMessages P w).world held
  | push {w : World} {held : Option JsVal} (notificationData : JsVal) (clientOpen : Bool)
    (hr : Reachable P w held) :
    Reachable P (receiveActions P (notificationclick notificationData clientOpen) w).world held

/-! ## A small platform to run the scripts on -/

namespace Sample

/-- A token of JSON text: a string literal or any other character. -/
inductive Token where
  | text (s : String)
  | mark (c : Char)

/-- The tokens of a text whose string literals have no escapes. -/
def tokens : List Char → Option (List Char) → List Token
  | [], _ => []
  | c :: cs, some open_ =>
    if c = '"' then .text (String.mk open_.reverse) :: tokens cs none
    else tokens cs (some (c :: open_))
  | c :: cs, none =>
    if c = '"' then tokens cs (some []) else .mark c :: tokens cs none

mutual
/-- One JSON value at the head of the tokens, and the tokens after it. -/
def parseValue : Nat → List Token → Option (JsVal × List Token)
  | 0, _ => none
  | _ + 1, .text s :: rest => some (.str s, rest)
  | _ + 1, .mark 'n' :: .mark 'u' :: .mark 'l' :: .mark 'l' :: rest => some (.null, rest)
  | _ + 1, .mark '[' :: .mark ']' :: rest => some (.arr [], rest)
  | fuel + 1, .mark '[' :: rest =>
    match parseElements fuel rest with
    | some (items, rest) => some (.arr items, rest)
    | none => none
  | _ + 1, .mark '\x7b' :: .mark '\x7d' :: rest => some (.obj [], rest)
  | fuel + 1, .mark '\x7b' :: rest =>
    match parseMembers fuel rest with
    | some (fields, rest) => some (.obj fields, rest)
    | none => none
  | _ + 1, _ => none
/-- The elements of an array up to its closing bracket. -/
def parseElements : Nat → List Token → Option (List JsVal × List Token)
  | 0, _ => none
  | fuel + 1, tokens =>
    match parseValue fuel tokens with
    | some (item, .mark ']' :: rest) => some ([item], rest)
    | some (item, .mark ',' :: rest) =>
      match parseElements fuel rest with
      | some (items, rest) => some (item :: items, rest)
      | none => none
    | _ => none
/-- The members of an object up to its closing brace. -/
def parseMembers : Nat → List Token → Option (List (String × JsVal) × List Token)
  | 0, _ => none
  | fuel + 1, .text k :: .mark ':' :: tokens =>
    match parseValue fuel tokens with
    | some (v, .mark '\x7d' :: rest) => some ([(k, v)], rest)
    | some (v, .mark ',' :: rest) =>
      match parseMembers fuel rest with
      | some (fields, rest) => some ((k, v) :: fields, rest)
      | none => none
    | _ => none
  | _ + 1, _ => none
end

/-- A parser for JSON text made of strings without escapes, `null`, arrays
and objects, without white space. -/
def parse (text : String) : Option JsVal :=
  match parseValue (text.length + 1) (tokens text.toList none) with
  | some (v, []) => some v
  | _ => none

/-- The text of a string literal. -/
def quote (s : String) : String := "\"" ++ s ++ "\""

mutual
/-- A printer for JSON values whose strings need no escapes. -/
def stringify : JsVal → String
  | .undefined => "null"
  | .null => "null"
  | .bool b => if b then "true" else "false"
  | .num n => toString n
  | .str s => quote s
  | .arr items => "[" ++ stringifyItems items ++ "]"
  | .obj fields => "\x7b" ++ stringifyFields fields ++ "\x7d"
/-- The elements of an array, comma separated. -/
def stringifyItems : List JsVal → String
  | [] => ""
  | [x] => stringify x
  | x :: y :: rest => stringify x ++ "," ++ stringifyItems (y :: rest)
/-- The members of an object, comma separated. -/
def stringifyFields : List (String × JsVal) → String
  | [] => ""
  | [(k, v)] => quote k ++ ":" ++ stringify v
  | (k, v) :: y :: rest => quote k ++ ":" ++ stringify v ++ "," ++ stringifyFields (y :: rest)
end

/-- A stand-in for the content hash: a checksum of the text. -/
def cidOf (data : String) : String :=
  let h := data.toList.foldl (fun h c => (h * 31 + c.toNat) % 16777216) 7
  String.mk [ 'b', 'a', 'f', 'y', b64Char (h / 262144 % 64), b64Char (h / 4096 % 64),
    b64Char (h / 64 % 64), b64Char (h % 64)]

/-- The sum of bytes, modulo 256. -/
def checksum (bytes : List Byte) : Byte := bytes.foldl (fun s b => s + b) 0

/-- A stand-in for AES-GCM encryption: the data shifted by a mask drawn from
key and IV, followed by a one-byte tag. -/
def encipher (key iv data : List Byte) : List Byte :=
  data.map (fun b => b + (checksum key + checksum iv)) ++
    [checksum data + checksum key + checksum iv + 1]

/-- A stand-in for AES-GCM decryption: rejects when the tag does not fit. -/
def decipher (key iv boxed : List Byte) : Option (List Byte) :=
  match boxed.reverse with
  | [] => none
  | tag :: body =>
    let data := body.reverse.map (fun b => b - (checksum key + checksum iv))
    if tag = checksum data + checksum key + checksum iv + 1 then some data else none

/-- The UTF-8 bytes of a character. -/
def utf8Char (c : Char) : List Byte :=
  if c.toNat < 0x80 then [toByte c.toNat]
  else if c.toNat < 0x800 then [toByte (0xC0 + c.toNat / 64), toByte (0x80 + c.toNat % 64)]
  else if c.toNat < 0x10000 then
    [toByte (0xE0 + c.toNat / 4096), toByte (0x80 + c.toNat / 64 % 64),
      toByte (0x80 + c.toNat % 64)]
  else
    [toByte (0xF0 + c.toNat / 262144), toByte (0x80 + c.toNat / 4096 % 64),
      toByte (0x80 + c.toNat / 64 % 64), toByte (0x80 + c.toNat % 64)]

/-- The platform the examples run on.  Its text encoder is UTF-8; its decoder is
right for the bytes below 128, which is all the examples give it. -/
def platform : Platform where
  cidOf := cidOf
  jsonParse := parse
  jsonStringify := stringify
  gtZeroCoerced := fun _ => false
  textEncode := fun s => s.toList.flatMap utf8Char
  utf8Decode := fun bytes => String.mk (bytes.map (fun b => Char.ofNat b.val))
  aesGcmEncrypt := encipher
  aesGcmDecrypt := decipher
  pbkdf2 := fun password salt => password.toList.map (fun c => toByte c.toNat) ++ salt
  rtcCreateOffer := fun _ iceRestart =>
    some (.obj [("type", .str "offer"), ("sdp", .str (if iceRestart then "restart" else "first"))])
  rtcCreateAnswer := fun _ => some (.obj [("type", .str "answer"), ("sdp", .str "reply")])
  rtcSetLocal := fun native description =>
    some { native with localDescription := description, iceGatheringState := "gathering" }
  rtcSetRemote := fun native description => some { native with remoteDescription := description }
  rtcGatheringEvents := fun native =>
    [{ native with iceGatheringState := "gathering" },
      { native with iceGatheringState := "complete" }]

/-- A browser with the chat shown, a worker URL saved and push available. -/
def browser : Browser where
  localStorage := [("pushWorkerUrl", "https://push.example/send")]
  messages := some []
  setupUi := false
  prompts := []
  random := fun i => toByte (17 * i + 3)
  randomUsed := 0
  pushOutcomes := []
  pushSupported := true
  swReady := true
  subscribeResult := some (.obj [("endpoint", .str "https://push.example/peer")])
  notificationPermission := "granted"
  camera := true

/-- The key both peers derived. -/
def key : CryptoKey := [1, 2, 3]

/-- The plaintext U+FEFF `hello`. -/
def marked : String := String.mk (Char.ofNat 0xFEFF :: "hello".toList)

/-- The ciphertext blob of a message under `key` and a fixed IV. -/
def blobOf (message : String) : String :=
  match CryptoManager.encrypt platform { key := some key }
    [9, 8, 7, 6, 5, 4, 3, 2, 1, 0, 1, 2] message with
  | .ok blob => blob
  | .error _ => ""

/-- The state of a peer after the handshake and an unlock: both mailbox
identifiers name the empty list. -/
def app : AppState where
  webRtcManager := none
  stream := false
  pushManager := some PushManager.new
  cryptoManager := some { key := some key }
  peerPushSubscription := .obj [("endpoint", .str "https://push.example/peer")]
  peerUnreadListCid := .str (cidOf "[]")
  myUnreadListCid := .str (cidOf "[]")

/-- A peer whose relay holds the empty list only. -/
def peer : World where
  app := app
  relay := { client := true, blobs := ["[]"], faults := [] }
  browser := browser
  trace := []

/-- The text of an unread list of three entries, the second of which names a
blob that is no ciphertext. -/
def inboxText : String :=
  stringify (.arr [.str (cidOf (blobOf "one")), .str (cidOf "garbage!"),
    .str (cidOf (blobOf "three"))])

/-- A peer whose unread list has three entries, the second corrupt. -/
def peerWithInbox : World where
  app := { app with myUnreadListCid := .str (cidOf inboxText) }
  relay :=
    { client := true
      blobs := ["[]", blobOf "one", "garbage!", blobOf "three", inboxText]
      faults := [] }
  browser := browser
  trace := []

/-- The text of an unread list of two entries. -/
def mailText : String :=
  stringify (.arr [.str (cidOf (blobOf "one")), .str (cidOf (blobOf "two"))])

/-- A peer whose unread list has two entries, both sound. -/
def peerWithMail : World where
  app := { app with myUnreadListCid := .str (cidOf mailText) }
  relay := { client := true, blobs := ["[]", blobOf "one", blobOf "two", mailText], faults := [] }
  browser := browser
  trace := []

/-- The text of the restart offer a peer stored on the relay. -/
def restartOfferText : String :=
  stringify (.obj [("type", .str "offer"), ("sdp", .str "restart")])

/-- The manager of an offerer whose connection has failed, after the chat
handlers were installed. -/
def offererManager : WebRTCManager :=
  { WebRTCManager.new true with
    peerConnection :=
      { native := { RtcState.fresh with connectionState := "failed" }
        onconnectionstatechange := .manager }
    onIceRestartNeeded := true }

/-- An offerer that is ready for restart envelopes, with a restart offer of
the other side on the relay. -/
def offerer : World where
  app := { app with webRtcManager := some offererManager }
  relay := { client := true, blobs := ["[]", restartOfferText], faults := [] }
  browser := browser
  trace := []

/-- The message the service worker posts to the page for a pushed restart offer. -/
def restartOfferMessage : JsVal :=
  .obj [("type", .str "ice_restart_offer"),
    ("payload", .obj [("type", .str "ice_restart"), ("cid", .str (cidOf restartOfferText))])]

/-- A session record as a connected peer saves it. -/
def sessionRecord : JsVal :=
  .obj [("peerPushSubscription", .obj [("endpoint", .str "https://push.example/peer")]),
    ("myUnreadListCid", .str (cidOf "[]")), ("peerUnreadListCid", .str (cidOf "[]")),
    ("salt", .str "AAECAwQFBgcICQoLDA0ODw==")]

/-- The sample peer with its session saved. -/
def peerSaved : World where
  app := app
  relay := { client := true, blobs := ["[]"], faults := [] }
  browser :=
    { browser with
      localStorage := [("secureP2pChatSession", stringify sessionRecord),
        ("pushWorkerUrl", "https://push.example/send")] }
  trace := []

/-- The sample peer at a moment the gateway cannot be reached: the upload of
the message goes through, the download of the list meets a network fault. -/
def peerOffGateway : World where
  app := app
  relay := { client := true, blobs := ["[]"], faults := [false, true] }
  browser := browser
  trace := []

/-- The sample peer at a moment the second upload meets a network fault. -/
def peerOffStore : World where
  app := app
  relay := { client := true, blobs := ["[]"], faults := [false, false, true] }
  browser := browser
  trace := []

/-- The ciphertext `sendOfflineMessage` builds for a message in a world. -/
def sentBlob (w : World) (message : String) : String :=
  match encryptMessage platform message w with
  | .ok blob _ => blob
  | _ => ""

/-- The world after `sendOfflineMessage` has uploaded the ciphertext of a message. -/
def afterUpload (w : World) (message : String) : World :=
  ((w.drew 12).afterRequest [.relayPut (sentBlob w message)]).stored (sentBlob w message)

/-- The manager of a connected offerer whose data channel is open, as the
constructor and `createDataChannel` leave it. -/
def chattingManager : WebRTCManager :=
  { WebRTCManager.new true with
    peerConnection :=
      { native := { RtcState.fresh with connectionState := "connected" }
        onconnectionstatechange := .manager }
    dataChannel := some { readyState := "open", onmessage := .manager } }

/-- A connected peer with an open data channel, before the chat handlers are
installed. -/
def chatting : World where
  app := { app with webRtcManager := some chattingManager }
  relay := { client := true, blobs := ["[]"], faults := [] }
  browser := browser
  trace := []

/-- A tab opened again after a chat: the session, the API token and the
worker URL are in `localStorage`, `AppState` is new, the page shows nothing of
the chat. -/
def returning : World where
  app := AppState.reset app
  relay := { client := false, blobs := ["[]"], faults := [] }
  browser :=
    { browser with
      localStorage := [("secureP2pChatSession", stringify sessionRecord),
        ("web3StorageApiToken", "token"), ("pushWorkerUrl", "https://push.example/send")]
      messages := none }
  trace := []

/-- A tab on the set-up page, with the API token and the worker URL saved, whose
user will type the password `secret`. -/
def newcomer : World where
  app := AppState.reset app
  relay := { client := true, blobs := [], faults := [] }
  browser :=
    { browser with
      localStorage := [("web3StorageApiToken", "token"),
        ("pushWorkerUrl", "https://push.example/send")]
      setupUi := true
      prompts := [some "secret"] }
  trace := []

/-- The tab of the other peer: the same, with a push subscription of its own. -/
def joiner : World where
  app := AppState.reset app
  relay := { client := true, blobs := [], faults := [] }
  browser :=
    { browser with
      localStorage := [("web3StorageApiToken", "token"),
        ("pushWorkerUrl", "https://push.example/send")]
      setupUi := true
      prompts := [some "secret"]
      random := fun i => toByte (5 * i + 1)
      subscribeResult := some (.obj [("endpoint", .str "https://push.example/joiner")]) }
  trace := []

/-- The description the sample connection of peer A offers. -/
def firstOffer : JsVal := .obj [("type", .str "offer"), ("sdp", .str "first")]

/-- The description the sample connection of peer B answers with. -/
def reply : JsVal := .obj [("type", .str "answer"), ("sdp", .str "reply")]

/-- The connection of peer A once its offer is its local description and the
gathering is complete. -/
def offered : RtcState :=
  { RtcState.fresh with localDescription := firstOffer, iceGatheringState := "complete" }

/-- The connection of peer B once the offer is its remote description, its
answer its local description, and the gathering is complete. -/
def answered : RtcState :=
  { RtcState.fresh with
    remoteDescription := firstOffer, localDescription := reply, iceGatheringState := "complete" }

/-- The push subscription of the sample peer A. -/
def subscriptionA : JsVal := .obj [("endpoint", .str "https://push.example/peer")]

/-- The push subscription of the sample peer B. -/
def subscriptionB : JsVal := .obj [("endpoint", .str "https://push.example/joiner")]

/-- A tab on its first visit: a new `AppState`, nothing in `localStorage`, no
page of the chat; the user will type the API token, the worker URL and the
password `secret`. -/
def firstVisit : World where
  app := AppState.reset app
  relay := { client := false, blobs := [], faults := [] }
  browser :=
    { browser with
      localStorage := []
      messages := none
      prompts := [some "token", some "https://push.example/send", some "secret"] }
  trace := []

/-- The tab of the first visit once the key sequence was typed three times:
the first run of `activateChat` saves the token, the second the worker URL, the
third shows the set-up page. -/
def setUp : World :=
  (activateChat platform (activateChat platform (activateChat platform firstVisit).world).world).world

/-- The tab once its invitation is drawn. -/
def invited : World := (createInvitation platform setUp).world

/-- The text of the answer of the other peer, as `handleScannedData` uploads it. -/
def answerText : String :=
  stringify (answerPayload reply subscriptionB (cidOf "[]"))

/-- The tab at the moment the relay holds the answer of the other peer. -/
def awaited : World := invited.seeing ["[]", answerText]

/-- The tab once it has scanned the QR code of the answer. -/
def paired : World :=
  (tick platform "answer" (stringify (qrPayload "answer" (cidOf answerText))) awaited).world

/-- The tab once its connection has reported `connected`. -/
def connected : World := (connectionStateChange platform "connected" paired).world

/-- The session record the connected tab has saved. -/
def restored : JsVal :=
  .obj [("peerPushSubscription", subscriptionB), ("myUnreadListCid", .str (cidOf "[]")),
    ("peerUnreadListCid", .str (cidOf "[]")), ("salt", .str "AxQlNkdYaXqLnK2+z+DxAg==")]

/-- The tab opened again later: a new `AppState`, the page of the first visit,
the `localStorage` the chat left. -/
def reopened : World where
  app := AppState.reset app
  relay := { client := false, blobs := ["[]", answerText], faults := [] }
  browser :=
    { browser with
      localStorage := [("secureP2pChatSession", stringify restored),
        ("pushWorkerUrl", "https://push.example/send"), ("web3StorageApiToken", "token")]
      messages := none }
  trace := []

/-- The tab opened again once `activateChat` shows the password page. -/
def welcomed : World := (activateChat platform reopened).world

/-- The tab opened again once the password `secret` was typed. -/
def unlocked : World := (unlock platform restored "secret" welcomed).world

end Sample


/-! # Theorems -/

/-! ## Base64 -/

theorem b64Char_facts : ∀ n : Fin 64, b64Index (b64Char n.val) = some n.val ∧
    b64Char n.val ≠ '=' ∧ isAsciiWhitespace (b64Char n.val) = false := by
  decide

theorem b64Index_b64Char {n : Nat} (h : n < 64) : b64Index (b64Char n) = some n :=
  (b64Char_facts ⟨n, h⟩).1

theorem b64Char_ne_pad {n : Nat} (h : n < 64) : b64Char n ≠ '=' :=
  (b64Char_facts ⟨n, h⟩).2.1

theorem b64Char_not_ws {n : Nat} (h : n < 64) : isAsciiWhitespace (b64Char n) = false :=
  (b64Char_facts ⟨n, h⟩).2.2

theorem pad_not_ws : isAsciiWhitespace '=' = false := by decide

theorem btoaGroups_length (bin : List Nat) : (btoaGroups bin).length % 4 = 0 := by
  induction bin using btoaGroups.induct with
  | case1 => rfl
  | case2 a => simp [btoaGroups]
  | case3 a b => simp [btoaGroups]
  | case4 a b c rest ih => simp only [btoaGroups, List.length_cons]; omega

theorem btoaGroups_filter (bin : List Nat) (h : ∀ u ∈ bin, u < 256) :
    (btoaGroups bin).filter (fun c => !isAsciiWhitespace c) = btoaGroups bin := by
  induction bin using btoaGroups.induct with
  | case1 => rfl
  | case2 a =>
    have ha := h a (by simp)
    simp [btoaGroups, b64Char_not_ws (show a / 4 < 64 by omega),
      b64Char_not_ws (show a % 4 * 16 < 64 by omega), pad_not_ws]
  | case3 a b =>
    have ha := h a (by simp)
    have hb := h b (by simp)
    simp [btoaGroups, b64Char_not_ws (show a / 4 < 64 by omega),
      b64Char_not_ws (show a % 4 * 16 + b / 16 < 64 by omega),
      b64Char_not_ws (show b % 16 * 4 < 64 by omega), pad_not_ws]
  | case4 a b c rest ih =>
    have ha := h a (by simp)
    have hb := h b (by simp)
    have hc := h c (by simp)
    have hrest : ∀ u ∈ rest, u < 256 := fun u hu => h u (by simp [hu])
    simp [btoaGroups, b64Char_not_ws (show a / 4 < 64 by omega),
      b64Char_not_ws (show a % 4 * 16 + b / 16 < 64 by omega),
      b64Char_not_ws (show b % 16 * 4 + c / 64 < 64 by omega),
      b64Char_not_ws (show c % 64 < 64 by omega), ih hrest]

theorem stripPadding_cons4 (p0 p1 p2 p3 : Char) (cs : List Char) (hlen : cs.length % 4 = 0)
    (hp : p3 ≠ '=') :
    stripPadding (p0 :: p1 :: p2 :: p3 :: cs) = p0 :: p1 :: p2 :: p3 :: stripPadding cs := by
  generalize hr : cs.reverse = rv
  have hcs : cs = rv.reverse := by rw [← hr, List.reverse_reverse]
  subst hcs
  match rv with
  | [] => simp [stripPadding, hp]
  | [x] => simp at hlen
  | x :: y :: r =>
    simp only [List.reverse_cons, List.length_append, List.length_reverse, List.length_cons,
      List.length_nil, List.append_assoc, List.singleton_append] at hlen ⊢
    have h1 : (r.reverse ++ [y, x]).length % 4 = 0 := by simp; omega
    have h2 : (p0 :: p1 :: p2 :: p3 :: (r.reverse ++ [y, x])).length % 4 = 0 := by simp; omega
    simp only [stripPadding, h1, h2, if_true]
    simp only [List.reverse_cons, List.reverse_append, List.reverse_reverse, List.reverse_nil,
      List.nil_append, List.cons_append, List.singleton_append, List.append_assoc]
    by_cases hx : x = '=' <;> by_cases hy : y = '=' <;> simp [hx, hy]

theorem atob_btoaGroups (bin : List Nat) (h : ∀ u ∈ bin, u < 256) :
    (stripPadding (btoaGroups bin)).length % 4 ≠ 1 ∧
    (stripPadding (btoaGroups bin)).all (fun c => (b64Index c).isSome) = true ∧
    atobGroups ((stripPadding (btoaGroups bin)).map (fun c => (b64Index c).getD 0)) = bin := by
  induction bin using btoaGroups.induct with
  | case1 => simp [btoaGroups, stripPadding, atobGroups]
  | case2 a =>
    have ha := h a (by simp)
    have h0 : a / 4 < 64 := by omega
    have h1 : a % 4 * 16 < 64 := by omega
    simp [btoaGroups, stripPadding, atobGroups, b64Index_b64Char h0, b64Index_b64Char h1]
    omega
  | case3 a b =>
    have ha := h a (by simp)
    have hb := h b (by simp)
    have h0 : a / 4 < 64 := by omega
    have h1 : a % 4 * 16 + b / 16 < 64 := by omega
    have h2 : b % 16 * 4 < 64 := by omega
    simp [btoaGroups, stripPadding, atobGroups, b64Index_b64Char h0, b64Index_b64Char h1,
      b64Index_b64Char h2, b64Char_ne_pad h2]
    omega
  | case4 a b c rest ih =>
    have ha := h a (by simp)
    have hb := h b (by simp)
    have hc := h c (by simp)
    have hrest : ∀ u ∈ rest, u < 256 := fun u hu => h u (by simp [hu])
    have h0 : a / 4 < 64 := by omega
    have h1 : a % 4 * 16 + b / 16 < 64 := by omega
    have h2 : b % 16 * 4 + c / 64 < 64 := by omega
    have h3 : c % 64 < 64 := by omega
    obtain ⟨ih1, ih2, ih3⟩ := ih hrest
    rw [btoaGroups, stripPadding_cons4 _ _ _ _ _ (btoaGroups_length rest) (b64Char_ne_pad h3)]
    refine ⟨by simp only [List.length_cons]; omega, ?_, ?_⟩
    · simp [b64Index_b64Char h0, b64Index_b64Char h1, b64Index_b64Char h2,
        b64Index_b64Char h3]
      simpa using ih2
    · simp only [List.map_cons, b64Index_b64Char h0, b64Index_b64Char h1, b64Index_b64Char h2,
        b64Index_b64Char h3, Option.getD_some, atobGroups, ih3]
      congr 1
      · omega
      congr 1
      · omega
      congr 1
      omega

theorem atob_btoa (bin : List Nat) (h : ∀ u ∈ bin, u < 256) :
    ∃ s, btoa bin = .ok s ∧ atob s = .ok bin := by
  have hall : bin.all (fun u => decide (u ≤ 255)) = true := by
    simp only [List.all_eq_true, decide_eq_true_eq]
    intro u hu
    have := h u hu
    omega
  refine ⟨String.mk (btoaGroups bin), by simp [btoa, hall], ?_⟩
  obtain ⟨h1, h2, h3⟩ := atob_btoaGroups bin h
  simp only [atob, String.toList, btoaGroups_filter bin h, h1, h2, h3, if_false, if_true]

theorem base64_roundtrip (buffer : List Byte) :
    ∃ s, arrayBufferToBase64 buffer = .ok s ∧ base64ToArrayBuffer s = .ok buffer := by
  obtain ⟨s, hs, hd⟩ := atob_btoa (buffer.map (fun b => b.val))
    (by simp only [List.mem_map]; rintro u ⟨b, _, rfl⟩; exact b.isLt)
  refine ⟨s, hs, ?_⟩
  simp only [base64ToArrayBuffer, hd, List.map_map]
  congr 1
  conv_rhs => rw [← List.map_id buffer]
  apply List.map_congr_left
  intro b _
  apply Fin.ext
  simp [toByte, Nat.mod_eq_of_lt b.isLt]

/-- Claim C6, on the code. For every derived key, every 12-byte IV and every plaintext,
with AES-GCM decrypting what it encrypted under that key and IV, base64 decoding and the
split at byte 12 undo the framing `base64(IV || ciphertext)` exactly, and `decrypt` returns
what `new TextDecoder().decode` makes of the bytes `encrypt` encoded.  That is the
plaintext when the bytes do not start with the byte order mark and the UTF-8 decoder gives
back what the encoder was given; when they start with the byte order mark, as the bytes of
a plaintext that starts with U+FEFF do, the mark is dropped and `decrypt` returns the
decoding of the rest, which is not the plaintext `encrypt` was given. -/
theorem decrypt_drops_byte_order_mark (P : Platform) (key : CryptoKey) (iv : List Byte)
    (m : String) (hiv : iv.length = 12)
    (hAes : P.aesGcmDecrypt key iv (P.aesGcmEncrypt key iv (P.textEncode m))
      = some (P.textEncode m)) :
    ∃ blob, CryptoManager.encrypt P ⟨some key⟩ iv m = .ok blob ∧
      base64ToArrayBuffer blob = .ok (iv ++ P.aesGcmEncrypt key iv (P.textEncode m)) ∧
      CryptoManager.decrypt P ⟨some key⟩ blob = .ok (textDecode P (P.textEncode m)) ∧
      (∀ rest, P.textEncode m = utf8Bom ++ rest →
        CryptoManager.decrypt P ⟨some key⟩ blob = .ok (P.utf8Decode rest)) ∧
      ((P.textEncode m).take 3 ≠ utf8Bom → P.utf8Decode (P.textEncode m) = m →
        CryptoManager.decrypt P ⟨some key⟩ blob = .ok m) := by
  obtain ⟨s, hs, hd⟩ := base64_roundtrip (iv ++ P.aesGcmEncrypt key iv (P.textEncode m))
  have hdec : CryptoManager.decrypt P ⟨some key⟩ s = .ok (textDecode P (P.textEncode m)) := by
    simp [CryptoManager.decrypt, hd, ← hiv, hAes]
  refine ⟨s, by simpa [CryptoManager.encrypt] using hs, hd, hdec, fun rest hrest => ?_,
    fun hno hutf => ?_⟩
  · rw [hdec, textDecode, hrest]
    simp [utf8Bom]
  · rw [hdec, textDecode, if_neg hno, hutf]

/-- Claim C7. With the IV an explicit input, two `encrypt` calls on the same plaintext and
key give different blobs whenever their 12-byte IVs differ, and a blob determines its IV:
its first twelve decoded bytes are the IV. -/
theorem encrypt_differs_with_iv (P : Platform) (key : CryptoKey) (iv1 iv2 : List Byte)
    (m : String) (h1 : iv1.length = 12) (h2 : iv2.length = 12) (hne : iv1 ≠ iv2) :
    CryptoManager.encrypt P ⟨some key⟩ iv1 m ≠ CryptoManager.encrypt P ⟨some key⟩ iv2 m ∧
    ∃ blob bytes, CryptoManager.encrypt P ⟨some key⟩ iv1 m = .ok blob ∧
      base64ToArrayBuffer blob = .ok bytes ∧ bytes.take 12 = iv1 := by
  obtain ⟨s1, hs1, hd1⟩ := base64_roundtrip (iv1 ++ P.aesGcmEncrypt key iv1 (P.textEncode m))
  obtain ⟨s2, hs2, hd2⟩ := base64_roundtrip (iv2 ++ P.aesGcmEncrypt key iv2 (P.textEncode m))
  have e1 : CryptoManager.encrypt P ⟨some key⟩ iv1 m = .ok s1 := by
    simpa [CryptoManager.encrypt] using hs1
  have e2 : CryptoManager.encrypt P ⟨some key⟩ iv2 m = .ok s2 := by
    simpa [CryptoManager.encrypt] using hs2
  refine ⟨?_, s1, _, e1, hd1, by simp [← h1]⟩
  rw [e1, e2]
  intro h
  have hs : s1 = s2 := by injection h
  subst hs
  rw [hd1] at hd2
  have hb : iv1 ++ P.aesGcmEncrypt key iv1 (P.textEncode m)
      = iv2 ++ P.aesGcmEncrypt key iv2 (P.textEncode m) := by injection hd2
  have := congrArg (List.take 12) hb
  rw [← h1] at this
  simp only [List.take_left] at this
  rw [h1, ← h2, List.take_left] at this
  exact hne this

/-! ## The relay -/

@[simp] theorem JS.bind_run {α β : Type} (x : JS α) (f : α → JS β) (w : World) :
    (x >>= f) w = JS.andThen x f w := rfl

@[simp] theorem afterRequest_relay_client (w : World) (ev : List Event) :
    (w.afterRequest ev).relay.client = w.relay.client := rfl

@[simp] theorem afterRequest_blobs (w : World) (ev : List Event) :
    (w.afterRequest ev).relay.blobs = w.relay.blobs := rfl

@[simp] theorem afterRequest_app (w : World) (ev : List Event) :
    (w.afterRequest ev).app = w.app := rfl

@[simp] theorem afterRequest_browser (w : World) (ev : List Event) :
    (w.afterRequest ev).browser = w.browser := rfl

@[simp] theorem afterRequest_trace (w : World) (ev : List Event) :
    (w.afterRequest ev).trace = w.trace ++ ev := rfl

@[simp] theorem afterRequest_faults (w : World) (ev : List Event) :
    (w.afterRequest ev).relay.faults = w.relay.faults.tail := rfl

@[simp] theorem stored_relay_client (w : World) (d : String) :
    (w.stored d).relay.client = w.relay.client := rfl

@[simp] theorem stored_blobs (w : World) (d : String) :
    (w.stored d).relay.blobs = w.relay.blobs ++ [d] := rfl

@[simp] theorem stored_faults (w : World) (d : String) :
    (w.stored d).relay.faults = w.relay.faults := rfl

@[simp] theorem stored_app (w : World) (d : String) : (w.stored d).app = w.app := rfl

@[simp] theorem stored_browser (w : World) (d : String) :
    (w.stored d).browser = w.browser := rfl

@[simp] theorem stored_trace (w : World) (d : String) : (w.stored d).trace = w.trace := rfl

theorem quietFor_succ {r : Relay} {n : Nat} (h : r.quietFor (n + 1)) :
    r.nextFails = false ∧ ∀ r2 : Relay, r2.faults = r.faults.tail → r2.quietFor n := by
  unfold Relay.quietFor at h
  unfold Relay.nextFails
  cases hf : r.faults with
  | nil =>
    refine ⟨rfl, fun r2 h2 => ?_⟩
    simp [Relay.quietFor, h2]
  | cons b rest =>
    rw [hf] at h
    refine ⟨by simpa using h b (by simp), fun r2 h2 => ?_⟩
    intro c hc
    rw [h2] at hc
    exact h c (by simp at hc ⊢; exact Or.inr hc)

theorem lookup_append (P : Platform) (r r2 : Relay) (name content : String) (extra : List String)
    (h : r.lookup P name = some content) (h2 : r2.blobs = r.blobs ++ extra) :
    r2.lookup P name = some content := by
  unfold Relay.lookup at h ⊢
  rw [h2, List.find?_append, h]
  rfl

theorem uploadToIPFS_ok (P : Platform) (data : String) (w : World)
    (hc : w.relay.client = true) (hf : w.relay.nextFails = false) :
    uploadToIPFS P data w = .ok (P.cidOf data) ((w.afterRequest [.relayPut data]).stored data) := by
  simp [uploadToIPFS, hc, hf]

theorem downloadFromIPFS_ok (P : Platform) (cid : JsVal) (content : String) (w : World)
    (hf : w.relay.nextFails = false) (hl : w.relay.lookup P cid.toText = some content) :
    downloadFromIPFS P cid w = .ok content (w.afterRequest [.relayGet cid.toText]) := by
  simp [downloadFromIPFS, hf, hl]

theorem sendNotification_frame (subscription payload : JsVal) (url : String) (w : World) :
    (PushManager.sendNotification subscription payload url w).world.app = w.app ∧
    (PushManager.sendNotification subscription payload url w).world.relay = w.relay := by
  unfold PushManager.sendNotification
  simp only [JS.tryCatch, JS.bind_run, JS.andThen, JS.emit, JS.update, nextPushOutcome]
  cases w.browser.pushOutcomes.headD (.response 200) with
  | reject => simp [JS.throw, Res.world]
  | response status =>
    by_cases h : 200 ≤ status ∧ status ≤ 299 <;> simp [h, JS.throw, JS.ret, Res.world]

theorem notifyPeer_frame (payload : JsVal) (url : String) (w : World) :
    (notifyPeer payload url w).world.app = w.app ∧
    (notifyPeer payload url w).world.relay = w.relay := by
  unfold notifyPeer
  cases w.app.pushManager with
  | none => simp [Res.world]
  | some pm => exact sendNotification_frame _ _ _ _

@[simp] theorem drew_relay (w : World) (n : Nat) : (w.drew n).relay = w.relay := rfl

@[simp] theorem drew_app (w : World) (n : Nat) : (w.drew n).app = w.app := rfl

@[simp] theorem drew_trace (w : World) (n : Nat) : (w.drew n).trace = w.trace := rfl

theorem JS.bind_ok {α β : Type} {x : JS α} {f : α → JS β} {w w1 : World} {a : α}
    (h : x w = .ok a w1) : (x >>= f) w = f a w1 := by
  simp [JS.andThen, h]

theorem JS.bind_err {α β : Type} {x : JS α} {f : α → JS β} {w w1 : World} {e : JsError}
    (h : x w = .err e w1) : (x >>= f) w = .err e w1 := by
  simp [JS.andThen, h]

theorem tryCatch_emit_frame (body : JS Unit) (label : String) (w : World) :
    (JS.tryCatch body (fun e => JS.emit (.consoleError label e)) w).world.app
      = (body w).world.app ∧
    (JS.tryCatch body (fun e => JS.emit (.consoleError label e)) w).world.relay
      = (body w).world.relay ∧
    (JS.tryCatch body (fun e => JS.emit (.consoleError label e)) w).world.browser
      = (body w).world.browser := by
  unfold JS.tryCatch
  cases body w <;> simp [Res.world, JS.emit, JS.update]

theorem encryptMessage_ok (P : Platform) (message : String) (w : World) (cm : CryptoManager)
    (key : CryptoKey) (hcm : w.app.cryptoManager = some cm) (hkey : cm.key = some key) :
    ∃ blob, CryptoManager.encrypt P cm (w.randomBytes 12) message = .ok blob ∧
      encryptMessage P message w = .ok blob (w.drew 12) := by
  obtain ⟨s, hs, _⟩ := base64_roundtrip
    (w.randomBytes 12 ++ P.aesGcmEncrypt key (w.randomBytes 12) (P.textEncode message))
  have he : CryptoManager.encrypt P cm (w.randomBytes 12) message = .ok s := by
    simpa [CryptoManager.encrypt, hkey] using hs
  refine ⟨s, he, ?_⟩
  simp [encryptMessage, hcm, hkey, JS.andThen, getRandomValues, he, JS.lift, JS.ret]

theorem sendOfflineMessage_sent (P : Platform) (w : World) (message : String)
    (cm : CryptoManager) (key : CryptoKey) (listText : String) (L : List JsVal)
    (hcm : w.app.cryptoManager = some cm) (hkey : cm.key = some key)
    (hclient : w.relay.client = true) (hquiet : w.relay.quietFor 3)
    (hlist : w.relay.lookup P w.app.peerUnreadListCid.toText = some listText)
    (hparse : P.jsonParse listText = some (.arr L)) :
    ∃ blob,
      CryptoManager.encrypt P cm (w.randomBytes 12) message = .ok blob ∧
      (sendOfflineMessage P message w).world.app.peerUnreadListCid
        = .str (P.cidOf (P.jsonStringify (.arr (L ++ [.str (P.cidOf blob)])))) ∧
      (sendOfflineMessage P message w).world.relay.blobs
        = w.relay.blobs ++ [blob, P.jsonStringify (.arr (L ++ [.str (P.cidOf blob)]))] := by
  obtain ⟨blob, hblob, henc⟩ := encryptMessage_ok P message w cm key hcm hkey
  refine ⟨blob, hblob, ?_⟩
  obtain ⟨hf1, hq2⟩ := quietFor_succ hquiet
  obtain ⟨hf2, hq1⟩ := quietFor_succ (hq2 { w.relay with faults := w.relay.faults.tail } rfl)
  obtain ⟨hf3, _⟩ := quietFor_succ
    (hq1 { w.relay with faults := w.relay.faults.tail.tail } rfl)
  have h1 := uploadToIPFS_ok P blob (w.drew 12) hclient hf1
  have h2 := downloadFromIPFS_ok P w.app.peerUnreadListCid listText
    (((w.drew 12).afterRequest [.relayPut blob]).stored blob) hf2
    (lookup_append P w.relay _ _ _ [blob] hlist rfl)
  have h3 := uploadToIPFS_ok P (P.jsonStringify (.arr (L ++ [.str (P.cidOf blob)])))
    ((((w.drew 12).afterRequest [.relayPut blob]).stored blob).afterRequest
      [.relayGet w.app.peerUnreadListCid.toText]) hclient hf3
  unfold sendOfflineMessage
  rw [(tryCatch_emit_frame _ _ _).1, (tryCatch_emit_frame _ _ _).2.1]
  rw [JS.bind_ok henc, JS.bind_ok h1, JS.bind_ok (show JS.read _ = _ from rfl)]
  simp only [stored_app, afterRequest_app, drew_app]
  rw [JS.bind_ok h2]
  simp only [parseJson, hparse]
  rw [JS.bind_ok (show JS.ret _ _ = _ from rfl)]
  simp only [arrayPush]
  rw [JS.bind_ok (show JS.ret _ _ = _ from rfl), JS.bind_ok h3,
    JS.bind_ok (show JS.update _ _ = _ from rfl),
    JS.bind_ok (show StorageManager.loadWorkerUrl _ = _ from rfl)]
  by_cases hfalsy : falsyItem (w.browser.localStorage.lookup WORKER_URL_KEY) = true
  · have hfalsy2 : falsyItem ((w.drew 12).browser.localStorage.lookup WORKER_URL_KEY) = true :=
      hfalsy
    simp [hfalsy2, JS.emit, JS.update, Res.world]
  · simp only [stored_browser, afterRequest_browser, World.drew, hfalsy]
    simp only [Bool.false_eq_true, if_false]
    rw [(notifyPeer_frame _ _ _).1, (notifyPeer_frame _ _ _).2]
    simp

/-- Claim C2. When the relay is reachable, `sendOfflineMessage` turns the list `L` stored
under `peerUnreadListCid` into `L` followed by one more element, the content identifier
of the uploaded ciphertext of the message: afterwards `peerUnreadListCid` is the
identifier of that list and both blobs are stored. -/
theorem sendOfflineMessage_appends_one (P : Platform) (w : World) (message : String)
    (cm : CryptoManager) (key : CryptoKey) (listText : String) (L : List JsVal)
    (hcm : w.app.cryptoManager = some cm) (hkey : cm.key = some key)
    (hclient : w.relay.client = true) (hquiet : w.relay.quietFor 3)
    (hlist : w.relay.lookup P w.app.peerUnreadListCid.toText = some listText)
    (hparse : P.jsonParse listText = some (.arr L)) :
    ∃ blob,
      CryptoManager.encrypt P cm (w.randomBytes 12) message = .ok blob ∧
      (sendOfflineMessage P message w).world.app.peerUnreadListCid
        = .str (P.cidOf (P.jsonStringify (.arr (L ++ [.str (P.cidOf blob)])))) ∧
      (sendOfflineMessage P message w).world.relay.blobs
        = w.relay.blobs ++ [blob, P.jsonStringify (.arr (L ++ [.str (P.cidOf blob)]))] :=
  sendOfflineMessage_sent P w message cm key listText L hcm hkey hclient hquiet hlist hparse

theorem quietFor_drop {r r2 : Relay} {n k : Nat} (h : r.quietFor (n + k))
    (h2 : r2.faults = r.faults.drop n) : r2.quietFor k := by
  unfold Relay.quietFor at h ⊢
  intro b hb
  rw [h2] at hb
  apply h b
  have : List.take k (List.drop n r.faults) = List.drop n (List.take (n + k) r.faults) := by
    rw [List.drop_take]
    simp
  rw [this] at hb
  exact List.mem_of_mem_drop hb

theorem quietFor_mono {r : Relay} {n k : Nat} (h : r.quietFor n) (hk : k ≤ n) :
    r.quietFor k := by
  intro b hb
  apply h b
  have : List.take k r.faults = List.take k (List.take n r.faults) := by
    rw [List.take_take, Nat.min_eq_left hk]
  rw [this] at hb
  exact List.mem_of_mem_take hb

theorem decryptMessage_eq (P : Platform) (data : String) (w : World) (cm : CryptoManager)
    (hcm : w.app.cryptoManager = some cm) :
    decryptMessage P data w = JS.lift (cm.decrypt P data) w := by
  simp [decryptMessage, hcm]

theorem lookup_congr (P : Platform) {r r2 : Relay} (h : r2.blobs = r.blobs) (name : String) :
    r2.lookup P name = r.lookup P name := by
  simp [Relay.lookup, h]

theorem drainLoop_ok (P : Platform) (cm : CryptoManager) (r : Relay) (items : List JsVal)
    (msgs : List String) (hall : List.Forall₂ (Delivers P cm r) items msgs) :
    ∀ (w : World) (shown : List String), w.relay.blobs = r.blobs →
      w.app.cryptoManager = some cm →
      w.browser.messages = some shown → w.relay.quietFor items.length →
      ∃ w1, drainLoop P items w = .ok () w1 ∧ w1.app = w.app ∧
        w1.browser.messages = some (shown ++ msgs.map peerLine) ∧
        w1.relay.blobs = w.relay.blobs ∧ w1.relay.client = w.relay.client ∧
        w1.relay.faults = w.relay.faults.drop items.length ∧
        w1.trace = w.trace ++ items.map (fun c => Event.relayGet c.toText) := by
  induction hall with
  | nil =>
    intro w shown _ _ hshown _
    exact ⟨w, rfl, rfl, by simp [hshown], rfl, rfl, rfl, by simp⟩
  | @cons c m rest ms hc hrest ih =>
    intro w shown hblobs hcm hshown hquiet
    obtain ⟨blob, hl, hd⟩ := hc
    obtain ⟨hf, hq⟩ := quietFor_succ hquiet
    have h1 := downloadFromIPFS_ok P c blob w hf (by rw [lookup_congr P hblobs]; exact hl)
    have h2 : decryptMessage P blob (w.afterRequest [.relayGet c.toText])
        = .ok m (w.afterRequest [.relayGet c.toText]) := by
      rw [decryptMessage_eq P blob (w.afterRequest [.relayGet c.toText]) cm hcm, hd]
      rfl
    have h3 : appendMessage (peerLine m) (w.afterRequest [.relayGet c.toText])
        = .ok () { (w.afterRequest [.relayGet c.toText]) with
            browser := { w.browser with messages := some (shown ++ [peerLine m]) } } := by
      simp [appendMessage, hshown]
    obtain ⟨w1, hr, happ, hmsg, hb, hcl, hfl, htr⟩ := ih
      { (w.afterRequest [.relayGet c.toText]) with
            browser := { w.browser with messages := some (shown ++ [peerLine m]) } }
      (shown ++ [peerLine m]) hblobs hcm rfl (hq _ rfl)
    refine ⟨w1, ?_, happ, ?_, hb, hcl, ?_, ?_⟩
    · rw [drainLoop, JS.bind_ok h1, JS.bind_ok h2, JS.bind_ok h3, hr]
    · rw [hmsg]; simp
    · rw [hfl]; simp
    · rw [htr]; simp

theorem tryCatch_ok {α : Type} {body : JS α} {handler : JsError → JS α} {w v : World} {a : α}
    (h : body w = .ok a v) : JS.tryCatch body handler w = .ok a v := by
  simp [JS.tryCatch, h]

theorem tryCatch_err {α : Type} {body : JS α} {handler : JsError → JS α} {w v : World}
    {e : JsError} (h : body w = .err e v) : JS.tryCatch body handler w = handler e v := by
  simp [JS.tryCatch, h]

/-- Claim C4. For a non-empty unread list stored under `myUnreadListCid` whose entries all
download and decrypt, `checkUnreadMessages` shows one decrypted message an entry, in the
order of the list, then publishes the empty list and sets `myUnreadListCid` to the
identifier the relay returned for it. -/
theorem checkUnreadMessages_delivers_in_order (P : Platform) (w : World) (cm : CryptoManager)
    (listText : String) (items : List JsVal) (msgs shown : List String)
    (hcm : w.app.cryptoManager = some cm) (hshown : w.browser.messages = some shown)
    (hclient : w.relay.client = true) (hquiet : w.relay.quietFor (1 + items.length + 1))
    (hlist : w.relay.lookup P w.app.myUnreadListCid.toText = some listText)
    (hparse : P.jsonParse listText = some (.arr items)) (hne : items ≠ [])
    (hall : List.Forall₂ (Delivers P cm w.relay) items msgs) :
    ∃ w1, checkUnreadMessages P w = .ok () w1 ∧
      w1.browser.messages = some (shown ++ msgs.map peerLine) ∧
      w1.app.myUnreadListCid = .str (P.cidOf (P.jsonStringify (.arr []))) ∧
      w1.relay.blobs = w.relay.blobs ++ [P.jsonStringify (.arr [])] := by
  have hq0 : w.relay.quietFor 1 := quietFor_mono hquiet (by omega)
  obtain ⟨hf1, _⟩ := quietFor_succ hq0
  have h1 := downloadFromIPFS_ok P w.app.myUnreadListCid listText w hf1 hlist
  have hq1 : (w.afterRequest [.relayGet w.app.myUnreadListCid.toText]).relay.quietFor
      (items.length + 1) := by
    apply quietFor_drop (n := 1) (k := items.length + 1) (r := w.relay)
    · rw [← Nat.add_assoc]; exact hquiet
    · simp
  have hq2 : (w.afterRequest [.relayGet w.app.myUnreadListCid.toText]).relay.quietFor
      items.length := quietFor_mono hq1 (by omega)
  obtain ⟨w2, hr, happ, hmsg, hb, hcl, hfl, _⟩ := drainLoop_ok P cm w.relay items msgs hall
    (w.afterRequest [.relayGet w.app.myUnreadListCid.toText]) shown rfl hcm hshown hq2
  have hq3 : w2.relay.quietFor 1 := quietFor_drop hq1 hfl
  obtain ⟨hf3, _⟩ := quietFor_succ hq3
  have h3 := uploadToIPFS_ok P (P.jsonStringify (.arr [])) w2 (by rw [hcl]; exact hclient) hf3
  have hlen : gtZero P (.num items.length) = true := by
    cases items with
    | nil => exact absurd rfl hne
    | cons c rest => simp [gtZero]
  have hrun : checkUnreadMessages P w = .ok ()
      { ((w2.afterRequest [.relayPut (P.jsonStringify (.arr []))]).stored
          (P.jsonStringify (.arr []))) with
        app := { w2.app with myUnreadListCid := .str (P.cidOf (P.jsonStringify (.arr []))) } } := by
    apply tryCatch_ok
    rw [JS.bind_ok (show JS.read w = .ok w w from rfl), JS.bind_ok h1]
    simp only [parseJson, hparse]
    rw [JS.bind_ok (show JS.ret _ _ = _ from rfl)]
    simp only [JsVal.getProp, if_true, JS.lift]
    rw [JS.bind_ok (show JS.ret _ _ = _ from rfl)]
    simp only [hlen, if_true, iterate]
    rw [JS.bind_ok (show JS.ret _ _ = _ from rfl), JS.bind_ok hr,
      JS.bind_ok (show scrollMessages w2 = .ok () w2 by simp [scrollMessages, hmsg]),
      JS.bind_ok h3]
    rfl
  exact ⟨_, hrun, by simp [hmsg], by simp, by simp [hb]⟩

theorem checkUnreadMessages_empty_run (P : Platform) (w : World) (listText : String)
    (hlist : w.relay.lookup P w.app.myUnreadListCid.toText = some listText)
    (hparse : P.jsonParse listText = some (.arr [])) :
    ∃ events, checkUnreadMessages P w = .ok () (w.afterRequest events) ∧
      ∀ data, Event.relayPut data ∉ events := by
  unfold checkUnreadMessages
  by_cases hf : w.relay.nextFails = true
  · have h1 : downloadFromIPFS P w.app.myUnreadListCid w
        = .err .ipfsFetch (w.afterRequest [.relayGet w.app.myUnreadListCid.toText,
            .consoleError "Error downloading from IPFS" .ipfsFetch]) := by
      simp [downloadFromIPFS, hf]
    rw [tryCatch_err (by rw [JS.bind_ok (show JS.read w = .ok w w from rfl), JS.bind_err h1])]
    refine ⟨[.relayGet w.app.myUnreadListCid.toText,
      .consoleError "Error downloading from IPFS" .ipfsFetch,
      .consoleError "Failed to check unread messages:" .ipfsFetch], ?_, ?_⟩
    · simp [JS.emit, JS.update, World.afterRequest]
    · intro data hmem
      simp at hmem
  · have h1 := downloadFromIPFS_ok P w.app.myUnreadListCid listText w (by simpa using hf) hlist
    rw [tryCatch_ok (v := w.afterRequest [.relayGet w.app.myUnreadListCid.toText]) (a := ())
      (by
        rw [JS.bind_ok (show JS.read w = .ok w w from rfl), JS.bind_ok h1]
        simp only [parseJson, hparse]
        rw [JS.bind_ok (show JS.ret _ _ = _ from rfl)]
        simp only [JsVal.getProp, if_true, JS.lift]
        rw [JS.bind_ok (show JS.ret _ _ = _ from rfl)]
        simp [gtZero, JS.ret])]
    refine ⟨[.relayGet w.app.myUnreadListCid.toText], rfl, ?_⟩
    intro data hmem
    simp at hmem

/-- Claim C5. On an empty unread list `checkUnreadMessages` is a no-op: whether or not the
download of the list succeeds, it shows no message, stores no blob, makes no upload
request and leaves `AppState`, and so `myUnreadListCid`, unchanged. -/
theorem checkUnreadMessages_empty_noop (P : Platform) (w : World) (listText : String)
    (hlist : w.relay.lookup P w.app.myUnreadListCid.toText = some listText)
    (hparse : P.jsonParse listText = some (.arr [])) :
    (checkUnreadMessages P w).world.browser.messages = w.browser.messages ∧
    (checkUnreadMessages P w).world.relay.blobs = w.relay.blobs ∧
    (checkUnreadMessages P w).world.app = w.app ∧
    ∃ events, (checkUnreadMessages P w).world.trace = w.trace ++ events ∧
      ∀ data, Event.relayPut data ∉ events := by
  obtain ⟨events, hrun, hput⟩ := checkUnreadMessages_empty_run P w listText hlist hparse
  rw [hrun]
  refine ⟨?_, ?_, ?_, events, ?_, hput⟩
  · simp [Res.world]
  · simp [Res.world]
  · simp [Res.world]
  · simp [Res.world]

theorem drainLoop_append (P : Platform) (xs ys : List JsVal) (w : World) :
    drainLoop P (xs ++ ys) w = (drainLoop P xs >>= fun _ => drainLoop P ys) w := by
  induction xs generalizing w with
  | nil => rfl
  | cons c rest ih =>
    simp only [List.cons_append, drainLoop, JS.bind_run, JS.andThen]
    cases downloadFromIPFS P c w with
    | err e w1 => rfl
    | pending w1 => rfl
    | ok a w1 =>
      simp only
      cases decryptMessage P a w1 with
      | err e w2 => rfl
      | pending w2 => rfl
      | ok m w2 =>
        simp only
        cases appendMessage (peerLine m) w2 with
        | err e w3 => rfl
        | pending w3 => rfl
        | ok u w3 =>
          exact ih w3

/-- Claim C3, as the code has it. When an entry of the unread list fails to decrypt,
`checkUnreadMessages` has shown the decrypted messages of the entries before it, in the
order of the list, and nothing more: no marker stands for the corrupt entry, its error
is logged, no entry after it is downloaded, no blob is stored and `AppState`, and so
`myUnreadListCid`, is unchanged. -/
theorem checkUnreadMessages_stops_at_corrupt (P : Platform) (w : World) (cm : CryptoManager)
    (listText : String) (before later : List JsVal) (bad : JsVal) (error : JsError)
    (msgs shown : List String)
    (hcm : w.app.cryptoManager = some cm) (hshown : w.browser.messages = some shown)
    (hquiet : w.relay.quietFor (1 + before.length + 1))
    (hlist : w.relay.lookup P w.app.myUnreadListCid.toText = some listText)
    (hparse : P.jsonParse listText = some (.arr (before ++ bad :: later)))
    (hbefore : List.Forall₂ (Delivers P cm w.relay) before msgs)
    (hbad : Corrupt P cm w.relay bad error) :
    ∃ w1, checkUnreadMessages P w = .ok () w1 ∧
      w1.browser.messages = some (shown ++ msgs.map peerLine) ∧
      w1.app = w.app ∧ w1.relay.blobs = w.relay.blobs ∧
      w1.trace = w.trace ++ [Event.relayGet w.app.myUnreadListCid.toText]
        ++ (before ++ [bad]).map (fun c => Event.relayGet c.toText)
        ++ [Event.consoleError "Failed to check unread messages:" error] := by
  have hq0 : w.relay.quietFor 1 := quietFor_mono hquiet (by omega)
  obtain ⟨hf1, _⟩ := quietFor_succ hq0
  have h1 := downloadFromIPFS_ok P w.app.myUnreadListCid listText w hf1 hlist
  have hq1 : (w.afterRequest [.relayGet w.app.myUnreadListCid.toText]).relay.quietFor
      (before.length + 1) := by
    apply quietFor_drop (n := 1) (k := before.length + 1) (r := w.relay)
    · rw [← Nat.add_assoc]; exact hquiet
    · simp
  obtain ⟨w2, hr, happ, hmsg, hb, hcl, hfl, htr⟩ := drainLoop_ok P cm w.relay before msgs hbefore
    (w.afterRequest [.relayGet w.app.myUnreadListCid.toText]) shown rfl hcm hshown
    (quietFor_mono hq1 (by omega))
  have hq3 : w2.relay.quietFor 1 := quietFor_drop hq1 hfl
  obtain ⟨hf3, _⟩ := quietFor_succ hq3
  obtain ⟨blob, hl, hd⟩ := hbad
  have h3 := downloadFromIPFS_ok P bad blob w2 hf3 (by rw [lookup_congr P hb]; exact hl)
  have h4 : decryptMessage P blob (w2.afterRequest [.relayGet bad.toText])
      = .err error (w2.afterRequest [.relayGet bad.toText]) := by
    rw [decryptMessage_eq P blob (w2.afterRequest [.relayGet bad.toText]) cm
      (by rw [afterRequest_app, happ]; exact hcm), hd]
    rfl
  have hloop : drainLoop P (before ++ bad :: later)
      (w.afterRequest [.relayGet w.app.myUnreadListCid.toText])
      = .err error (w2.afterRequest [.relayGet bad.toText]) := by
    rw [drainLoop_append, JS.bind_ok hr, drainLoop, JS.bind_ok h3, JS.bind_err h4]
  have hlen : gtZero P (.num (before ++ bad :: later).length) = true := by
    simp [gtZero]
    omega
  have hrun : checkUnreadMessages P w = .ok ()
      { (w2.afterRequest [.relayGet bad.toText]) with
        trace := (w2.afterRequest [.relayGet bad.toText]).trace
          ++ [.consoleError "Failed to check unread messages:" error] } := by
    unfold checkUnreadMessages
    rw [tryCatch_err (v := w2.afterRequest [.relayGet bad.toText]) (e := error)]
    · rfl
    rw [JS.bind_ok (show JS.read w = .ok w w from rfl), JS.bind_ok h1]
    simp only [parseJson, hparse]
    rw [JS.bind_ok (show JS.ret _ _ = _ from rfl)]
    simp only [JsVal.getProp, if_true, JS.lift]
    rw [JS.bind_ok (show JS.ret _ _ = _ from rfl)]
    simp only [hlen, if_true, iterate]
    rw [JS.bind_ok (show JS.ret _ _ = _ from rfl), JS.bind_err hloop]
  exact ⟨_, hrun, by simp [hmsg], by simp [happ], by simp [hb], by simp [htr]⟩

/-- Claim C8. For every scanned text that parses to an envelope whose type is not the
expected one, `handleScannedData` raises the unexpected-type error, which its own
handler logs and reports by an alert; it makes no request to the relay and leaves
`AppState`, the relay and the browser as they were: the only change is the two entries
in the trace. -/
theorem handleScannedData_rejects_other_type (P : Platform) (w : World)
    (data expectedType : String) (parsedData type : JsVal)
    (hparse : P.jsonParse data = some parsedData)
    (htype : parsedData.getProp "type" = .ok type)
    (hne : type.isStr expectedType = false) :
    handleScannedData P data expectedType w = .ok ()
      { w with trace := w.trace ++
        [.consoleError "Error handling scanned data:"
            (.unexpectedQrType expectedType type.toText),
          .alert "Failed to handle invitation. Please try again."] } := by
  unfold handleScannedData
  have hbody : (parseJson P data >>= fun parsedData =>
      JS.lift (parsedData.getProp "type") >>= fun type =>
      if type.isStr expectedType = false then
        JS.throw (.unexpectedQrType expectedType type.toText)
      else if type.isStr "offer" then handleScannedOffer P parsedData
      else if type.isStr "answer" then handleScannedAnswer P parsedData
      else JS.ret ()) w = .err (.unexpectedQrType expectedType type.toText) w := by
    simp only [parseJson, hparse]
    rw [JS.bind_ok (show JS.ret _ _ = _ from rfl)]
    simp only [htype, JS.lift]
    rw [JS.bind_ok (show JS.ret _ _ = _ from rfl)]
    simp only [hne, if_true]
    rfl
  rw [tryCatch_err hbody]
  simp [JS.andThen, JS.emit, JS.update]

/-- Claim C10. The handler the `WebRTCManager` constructor installs for connection-state
events starts a renegotiation, the call `createOffer` with `iceRestart`, only when the
connection state is `failed` and `isOfferer` is true: in every other case it leaves the
world as it was, and whenever a call of `createOffer` enters the trace the state is
`failed` and this side is the offerer. -/
theorem restart_only_when_failed_and_offerer (P : Platform) (w : World) (this : WebRTCManager)
    (hthis : w.app.webRtcManager = some this) :
    (¬ (this.peerConnection.native.connectionState = "failed" ∧ this.isOfferer = true) →
      WebRTCManager.onconnectionstatechange P w = .ok () w) ∧
    ((∃ arg, Event.rtcCall "createOffer" arg ∈
        ((WebRTCManager.onconnectionstatechange P w).world.trace.drop w.trace.length)) →
      this.peerConnection.native.connectionState = "failed" ∧ this.isOfferer = true) := by
  have h1 : ¬ (this.peerConnection.native.connectionState = "failed" ∧ this.isOfferer = true) →
      WebRTCManager.onconnectionstatechange P w = .ok () w := by
    intro hno
    simp only [WebRTCManager.onconnectionstatechange, hthis]
    rw [if_neg hno]
  refine ⟨h1, ?_⟩
  rintro ⟨arg, hmem⟩
  by_contra hno
  rw [h1 hno] at hmem
  simp [Res.world] at hmem

/-! ## What no handler undoes: the trace and the store only grow -/

theorem Grows.of_same {α : Type} {x : JS α}
    (h : ∀ w, (x w).world.trace = w.trace ∧ (x w).world.relay.blobs = w.relay.blobs) :
    Grows x := fun w => ⟨[], [], by simp [(h w).1], by simp [(h w).2]⟩

theorem Grows.grows_bind {α β : Type} {x : JS α} {f : α → JS β} (hx : Grows x)
    (hf : ∀ a, Grows (f a)) : Grows (x >>= f) := by
  intro w
  obtain ⟨ev1, ex1, ht1, hb1⟩ := hx w
  simp only [JS.bind_run, JS.andThen]
  cases hr : x w with
  | ok a w1 =>
    rw [hr] at ht1 hb1
    obtain ⟨ev2, ex2, ht2, hb2⟩ := hf a w1
    refine ⟨ev1 ++ ev2, ex1 ++ ex2, ?_, ?_⟩
    · simp only [Res.world] at ht1; rw [ht2, ht1, List.append_assoc]
    · simp only [Res.world] at hb1; rw [hb2, hb1, List.append_assoc]
  | err e w1 => rw [hr] at ht1 hb1; exact ⟨ev1, ex1, ht1, hb1⟩
  | pending w1 => rw [hr] at ht1 hb1; exact ⟨ev1, ex1, ht1, hb1⟩

theorem Grows.grows_tryCatch {α : Type} {body : JS α} {handler : JsError → JS α} (hx : Grows body)
    (hf : ∀ e, Grows (handler e)) : Grows (JS.tryCatch body handler) := by
  intro w
  obtain ⟨ev1, ex1, ht1, hb1⟩ := hx w
  simp only [JS.tryCatch]
  cases hr : body w with
  | ok a w1 => rw [hr] at ht1 hb1; exact ⟨ev1, ex1, ht1, hb1⟩
  | err e w1 =>
    rw [hr] at ht1 hb1
    obtain ⟨ev2, ex2, ht2, hb2⟩ := hf e w1
    refine ⟨ev1 ++ ev2, ex1 ++ ex2, ?_, ?_⟩
    · simp only [Res.world] at ht1; rw [ht2, ht1, List.append_assoc]
    · simp only [Res.world] at hb1; rw [hb2, hb1, List.append_assoc]
  | pending w1 => rw [hr] at ht1 hb1; exact ⟨ev1, ex1, ht1, hb1⟩

theorem Grows.grows_ite {α : Type} {c : Prop} [Decidable c] {x y : JS α} (hx : Grows x)
    (hy : Grows y) : Grows (if c then x else y) := by
  split
  · exact hx
  · exact hy

theorem Grows.grows_ret {α : Type} (a : α) : Grows (JS.ret a) := Grows.of_same fun _ => ⟨rfl, rfl⟩

theorem Grows.grows_throw {α : Type} (e : JsError) : Grows (JS.throw e : JS α) :=
  Grows.of_same fun _ => ⟨rfl, rfl⟩

theorem Grows.grows_lift {α : Type} (r : Except JsError α) : Grows (JS.lift r) := by
  cases r with
  | ok a => exact Grows.grows_ret a
  | error e => exact Grows.grows_throw e

theorem Grows.grows_read : Grows JS.read := Grows.of_same fun _ => ⟨rfl, rfl⟩

theorem Grows.grows_emit (e : Event) : Grows (JS.emit e) := fun w => ⟨[e], [], rfl, by simp [JS.emit, JS.update, Res.world]⟩

theorem Grows.grows_update {f : World → World}
    (h : ∀ w, (f w).trace = w.trace ∧ (f w).relay.blobs = w.relay.blobs) :
    Grows (JS.update f) := Grows.of_same fun w => h w

theorem Grows.grows_uploadToIPFS (P : Platform) (data : String) : Grows (uploadToIPFS P data) := by
  intro w
  unfold P2PChat.uploadToIPFS
  by_cases hc : w.relay.client = false
  · exact ⟨[], [], by simp [hc, Res.world], by simp [hc, Res.world]⟩
  · by_cases hf : w.relay.nextFails = true
    · exact ⟨[.relayPut data, .consoleError "Error uploading to web3.storage:" .ipfsUpload], [],
        by simp [hc, hf, Res.world], by simp [hc, hf, Res.world]⟩
    · exact ⟨[.relayPut data], [data], by simp [hc, hf, Res.world], by simp [hc, hf, Res.world]⟩

theorem Grows.grows_downloadFromIPFS (P : Platform) (cid : JsVal) :
    Grows (downloadFromIPFS P cid) := by
  intro w
  unfold P2PChat.downloadFromIPFS
  by_cases hf : w.relay.nextFails = true
  · exact ⟨[.relayGet cid.toText, .consoleError "Error downloading from IPFS" .ipfsFetch], [],
      by simp [hf, Res.world], by simp [hf, Res.world]⟩
  · cases hl : w.relay.lookup P cid.toText with
    | none =>
      exact ⟨[.relayGet cid.toText, .consoleError "Error downloading from IPFS"
        (.ipfsDownloadFailed cid.toText)], [], by simp [hf, Res.world], by simp [hf, Res.world]⟩
    | some content =>
      exact ⟨[.relayGet cid.toText], [], by simp [hf, Res.world], by simp [hf, Res.world]⟩

theorem Grows.grows_encryptMessage (P : Platform) (message : String) :
    Grows (encryptMessage P message) := by
  apply Grows.of_same
  intro w
  rcases hcm : w.app.cryptoManager with _ | cm
  · simp [P2PChat.encryptMessage, hcm, Res.world]
  · rcases hk : cm.key with _ | key
    · simp [P2PChat.encryptMessage, hcm, hk, Res.world]
    · simp only [P2PChat.encryptMessage, hcm, hk, JS.bind_run, JS.andThen, getRandomValues,
        CryptoManager.encrypt]
      cases arrayBufferToBase64 (w.randomBytes 12 ++
        P.aesGcmEncrypt key (w.randomBytes 12) (P.textEncode message)) <;> exact ⟨rfl, rfl⟩

theorem Grows.grows_parseJson (P : Platform) (text : String) : Grows (parseJson P text) := by
  unfold P2PChat.parseJson
  cases P.jsonParse text with
  | none => exact Grows.grows_throw _
  | some v => exact Grows.grows_ret v

theorem Grows.grows_arrayPush (list item : JsVal) : Grows (arrayPush list item) := by
  unfold P2PChat.arrayPush
  cases list <;> first | exact Grows.grows_throw _ | exact Grows.grows_ret _

theorem Grows.grows_loadWorkerUrl : Grows StorageManager.loadWorkerUrl :=
  Grows.of_same fun _ => ⟨rfl, rfl⟩

theorem Grows.grows_nextPushOutcome : Grows nextPushOutcome := Grows.of_same fun _ => ⟨rfl, rfl⟩

theorem Grows.grows_sendNotification (subscription payload : JsVal) (url : String) :
    Grows (PushManager.sendNotification subscription payload url) := by
  unfold PushManager.sendNotification
  refine Grows.grows_tryCatch (Grows.grows_bind (Grows.grows_emit _) fun _ =>
    Grows.grows_bind Grows.grows_nextPushOutcome fun outcome => ?_) (fun e => Grows.grows_emit _)
  cases outcome with
  | reject => exact Grows.grows_throw _
  | response status => exact Grows.grows_ite (Grows.grows_ret _) (Grows.grows_throw _)

theorem Grows.grows_notifyPeer (payload : JsVal) (url : String) : Grows (notifyPeer payload url) := by
  intro w
  unfold P2PChat.notifyPeer
  cases w.app.pushManager with
  | none => exact ⟨[], [], by simp [Res.world], by simp [Res.world]⟩
  | some pm => exact Grows.grows_sendNotification _ _ _ w

theorem Grows.grows_sendOfflineMessage (P : Platform) (message : String) :
    Grows (sendOfflineMessage P message) := by
  unfold P2PChat.sendOfflineMessage
  refine Grows.grows_tryCatch ?_ (fun e => Grows.grows_emit _)
  refine Grows.grows_bind (Grows.grows_encryptMessage P message) fun _ =>
    Grows.grows_bind (Grows.grows_uploadToIPFS P _) fun _ =>
    Grows.grows_bind Grows.grows_read fun _ =>
    Grows.grows_bind (Grows.grows_downloadFromIPFS P _) fun _ =>
    Grows.grows_bind (Grows.grows_parseJson P _) fun _ =>
    Grows.grows_bind (Grows.grows_arrayPush _ _) fun _ =>
    Grows.grows_bind (Grows.grows_uploadToIPFS P _) fun _ =>
    Grows.grows_bind (Grows.grows_update fun _ => ⟨rfl, rfl⟩) fun _ =>
    Grows.grows_bind Grows.grows_loadWorkerUrl fun _ =>
    Grows.grows_ite (Grows.grows_emit _) (Grows.grows_notifyPeer _ _)

theorem receive_new_message_push (P : Platform) (cid : JsVal) (clientOpen : Bool) (w : World) :
    receiveActions P
      (notificationclick (.obj [("type", .str "new_message"), ("cid", cid)]) clientOpen) w
      = .ok () w := by
  cases clientOpen <;>
    simp [notificationclick, JsVal.truthy, JsVal.getProp, JsVal.isStr, receiveActions, JS.ret]

/-- Claim C1, on the code. Whatever peer A's `sendOfflineMessage` stores and pushes, peer B,
whose `myUnreadListCid` names the empty list it published, gets nothing: the service
worker forwards nothing of a `new_message` push to the page, and `checkUnreadMessages`
downloads the list under B's own unchanged `myUnreadListCid`, finds it empty, shows no
message and leaves `myUnreadListCid` as it was. -/
theorem offline_message_not_shown (P : Platform) (message : String) (peerA peerB : World)
    (clientOpen : Bool) (listText : String)
    (hshared : peerB.relay.blobs = peerA.relay.blobs)
    (hlist : peerB.relay.lookup P peerB.app.myUnreadListCid.toText = some listText)
    (hparse : P.jsonParse listText = some (.arr [])) :
    (offlineDelivery P message peerA peerB clientOpen).world.browser.messages
      = peerB.browser.messages ∧
    (offlineDelivery P message peerA peerB clientOpen).world.app.myUnreadListCid
      = peerB.app.myUnreadListCid := by
  obtain ⟨_, extra, _, hblobs⟩ := Grows.grows_sendOfflineMessage P message peerA
  have hlist2 : ({ peerB with relay := { peerB.relay with
      blobs := (sendOfflineMessage P message peerA).world.relay.blobs } } : World).relay.lookup P
        peerB.app.myUnreadListCid.toText = some listText :=
    lookup_append P peerB.relay _ _ _ extra hlist (by rw [hblobs, hshared])
  obtain ⟨events, hrun, _⟩ := checkUnreadMessages_empty_run P _ listText hlist2 hparse
  unfold offlineDelivery
  simp only []
  rw [JS.bind_ok (receive_new_message_push P _ clientOpen _), hrun]
  exact ⟨rfl, rfl⟩

/-! ## The claims on the sample platform -/

set_option maxRecDepth 1000000 in
/-- The hypotheses of `offline_message_not_shown` hold for two peers fresh from the
handshake, and there peer A's send of `hello` stores the message and a list naming it
while peer B's drain shows nothing. -/
theorem offline_message_not_shown_witness :
    (sendOfflineMessage Sample.platform "hello" Sample.peer).world.relay.blobs
      = ["[]", "AxQlNkdYaXqLnK2+9PH4+Puh", "[\"bafy7TGO\"]"] ∧
    (sendOfflineMessage Sample.platform "hello" Sample.peer).world.app.peerUnreadListCid.toText
      = Sample.cidOf "[\"bafy7TGO\"]" ∧
    CryptoManager.decrypt Sample.platform { key := some Sample.key } "AxQlNkdYaXqLnK2+9PH4+Puh"
      = .ok "hello" ∧
    (offlineDelivery Sample.platform "hello" Sample.peer Sample.peer true).world.browser.messages
      = some [] ∧
    (offlineDelivery Sample.platform "hello" Sample.peer Sample.peer true).world.app.myUnreadListCid
        = Sample.peer.app.myUnreadListCid :=
  ⟨by decide, by decide, by rfl,
    (offline_message_not_shown Sample.platform "hello" Sample.peer Sample.peer true "[]"
      rfl (by decide) (by rfl)).1,
    (offline_message_not_shown Sample.platform "hello" Sample.peer Sample.peer true "[]"
      rfl (by decide) (by rfl)).2⟩

set_option maxRecDepth 1000000 in
/-- The hypotheses of `sendOfflineMessage_appends_one` hold on the sample peer. -/
theorem sendOfflineMessage_appends_one_witness :
    Sample.peer.relay.quietFor 3 ∧
    ∃ blob,
      CryptoManager.encrypt Sample.platform { key := some Sample.key }
        (Sample.peer.randomBytes 12) "hello" = .ok blob ∧
      (sendOfflineMessage Sample.platform "hello" Sample.peer).world.app.peerUnreadListCid
        = .str (Sample.platform.cidOf
            (Sample.platform.jsonStringify (.arr ([] ++ [.str (Sample.platform.cidOf blob)])))) ∧
      (sendOfflineMessage Sample.platform "hello" Sample.peer).world.relay.blobs
        = Sample.peer.relay.blobs ++
          [blob, Sample.platform.jsonStringify (.arr ([] ++ [.str (Sample.platform.cidOf blob)]))] :=
  ⟨by decide,
    sendOfflineMessage_appends_one Sample.platform Sample.peer "hello"
      { key := some Sample.key } Sample.key "[]" [] rfl rfl rfl (by decide) (by decide) (by rfl)⟩

set_option maxRecDepth 1000000 in
/-- Claim C3 fails on the code. An unread list of three entries, the first and the third
sound and the second corrupt: `checkUnreadMessages` shows the first message only, no
marker and not the third message, and `myUnreadListCid` still names the same list. -/
theorem corrupt_entry_blocks_the_rest :
    Sample.platform.jsonParse Sample.inboxText
      = some (.arr [.str (Sample.cidOf (Sample.blobOf "one")), .str (Sample.cidOf "garbage!"),
          .str (Sample.cidOf (Sample.blobOf "three"))]) ∧
    Delivers Sample.platform { key := some Sample.key } Sample.peerWithInbox.relay
      (.str (Sample.cidOf (Sample.blobOf "one"))) "one" ∧
    Corrupt Sample.platform { key := some Sample.key } Sample.peerWithInbox.relay
      (.str (Sample.cidOf "garbage!")) .invalidCharacter ∧
    Delivers Sample.platform { key := some Sample.key } Sample.peerWithInbox.relay
      (.str (Sample.cidOf (Sample.blobOf "three"))) "three" ∧
    (checkUnreadMessages Sample.platform Sample.peerWithInbox).world.browser.messages
      = some ["Peer: one"] ∧
    (checkUnreadMessages Sample.platform Sample.peerWithInbox).world.app.myUnreadListCid.toText
      = Sample.cidOf Sample.inboxText :=
  ⟨by rfl, ⟨Sample.blobOf "one", by decide, by rfl⟩, ⟨"garbage!", by decide, by rfl⟩,
    ⟨Sample.blobOf "three", by decide, by rfl⟩, by decide, by decide⟩

set_option maxRecDepth 1000000 in
/-- The hypotheses of `checkUnreadMessages_stops_at_corrupt` hold on the sample inbox. -/
theorem checkUnreadMessages_stops_at_corrupt_witness :
    Sample.peerWithInbox.relay.quietFor (1 + 1 + 1) ∧
    ∃ w1, checkUnreadMessages Sample.platform Sample.peerWithInbox = .ok () w1 ∧
      w1.browser.messages = some ([] ++ ["one"].map peerLine) ∧
      w1.app = Sample.peerWithInbox.app ∧ w1.relay.blobs = Sample.peerWithInbox.relay.blobs ∧
      w1.trace = Sample.peerWithInbox.trace
        ++ [Event.relayGet Sample.peerWithInbox.app.myUnreadListCid.toText]
        ++ ([JsVal.str (Sample.cidOf (Sample.blobOf "one"))]
            ++ [JsVal.str (Sample.cidOf "garbage!")]).map (fun c => Event.relayGet c.toText)
        ++ [Event.consoleError "Failed to check unread messages:" .invalidCharacter] :=
  ⟨by decide,
    checkUnreadMessages_stops_at_corrupt Sample.platform Sample.peerWithInbox
      { key := some Sample.key } Sample.inboxText
      [.str (Sample.cidOf (Sample.blobOf "one"))] [.str (Sample.cidOf (Sample.blobOf "three"))]
      (.str (Sample.cidOf "garbage!")) .invalidCharacter ["one"] [] rfl rfl (by decide)
      (by decide) (by rfl)
      (.cons ⟨Sample.blobOf "one", by decide, by rfl⟩ .nil)
      ⟨"garbage!", by decide, by rfl⟩⟩

set_option maxRecDepth 1000000 in
/-- The hypotheses of `checkUnreadMessages_delivers_in_order` hold on the sample mail. -/
theorem checkUnreadMessages_delivers_in_order_witness :
    Sample.peerWithMail.relay.quietFor (1 + 2 + 1) ∧
    ∃ w1, checkUnreadMessages Sample.platform Sample.peerWithMail = .ok () w1 ∧
      w1.browser.messages = some ([] ++ ["one", "two"].map peerLine) ∧
      w1.app.myUnreadListCid
        = .str (Sample.platform.cidOf (Sample.platform.jsonStringify (.arr []))) ∧
      w1.relay.blobs = Sample.peerWithMail.relay.blobs ++ [Sample.platform.jsonStringify (.arr [])] :=
  ⟨by decide,
    checkUnreadMessages_delivers_in_order Sample.platform Sample.peerWithMail
      { key := some Sample.key } Sample.mailText
      [.str (Sample.cidOf (Sample.blobOf "one")), .str (Sample.cidOf (Sample.blobOf "two"))]
      ["one", "two"] [] rfl rfl rfl (by decide) (by decide) (by rfl) (by simp)
      (.cons ⟨Sample.blobOf "one", by decide, by rfl⟩
        (.cons ⟨Sample.blobOf "two", by decide, by rfl⟩ .nil))⟩

set_option maxRecDepth 1000000 in
/-- The hypotheses of `checkUnreadMessages_empty_noop` hold on the sample peer. -/
theorem checkUnreadMessages_empty_noop_witness :
    Sample.peer.relay.lookup Sample.platform Sample.peer.app.myUnreadListCid.toText = some "[]" ∧
    (checkUnreadMessages Sample.platform Sample.peer).world.browser.messages
      = Sample.peer.browser.messages ∧
    (checkUnreadMessages Sample.platform Sample.peer).world.relay.blobs = Sample.peer.relay.blobs ∧
    (checkUnreadMessages Sample.platform Sample.peer).world.app = Sample.peer.app ∧
    ∃ events, (checkUnreadMessages Sample.platform Sample.peer).world.trace
        = Sample.peer.trace ++ events ∧
      ∀ data, Event.relayPut data ∉ events :=
  ⟨by decide,
    checkUnreadMessages_empty_noop Sample.platform Sample.peer "[]" (by decide) (by rfl)⟩

set_option maxRecDepth 1000000 in
/-- The plaintext U+FEFF `hello` on the sample platform: its UTF-8 bytes are the byte order
mark and the bytes of `hello`, and `decrypt` returns `hello` for the blob `encrypt` made of
it, a text other than the plaintext. -/
theorem decrypt_drops_byte_order_mark_witness :
    ([9, 8, 7, 6, 5, 4, 3, 2, 1, 0, 1, 2] : List Byte).length = 12 ∧
    Sample.platform.textEncode Sample.marked = utf8Bom ++ Sample.platform.textEncode "hello" ∧
    Sample.marked ≠ "hello" ∧
    ∃ blob, CryptoManager.encrypt Sample.platform ⟨some Sample.key⟩
        [9, 8, 7, 6, 5, 4, 3, 2, 1, 0, 1, 2] Sample.marked = .ok blob ∧
      CryptoManager.decrypt Sample.platform ⟨some Sample.key⟩ blob = .ok "hello" := by
  obtain ⟨blob, henc, _, _, hbom, _⟩ :=
    decrypt_drops_byte_order_mark Sample.platform Sample.key
      [9, 8, 7, 6, 5, 4, 3, 2, 1, 0, 1, 2] Sample.marked (by decide) (by decide)
  refine ⟨by decide, by decide, by decide, blob, henc, ?_⟩
  rw [hbom (Sample.platform.textEncode "hello") (by decide)]
  exact congrArg Except.ok (by decide)

set_option maxRecDepth 1000000 in
/-- The hypotheses of `encrypt_differs_with_iv` hold for two IVs that differ in the last
byte. -/
theorem encrypt_differs_with_iv_witness :
    ([9, 8, 7, 6, 5, 4, 3, 2, 1, 0, 1, 2] : List Byte) ≠ [9, 8, 7, 6, 5, 4, 3, 2, 1, 0, 1, 3] ∧
    (CryptoManager.encrypt Sample.platform ⟨some Sample.key⟩
        [9, 8, 7, 6, 5, 4, 3, 2, 1, 0, 1, 2] "hello"
      ≠ CryptoManager.encrypt Sample.platform ⟨some Sample.key⟩
        [9, 8, 7, 6, 5, 4, 3, 2, 1, 0, 1, 3] "hello" ∧
    ∃ blob bytes, CryptoManager.encrypt Sample.platform ⟨some Sample.key⟩
        [9, 8, 7, 6, 5, 4, 3, 2, 1, 0, 1, 2] "hello" = .ok blob ∧
      base64ToArrayBuffer blob = .ok bytes ∧
      bytes.take 12 = [9, 8, 7, 6, 5, 4, 3, 2, 1, 0, 1, 2]) :=
  ⟨by decide,
    encrypt_differs_with_iv Sample.platform Sample.key [9, 8, 7, 6, 5, 4, 3, 2, 1, 0, 1, 2]
      [9, 8, 7, 6, 5, 4, 3, 2, 1, 0, 1, 3] "hello" (by decide) (by decide) (by decide)⟩

set_option maxRecDepth 1000000 in
/-- The hypotheses of `handleScannedData_rejects_other_type` hold for an answer envelope
scanned while an offer is expected. -/
theorem handleScannedData_rejects_other_type_witness :
    handleScannedData Sample.platform "\x7b\"type\":\"answer\",\"cid\":\"x\"\x7d" "offer"
        Sample.peer
      = .ok () { Sample.peer with trace := Sample.peer.trace ++
        [.consoleError "Error handling scanned data:"
            (.unexpectedQrType "offer" (JsVal.str "answer").toText),
          .alert "Failed to handle invitation. Please try again."] } :=
  handleScannedData_rejects_other_type Sample.platform Sample.peer
    "\x7b\"type\":\"answer\",\"cid\":\"x\"\x7d" "offer"
    (.obj [("type", .str "answer"), ("cid", .str "x")]) (.str "answer") (by rfl) (by rfl)
    (by decide)

set_option maxRecDepth 1000000 in
/-- Claim C9 fails on the code. A restart offer reaches a side that is the offerer:
`handleIceRestartOffer` downloads the blob the envelope names and applies it to the
peer connection as the remote description, then answers. -/
theorem restart_offer_applied_by_offerer :
    (Sample.offerer.app.webRtcManager.map (fun m => m.isOfferer)) = some true ∧
    (onServiceWorkerMessage Sample.platform Sample.restartOfferMessage Sample.offerer).world.trace
      = [Event.relayGet (Sample.cidOf Sample.restartOfferText),
          Event.rtcCall "setRemoteDescription"
            (.obj [("type", .str "offer"), ("sdp", .str "restart")]),
          Event.rtcCall "createAnswer" .undefined,
          Event.rtcCall "setLocalDescription"
            (.obj [("type", .str "answer"), ("sdp", .str "reply")]),
          Event.relayPut (Sample.stringify (.obj [("type", .str "answer"), ("sdp", .str "reply")])),
          Event.pushPost "https://push.example/send"
            (.obj [("endpoint", .str "https://push.example/peer")])
            (.obj [("type", .str "ice_restart_answer"),
              ("cid", .str (Sample.cidOf
                (Sample.stringify (.obj [("type", .str "answer"), ("sdp", .str "reply")]))))])] :=
  ⟨by rfl, by rfl⟩

set_option maxRecDepth 1000000 in
/-- The hypothesis of `restart_only_when_failed_and_offerer` holds for the sample offerer,
whose connection has failed: there the handler does call `createOffer` with `iceRestart`. -/
theorem restart_only_when_failed_and_offerer_witness :
    (WebRTCManager.onconnectionstatechange Sample.platform Sample.offerer).world.trace.take 1
      = [Event.rtcCall "createOffer" (.bool true)] ∧
    (¬ (Sample.offererManager.peerConnection.native.connectionState = "failed" ∧
        Sample.offererManager.isOfferer = true) →
      WebRTCManager.onconnectionstatechange Sample.platform Sample.offerer
        = .ok () Sample.offerer) ∧
    ((∃ arg, Event.rtcCall "createOffer" arg ∈
        ((WebRTCManager.onconnectionstatechange Sample.platform Sample.offerer).world.trace.drop
          Sample.offerer.trace.length)) →
      Sample.offererManager.peerConnection.native.connectionState = "failed" ∧
        Sample.offererManager.isOfferer = true) :=
  ⟨by rfl,
    restart_only_when_failed_and_offerer Sample.platform Sample.offerer Sample.offererManager rfl⟩

/-! ## The key sequence -/

theorem afterKeys_snoc (P : Platform) (w : World) (keys : List String) (key : String) :
    afterKeys P w (keys ++ [key]) = keyDown P (afterKeys P w keys) key := by
  simp [afterKeys, List.foldl_append]

theorem afterKeys_append (P : Platform) (w : World) (xs ys : List String) :
    afterKeys P w (xs ++ ys) = ys.foldl (keyDown P) (afterKeys P w xs) := by
  simp [afterKeys, List.foldl_append]

theorem keyDown_index (P : Platform) (state : Nat × World) (key : String) :
    (keyDown P state key).1 = (onKeyDown P state.1 key state.2).1 := by
  unfold keyDown
  rcases h : onKeyDown P state.1 key state.2 with ⟨index, _ | run⟩ <;> rfl

theorem keyDown_quiet (P : Platform) (state : Nat × World) (key : String)
    (h : (onKeyDown P state.1 key state.2).2 = none) : (keyDown P state key).2 = state.2 := by
  unfold keyDown
  rcases hr : onKeyDown P state.1 key state.2 with ⟨index, _ | run⟩
  · rfl
  · rw [hr] at h; cases h

theorem onKeyDown_matched (P : Platform) (index : Nat) (key : String) (w : World) :
    (onKeyDown P index key w).1 ≤ 10 ∧
    ((onKeyDown P index key w).1 ≠ 0 →
      konamiCode[index]? = some key ∧ (onKeyDown P index key w).1 = index + 1) ∧
    ((onKeyDown P index key w).2.isSome = true → konamiCode[index]? = some key ∧ index = 9) := by
  unfold onKeyDown
  by_cases hk : some key = konamiCode[index]?
  · have hlt : index < 10 := by
      by_contra hge
      have hnone : konamiCode[index]? = none :=
        List.getElem?_eq_none (by simp only [konamiCode, List.length]; omega)
      rw [hnone] at hk
      cases hk
    by_cases h9 : index + 1 = konamiCode.length
    · have hi : index = 9 := by simp [konamiCode] at h9; omega
      rw [if_pos hk, if_pos h9]
      cases activateChat P w with
      | ok held w1 => exact ⟨Nat.zero_le _, fun h => absurd rfl h, fun _ => ⟨hk.symm, hi⟩⟩
      | err e w1 =>
        exact ⟨by show index + 1 ≤ 10; omega, fun _ => ⟨hk.symm, rfl⟩, fun _ => ⟨hk.symm, hi⟩⟩
      | pending w1 =>
        exact ⟨by show index + 1 ≤ 10; omega, fun _ => ⟨hk.symm, rfl⟩, fun _ => ⟨hk.symm, hi⟩⟩
    · rw [if_pos hk, if_neg h9]
      exact ⟨by show index + 1 ≤ 10; omega, fun _ => ⟨hk.symm, rfl⟩,
        fun h => absurd h (by simp)⟩
  · rw [if_neg hk]
    exact ⟨Nat.zero_le _, fun h => absurd rfl h, fun h => absurd h (by simp)⟩

theorem indexAfter_tracks (P : Platform) (w : World) (keys : List String) :
    indexAfter P w keys ≤ 10 ∧
      ∃ before, keys = before ++ konamiCode.take (indexAfter P w keys) := by
  induction keys using List.reverseRecOn with
  | nil => exact ⟨Nat.zero_le _, [], by simp [indexAfter, afterKeys]⟩
  | append_singleton keys key ih =>
    obtain ⟨_, before, hbefore⟩ := ih
    obtain ⟨h1, h2, _⟩ := onKeyDown_matched P (afterKeys P w keys).1 key (afterKeys P w keys).2
    have hstep : indexAfter P w (keys ++ [key])
        = (onKeyDown P (afterKeys P w keys).1 key (afterKeys P w keys).2).1 := by
      rw [indexAfter, afterKeys_snoc, keyDown_index]
    rw [hstep]
    refine ⟨h1, ?_⟩
    by_cases h0 : (onKeyDown P (afterKeys P w keys).1 key (afterKeys P w keys).2).1 = 0
    · exact ⟨keys ++ [key], by simp [h0]⟩
    · obtain ⟨hk, hnext⟩ := h2 h0
      refine ⟨before, ?_⟩
      rw [hnext, List.take_succ, hk]
      simp only [Option.toList]
      rw [← List.append_assoc]
      exact congrArg (· ++ [key]) hbefore

theorem activation_only_after_konami (P : Platform) (w : World) (keys : List String)
    (key : String) (hact : activatesAfter P w keys key = true) :
    ∃ before, keys ++ [key] = before ++ konamiCode := by
  obtain ⟨_, before, hbefore⟩ := indexAfter_tracks P w keys
  obtain ⟨_, _, h3⟩ := onKeyDown_matched P (afterKeys P w keys).1 key (afterKeys P w keys).2
  obtain ⟨hk, h9⟩ := h3 hact
  refine ⟨before, ?_⟩
  have h9a : indexAfter P w keys = 9 := h9
  rw [h9a] at hbefore
  rw [h9] at hk
  have hkey : key = "a" := by
    have : konamiCode[9]? = some "a" := by decide
    rw [this] at hk
    exact (Option.some.inj hk).symm
  rw [hbefore, hkey, List.append_assoc]
  rfl

theorem nine_keys (P : Platform) (v : World) :
    (konamiCode.take 9).foldl (keyDown P) (0, v) = (9, v) := by
  simp [konamiCode, keyDown, onKeyDown]

theorem tenth_key (P : Platform) (v : World) :
    onKeyDown P 9 "a" v
      = match activateChat P v with
        | .ok held w1 => (0, some (.ok held w1))
        | .err e w1 => (10, some (.err e w1))
        | .pending w1 => (10, some (.pending w1)) := by
  simp [onKeyDown, konamiCode]

/-- Claim C24, as the code has it. When a sequence of key events has left `index` at 0, as
at the start or right after a key that broke the sequence, the ten Konami keys in order
make `onKeyDown` call `activateChat` on the tenth key.  When that call returns, `index`
is put back to 0; when it throws, the statement `index = 0` after it is not reached and
`index` is left at 10. -/
theorem konami_from_index_zero (P : Platform) (w : World) (keys : List String)
    (h0 : indexAfter P w keys = 0) :
    activatesAfter P w (keys ++ konamiCode.take 9) "a" = true ∧
    (∀ held v, activateChat P (afterKeys P w keys).2 = .ok held v →
      afterKeys P w (keys ++ konamiCode) = (0, v)) ∧
    ((∀ held v, activateChat P (afterKeys P w keys).2 ≠ .ok held v) →
      afterKeys P w (keys ++ konamiCode)
        = (10, (activateChat P (afterKeys P w keys).2).world)) := by
  have hstate : afterKeys P w keys = (0, (afterKeys P w keys).2) := by
    apply Prod.ext
    · exact h0
    · rfl
  have hnine : afterKeys P w (keys ++ konamiCode.take 9) = (9, (afterKeys P w keys).2) := by
    rw [afterKeys_append, hstate]
    exact nine_keys P _
  have hten : afterKeys P w (keys ++ konamiCode)
      = keyDown P (9, (afterKeys P w keys).2) "a" := by
    have hsplit : keys ++ konamiCode = (keys ++ konamiCode.take 9) ++ ["a"] := by
      simp [konamiCode]
    rw [hsplit, afterKeys_snoc, hnine]
  refine ⟨?_, fun held v hok => ?_, fun hraise => ?_⟩
  · unfold activatesAfter
    rw [hnine, tenth_key]
    cases activateChat P (afterKeys P w keys).2 <;> rfl
  · rw [hten]
    unfold keyDown
    rw [tenth_key, hok]
    rfl
  · rw [hten]
    unfold keyDown
    rw [tenth_key]
    cases hr : activateChat P (afterKeys P w keys).2 with
    | ok held v => exact absurd hr (hraise held v)
    | err e v => rfl
    | pending v => rfl

/-- Claim C24 fails on the code. Three `ArrowUp` and then the rest of the sequence: the ten
most recent keys are the Konami sequence, yet the tenth calls nothing, because the
third `ArrowUp` put `index` back to 0 without being counted as a first key. -/
theorem konami_after_arrow_up_missed :
    (["ArrowUp", "ArrowUp", "ArrowUp", "ArrowDown", "ArrowDown", "ArrowLeft", "ArrowRight",
        "ArrowLeft", "ArrowRight", "b"] ++ ["a"]
      = ["ArrowUp"] ++ konamiCode) ∧
    activatesAfter Sample.platform Sample.returning ["ArrowUp", "ArrowUp", "ArrowUp",
      "ArrowDown", "ArrowDown", "ArrowLeft", "ArrowRight", "ArrowLeft", "ArrowRight", "b"] "a"
        = false := by
  decide

set_option maxRecDepth 1000000 in
/-- The hypothesis of `konami_from_index_zero` holds after a key that is no part of the
sequence.  On the sample tab with a saved session `activateChat` returns, having shown the
password page, and `index` is back at 0. -/
theorem konami_from_index_zero_witness :
    indexAfter Sample.platform Sample.returning ["x"] = 0 ∧
    activatesAfter Sample.platform Sample.returning (["x"] ++ konamiCode.take 9) "a" = true ∧
    afterKeys Sample.platform Sample.returning (["x"] ++ konamiCode)
      = (0, (activateChat Sample.platform Sample.returning).world) := by
  have h := konami_from_index_zero Sample.platform Sample.returning ["x"] (by decide)
  exact ⟨by decide, h.1,
    h.2.1 (some Sample.sessionRecord) (activateChat Sample.platform Sample.returning).world
      (by rfl)⟩

/-- Claim C26, on the code. Take key events that have left `index` at 9, the first nine keys
of the sequence matched, and a tab on which `activateChat` does not return, as on a first
visit, where it throws.  The key `a` calls `activateChat` and `index` is left at 10,
outside 0..9; the key after that, whatever it is, is compared with `konamiCode[10]`,
calls nothing and puts `index` back to 0. -/
theorem failed_activation_leaves_index (P : Platform) (w : World) (keys : List String)
    (h9 : indexAfter P w keys = 9)
    (hraise : ∀ held v, activateChat P (afterKeys P w keys).2 ≠ .ok held v) :
    activatesAfter P w keys "a" = true ∧
    indexAfter P w (keys ++ ["a"]) = 10 ∧
    ∀ key, activatesAfter P w (keys ++ ["a"]) key = false ∧
      indexAfter P w (keys ++ ["a"] ++ [key]) = 0 := by
  have hstate : afterKeys P w keys = (9, (afterKeys P w keys).2) := by
    apply Prod.ext
    · exact h9
    · rfl
  have hten : afterKeys P w (keys ++ ["a"])
      = (10, (activateChat P (afterKeys P w keys).2).world) := by
    rw [afterKeys_snoc, hstate]
    unfold keyDown
    rw [tenth_key]
    cases hr : activateChat P (afterKeys P w keys).2 with
    | ok held v => exact absurd hr (hraise held v)
    | err e v => rfl
    | pending v => rfl
  refine ⟨?_, ?_, fun key => ⟨?_, ?_⟩⟩
  · unfold activatesAfter
    rw [hstate, tenth_key]
    cases activateChat P (afterKeys P w keys).2 <;> rfl
  · rw [indexAfter, hten]
  · unfold activatesAfter
    rw [hten]
    rfl
  · rw [indexAfter, afterKeys_snoc, hten]
    rfl

set_option maxRecDepth 1000000 in
/-- The hypotheses of `failed_activation_leaves_index` hold on the sample tab of a first
visit after the first nine keys: the user types the token at the prompt, `activateChat`
saves it and throws on the status line the page does not have, and `index` is 10. -/
theorem failed_activation_leaves_index_witness :
    indexAfter Sample.platform Sample.firstVisit (konamiCode.take 9) = 9 ∧
    activateChat Sample.platform Sample.firstVisit
      = .err (.typeError "textContent") (activateChat Sample.platform Sample.firstVisit).world ∧
    activatesAfter Sample.platform Sample.firstVisit (konamiCode.take 9) "a" = true ∧
    indexAfter Sample.platform Sample.firstVisit (konamiCode.take 9 ++ ["a"]) = 10 ∧
    ∀ key, activatesAfter Sample.platform Sample.firstVisit (konamiCode.take 9 ++ ["a"]) key
        = false ∧
      indexAfter Sample.platform Sample.firstVisit (konamiCode.take 9 ++ ["a"] ++ [key]) = 0 := by
  have hrun : activateChat Sample.platform Sample.firstVisit
      = .err (.typeError "textContent") (activateChat Sample.platform Sample.firstVisit).world := by
    rfl
  exact ⟨by decide, hrun,
    failed_activation_leaves_index Sample.platform Sample.firstVisit (konamiCode.take 9)
      (by decide) (fun held v h => by
        have h2 : activateChat Sample.platform (afterKeys Sample.platform Sample.firstVisit
            (konamiCode.take 9)).2 = activateChat Sample.platform Sample.firstVisit := by rfl
        rw [h2, hrun] at h
        cases h)⟩

/-! ## The push worker -/

/-- Claim C21, as the code has it. The response of the push worker. `OPTIONS` gives 204
and any other method but `POST` gives 405; a `POST` whose body parses to a value other
than `null` and has no `subscription`, or a subscription without `endpoint`, gives 400; a
`POST` whose body is the JSON `null` gives 500; in these cases `webpush.sendNotification`
is not called. A `POST` with a subscription that has an endpoint makes the one push call
and gives 200 when the push succeeds, 500 when it fails without a status code, and the
status code of the push service when it fails with one that a response with a body can
carry: one in 200..599 other than 204, 205 and 304. For any other status code the
constructor of the response throws and the worker returns no response. -/
theorem worker_response_contract (P : Platform) (push : PushResult) (request : Request) :
    (request.method = "OPTIONS" →
      workerFetch P push request = { status := some 204, pushes := [] }) ∧
    (request.method ≠ "OPTIONS" → request.method ≠ "POST" →
      workerFetch P push request = { status := some 405, pushes := [] }) ∧
    (request.method = "POST" → P.jsonParse request.body = some .null →
      workerFetch P push request = { status := some 500, pushes := [] }) ∧
    (request.method = "POST" → ∀ parsed subscription payload,
      P.jsonParse request.body = some parsed →
      parsed.getProp "subscription" = .ok subscription →
      parsed.getProp "payload" = .ok payload →
      ((subscription.truthy = false ∨
          ∃ endpoint, subscription.getProp "endpoint" = .ok endpoint ∧ endpoint.truthy = false) →
        workerFetch P push request = { status := some 400, pushes := [] }) ∧
      (subscription.truthy = true →
        (∃ endpoint, subscription.getProp "endpoint" = .ok endpoint ∧ endpoint.truthy = true) →
        (workerFetch P push request).pushes = [(subscription, P.jsonStringify payload)] ∧
        (push = .sent → (workerFetch P push request).status = some 200) ∧
        (∀ code, push = .failed (some code) → 200 ≤ code → code ≤ 599 →
          code ≠ 204 → code ≠ 205 → code ≠ 304 →
          (workerFetch P push request).status = some code) ∧
        (∀ code, push = .failed (some code) → code ≠ 0 →
          (code < 200 ∨ 599 < code ∨ code = 204 ∨ code = 205 ∨ code = 304) →
          (workerFetch P push request).status = none) ∧
        (push = .failed none → (workerFetch P push request).status = some 500))) := by
  refine ⟨?_, ?_, ?_, ?_⟩
  · intro h
    simp [workerFetch, h, responseStatus, nullBodyStatus]
  · intro h1 h2
    simp [workerFetch, h1, h2, responseStatus, nullBodyStatus]
  · intro hpost hnull
    have hno : ¬ (request.method = "OPTIONS") := by rw [hpost]; decide
    simp [workerFetch, hno, hpost, hnull, JsVal.getProp, responseStatus, nullBodyStatus]
  · intro hpost parsed subscription payload hparse hsub hpay
    have hno : ¬ (request.method = "OPTIONS") := by rw [hpost]; decide
    refine ⟨?_, ?_⟩
    · rintro (hfalse | ⟨endpoint, hep, hfalse⟩)
      · simp [workerFetch, hno, hpost, hparse, hsub, hpay, hfalse, responseStatus,
          nullBodyStatus]
      · simp [workerFetch, hno, hpost, hparse, hsub, hpay, hep, hfalse, responseStatus,
          nullBodyStatus, Except.toOption]
    · rintro htrue ⟨endpoint, hep, heptrue⟩
      refine ⟨?_, ?_, ?_, ?_, ?_⟩
      · cases push <;>
          simp [workerFetch, hno, hpost, hparse, hsub, hpay, hep, htrue, heptrue, Except.toOption]
      · intro hpush
        simp [workerFetch, hno, hpost, hparse, hsub, hpay, hep, htrue, heptrue, Except.toOption,
          hpush, responseStatus, nullBodyStatus]
      · intro code hpush hlo hhi h204 h205 h304
        have hne : code ≠ 0 := by omega
        simp [workerFetch, hno, hpost, hparse, hsub, hpay, hep, htrue, heptrue, Except.toOption,
          hpush, responseStatus, nullBodyStatus, hne, hlo, hhi, h204, h205, h304]
      · intro code hpush hne hbad
        have hstatus : responseStatus true code = none := by
          unfold responseStatus nullBodyStatus
          rw [if_neg]
          rintro ⟨hlo, hhi, hnot⟩
          rcases hbad with h | h | h | h | h
          · omega
          · omega
          · exact hnot ⟨rfl, by simp [h]⟩
          · exact hnot ⟨rfl, by simp [h]⟩
          · exact hnot ⟨rfl, by simp [h]⟩
        simp [workerFetch, hno, hpost, hparse, hsub, hpay, hep, htrue, heptrue, Except.toOption,
          hpush, hne, hstatus]
      · intro hpush
        simp [workerFetch, hno, hpost, hparse, hsub, hpay, hep, htrue, heptrue, Except.toOption,
          hpush, responseStatus, nullBodyStatus]

set_option maxRecDepth 1000000 in
/-- Claim C21 fails on the code. A `POST` whose body is the JSON `null`, a body without a
subscription, is answered with 500 and not with 400, because the destructuring of `null`
throws inside the `try`; and when the push fails with the status code 304 the worker
returns no response, because the constructor of a response refuses a body with that
status. -/
theorem worker_misses_null_and_bodiless_status :
    Sample.platform.jsonParse "null" = some .null ∧
    workerFetch Sample.platform .sent { method := "POST", body := "null" }
      = { status := some 500, pushes := [] } ∧
    (workerFetch Sample.platform (.failed (some 304))
      { method := "POST",
        body := "\x7b\"subscription\":\x7b\"endpoint\":\"e\"\x7d,\"payload\":\"p\"\x7d" }).status
      = none ∧
    (workerFetch Sample.platform (.failed (some 304))
      { method := "POST",
        body := "\x7b\"subscription\":\x7b\"endpoint\":\"e\"\x7d,\"payload\":\"p\"\x7d" }).pushes
      = [(.obj [("endpoint", .str "e")], Sample.stringify (.str "p"))] :=
  ⟨by rfl, by rfl, by rfl, by rfl⟩

set_option maxRecDepth 1000000 in
/-- The cases of `worker_response_contract` on the sample platform: a `POST` with a
subscription that has an endpoint is pushed and answered with 200, or with the 410 of
the push service. -/
theorem worker_response_contract_witness :
    (workerFetch Sample.platform .sent
      { method := "POST",
        body := "\x7b\"subscription\":\x7b\"endpoint\":\"e\"\x7d,\"payload\":\"p\"\x7d" }).status
      = some 200 ∧
    (workerFetch Sample.platform (.failed (some 410))
      { method := "POST",
        body := "\x7b\"subscription\":\x7b\"endpoint\":\"e\"\x7d,\"payload\":\"p\"\x7d" }).status
      = some 410 :=
  ⟨((((worker_response_contract Sample.platform .sent
      { method := "POST",
        body := "\x7b\"subscription\":\x7b\"endpoint\":\"e\"\x7d,\"payload\":\"p\"\x7d" }).2.2.2
      rfl (.obj [("subscription", .obj [("endpoint", .str "e")]), ("payload", .str "p")])
      (.obj [("endpoint", .str "e")]) (.str "p") (by rfl) (by rfl) (by rfl)).2 (by rfl)
      ⟨.str "e", by rfl, by decide⟩).2.1) rfl,
   ((((worker_response_contract Sample.platform (.failed (some 410))
      { method := "POST",
        body := "\x7b\"subscription\":\x7b\"endpoint\":\"e\"\x7d,\"payload\":\"p\"\x7d" }).2.2.2
      rfl (.obj [("subscription", .obj [("endpoint", .str "e")]), ("payload", .str "p")])
      (.obj [("endpoint", .str "e")]) (.str "p") (by rfl) (by rfl) (by rfl)).2 (by rfl)
      ⟨.str "e", by rfl, by decide⟩).2.2.1) 410 rfl (by decide) (by decide) (by decide)
      (by decide) (by decide)⟩

/-! ## The persisted session -/

theorem lookup_filter_ne (items : List (String × String)) (key other : String)
    (h : other ≠ key) :
    (items.filter (fun kv => decide (kv.1 ≠ other))).lookup key = items.lookup key := by
  induction items with
  | nil => rfl
  | cons kv rest ih =>
    obtain ⟨k, v⟩ := kv
    rw [List.filter_cons]
    by_cases hk : k = other
    · have hkey : (key == k) = false := by
        rw [hk]; simpa using fun h2 => h h2.symm
      have hd : decide ((k, v).1 ≠ other) = false := by simp [hk]
      rw [if_neg (by rw [hd]; simp), ih, List.lookup, hkey]
    · have hd : decide ((k, v).1 ≠ other) = true := by simp [hk]
      rw [if_pos hd]
      by_cases hkk : (key == k) = true
      · simp only [List.lookup, hkk]
      · have hkey : (key == k) = false := by simpa using hkk
        simp only [List.lookup, hkey, ih]

theorem lookup_filter_self (items : List (String × String)) (key : String) :
    (items.filter (fun kv => decide (kv.1 ≠ key))).lookup key = none := by
  induction items with
  | nil => rfl
  | cons kv rest ih =>
    obtain ⟨k, v⟩ := kv
    rw [List.filter_cons]
    by_cases hk : k = key
    · have hd : decide ((k, v).1 ≠ key) = false := by simp [hk]
      rw [if_neg (by rw [hd]; simp), ih]
    · have hd : decide ((k, v).1 ≠ key) = true := by simp [hk]
      have hkey : (key == k) = false := by simpa using fun h2 => hk h2.symm
      rw [if_pos hd, List.lookup, hkey, ih]

theorem loadSession_of_lookup (P : Platform) (w : World) :
    (w.browser.localStorage.lookup SESSION_STORAGE_KEY = none →
      StorageManager.loadSession P w = .ok .null w) ∧
    (∀ text v, w.browser.localStorage.lookup SESSION_STORAGE_KEY = some text → text ≠ "" →
      P.jsonParse text = some v → StorageManager.loadSession P w = .ok v w) := by
  constructor
  · intro h
    simp [StorageManager.loadSession, JS.tryCatch, JS.andThen, getItem, h, falsyItem, JS.ret]
  · intro text v h hne hparse
    simp [StorageManager.loadSession, JS.tryCatch, JS.andThen, getItem, h, falsyItem, hne,
      parseJson, hparse, JS.ret]

theorem loadSession_value_congr (P : Platform) (w v : World)
    (h : v.browser.localStorage.lookup SESSION_STORAGE_KEY
      = w.browser.localStorage.lookup SESSION_STORAGE_KEY) :
    (StorageManager.loadSession P v).value = (StorageManager.loadSession P w).value := by
  simp only [StorageManager.loadSession, JS.tryCatch, JS.bind_run, JS.andThen, getItem, h]
  cases hl : w.browser.localStorage.lookup SESSION_STORAGE_KEY with
  | none => simp [falsyItem, JS.ret, Res.value]
  | some text =>
    by_cases ht : text = ""
    · simp [falsyItem, ht, JS.ret, Res.value]
    · cases hp : P.jsonParse text with
      | none =>
        simp [falsyItem, ht, parseJson, hp, JS.throw, JS.emit, JS.update, JS.ret, Res.value]
      | some parsed => simp [falsyItem, ht, parseJson, hp, JS.ret, Res.value]

/-- Claim C20. With `localStorage` as explicit state: for a session record whose JSON text
is not empty and parses back to it, `loadSession` after `saveSession` returns the record;
`loadSession` returns `null` when no session is stored and after `clearSession`;
`saveApiToken` and `saveWorkerUrl` leave the stored session item as it was. -/
theorem session_round_trip (P : Platform) (w : World) (s : JsVal)
    (htext : P.jsonStringify s ≠ "") (hparse : P.jsonParse (P.jsonStringify s) = some s) :
    (∃ w1, (StorageManager.saveSession P s >>= fun _ => StorageManager.loadSession P) w
      = .ok s w1) ∧
    (w.browser.localStorage.lookup SESSION_STORAGE_KEY = none →
      StorageManager.loadSession P w = .ok .null w) ∧
    (∃ w1, (StorageManager.clearSession >>= fun _ => StorageManager.loadSession P) w
      = .ok .null w1) ∧
    (∀ token, ((StorageManager.saveApiToken token >>= fun _ =>
        StorageManager.loadSession P) w).value = (StorageManager.loadSession P w).value) ∧
    (∀ url, ((StorageManager.saveWorkerUrl url >>= fun _ =>
        StorageManager.loadSession P) w).value = (StorageManager.loadSession P w).value) := by
  refine ⟨?_, (loadSession_of_lookup P w).1, ?_, ?_, ?_⟩
  · have hsave : StorageManager.saveSession P s w = .ok () { w with
        browser := { w.browser with
          localStorage := (SESSION_STORAGE_KEY, P.jsonStringify s) ::
            w.browser.localStorage.filter (fun kv => kv.1 ≠ SESSION_STORAGE_KEY) } } := rfl
    rw [JS.bind_ok hsave]
    exact ⟨_, (loadSession_of_lookup P _).2 (P.jsonStringify s) s
      (by simp [List.lookup]) htext hparse⟩
  · have hclear : StorageManager.clearSession w = .ok () { w with
        browser := { w.browser with
          localStorage :=
            w.browser.localStorage.filter (fun kv => kv.1 ≠ SESSION_STORAGE_KEY) } } := rfl
    rw [JS.bind_ok hclear]
    exact ⟨_, (loadSession_of_lookup P _).1 (lookup_filter_self _ _)⟩
  · intro token
    have hne : (SESSION_STORAGE_KEY == W3S_TOKEN_KEY) = false := by decide
    have hsave : StorageManager.saveApiToken token w = .ok () { w with
        browser := { w.browser with
          localStorage := (W3S_TOKEN_KEY, token) ::
            w.browser.localStorage.filter (fun kv => kv.1 ≠ W3S_TOKEN_KEY) } } := rfl
    rw [JS.bind_ok hsave]
    apply loadSession_value_congr
    simp only [List.lookup, hne]
    exact lookup_filter_ne _ _ _ (by decide)
  · intro url
    have hne : (SESSION_STORAGE_KEY == WORKER_URL_KEY) = false := by decide
    have hsave : StorageManager.saveWorkerUrl url w = .ok () { w with
        browser := { w.browser with
          localStorage := (WORKER_URL_KEY, url) ::
            w.browser.localStorage.filter (fun kv => kv.1 ≠ WORKER_URL_KEY) } } := rfl
    rw [JS.bind_ok hsave]
    apply loadSession_value_congr
    simp only [List.lookup, hne]
    exact lookup_filter_ne _ _ _ (by decide)

set_option maxRecDepth 1000000 in
/-- The hypotheses of `session_round_trip` hold for a session record on the sample
platform. -/
theorem session_round_trip_witness :
    Sample.platform.jsonStringify Sample.sessionRecord ≠ "" ∧
    (∃ w1, (StorageManager.saveSession Sample.platform Sample.sessionRecord >>= fun _ =>
        StorageManager.loadSession Sample.platform) Sample.peer = .ok Sample.sessionRecord w1) :=
  ⟨by decide,
    (session_round_trip Sample.platform Sample.peer Sample.sessionRecord (by decide) (by rfl)).1⟩

/-! ## What the mailbox handlers leave alone -/

theorem Spares.spares_bind {α β : Type} {x : JS α} {f : α → JS β} (hx : Spares x)
    (hf : ∀ a, Spares (f a)) : Spares (x >>= f) := by
  intro w
  obtain ⟨h1, h2⟩ := hx w
  simp only [JS.bind_run, JS.andThen]
  cases hr : x w with
  | ok a w1 =>
    rw [hr] at h1 h2
    simp only [Res.world] at h1 h2
    obtain ⟨h3, h4⟩ := hf a w1
    exact ⟨h3.trans h1, h4.trans h2⟩
  | err e w1 => rw [hr] at h1 h2; exact ⟨h1, h2⟩
  | pending w1 => rw [hr] at h1 h2; exact ⟨h1, h2⟩

theorem Spares.spares_tryCatch {α : Type} {body : JS α} {handler : JsError → JS α} (hx : Spares body)
    (hf : ∀ e, Spares (handler e)) : Spares (JS.tryCatch body handler) := by
  intro w
  obtain ⟨h1, h2⟩ := hx w
  simp only [JS.tryCatch]
  cases hr : body w with
  | ok a w1 => rw [hr] at h1 h2; exact ⟨h1, h2⟩
  | err e w1 =>
    rw [hr] at h1 h2
    simp only [Res.world] at h1 h2
    obtain ⟨h3, h4⟩ := hf e w1
    exact ⟨h3.trans h1, h4.trans h2⟩
  | pending w1 => rw [hr] at h1 h2; exact ⟨h1, h2⟩

theorem Spares.spares_ite {α : Type} {c : Prop} [Decidable c] {x y : JS α} (hx : Spares x)
    (hy : Spares y) : Spares (if c then x else y) := by
  split
  · exact hx
  · exact hy

theorem Spares.spares_ret {α : Type} (a : α) : Spares (JS.ret a) := fun _ => ⟨rfl, rfl⟩

theorem Spares.spares_throw {α : Type} (e : JsError) : Spares (JS.throw e : JS α) := fun _ => ⟨rfl, rfl⟩

theorem Spares.spares_lift {α : Type} (r : Except JsError α) : Spares (JS.lift r) := by
  cases r with
  | ok a => exact Spares.spares_ret a
  | error e => exact Spares.spares_throw e

theorem Spares.spares_read : Spares JS.read := fun _ => ⟨rfl, rfl⟩

theorem Spares.spares_emit (e : Event) : Spares (JS.emit e) := fun _ => ⟨rfl, rfl⟩

theorem Spares.spares_update {f : World → World}
    (h : ∀ w, (f w).app.myUnreadListCid = w.app.myUnreadListCid ∧
      (f w).browser.localStorage = w.browser.localStorage) : Spares (JS.update f) := fun w => h w

theorem Spares.spares_uploadToIPFS (P : Platform) (data : String) : Spares (uploadToIPFS P data) := by
  intro w
  unfold P2PChat.uploadToIPFS
  by_cases hc : w.relay.client = false
  · simp [hc, Res.world]
  · by_cases hf : w.relay.nextFails = true <;> simp [hc, hf, Res.world]

theorem Spares.spares_downloadFromIPFS (P : Platform) (cid : JsVal) :
    Spares (downloadFromIPFS P cid) := by
  intro w
  unfold P2PChat.downloadFromIPFS
  by_cases hf : w.relay.nextFails = true
  · simp [hf, Res.world]
  · cases hl : w.relay.lookup P cid.toText <;> simp [hf, Res.world]

theorem Spares.spares_encryptMessage (P : Platform) (message : String) :
    Spares (encryptMessage P message) := by
  intro w
  rcases hcm : w.app.cryptoManager with _ | cm
  · simp [P2PChat.encryptMessage, hcm, Res.world]
  · rcases hk : cm.key with _ | key
    · simp [P2PChat.encryptMessage, hcm, hk, Res.world]
    · simp only [P2PChat.encryptMessage, hcm, hk, JS.bind_run, JS.andThen, getRandomValues,
        CryptoManager.encrypt]
      cases arrayBufferToBase64 (w.randomBytes 12 ++
        P.aesGcmEncrypt key (w.randomBytes 12) (P.textEncode message)) <;> exact ⟨rfl, rfl⟩

theorem Spares.spares_parseJson (P : Platform) (text : String) : Spares (parseJson P text) := by
  unfold P2PChat.parseJson
  cases P.jsonParse text with
  | none => exact Spares.spares_throw _
  | some v => exact Spares.spares_ret v

theorem Spares.spares_arrayPush (list item : JsVal) : Spares (arrayPush list item) := by
  unfold P2PChat.arrayPush
  cases list <;> first | exact Spares.spares_throw _ | exact Spares.spares_ret _

theorem Spares.spares_loadWorkerUrl : Spares StorageManager.loadWorkerUrl := fun _ => ⟨rfl, rfl⟩

theorem Spares.spares_sendNotification (subscription payload : JsVal) (url : String) :
    Spares (PushManager.sendNotification subscription payload url) := by
  unfold PushManager.sendNotification
  refine Spares.spares_tryCatch (Spares.spares_bind (Spares.spares_emit _) fun _ =>
    Spares.spares_bind (fun _ => ⟨rfl, rfl⟩) fun outcome => ?_) (fun e => Spares.spares_emit _)
  cases outcome with
  | reject => exact Spares.spares_throw _
  | response status => exact Spares.spares_ite (Spares.spares_ret _) (Spares.spares_throw _)

theorem Spares.spares_notifyPeer (payload : JsVal) (url : String) : Spares (notifyPeer payload url) := by
  intro w
  unfold P2PChat.notifyPeer
  cases w.app.pushManager with
  | none => exact ⟨rfl, rfl⟩
  | some pm => exact Spares.spares_sendNotification _ _ _ w

theorem Spares.spares_sendOfflineMessage (P : Platform) (message : String) :
    Spares (sendOfflineMessage P message) := by
  unfold P2PChat.sendOfflineMessage
  refine Spares.spares_tryCatch ?_ (fun e => Spares.spares_emit _)
  refine Spares.spares_bind (Spares.spares_encryptMessage P message) fun _ =>
    Spares.spares_bind (Spares.spares_uploadToIPFS P _) fun _ =>
    Spares.spares_bind Spares.spares_read fun _ =>
    Spares.spares_bind (Spares.spares_downloadFromIPFS P _) fun _ =>
    Spares.spares_bind (Spares.spares_parseJson P _) fun _ =>
    Spares.spares_bind (Spares.spares_arrayPush _ _) fun _ =>
    Spares.spares_bind (Spares.spares_uploadToIPFS P _) fun _ =>
    Spares.spares_bind (Spares.spares_update fun _ => ⟨rfl, rfl⟩) fun _ =>
    Spares.spares_bind Spares.spares_loadWorkerUrl fun _ =>
    Spares.spares_ite (Spares.spares_emit _) (Spares.spares_notifyPeer _ _)

/-- Claim C19, on the code. A successful `sendOfflineMessage` puts the identifier of the
new list into `AppState.peerUnreadListCid` only: `localStorage` is left as it was, so
`StorageManager.loadSession` returns after the send what it returned before it, the
record with the earlier `peerUnreadListCid`. -/
theorem sendOfflineMessage_not_persisted (P : Platform) (w : World) (message : String)
    (cm : CryptoManager) (key : CryptoKey) (listText : String) (L : List JsVal)
    (hcm : w.app.cryptoManager = some cm) (hkey : cm.key = some key)
    (hclient : w.relay.client = true) (hquiet : w.relay.quietFor 3)
    (hlist : w.relay.lookup P w.app.peerUnreadListCid.toText = some listText)
    (hparse : P.jsonParse listText = some (.arr L)) :
    (∃ blob, CryptoManager.encrypt P cm (w.randomBytes 12) message = .ok blob ∧
      (sendOfflineMessage P message w).world.app.peerUnreadListCid
        = .str (P.cidOf (P.jsonStringify (.arr (L ++ [.str (P.cidOf blob)]))))) ∧
    (sendOfflineMessage P message w).world.browser.localStorage = w.browser.localStorage ∧
    (StorageManager.loadSession P (sendOfflineMessage P message w).world).value
      = (StorageManager.loadSession P w).value := by
  obtain ⟨blob, hblob, hcid, _⟩ :=
    sendOfflineMessage_sent P w message cm key listText L hcm hkey hclient hquiet hlist hparse
  have hstore := (Spares.spares_sendOfflineMessage P message w).2
  exact ⟨⟨blob, hblob, hcid⟩, hstore, loadSession_value_congr P _ _ (by rw [hstore])⟩

set_option maxRecDepth 1000000 in
/-- The hypotheses of `sendOfflineMessage_not_persisted` hold on the sample peer with a
saved session: after the send the saved record still names the list `[]` as the list of
the peer, and `AppState.peerUnreadListCid` names another list. -/
theorem sendOfflineMessage_not_persisted_witness :
    Sample.peerSaved.relay.quietFor 3 ∧
    (StorageManager.loadSession Sample.platform
      (sendOfflineMessage Sample.platform "hello" Sample.peerSaved).world).value
      = some Sample.sessionRecord ∧
    Sample.sessionRecord.getProp "peerUnreadListCid" = .ok (.str (Sample.cidOf "[]")) ∧
    (sendOfflineMessage Sample.platform "hello" Sample.peerSaved).world.app.peerUnreadListCid.toText
      ≠ Sample.cidOf "[]" :=
  ⟨by decide,
    (sendOfflineMessage_not_persisted Sample.platform Sample.peerSaved "hello"
      { key := some Sample.key } Sample.key "[]" [] rfl rfl rfl (by decide) (by decide)
      (by rfl)).2.2.trans (by rfl),
    by rfl, by decide⟩

/-! ## Relations a handler keeps to the world it started in -/

theorem Along.along_bind {α β : Type} {R : World → World → Prop} {x : JS α} {f : α → JS β}
    (htrans : ∀ a b c, R a b → R b c → R a c) (hx : Along R x) (hf : ∀ a, Along R (f a)) :
    Along R (x >>= f) := by
  intro w
  have h1 := hx w
  simp only [JS.bind_run, JS.andThen]
  cases hr : x w with
  | ok a w1 =>
    rw [hr] at h1
    exact htrans _ _ _ h1 (hf a w1)
  | err e w1 => rw [hr] at h1; exact h1
  | pending w1 => rw [hr] at h1; exact h1

theorem Along.along_tryCatch {α : Type} {R : World → World → Prop} {body : JS α}
    {handler : JsError → JS α} (htrans : ∀ a b c, R a b → R b c → R a c) (hx : Along R body)
    (hf : ∀ e, Along R (handler e)) : Along R (JS.tryCatch body handler) := by
  intro w
  have h1 := hx w
  simp only [JS.tryCatch]
  cases hr : body w with
  | ok a w1 => rw [hr] at h1; exact h1
  | err e w1 =>
    rw [hr] at h1
    exact htrans _ _ _ h1 (hf e w1)
  | pending w1 => rw [hr] at h1; exact h1

theorem Along.along_ite {α : Type} {R : World → World → Prop} {c : Prop} [Decidable c] {x y : JS α}
    (hx : Along R x) (hy : Along R y) : Along R (if c then x else y) := by
  split
  · exact hx
  · exact hy

theorem Along.along_ret {α : Type} {R : World → World → Prop} (hrefl : ∀ w, R w w) (a : α) :
    Along R (JS.ret a) := fun w => hrefl w

theorem Along.along_throw {α : Type} {R : World → World → Prop} (hrefl : ∀ w, R w w) (e : JsError) :
    Along R (JS.throw e : JS α) := fun w => hrefl w

theorem Along.along_lift {α : Type} {R : World → World → Prop} (hrefl : ∀ w, R w w)
    (r : Except JsError α) : Along R (JS.lift r) := by
  cases r with
  | ok a => exact Along.along_ret hrefl a
  | error e => exact Along.along_throw hrefl e

theorem Along.along_read {R : World → World → Prop} (hrefl : ∀ w, R w w) : Along R JS.read :=
  fun w => hrefl w

theorem Along.of_ok {α : Type} {R : World → World → Prop} {x : JS α} (hx : Along R x)
    {w w1 : World} {a : α} (h : x w = .ok a w1) : R w w1 := by
  have h1 := hx w
  rw [h] at h1
  exact h1

theorem Along.of_err {α : Type} {R : World → World → Prop} {x : JS α} (hx : Along R x)
    {w w1 : World} {e : JsError} (h : x w = .err e w1) : R w w1 := by
  have h1 := hx w
  rw [h] at h1
  exact h1

theorem Settles.settles_bind {α β : Type} {x : JS α} {f : α → JS β} (hx : Settles x)
    (hf : ∀ a, Settles (f a)) : Settles (x >>= f) := by
  intro w w2
  simp only [JS.bind_run, JS.andThen]
  cases hr : x w with
  | ok a w1 => exact hf a w1 w2
  | err e w1 => simp
  | pending w1 => exact absurd hr (hx w w1)

theorem Settles.settles_tryCatch {α : Type} {body : JS α} {handler : JsError → JS α}
    (hx : Settles body) (hf : ∀ e, Settles (handler e)) : Settles (JS.tryCatch body handler) := by
  intro w w2
  simp only [JS.tryCatch]
  cases hr : body w with
  | ok a w1 => simp
  | err e w1 => exact hf e w1 w2
  | pending w1 => exact absurd hr (hx w w1)

theorem Settles.settles_ite {α : Type} {c : Prop} [Decidable c] {x y : JS α} (hx : Settles x)
    (hy : Settles y) : Settles (if c then x else y) := by
  split
  · exact hx
  · exact hy

theorem Settles.settles_ret {α : Type} (a : α) : Settles (JS.ret a) := fun _ _ h => by cases h

theorem Settles.settles_throw {α : Type} (e : JsError) : Settles (JS.throw e : JS α) :=
  fun _ _ h => by cases h

theorem Settles.settles_lift {α : Type} (r : Except JsError α) : Settles (JS.lift r) := by
  cases r with
  | ok a => exact Settles.settles_ret a
  | error e => exact Settles.settles_throw e

theorem Settles.settles_read : Settles JS.read := fun _ _ h => by cases h

theorem Settles.settles_update (f : World → World) : Settles (JS.update f) := fun _ _ h => by cases h

theorem Settles.settles_emit (e : Event) : Settles (JS.emit e) := Settles.settles_update _

theorem Settles.settles_uploadToIPFS (P : Platform) (data : String) : Settles (uploadToIPFS P data) := by
  intro w w1
  unfold P2PChat.uploadToIPFS
  by_cases hc : w.relay.client = false
  · simp [hc]
  · by_cases hf : w.relay.nextFails = true <;> simp [hc, hf]

theorem Settles.settles_downloadFromIPFS (P : Platform) (cid : JsVal) :
    Settles (downloadFromIPFS P cid) := by
  intro w w1
  unfold P2PChat.downloadFromIPFS
  by_cases hf : w.relay.nextFails = true
  · simp [hf]
  · cases hl : w.relay.lookup P cid.toText <;> simp [hf]

theorem Settles.settles_encryptMessage (P : Platform) (message : String) :
    Settles (encryptMessage P message) := by
  intro w w1
  rcases hcm : w.app.cryptoManager with _ | cm
  · simp [P2PChat.encryptMessage, hcm]
  · rcases hk : cm.key with _ | key
    · simp [P2PChat.encryptMessage, hcm, hk]
    · simp only [P2PChat.encryptMessage, hcm, hk, JS.bind_run, JS.andThen, getRandomValues,
        CryptoManager.encrypt]
      cases arrayBufferToBase64 (w.randomBytes 12 ++
        P.aesGcmEncrypt key (w.randomBytes 12) (P.textEncode message)) <;>
        simp [JS.lift, JS.ret, JS.throw]

theorem Settles.settles_parseJson (P : Platform) (text : String) : Settles (parseJson P text) := by
  unfold P2PChat.parseJson
  cases P.jsonParse text with
  | none => exact Settles.settles_throw _
  | some v => exact Settles.settles_ret v

theorem Settles.settles_arrayPush (list item : JsVal) : Settles (arrayPush list item) := by
  unfold P2PChat.arrayPush
  cases list <;> first | exact Settles.settles_throw _ | exact Settles.settles_ret _

theorem Settles.settles_loadWorkerUrl : Settles StorageManager.loadWorkerUrl :=
  fun _ _ h => by cases h

theorem Settles.settles_sendNotification (subscription payload : JsVal) (url : String) :
    Settles (PushManager.sendNotification subscription payload url) := by
  unfold PushManager.sendNotification
  refine Settles.settles_tryCatch (Settles.settles_bind (Settles.settles_emit _) fun _ =>
    Settles.settles_bind (fun _ _ h => by cases h) fun outcome => ?_) (fun e => Settles.settles_emit _)
  cases outcome with
  | reject => exact Settles.settles_throw _
  | response status => exact Settles.settles_ite (Settles.settles_ret _) (Settles.settles_throw _)

theorem Settles.settles_notifyPeer (payload : JsVal) (url : String) :
    Settles (notifyPeer payload url) := by
  intro w w1
  unfold P2PChat.notifyPeer
  cases w.app.pushManager with
  | none => simp
  | some pm => exact Settles.settles_sendNotification _ _ _ w w1

theorem Settles.settles_sendOfflineMessage (P : Platform) (message : String) :
    Settles (sendOfflineMessage P message) := by
  unfold P2PChat.sendOfflineMessage
  refine Settles.settles_tryCatch ?_ (fun e => Settles.settles_emit _)
  refine Settles.settles_bind (Settles.settles_encryptMessage P message) fun _ =>
    Settles.settles_bind (Settles.settles_uploadToIPFS P _) fun _ =>
    Settles.settles_bind Settles.settles_read fun _ =>
    Settles.settles_bind (Settles.settles_downloadFromIPFS P _) fun _ =>
    Settles.settles_bind (Settles.settles_parseJson P _) fun _ =>
    Settles.settles_bind (Settles.settles_arrayPush _ _) fun _ =>
    Settles.settles_bind (Settles.settles_uploadToIPFS P _) fun _ =>
    Settles.settles_bind (Settles.settles_update _) fun _ =>
    Settles.settles_bind Settles.settles_loadWorkerUrl fun _ =>
    Settles.settles_ite (Settles.settles_emit _) (Settles.settles_notifyPeer _ _)

theorem tryCatch_emit_returns {body : JS Unit} (hx : Settles body) (label : String) (w : World) :
    ∃ w1, JS.tryCatch body (fun e => JS.emit (.consoleError label e)) w = .ok () w1 := by
  simp only [JS.tryCatch]
  cases hr : body w with
  | ok a w1 => exact ⟨w1, rfl⟩
  | err e w1 => exact ⟨_, rfl⟩
  | pending w1 => exact absurd hr (hx w w1)

theorem NoPush.noPush_nil : NoPush [] := fun _ _ _ h => by cases h

theorem NoPush.noPush_append {xs ys : List Event} (hx : NoPush xs) (hy : NoPush ys) :
    NoPush (xs ++ ys) := by
  intro url subscription payload h
  rcases List.mem_append.mp h with h | h
  · exact hx _ _ _ h
  · exact hy _ _ _ h

theorem Quietly.quietly_refl (w : World) : Quietly w w := ⟨rfl, [], by simp, NoPush.noPush_nil⟩

theorem Quietly.quietly_trans (a b c : World) (h1 : Quietly a b) (h2 : Quietly b c) : Quietly a c := by
  obtain ⟨ha, ev1, ht1, hn1⟩ := h1
  obtain ⟨hb, ev2, ht2, hn2⟩ := h2
  exact ⟨hb.trans ha, ev1 ++ ev2, by rw [ht2, ht1, List.append_assoc], hn1.noPush_append hn2⟩

theorem Quietly.quietly_emit (w : World) (e : Event) (h : ∀ url subscription payload,
    e ≠ .pushPost url subscription payload) :
    Quietly w { w with trace := w.trace ++ [e] } := by
  refine ⟨rfl, [e], rfl, ?_⟩
  intro url subscription payload hmem
  simp only [List.mem_singleton] at hmem
  exact h _ _ _ hmem.symm

theorem Quietly.quietly_uploadToIPFS (P : Platform) (data : String) :
    Along Quietly (uploadToIPFS P data) := by
  intro w
  unfold P2PChat.uploadToIPFS
  by_cases hc : w.relay.client = false
  · simp only [hc, if_true, Res.world]
    exact Quietly.quietly_refl w
  · by_cases hf : w.relay.nextFails = true
    · simp only [hc, hf, if_true, if_false, Res.world]
      refine ⟨rfl, _, rfl, ?_⟩
      intro url subscription payload hmem
      simp at hmem
    · simp only [hc, hf, if_false, Res.world]
      refine ⟨rfl, _, rfl, ?_⟩
      intro url subscription payload hmem
      simp at hmem

theorem Quietly.quietly_downloadFromIPFS (P : Platform) (cid : JsVal) :
    Along Quietly (downloadFromIPFS P cid) := by
  intro w
  unfold P2PChat.downloadFromIPFS
  by_cases hf : w.relay.nextFails = true
  · simp only [hf, if_true, Res.world]
    refine ⟨rfl, _, rfl, ?_⟩
    intro url subscription payload hmem
    simp at hmem
  · cases hl : w.relay.lookup P cid.toText with
    | none =>
      simp only [hf, if_false, Res.world]
      refine ⟨rfl, _, rfl, ?_⟩
      intro url subscription payload hmem
      simp at hmem
    | some content =>
      simp only [hf, if_false, Res.world]
      refine ⟨rfl, _, rfl, ?_⟩
      intro url subscription payload hmem
      simp at hmem

theorem Quietly.quietly_encryptMessage (P : Platform) (message : String) :
    Along Quietly (encryptMessage P message) := by
  intro w
  rcases hcm : w.app.cryptoManager with _ | cm
  · simp only [P2PChat.encryptMessage, hcm, Res.world]
    exact Quietly.quietly_refl w
  · rcases hk : cm.key with _ | key
    · simp only [P2PChat.encryptMessage, hcm, hk, Res.world]
      exact Quietly.quietly_refl w
    · simp only [P2PChat.encryptMessage, hcm, hk, JS.bind_run, JS.andThen, getRandomValues,
        CryptoManager.encrypt]
      cases arrayBufferToBase64 (w.randomBytes 12 ++
        P.aesGcmEncrypt key (w.randomBytes 12) (P.textEncode message)) <;>
        exact ⟨rfl, [], by simp [JS.lift, JS.ret, JS.throw, Res.world], NoPush.noPush_nil⟩

/-! ## The offline send when the relay fails -/

theorem sendOfflineMessage_failed (P : Platform) (w : World) (message : String) (blob : String)
    (w1 : World) (e : JsError) (wf : World)
    (henc : encryptMessage P message w = .ok blob w1)
    (hfail : uploadToIPFS P blob w1 = .err e wf ∨
      ∃ cid w2, uploadToIPFS P blob w1 = .ok cid w2 ∧
        (downloadFromIPFS P w2.app.peerUnreadListCid w2 = .err e wf ∨
          ∃ listText w3 list,
            downloadFromIPFS P w2.app.peerUnreadListCid w2 = .ok listText w3 ∧
            P.jsonParse listText = some (.arr list) ∧
            uploadToIPFS P (P.jsonStringify (.arr (list ++ [.str cid]))) w3 = .err e wf)) :
    sendOfflineMessage P message w = .ok ()
        { wf with trace := wf.trace ++ [.consoleError "Failed to send offline message:" e] } ∧
      Quietly w wf := by
  have q1 : Quietly w w1 := (Quietly.quietly_encryptMessage P message).of_ok henc
  unfold sendOfflineMessage
  rcases hfail with hup | ⟨cid, w2, hup, hrest⟩
  · refine ⟨?_, Quietly.quietly_trans _ _ _ q1 ((Quietly.quietly_uploadToIPFS P blob).of_err hup)⟩
    apply tryCatch_err (v := wf)
    rw [JS.bind_ok henc, JS.bind_err hup]
  · have q2 : Quietly w w2 := Quietly.quietly_trans _ _ _ q1 ((Quietly.quietly_uploadToIPFS P blob).of_ok hup)
    rcases hrest with hdl | ⟨listText, w3, list, hdl, hparse, hup2⟩
    · refine ⟨?_, Quietly.quietly_trans _ _ _ q2 ((Quietly.quietly_downloadFromIPFS P _).of_err hdl)⟩
      apply tryCatch_err (v := wf)
      rw [JS.bind_ok henc, JS.bind_ok hup, JS.bind_ok (show JS.read w2 = .ok w2 w2 from rfl),
        JS.bind_err hdl]
    · refine ⟨?_, Quietly.quietly_trans _ _ _ (Quietly.quietly_trans _ _ _ q2
        ((Quietly.quietly_downloadFromIPFS P _).of_ok hdl)) ((Quietly.quietly_uploadToIPFS P _).of_err hup2)⟩
      apply tryCatch_err (v := wf)
      rw [JS.bind_ok henc, JS.bind_ok hup, JS.bind_ok (show JS.read w2 = .ok w2 w2 from rfl),
        JS.bind_ok hdl]
      simp only [parseJson, hparse]
      rw [JS.bind_ok (show JS.ret _ w3 = .ok _ w3 from rfl)]
      simp only [arrayPush]
      rw [JS.bind_ok (show JS.ret _ w3 = .ok _ w3 from rfl), JS.bind_err hup2]

/-- Claim C13. When `sendOfflineMessage` has uploaded the ciphertext and then the download
of the peer's unread list fails, or the upload of the new list fails, the whole
`AppState`, `peerUnreadListCid` with it, is as before the call, and what the call added
to the trace holds no request to the push worker. -/
theorem sendOfflineMessage_atomic (P : Platform) (w : World) (message : String) (blob : String)
    (w1 : World) (cid : String) (w2 : World) (e : JsError) (wf : World)
    (henc : encryptMessage P message w = .ok blob w1)
    (hup : uploadToIPFS P blob w1 = .ok cid w2)
    (hfail : downloadFromIPFS P w2.app.peerUnreadListCid w2 = .err e wf ∨
      ∃ listText w3 list,
        downloadFromIPFS P w2.app.peerUnreadListCid w2 = .ok listText w3 ∧
        P.jsonParse listText = some (.arr list) ∧
        uploadToIPFS P (P.jsonStringify (.arr (list ++ [.str cid]))) w3 = .err e wf) :
    (sendOfflineMessage P message w).world.app.peerUnreadListCid = w.app.peerUnreadListCid ∧
    (sendOfflineMessage P message w).world.app = w.app ∧
    ∃ events, (sendOfflineMessage P message w).world.trace = w.trace ++ events ∧
      NoPush events := by
  obtain ⟨hrun, happ, events, htrace, hno⟩ :=
    sendOfflineMessage_failed P w message blob w1 e wf henc (Or.inr ⟨cid, w2, hup, hfail⟩)
  rw [hrun]
  refine ⟨congrArg AppState.peerUnreadListCid happ, happ, events ++ [.consoleError "Failed to send offline message:" e],
    by simp only [Res.world]; rw [htrace, List.append_assoc], hno.noPush_append ?_⟩
  intro url subscription payload hmem
  simp at hmem

/-- Claim C14, as the code has it. `sendOfflineMessage` returns normally from every state:
it never raises and never stays suspended. When a relay operation inside it fails, the
upload of the ciphertext, the download of the peer's list or the upload of the new list,
the error is caught by the `try` of `sendOfflineMessage` itself and written to the console,
and the call returns to its caller like a successful one. -/
theorem sendOfflineMessage_swallows_failure (P : Platform) (w : World) (message : String)
    (blob : String) (w1 : World) (e : JsError) (wf : World)
    (henc : encryptMessage P message w = .ok blob w1)
    (hfail : uploadToIPFS P blob w1 = .err e wf ∨
      ∃ cid w2, uploadToIPFS P blob w1 = .ok cid w2 ∧
        (downloadFromIPFS P w2.app.peerUnreadListCid w2 = .err e wf ∨
          ∃ listText w3 list,
            downloadFromIPFS P w2.app.peerUnreadListCid w2 = .ok listText w3 ∧
            P.jsonParse listText = some (.arr list) ∧
            uploadToIPFS P (P.jsonStringify (.arr (list ++ [.str cid]))) w3 = .err e wf)) :
    (∀ text v, ∃ v1, sendOfflineMessage P text v = .ok () v1) ∧
    sendOfflineMessage P message w = .ok ()
      { wf with trace := wf.trace ++ [.consoleError "Failed to send offline message:" e] } := by
  refine ⟨fun text v => ?_, (sendOfflineMessage_failed P w message blob w1 e wf henc hfail).1⟩
  have hs := Settles.settles_sendOfflineMessage P text
  cases hr : sendOfflineMessage P text v with
  | ok a v1 => exact ⟨v1, rfl⟩
  | err e1 v1 =>
    exfalso
    unfold sendOfflineMessage at hr
    simp only [JS.tryCatch] at hr
    split at hr <;> simp [JS.emit, JS.update] at hr
  | pending v1 => exact absurd hr (hs v v1)

theorem sendNotification_returns (subscription payload : JsVal) (workerUrl : String)
    (w : World) : ∃ w1, PushManager.sendNotification subscription payload workerUrl w
      = .ok () w1 := by
  unfold PushManager.sendNotification
  simp only [JS.tryCatch, JS.bind_run, JS.andThen, JS.emit, JS.update, nextPushOutcome]
  cases w.browser.pushOutcomes.headD (.response 200) with
  | reject => exact ⟨_, rfl⟩
  | response status =>
    by_cases h : 200 ≤ status ∧ status ≤ 299
    · simp only [h, and_self, if_true]; exact ⟨_, rfl⟩
    · simp only [h, if_false]; exact ⟨_, rfl⟩

/-- Claim C15. `PushManager.sendNotification` returns normally for every subscription,
payload and worker URL, whether `fetch` rejects or the worker answers with a status
outside 200..299; and when the relay is reachable, `sendOfflineMessage` leaves the
identifier of the new list in `AppState.peerUnreadListCid` whatever the outcomes of the
requests to the push worker are. -/
theorem notification_failure_not_fatal (P : Platform) (w : World) (message : String)
    (cm : CryptoManager) (key : CryptoKey) (listText : String) (L : List JsVal)
    (hcm : w.app.cryptoManager = some cm) (hkey : cm.key = some key)
    (hclient : w.relay.client = true) (hquiet : w.relay.quietFor 3)
    (hlist : w.relay.lookup P w.app.peerUnreadListCid.toText = some listText)
    (hparse : P.jsonParse listText = some (.arr L)) :
    (∀ subscription payload workerUrl v,
      ∃ v1, PushManager.sendNotification subscription payload workerUrl v = .ok () v1) ∧
    ∃ blob, CryptoManager.encrypt P cm (w.randomBytes 12) message = .ok blob ∧
      ∀ outcomes,
        (sendOfflineMessage P message (w.withPushOutcomes outcomes)).world.app.peerUnreadListCid
          = .str (P.cidOf (P.jsonStringify (.arr (L ++ [.str (P.cidOf blob)])))) := by
  refine ⟨sendNotification_returns, ?_⟩
  obtain ⟨blob, hblob, _⟩ :=
    sendOfflineMessage_sent P w message cm key listText L hcm hkey hclient hquiet hlist hparse
  refine ⟨blob, hblob, fun outcomes => ?_⟩
  obtain ⟨blob2, hblob2, hcid, _⟩ :=
    sendOfflineMessage_sent P (w.withPushOutcomes outcomes)
      message cm key listText L hcm hkey hclient hquiet hlist hparse
  have hsame : blob2 = blob := by
    have h := hblob2.symm.trans hblob
    exact Except.ok.inj h
  rw [hcid, hsame]

set_option maxRecDepth 1000000 in
/-- The hypotheses of `sendOfflineMessage_atomic` hold on the sample peer when the
download of the list meets a network fault. -/
theorem sendOfflineMessage_atomic_witness :
    downloadFromIPFS Sample.platform (.str (Sample.cidOf "[]"))
        (Sample.afterUpload Sample.peerOffGateway "hello")
      = .err .ipfsFetch ((Sample.afterUpload Sample.peerOffGateway "hello").afterRequest
          [.relayGet (Sample.cidOf "[]"), .consoleError "Error downloading from IPFS" .ipfsFetch]) ∧
    (sendOfflineMessage Sample.platform "hello" Sample.peerOffGateway).world.app.peerUnreadListCid
      = Sample.peerOffGateway.app.peerUnreadListCid ∧
    (sendOfflineMessage Sample.platform "hello" Sample.peerOffGateway).world.app
      = Sample.peerOffGateway.app ∧
    ∃ events, (sendOfflineMessage Sample.platform "hello" Sample.peerOffGateway).world.trace
        = Sample.peerOffGateway.trace ++ events ∧ NoPush events :=
  ⟨by rfl,
    sendOfflineMessage_atomic Sample.platform Sample.peerOffGateway "hello"
      (Sample.sentBlob Sample.peerOffGateway "hello") (Sample.peerOffGateway.drew 12)
      (Sample.cidOf (Sample.sentBlob Sample.peerOffGateway "hello"))
      (Sample.afterUpload Sample.peerOffGateway "hello") .ipfsFetch
      ((Sample.afterUpload Sample.peerOffGateway "hello").afterRequest
        [.relayGet (Sample.cidOf "[]"), .consoleError "Error downloading from IPFS" .ipfsFetch])
      (by rfl) (by rfl) (Or.inl (by rfl))⟩

set_option maxRecDepth 1000000 in
/-- Claim C14 fails on the code. On the sample peer the download of the peer's list meets
a network fault: `sendOfflineMessage` returns normally, the error is the last entry of
the trace, a line of the console; and the click on the send button that called it has
shown the message as sent and returns normally as well. -/
theorem offline_send_failure_not_reported :
    (sendOfflineMessage Sample.platform "hello" Sample.peerOffGateway).value = some () ∧
    (sendOfflineMessage Sample.platform "hello" Sample.peerOffGateway).world.trace.getLast?
      = some (.consoleError "Failed to send offline message:" .ipfsFetch) ∧
    (onSendClick Sample.platform "hello" Sample.peerOffGateway).value = some () ∧
    (onSendClick Sample.platform "hello" Sample.peerOffGateway).world.browser.messages
      = some ["You: hello"] ∧
    (onSendClick Sample.platform "hello" Sample.peerOffGateway).world.app.peerUnreadListCid
      = Sample.peerOffGateway.app.peerUnreadListCid :=
  ⟨by rfl, by rfl, by rfl, by rfl, by rfl⟩

set_option maxRecDepth 1000000 in
/-- The hypotheses of `sendOfflineMessage_swallows_failure` hold on the sample peer when
the upload of the new list meets a network fault. -/
theorem sendOfflineMessage_swallows_failure_witness :
    Sample.platform.jsonParse "[]" = some (.arr []) ∧
    (∀ text v, ∃ v1, sendOfflineMessage Sample.platform text v = .ok () v1) ∧
    sendOfflineMessage Sample.platform "hello" Sample.peerOffStore = .ok ()
      { ((Sample.afterUpload Sample.peerOffStore "hello").afterRequest
          [.relayGet (Sample.cidOf "[]")]).afterRequest
          [.relayPut (Sample.stringify (.arr ([] ++
            [.str (Sample.cidOf (Sample.sentBlob Sample.peerOffStore "hello"))]))),
           .consoleError "Error uploading to web3.storage:" .ipfsUpload] with
        trace := (((Sample.afterUpload Sample.peerOffStore "hello").afterRequest
          [.relayGet (Sample.cidOf "[]")]).afterRequest
          [.relayPut (Sample.stringify (.arr ([] ++
            [.str (Sample.cidOf (Sample.sentBlob Sample.peerOffStore "hello"))]))),
           .consoleError "Error uploading to web3.storage:" .ipfsUpload]).trace ++
          [.consoleError "Failed to send offline message:" .ipfsUpload] } :=
  by
  have h := sendOfflineMessage_swallows_failure Sample.platform Sample.peerOffStore "hello"
      (Sample.sentBlob Sample.peerOffStore "hello") (Sample.peerOffStore.drew 12) .ipfsUpload
      (((Sample.afterUpload Sample.peerOffStore "hello").afterRequest
          [.relayGet (Sample.cidOf "[]")]).afterRequest
          [.relayPut (Sample.stringify (.arr ([] ++
            [.str (Sample.cidOf (Sample.sentBlob Sample.peerOffStore "hello"))]))),
           .consoleError "Error uploading to web3.storage:" .ipfsUpload])
      (by rfl)
      (Or.inr ⟨Sample.cidOf (Sample.sentBlob Sample.peerOffStore "hello"),
        Sample.afterUpload Sample.peerOffStore "hello", by rfl,
        Or.inr ⟨"[]", (Sample.afterUpload Sample.peerOffStore "hello").afterRequest
          [.relayGet (Sample.cidOf "[]")], [], by rfl, by rfl, by rfl⟩⟩)
  exact ⟨by rfl, h⟩

set_option maxRecDepth 1000000 in
/-- The hypotheses of `notification_failure_not_fatal` hold on the sample peer. -/
theorem notification_failure_not_fatal_witness :
    Sample.peer.relay.quietFor 3 ∧
    (∀ subscription payload workerUrl v,
      ∃ v1, PushManager.sendNotification subscription payload workerUrl v = .ok () v1) ∧
    ∃ blob, CryptoManager.encrypt Sample.platform { key := some Sample.key }
        (Sample.peer.randomBytes 12) "hello" = .ok blob ∧
      ∀ outcomes,
        (sendOfflineMessage Sample.platform "hello"
          (Sample.peer.withPushOutcomes outcomes)).world.app.peerUnreadListCid
          = .str (Sample.platform.cidOf
              (Sample.platform.jsonStringify (.arr ([] ++ [.str (Sample.platform.cidOf blob)])))) :=
  by
  have h := notification_failure_not_fatal Sample.platform Sample.peer "hello"
    { key := some Sample.key } Sample.key "[]" [] rfl rfl rfl (by decide) (by decide) (by rfl)
  exact ⟨by decide, h⟩

/-! ## The local description and the candidates -/

theorem checkState_complete {events : List RtcState} {native : RtcState}
    (h : checkState events = some native) : native.iceGatheringState = "complete" := by
  induction events with
  | nil => cases h
  | cons first later ih =>
    unfold checkState at h
    by_cases hc : first.iceGatheringState = "complete"
    · rw [if_pos hc] at h
      cases h
      exact hc
    · rw [if_neg hc] at h
      exact ih h

theorem checkState_some_iff (events : List RtcState) :
    (checkState events).isSome = true ↔ ∃ native ∈ events, native.iceGatheringState = "complete" := by
  induction events with
  | nil => simp [checkState]
  | cons first later ih =>
    unfold checkState
    by_cases hc : first.iceGatheringState = "complete"
    · rw [if_pos hc]
      simp [hc]
    · rw [if_neg hc, ih]
      simp [hc]

/-- The gathering of the connection `AppState` holds is complete. -/
theorem waitForIceGathering_complete (P : Platform) {w w1 : World}
    (h : WebRTCManager.waitForIceGathering P w = .ok () w1) :
    ∃ m, w1.app.webRtcManager = some m ∧
      m.peerConnection.native.iceGatheringState = "complete" := by
  unfold WebRTCManager.waitForIceGathering at h
  cases hm : w.app.webRtcManager with
  | none => simp [hm] at h
  | some m =>
    simp only [hm] at h
    by_cases hc : m.peerConnection.native.iceGatheringState = "complete"
    · rw [if_pos hc] at h
      cases h
      exact ⟨m, hm, hc⟩
    · rw [if_neg hc] at h
      cases hs : checkState (P.rtcGatheringEvents m.peerConnection.native) with
      | none => simp [hs] at h
      | some native =>
        simp only [hs] at h
        cases h
        exact ⟨_, rfl, checkState_complete hs⟩

theorem localDescription_after_wait (P : Platform) {w w1 : World} {description : JsVal}
    (h : (WebRTCManager.waitForIceGathering P >>= fun _ => localDescription) w
      = .ok description w1) :
    ∃ m, w1.app.webRtcManager = some m ∧
      m.peerConnection.native.iceGatheringState = "complete" ∧
      description = m.peerConnection.native.localDescription := by
  simp only [JS.bind_run, JS.andThen] at h
  cases hw : WebRTCManager.waitForIceGathering P w with
  | ok a w2 =>
    obtain ⟨m, hm, hc⟩ := waitForIceGathering_complete P hw
    simp only [hw, localDescription, hm] at h
    cases h
    exact ⟨m, hm, hc, rfl⟩
  | err e w2 => simp [hw] at h
  | pending w2 => simp [hw] at h

theorem bind_ok_inv {α β : Type} {x : JS α} {f : α → JS β} {w w2 : World} {b : β}
    (h : (x >>= f) w = .ok b w2) : ∃ a w1, x w = .ok a w1 ∧ f a w1 = .ok b w2 := by
  simp only [JS.bind_run, JS.andThen] at h
  cases hx : x w with
  | ok a w1 => rw [hx] at h; exact ⟨a, w1, rfl, h⟩
  | err e w1 => simp [hx] at h
  | pending w1 => simp [hx] at h

/-- Claim C23. Whatever `icegatheringstatechange` events the connection dispatches, the
promise of `waitForIceGathering` resolves exactly when `iceGatheringState` is `complete`
at the call or at one of the events, at the first such moment; it stays pending when
there is no such moment; and a description `createOffer` or `createAnswer` returns is the
local description of a connection whose gathering is complete. -/
theorem description_only_when_gathered (P : Platform) (w : World) (m : WebRTCManager)
    (hm : w.app.webRtcManager = some m) :
    (∀ w1, WebRTCManager.waitForIceGathering P w = .ok () w1 →
      ∃ m1, w1.app.webRtcManager = some m1 ∧
        m1.peerConnection.native.iceGatheringState = "complete") ∧
    ((∃ w1, WebRTCManager.waitForIceGathering P w = .ok () w1) ↔
      (m.peerConnection.native.iceGatheringState = "complete" ∨
        ∃ native ∈ P.rtcGatheringEvents m.peerConnection.native,
          native.iceGatheringState = "complete")) ∧
    ((¬ m.peerConnection.native.iceGatheringState = "complete" ∧
        ∀ native ∈ P.rtcGatheringEvents m.peerConnection.native,
          ¬ native.iceGatheringState = "complete") →
      WebRTCManager.waitForIceGathering P w = .pending w) ∧
    (∀ description w1, WebRTCManager.createOffer P w = .ok description w1 →
      ∃ m1, w1.app.webRtcManager = some m1 ∧
        m1.peerConnection.native.iceGatheringState = "complete" ∧
        description = m1.peerConnection.native.localDescription) ∧
    (∀ offerSdp description w1, WebRTCManager.createAnswer P offerSdp w = .ok description w1 →
      ∃ m1, w1.app.webRtcManager = some m1 ∧
        m1.peerConnection.native.iceGatheringState = "complete" ∧
        description = m1.peerConnection.native.localDescription) := by
  refine ⟨fun w1 h => waitForIceGathering_complete P h, ?_, ?_, ?_, ?_⟩
  · unfold WebRTCManager.waitForIceGathering
    simp only [hm]
    by_cases hc : m.peerConnection.native.iceGatheringState = "complete"
    · simp [hc]
    · rw [if_neg hc]
      cases hs : checkState (P.rtcGatheringEvents m.peerConnection.native) with
      | none =>
        have hnone := (checkState_some_iff (P.rtcGatheringEvents m.peerConnection.native)).not
        rw [hs] at hnone
        simp only [Option.isSome_none, Bool.false_eq_true, not_false_eq_true, true_iff] at hnone
        simp only [hc, false_or]
        constructor
        · rintro ⟨w1, h⟩
          cases h
        · intro h
          exact absurd h hnone
      | some native =>
        have hsome := (checkState_some_iff (P.rtcGatheringEvents m.peerConnection.native)).mp
          (by rw [hs]; rfl)
        exact ⟨fun _ => Or.inr hsome, fun _ => ⟨_, rfl⟩⟩
  · rintro ⟨hc, hall⟩
    unfold WebRTCManager.waitForIceGathering
    simp only [hm]
    rw [if_neg hc]
    cases hs : checkState (P.rtcGatheringEvents m.peerConnection.native) with
    | none => rfl
    | some native =>
      obtain ⟨n, hn, hcn⟩ := (checkState_some_iff
        (P.rtcGatheringEvents m.peerConnection.native)).mp (by rw [hs]; rfl)
      exact absurd hcn (hall n hn)
  · intro description w1 h
    unfold WebRTCManager.createOffer at h
    obtain ⟨_, _, _, h⟩ := bind_ok_inv h
    obtain ⟨_, _, _, h⟩ := bind_ok_inv h
    obtain ⟨_, _, _, h⟩ := bind_ok_inv h
    exact localDescription_after_wait P h
  · intro offerSdp description w1 h
    unfold WebRTCManager.createAnswer at h
    obtain ⟨_, _, _, h⟩ := bind_ok_inv h
    obtain ⟨_, _, _, h⟩ := bind_ok_inv h
    obtain ⟨_, _, _, h⟩ := bind_ok_inv h
    exact localDescription_after_wait P h

set_option maxRecDepth 1000000 in
/-- The hypothesis of `description_only_when_gathered` holds on the sample offerer, whose
connection dispatches one event in the state `gathering` and one in the state `complete`:
`createOffer` returns there, and what it returns is the description of a connection whose
gathering is complete. -/
theorem description_only_when_gathered_witness :
    (WebRTCManager.createOffer Sample.platform Sample.offerer).value
      = some (.obj [("type", .str "offer"), ("sdp", .str "first")]) ∧
    ∃ m1, (WebRTCManager.createOffer Sample.platform Sample.offerer).world.app.webRtcManager
        = some m1 ∧
      m1.peerConnection.native.iceGatheringState = "complete" ∧
      JsVal.obj [("type", .str "offer"), ("sdp", .str "first")]
        = m1.peerConnection.native.localDescription :=
  ⟨by rfl,
    (description_only_when_gathered Sample.platform Sample.offerer Sample.offererManager
      rfl).2.2.2.1 (.obj [("type", .str "offer"), ("sdp", .str "first")])
      (WebRTCManager.createOffer Sample.platform Sample.offerer).world (by rfl)⟩

/-! ## The heartbeat -/

theorem setMessageHandler_installs {handler : MessageHandler} {w w1 : World}
    (h : setMessageHandler handler w = .ok () w1) :
    ∃ m channel, w1.app.webRtcManager = some m ∧ m.dataChannel = some channel ∧
      channel.onmessage = handler := by
  unfold setMessageHandler at h
  cases hm : w.app.webRtcManager with
  | none => simp [hm] at h
  | some m =>
    cases hc : m.dataChannel with
    | none => simp [hm, hc] at h
    | some channel =>
      simp only [hm, hc] at h
      cases h
      exact ⟨_, _, rfl, rfl, rfl⟩

theorem heartbeat_dropped (P : Platform) {w : World} {m : WebRTCManager} {channel : DataChannel}
    (hm : w.app.webRtcManager = some m) (hc : m.dataChannel = some channel)
    (hh : channel.onmessage = .chatHandlers ∨ channel.onmessage = .chatInterface) :
    dataChannelMessage P "__ping__" w = .ok () w ∧ dataChannelMessage P "__pong__" w = .ok () w := by
  unfold dataChannelMessage
  rcases hh with hh | hh <;>
    simp [hm, hc, hh, chatHandlersMessage, chatInterfaceMessage]

/-- Claim C18, on the code. The listener `setupDataChannelEvents` installs answers
`__ping__` with `__pong__` on an open channel. The listeners `setupChatHandlers` and
`showChatInterface` assign over it do not: once either has run, an incoming `__ping__`
and an incoming `__pong__` leave everything as it was, so nothing is decrypted or shown,
and nothing is sent either. -/
theorem ping_unanswered_once_chat_installed (P : Platform) (w : World) :
    (∀ m channel, w.app.webRtcManager = some m → m.dataChannel = some channel →
      channel.onmessage = .manager → channel.readyState = "open" →
      dataChannelMessage P "__ping__" w
        = .ok () { w with trace := w.trace ++ [.channelSend "__pong__"] }) ∧
    (∀ w1, setupChatHandlers w = .ok () w1 →
      dataChannelMessage P "__ping__" w1 = .ok () w1 ∧
      dataChannelMessage P "__pong__" w1 = .ok () w1) ∧
    (∀ w1, showChatInterface w = .ok () w1 →
      dataChannelMessage P "__ping__" w1 = .ok () w1 ∧
      dataChannelMessage P "__pong__" w1 = .ok () w1) := by
  refine ⟨?_, ?_, ?_⟩
  · intro m channel hm hc hh hopen
    simp [dataChannelMessage, hm, hc, hh, WebRTCManager.onmessage, WebRTCManager.sendMessage,
      hopen, JS.emit, JS.update]
  · intro w1 h
    unfold setupChatHandlers at h
    obtain ⟨_, _, _, h⟩ := bind_ok_inv h
    obtain ⟨m, channel, hm, hc, hh⟩ := setMessageHandler_installs h
    exact heartbeat_dropped P hm hc (Or.inl hh)
  · intro w1 h
    unfold showChatInterface at h
    obtain ⟨_, _, _, h⟩ := bind_ok_inv h
    obtain ⟨_, _, _, h⟩ := bind_ok_inv h
    obtain ⟨_, _, _, h⟩ := bind_ok_inv h
    obtain ⟨m, channel, hm, hc, hh⟩ := setMessageHandler_installs h
    exact heartbeat_dropped P hm hc (Or.inr hh)

set_option maxRecDepth 1000000 in
/-- The hypotheses of `ping_unanswered_once_chat_installed` hold on the sample peer with an
open channel: before `setupChatHandlers` a `__ping__` is answered, after it the same
`__ping__` is answered by nothing. -/
theorem ping_unanswered_once_chat_installed_witness :
    (dataChannelMessage Sample.platform "__ping__" Sample.chatting).world.trace
      = [.channelSend "__pong__"] ∧
    (setupChatHandlers Sample.chatting).value = some () ∧
    dataChannelMessage Sample.platform "__ping__" (setupChatHandlers Sample.chatting).world
      = .ok () (setupChatHandlers Sample.chatting).world ∧
    (dataChannelMessage Sample.platform "__ping__"
      (setupChatHandlers Sample.chatting).world).world.trace = [] :=
  ⟨by rfl, by rfl,
    ((ping_unanswered_once_chat_installed Sample.platform Sample.chatting).2.1
      (setupChatHandlers Sample.chatting).world (by rfl)).1,
    by rfl⟩

/-! ## The unlock of a saved session -/

theorem showChatInterface_without_manager (w : World) (h : w.app.webRtcManager = none) :
    ∃ w1, showChatInterface w = .err (.typeError "dataChannel") w1 ∧ w1.trace = w.trace ∧
      w1.app.webRtcManager = none ∧ w1.app.myUnreadListCid = w.app.myUnreadListCid := by
  unfold showChatInterface
  simp only [JS.bind_run, JS.andThen, JS.update, JS.read]
  by_cases hm : w.browser.messages.isNone = true
  · simp [hm, JS.ret, setMessageHandler, h]
  · by_cases hs : w.browser.setupUi = true
    · simp [hm, hs, JS.ret, setMessageHandler, h, stopScanner, JS.andThen, JS.update]
    · simp [hm, hs, JS.ret, setMessageHandler, h]

theorem unlock_raises (P : Platform) (session : JsVal) (password : String) (w : World)
    (hpw : password ≠ "") :
    ∃ e w1, unlock P session password w = .err e w1 ∧ w1.trace = w.trace := by
  unfold unlock
  rw [if_neg hpw]
  simp only [JS.bind_run, JS.andThen, StorageManager.loadApiToken, getItem, initializeIpfsClient]
  by_cases ht : falsyItem (w.browser.localStorage.lookup W3S_TOKEN_KEY) = true
  · simp only [ht, if_true]
    exact ⟨_, _, rfl, rfl⟩
  · simp only [ht, Bool.false_eq_true, if_false, JS.update]
    rcases h1 : session.getProp "peerPushSubscription" with e1 | v1
    · exact ⟨_, _, rfl, rfl⟩
    · rcases h2 : session.getProp "myUnreadListCid" with e2 | v2
      · exact ⟨_, _, rfl, rfl⟩
      · rcases h3 : session.getProp "peerUnreadListCid" with e3 | v3
        · exact ⟨_, _, rfl, rfl⟩
        · rcases h4 : session.getProp "salt" with e4 | v4
          · exact ⟨_, _, rfl, rfl⟩
          · rcases h5 : base64ToArrayBuffer v4.toText with e5 | salt
            · simp only [JS.lift, JS.ret, JS.throw, h5]
              exact ⟨_, _, rfl, rfl⟩
            · obtain ⟨w1, hw1, ht1, _⟩ := showChatInterface_without_manager
                { w with
                  relay := { w.relay with client := true }
                  app := { w.app.reset with
                    peerPushSubscription := v1, myUnreadListCid := v2, peerUnreadListCid := v3
                    cryptoManager := some { key := some (P.pbkdf2 password salt) } } } rfl
              refine ⟨.typeError "dataChannel", w1, ?_, ht1⟩
              simp only [JS.lift, JS.ret, deriveKeyFromPassword, h5]
              simp only [] at hw1
              rw [hw1]

theorem unlock_restored (P : Platform) (session : JsVal) (password : String) (w : World)
    (hpw : password ≠ "") (token : String) (v1 v2 v3 v4 : JsVal) (salt : List Byte)
    (htoken : w.browser.localStorage.lookup W3S_TOKEN_KEY = some token) (hne : token ≠ "")
    (h1 : session.getProp "peerPushSubscription" = .ok v1)
    (h2 : session.getProp "myUnreadListCid" = .ok v2)
    (h3 : session.getProp "peerUnreadListCid" = .ok v3)
    (h4 : session.getProp "salt" = .ok v4)
    (h5 : base64ToArrayBuffer v4.toText = .ok salt) :
    ∃ w1, unlock P session password w = .err (.typeError "dataChannel") w1 ∧
      w1.app.webRtcManager = none ∧ w1.app.myUnreadListCid = v2 := by
  unfold unlock
  rw [if_neg hpw]
  simp only [JS.bind_run, JS.andThen, StorageManager.loadApiToken, getItem, initializeIpfsClient,
    htoken, falsyItem, hne, decide_False, Bool.false_eq_true, if_false, JS.update, h1, h2, h3, h4,
    h5, JS.lift, JS.ret, deriveKeyFromPassword]
  obtain ⟨w1, hw1, _, hm1, hmy1⟩ := showChatInterface_without_manager
    { w with
      relay := { w.relay with client := true }
      app := { w.app.reset with
        peerPushSubscription := v1, myUnreadListCid := v2, peerUnreadListCid := v3
        cryptoManager := some { key := some (P.pbkdf2 password salt) } } } rfl
  refine ⟨w1, ?_, hm1, hmy1⟩
  simp only [] at hw1
  rw [hw1]

theorem Grows.grows_iterate (v : JsVal) : Grows (iterate v) := by
  unfold P2PChat.iterate
  cases v <;> first | exact Grows.grows_throw _ | exact Grows.grows_ret _

theorem Grows.grows_decryptMessage (P : Platform) (data : String) : Grows (decryptMessage P data) := by
  apply Grows.of_same
  intro w
  unfold P2PChat.decryptMessage
  cases w.app.cryptoManager with
  | none => exact ⟨rfl, rfl⟩
  | some cm =>
    simp only []
    cases cm.decrypt P data <;> exact ⟨rfl, rfl⟩

theorem Grows.grows_appendMessage (text : String) : Grows (appendMessage text) := by
  apply Grows.of_same
  intro w
  unfold P2PChat.appendMessage
  cases w.browser.messages <;> exact ⟨rfl, rfl⟩

theorem Grows.grows_scrollMessages : Grows scrollMessages := by
  apply Grows.of_same
  intro w
  unfold P2PChat.scrollMessages
  cases w.browser.messages <;> exact ⟨rfl, rfl⟩

theorem Grows.grows_drainLoop (P : Platform) (items : List JsVal) : Grows (drainLoop P items) := by
  induction items with
  | nil => exact Grows.grows_ret _
  | cons messageCid rest ih =>
    unfold P2PChat.drainLoop
    exact Grows.grows_bind (Grows.grows_downloadFromIPFS P _) fun _ =>
      Grows.grows_bind (Grows.grows_decryptMessage P _) fun _ =>
      Grows.grows_bind (Grows.grows_appendMessage _) fun _ => ih

theorem downloadFromIPFS_traced (P : Platform) (cid : JsVal) (w : World) :
    ∃ events, (downloadFromIPFS P cid w).world.trace
      = w.trace ++ Event.relayGet cid.toText :: events := by
  unfold downloadFromIPFS
  by_cases hf : w.relay.nextFails = true
  · exact ⟨[.consoleError "Error downloading from IPFS" .ipfsFetch], by simp [hf, Res.world]⟩
  · cases hl : w.relay.lookup P cid.toText with
    | none =>
      exact ⟨[.consoleError "Error downloading from IPFS" (.ipfsDownloadFailed cid.toText)],
        by simp [hf, Res.world]⟩
    | some content => exact ⟨[], by simp [hf, Res.world]⟩

theorem traced_bind {α β : Type} {x : JS α} {f : α → JS β} {w : World} {e : Event}
    (hx : ∃ events, (x w).world.trace = w.trace ++ e :: events) (hf : ∀ a, Grows (f a)) :
    ∃ events, ((x >>= f) w).world.trace = w.trace ++ e :: events := by
  obtain ⟨ev1, h1⟩ := hx
  simp only [JS.bind_run, JS.andThen]
  cases hr : x w with
  | ok a w1 =>
    rw [hr] at h1
    simp only [Res.world] at h1
    obtain ⟨ev2, _, h2, _⟩ := hf a w1
    exact ⟨ev1 ++ ev2, by rw [h2, h1]; simp⟩
  | err e1 w1 => rw [hr] at h1; exact ⟨ev1, h1⟩
  | pending w1 => rw [hr] at h1; exact ⟨ev1, h1⟩

theorem traced_tryCatch {α : Type} {body : JS α} {handler : JsError → JS α} {w : World}
    {e : Event} (hx : ∃ events, (body w).world.trace = w.trace ++ e :: events)
    (hf : ∀ error, Grows (handler error)) :
    ∃ events, (JS.tryCatch body handler w).world.trace = w.trace ++ e :: events := by
  obtain ⟨ev1, h1⟩ := hx
  simp only [JS.tryCatch]
  cases hr : body w with
  | ok a w1 => rw [hr] at h1; exact ⟨ev1, h1⟩
  | err e1 w1 =>
    rw [hr] at h1
    simp only [Res.world] at h1
    obtain ⟨ev2, _, h2, _⟩ := hf e1 w1
    exact ⟨ev1 ++ ev2, by rw [h2, h1]; simp⟩
  | pending w1 => rw [hr] at h1; exact ⟨ev1, h1⟩

theorem checkUnreadMessages_traced (P : Platform) (w : World) :
    ∃ events, (checkUnreadMessages P w).world.trace
      = w.trace ++ Event.relayGet w.app.myUnreadListCid.toText :: events := by
  unfold checkUnreadMessages
  refine traced_tryCatch ?_ (fun _ => Grows.grows_emit _)
  show ∃ events, ((downloadFromIPFS P w.app.myUnreadListCid >>= _) w).world.trace = _
  refine traced_bind (downloadFromIPFS_traced P _ w) fun listText => ?_
  exact Grows.grows_bind (Grows.grows_parseJson P _) fun unreadList =>
    Grows.grows_bind (Grows.grows_lift _) fun length =>
    Grows.grows_ite
      (Grows.grows_bind (Grows.grows_iterate _) fun items =>
        Grows.grows_bind (Grows.grows_drainLoop P items) fun _ =>
        Grows.grows_bind Grows.grows_scrollMessages fun _ =>
        Grows.grows_bind (Grows.grows_uploadToIPFS P _) fun _ =>
        Grows.grows_update fun _ => ⟨rfl, rfl⟩)
      (Grows.grows_ret _)

/-- Claim C22, on the code. With a password typed in, the unlock handler never completes:
from every state and for every session it ends in an exception, having added nothing to
the trace, while every run of `checkUnreadMessages` adds its request to the gateway; so
`checkUnreadMessages` is not reached. When the token is saved and the session has its
fields, the exception is the `TypeError` of the last statement of `showChatInterface`,
which reads `dataChannel` of the `webRtcManager` the handler has just reset to `null`. -/
theorem unlock_stops_before_inbox (P : Platform) (session : JsVal) (password : String)
    (w : World) (hpw : password ≠ "") :
    (∃ e w1, unlock P session password w = .err e w1 ∧ w1.trace = w.trace) ∧
    (∀ v, ∃ events, (checkUnreadMessages P v).world.trace
      = v.trace ++ Event.relayGet v.app.myUnreadListCid.toText :: events) ∧
    (∀ token peerPushSubscription myUnreadListCid peerUnreadListCid saltText salt,
      w.browser.localStorage.lookup W3S_TOKEN_KEY = some token → token ≠ "" →
      session.getProp "peerPushSubscription" = .ok peerPushSubscription →
      session.getProp "myUnreadListCid" = .ok myUnreadListCid →
      session.getProp "peerUnreadListCid" = .ok peerUnreadListCid →
      session.getProp "salt" = .ok saltText →
      base64ToArrayBuffer saltText.toText = .ok salt →
      ∃ w1, unlock P session password w = .err (.typeError "dataChannel") w1 ∧
        w1.app.webRtcManager = none ∧ w1.app.myUnreadListCid = myUnreadListCid) :=
  ⟨unlock_raises P session password w hpw, checkUnreadMessages_traced P,
    fun token v1 v2 v3 v4 salt htoken hne h1 h2 h3 h4 h5 =>
      unlock_restored P session password w hpw token v1 v2 v3 v4 salt htoken hne h1 h2 h3 h4 h5⟩

set_option maxRecDepth 1000000 in
/-- The hypothesis of `unlock_stops_before_inbox` holds for the password `secret`. In the
sample tab opened again, `activateChat` finds the saved session and shows the password
page; the unlock then ends in the `TypeError` of `showChatInterface`, with the unread
list of the session restored and never read. -/
theorem unlock_stops_before_inbox_witness :
    (activateChat Sample.platform Sample.returning).value = some (some Sample.sessionRecord) ∧
    (∃ w1, unlock Sample.platform Sample.sessionRecord "secret"
        (activateChat Sample.platform Sample.returning).world
          = .err (.typeError "dataChannel") w1 ∧
      w1.app.webRtcManager = none ∧ w1.app.myUnreadListCid = .str (Sample.cidOf "[]")) ∧
    (unlock Sample.platform Sample.sessionRecord "secret"
      (activateChat Sample.platform Sample.returning).world).world.trace = [] :=
  ⟨by rfl,
    (unlock_stops_before_inbox Sample.platform Sample.sessionRecord "secret"
      (activateChat Sample.platform Sample.returning).world (by decide)).2.2
      "token" (.obj [("endpoint", .str "https://push.example/peer")]) (.str (Sample.cidOf "[]"))
      (.str (Sample.cidOf "[]")) (.str "AAECAwQFBgcICQoLDA0ODw==")
      [0, 1, 2, 3, 4, 5, 6, 7, 8, 9, 10, 11, 12, 13, 14, 15]
      (by rfl) (by decide) (by rfl) (by rfl) (by rfl) (by rfl) (by rfl),
    by rfl⟩

/-! ## The handshake -/

theorem subscribeUser_ok (key : String) (w : World) (pm : PushManager) (subscription : JsVal)
    (hpm : w.app.pushManager = some pm)
    (hkey : ∃ bytes, urlBase64ToUint8Array key = .ok bytes)
    (hsup : w.browser.pushSupported = true) (hready : w.browser.swReady = true)
    (hsub : w.browser.subscribeResult = some subscription) :
    PushManager.subscribeUser key w = .ok subscription
      { w with app := { w.app with
          pushManager := some { subscription := subscription, swRegistration := true } } } := by
  obtain ⟨bytes, hbytes⟩ := hkey
  unfold PushManager.subscribeUser
  simp only [hpm]
  by_cases hreg : pm.swRegistration = false
  · simp [hreg, PushManager.initialize, hsup, hready, setPushManager, JS.andThen, JS.update,
      hbytes, JS.lift, JS.ret, JS.tryCatch, JS.read, hpm, hsub]
  · have hreg2 : pm.swRegistration = true := by simpa using hreg
    simp [hreg2, setPushManager, JS.andThen, JS.update,
      hbytes, JS.lift, JS.ret, JS.tryCatch, JS.read, hpm, hsub]

set_option maxRecDepth 1000000 in
theorem vapid_key_decodes : ∃ bytes, urlBase64ToUint8Array VAPID_PUBLIC_KEY = .ok bytes :=
  ⟨((atob (String.mk ((VAPID_PUBLIC_KEY.toList ++ ['=', '=']).map
      (fun c => if c = '-' then '+' else if c = '_' then '/' else c)))).toOption.getD []).map toByte,
    by rfl⟩

theorem createOffer_ok (P : Platform) (w : World) (m : WebRTCManager) (offer : JsVal)
    (n1 n2 : RtcState) (hm : w.app.webRtcManager = some m)
    (hoffer : P.rtcCreateOffer m.peerConnection.native false = some offer)
    (hlocal : P.rtcSetLocal m.peerConnection.native offer = some n1)
    (hnot : n1.iceGatheringState ≠ "complete")
    (hgather : checkState (P.rtcGatheringEvents n1) = some n2) :
    WebRTCManager.createOffer P w = .ok n2.localDescription
      { w with
        app := { w.app with
          webRtcManager := some { m with
            dataChannel := some { readyState := "connecting", onmessage := .manager }
            peerConnection := { m.peerConnection with native := n2 } } }
        trace := w.trace ++ [.rtcCall "createDataChannel" (.str "chat-channel"),
          .rtcCall "createOffer" (.bool false), .rtcCall "setLocalDescription" offer] } := by
  simp [WebRTCManager.createOffer, WebRTCManager.createDataChannel, withManager, hm, JS.andThen,
    JS.emit, JS.update, rtcCreateOffer, rtcCall, hoffer, rtcSetLocalDescription, hlocal,
    WebRTCManager.waitForIceGathering, hnot, hgather, localDescription]

theorem JS.bind_eq {α β : Type} {x : JS α} {f : α → JS β} {w w1 : World} {a : α} {r : Res β}
    (h : x w = .ok a w1) (h2 : f a w1 = r) : (x >>= f) w = r := by
  rw [JS.bind_ok h, h2]

theorem createInvitation_ok (P : Platform) (w : World) (password : String) (subA offer : JsVal)
    (n1 n2 : RtcState)
    (hui : w.browser.setupUi = true) (hcam : w.browser.camera = true)
    (hprompt : w.browser.prompts.headD none = some password) (hpw : password ≠ "")
    (hsup : w.browser.pushSupported = true) (hready : w.browser.swReady = true)
    (hsub : w.browser.subscribeResult = some subA) (htruthy : subA.truthy = true)
    (hclient : w.relay.client = true) (hfaults : w.relay.faults = [])
    (hoffer : P.rtcCreateOffer RtcState.fresh false = some offer)
    (hlocal : P.rtcSetLocal RtcState.fresh offer = some n1)
    (hnot : n1.iceGatheringState ≠ "complete")
    (hgather : checkState (P.rtcGatheringEvents n1) = some n2)
    (saltText : String) (hsalt : arrayBufferToBase64 (w.randomBytes 16) = .ok saltText) :
      createInvitation P w = .ok ()
        { app :=
            { webRtcManager := some
                { peerConnection :=
                    { native := n2, onconnectionstatechange := .invitation (w.randomBytes 16) }
                  dataChannel := some { readyState := "connecting", onmessage := .manager }
                  isOfferer := true
                  onIceRestartNeeded := false
                  keepAliveInterval := false }
              stream := true
              pushManager := some { subscription := subA, swRegistration := true }
              cryptoManager := some { key := some (P.pbkdf2 password (w.randomBytes 16)) }
              peerPushSubscription := .null
              peerUnreadListCid := .null
              myUnreadListCid := .str (P.cidOf (P.jsonStringify (.arr []))) }
          relay :=
            { client := true
              blobs := w.relay.blobs ++ [P.jsonStringify (.arr []),
                P.jsonStringify (.obj [("sdp", n2.localDescription), ("pushSubscription", subA),
                  ("unreadListCid", .str (P.cidOf (P.jsonStringify (.arr [])))),
                  ("salt", .str saltText)])]
              faults := [] }
          browser :=
            { w.browser with
              prompts := w.browser.prompts.tail
              randomUsed := w.browser.randomUsed + 16 }
          trace := w.trace ++ [.relayPut (P.jsonStringify (.arr [])),
            .rtcCall "createDataChannel" (.str "chat-channel"),
            .rtcCall "createOffer" (.bool false), .rtcCall "setLocalDescription" offer,
            .relayPut (P.jsonStringify (.obj [("sdp", n2.localDescription),
              ("pushSubscription", subA),
              ("unreadListCid", .str (P.cidOf (P.jsonStringify (.arr [])))),
              ("salt", .str saltText)])),
            .qrCode (P.jsonStringify (.obj [("type", .str "offer"),
              ("cid", .str (P.cidOf (P.jsonStringify (.obj [("sdp", n2.localDescription),
                ("pushSubscription", subA),
                ("unreadListCid", .str (P.cidOf (P.jsonStringify (.arr [])))),
                ("salt", .str saltText)]))))]))] } := by
  unfold createInvitation
  refine JS.bind_eq (show hideConnectionSetup w = .ok () w by simp [hideConnectionSetup, hui]) ?_
  refine JS.bind_eq (show JS.update _ w = .ok () _ from rfl) ?_
  apply tryCatch_ok
  refine JS.bind_eq (show prompt _ = .ok _ _ from rfl) ?_
  simp only [hprompt, falsyItem, hpw, decide_False, Bool.false_eq_true, if_false]
  refine JS.bind_eq (subscribeUser_ok VAPID_PUBLIC_KEY _ PushManager.new subA rfl
    vapid_key_decodes hsup hready hsub) ?_
  simp only [htruthy, Bool.true_eq_false, if_false]
  refine JS.bind_eq (uploadToIPFS_ok P _ _ hclient (by simp [Relay.nextFails, hfaults])) ?_
  dsimp only [World.afterRequest, World.stored, AppState.reset]
  refine JS.bind_eq (show JS.update _ _ = .ok () _ from rfl) ?_
  dsimp only
  refine JS.bind_eq (show generateSalt _ = .ok (w.randomBytes 16) _ from rfl) ?_
  dsimp only [World.drew]
  refine JS.bind_eq (show deriveKeyFromPassword P _ _ _ = .ok () _ from rfl) ?_
  dsimp only
  refine JS.bind_eq (createOffer_ok P _ (WebRTCManager.new true) offer n1 n2 rfl hoffer hlocal
    hnot hgather) ?_
  dsimp only [WebRTCManager.new]
  refine JS.bind_eq (show JS.lift (arrayBufferToBase64 _) _ = .ok saltText _ by rw [hsalt]; rfl) ?_
  refine JS.bind_eq (show JS.read _ = .ok _ _ from rfl) ?_
  dsimp only
  refine JS.bind_eq (uploadToIPFS_ok P _ _ hclient (by simp [Relay.nextFails, hfaults])) ?_
  dsimp only [World.afterRequest, World.stored]
  refine JS.bind_eq (show JS.emit _ _ = .ok () _ from rfl) ?_
  dsimp only
  refine JS.bind_eq (show setConnectionHandler _ _ = .ok () _ from rfl) ?_
  dsimp only
  simp [startScanner, hui, hcam, hclient, hfaults]

theorem createAnswer_ok (P : Platform) (w : World) (m : WebRTCManager) (offerSdp answer : JsVal)
    (r0 r1 r2 : RtcState) (hm : w.app.webRtcManager = some m)
    (hremote : P.rtcSetRemote m.peerConnection.native offerSdp = some r0)
    (hanswer : P.rtcCreateAnswer r0 = some answer)
    (hlocal : P.rtcSetLocal r0 answer = some r1)
    (hnot : r1.iceGatheringState ≠ "complete")
    (hgather : checkState (P.rtcGatheringEvents r1) = some r2) :
    WebRTCManager.createAnswer P offerSdp w = .ok r2.localDescription
      { w with
        app := { w.app with
          webRtcManager := some { m with peerConnection := { m.peerConnection with native := r2 } } }
        trace := w.trace ++ [.rtcCall "setRemoteDescription" offerSdp,
          .rtcCall "createAnswer" .undefined, .rtcCall "setLocalDescription" answer] } := by
  simp [WebRTCManager.createAnswer, hm, JS.andThen, rtcSetRemoteDescription, rtcCall, hremote,
    rtcCreateAnswer, hanswer, rtcSetLocalDescription, hlocal,
    WebRTCManager.waitForIceGathering, hnot, hgather, localDescription]

theorem scanOffer_ok (P : Platform) (w : World) (invitation offerCid offerText : String)
    (password saltText : String) (salt : List Byte)
    (subA subB offerSdp peerCid answer : JsVal) (r0 r1 r2 : RtcState)
    (hui : w.browser.setupUi = true) (hcam : w.browser.camera = true)
    (hprompt : w.browser.prompts.headD none = some password) (hpw : password ≠ "")
    (hsup : w.browser.pushSupported = true) (hready : w.browser.swReady = true)
    (hsub : w.browser.subscribeResult = some subB)
    (hclient : w.relay.client = true) (hfaults : w.relay.faults = [])
    (hinv : P.jsonParse invitation = some (.obj [("type", .str "offer"), ("cid", .str offerCid)]))
    (hserve : w.relay.lookup P offerCid = some offerText)
    (hpayload : P.jsonParse offerText = some (.obj [("sdp", offerSdp), ("pushSubscription", subA),
      ("unreadListCid", peerCid), ("salt", .str saltText)]))
    (hsalt : base64ToArrayBuffer saltText = .ok salt)
    (hremote : P.rtcSetRemote RtcState.fresh offerSdp = some r0)
    (hanswer : P.rtcCreateAnswer r0 = some answer)
    (hlocal : P.rtcSetLocal r0 answer = some r1)
    (hnot : r1.iceGatheringState ≠ "complete")
    (hgather : checkState (P.rtcGatheringEvents r1) = some r2) :
    (scanInvitation >>= fun _ => tick P "offer" invitation) w = .ok ()
      { app :=
          { webRtcManager := some
              { peerConnection := { native := r2, onconnectionstatechange := .scanned salt }
                dataChannel := none
                isOfferer := false
                onIceRestartNeeded := false
                keepAliveInterval := false }
            stream := false
            pushManager := some { subscription := subB, swRegistration := true }
            cryptoManager := some { key := some (P.pbkdf2 password salt) }
            peerPushSubscription := subA
            peerUnreadListCid := peerCid
            myUnreadListCid := .str (P.cidOf (P.jsonStringify (.arr []))) }
        relay :=
          { client := true
            blobs := w.relay.blobs ++ [P.jsonStringify (.arr []),
              P.jsonStringify (.obj [("sdp", r2.localDescription), ("pushSubscription", subB),
                ("unreadListCid", .str (P.cidOf (P.jsonStringify (.arr []))))])]
            faults := [] }
        browser := { w.browser with prompts := w.browser.prompts.tail }
        trace := w.trace ++ [.relayGet offerCid, .relayPut (P.jsonStringify (.arr [])),
          .rtcCall "setRemoteDescription" offerSdp, .rtcCall "createAnswer" .undefined,
          .rtcCall "setLocalDescription" answer,
          .relayPut (P.jsonStringify (.obj [("sdp", r2.localDescription),
            ("pushSubscription", subB),
            ("unreadListCid", .str (P.cidOf (P.jsonStringify (.arr []))))])),
          .qrCode (P.jsonStringify (.obj [("type", .str "answer"),
            ("cid", .str (P.cidOf (P.jsonStringify (.obj [("sdp", r2.localDescription),
              ("pushSubscription", subB),
              ("unreadListCid", .str (P.cidOf (P.jsonStringify (.arr []))))]))))]))] } := by
  refine JS.bind_eq (show scanInvitation w = .ok ()
    { w with app := { w.app with stream := true } } by
      simp [scanInvitation, hideConnectionSetup, startScanner, hui, hcam, JS.andThen]) ?_
  unfold tick
  refine JS.bind_eq (show stopScanner _ = .ok ()
    { w with app := { w.app with stream := false } } by
      simp [stopScanner, hui, JS.andThen, JS.update]) ?_
  unfold handleScannedData
  apply tryCatch_ok
  refine JS.bind_eq (show parseJson P invitation _ = .ok _ _ by simp only [parseJson, hinv]; rfl) ?_
  refine JS.bind_eq (show JS.lift _ _ = .ok (.str "offer") _ from rfl) ?_
  simp only [JsVal.isStr, decide_True, Bool.true_eq_false, if_false, if_true]
  unfold handleScannedOffer
  refine JS.bind_eq (show JS.update _ _ = .ok () _ from rfl) ?_
  dsimp only [AppState.reset]
  refine JS.bind_eq (show JS.lift _ _ = .ok (.str offerCid) _ from rfl) ?_
  refine JS.bind_eq (downloadFromIPFS_ok P _ offerText _ (by simp [Relay.nextFails, hfaults])
    hserve) ?_
  dsimp only [World.afterRequest, JsVal.toText]
  refine JS.bind_eq (show parseJson P offerText _ = .ok _ _ by
    simp only [parseJson, hpayload]; rfl) ?_
  refine JS.bind_eq (show JS.lift _ _ = .ok subA _ from rfl) ?_
  refine JS.bind_eq (show JS.update _ _ = .ok () _ from rfl) ?_
  dsimp only
  refine JS.bind_eq (show JS.lift _ _ = .ok peerCid _ from rfl) ?_
  refine JS.bind_eq (show JS.update _ _ = .ok () _ from rfl) ?_
  dsimp only
  refine JS.bind_eq (show prompt _ = .ok _ _ from rfl) ?_
  simp only [hprompt, falsyItem, hpw, decide_False, Bool.false_eq_true, if_false]
  refine JS.bind_eq (show JS.lift _ _ = .ok (.str saltText) _ from rfl) ?_
  refine JS.bind_eq (show JS.lift (base64ToArrayBuffer _) _ = .ok salt _ by
    simp only [JsVal.toText, hsalt]; rfl) ?_
  refine JS.bind_eq (show deriveKeyFromPassword P _ _ _ = .ok () _ from rfl) ?_
  dsimp only
  refine JS.bind_eq (subscribeUser_ok VAPID_PUBLIC_KEY _ PushManager.new subB rfl
    vapid_key_decodes hsup hready hsub) ?_
  dsimp only
  refine JS.bind_eq (uploadToIPFS_ok P _ _ hclient (by simp [Relay.nextFails, hfaults])) ?_
  dsimp only [World.afterRequest, World.stored]
  refine JS.bind_eq (show JS.update _ _ = .ok () _ from rfl) ?_
  dsimp only
  refine JS.bind_eq (show JS.lift _ _ = .ok offerSdp _ from rfl) ?_
  refine JS.bind_eq (show _ = Res.ok r2.localDescription _ from
    createAnswer_ok P _ (WebRTCManager.new false) offerSdp answer r0 r1 r2 rfl hremote hanswer
      hlocal hnot hgather) ?_
  dsimp only [WebRTCManager.new]
  refine JS.bind_eq (show JS.read _ = .ok _ _ from rfl) ?_
  dsimp only
  refine JS.bind_eq (uploadToIPFS_ok P _ _ hclient (by simp [Relay.nextFails, hfaults])) ?_
  dsimp only [World.afterRequest, World.stored]
  refine JS.bind_eq (show showAnswerQr _ _ = .ok () _ by
    simp only [showAnswerQr, hui, Bool.true_eq_false, if_false]; rfl) ?_
  dsimp only
  simp [setConnectionHandler, hfaults, hclient, hui]

theorem scanAnswer_ok (P : Platform) (w : World) (answerQr answerCid answerText : String)
    (subB answerSdp peerCid : JsVal) (m : WebRTCManager) (r : RtcState)
    (hui : w.browser.setupUi = true) (hfaults : w.relay.faults = [])
    (hqr : P.jsonParse answerQr = some (.obj [("type", .str "answer"), ("cid", .str answerCid)]))
    (hserve : w.relay.lookup P answerCid = some answerText)
    (hpayload : P.jsonParse answerText = some (.obj [("sdp", answerSdp),
      ("pushSubscription", subB), ("unreadListCid", peerCid)]))
    (hm : w.app.webRtcManager = some m)
    (hremote : P.rtcSetRemote m.peerConnection.native answerSdp = some r) :
    tick P "answer" answerQr w = .ok ()
      { w with
        app := { w.app with
          stream := false
          peerPushSubscription := subB
          peerUnreadListCid := peerCid
          webRtcManager := some { m with peerConnection := { m.peerConnection with native := r } } }
        relay := { w.relay with faults := [] }
        trace := w.trace ++ [.relayGet answerCid, .rtcCall "setRemoteDescription" answerSdp] } := by
  unfold tick
  refine JS.bind_eq (show stopScanner _ = .ok ()
    { w with app := { w.app with stream := false } } by
      simp [stopScanner, hui, JS.andThen, JS.update]) ?_
  unfold handleScannedData
  apply tryCatch_ok
  refine JS.bind_eq (show parseJson P answerQr _ = .ok _ _ by simp only [parseJson, hqr]; rfl) ?_
  refine JS.bind_eq (show JS.lift _ _ = .ok (.str "answer") _ from rfl) ?_
  simp only [JsVal.isStr, decide_True, Bool.true_eq_false, if_false, if_true]
  rw [if_neg (by decide)]
  unfold handleScannedAnswer
  refine JS.bind_eq (show JS.lift _ _ = .ok (.str answerCid) _ from rfl) ?_
  refine JS.bind_eq (downloadFromIPFS_ok P _ answerText _ (by simp [Relay.nextFails, hfaults])
    hserve) ?_
  dsimp only [World.afterRequest, JsVal.toText]
  refine JS.bind_eq (show parseJson P answerText _ = .ok _ _ by
    simp only [parseJson, hpayload]; rfl) ?_
  refine JS.bind_eq (show JS.lift _ _ = .ok subB _ from rfl) ?_
  refine JS.bind_eq (show JS.update _ _ = .ok () _ from rfl) ?_
  dsimp only
  refine JS.bind_eq (show JS.lift _ _ = .ok peerCid _ from rfl) ?_
  refine JS.bind_eq (show JS.update _ _ = .ok () _ from rfl) ?_
  dsimp only
  refine JS.bind_eq (show JS.read _ = .ok _ _ from rfl) ?_
  dsimp only
  simp [hm, JS.lift, JS.ret, JS.andThen, JsVal.getProp, WebRTCManager.setFinalRemoteDescription,
    rtcSetRemoteDescription, rtcCall, hremote, hfaults]

theorem SameStorage.sameStorage_refl (w : World) : SameStorage w w := rfl

theorem SameStorage.sameStorage_trans (a b c : World) (h1 : SameStorage a b) (h2 : SameStorage b c) :
    SameStorage a c := by
  unfold SameStorage at *
  rw [h2, h1]

theorem Spares.sameStorage {α : Type} {x : JS α} (h : Spares x) : Along SameStorage x :=
  fun w => (h w).2

theorem Spares.spares_iterate (v : JsVal) : Spares (iterate v) := by
  unfold P2PChat.iterate
  cases v <;> first | exact Spares.spares_throw _ | exact Spares.spares_ret _

theorem Spares.spares_decryptMessage (P : Platform) (data : String) : Spares (decryptMessage P data) := by
  intro w
  unfold P2PChat.decryptMessage
  cases w.app.cryptoManager with
  | none => exact ⟨rfl, rfl⟩
  | some cm =>
    simp only []
    cases cm.decrypt P data <;> exact ⟨rfl, rfl⟩

theorem Spares.spares_appendMessage (text : String) : Spares (appendMessage text) := by
  intro w
  unfold P2PChat.appendMessage
  cases w.browser.messages <;> exact ⟨rfl, rfl⟩

theorem Spares.spares_scrollMessages : Spares scrollMessages := by
  intro w
  unfold P2PChat.scrollMessages
  cases w.browser.messages <;> exact ⟨rfl, rfl⟩

theorem Spares.spares_drainLoop (P : Platform) (items : List JsVal) : Spares (drainLoop P items) := by
  induction items with
  | nil => exact Spares.spares_ret _
  | cons messageCid rest ih =>
    unfold P2PChat.drainLoop
    exact Spares.spares_bind (Spares.spares_downloadFromIPFS P _) fun _ =>
      Spares.spares_bind (Spares.spares_decryptMessage P _) fun _ =>
      Spares.spares_bind (Spares.spares_appendMessage _) fun _ => ih

theorem Spares.spares_stopScanner : Spares stopScanner := by
  unfold P2PChat.stopScanner
  refine Spares.spares_bind (Spares.spares_update fun _ => ⟨rfl, rfl⟩) fun _ => ?_
  intro w
  by_cases h : w.browser.setupUi = false <;> simp [h, Res.world]

theorem Spares.spares_setMessageHandler (handler : MessageHandler) :
    Spares (setMessageHandler handler) := by
  intro w
  unfold P2PChat.setMessageHandler
  cases w.app.webRtcManager with
  | none => exact ⟨rfl, rfl⟩
  | some m =>
    simp only []
    cases m.dataChannel <;> exact ⟨rfl, rfl⟩

theorem Spares.spares_showChatInterface : Spares showChatInterface := by
  unfold P2PChat.showChatInterface
  refine Spares.spares_bind (Spares.spares_update fun w => ?_) fun _ =>
    Spares.spares_bind Spares.spares_read fun _ =>
    Spares.spares_bind (Spares.spares_ite Spares.spares_stopScanner (Spares.spares_ret _)) fun _ =>
    Spares.spares_setMessageHandler _
  by_cases h : w.browser.messages.isNone = true <;> simp [h]

theorem Grows.grows_stopScanner : Grows stopScanner := by
  unfold P2PChat.stopScanner
  refine Grows.grows_bind (Grows.grows_update fun _ => ⟨rfl, rfl⟩) fun _ => Grows.of_same fun w => ?_
  by_cases h : w.browser.setupUi = false <;> simp [h, Res.world]

theorem Grows.grows_setMessageHandler (handler : MessageHandler) :
    Grows (setMessageHandler handler) := by
  apply Grows.of_same
  intro w
  unfold P2PChat.setMessageHandler
  cases w.app.webRtcManager with
  | none => exact ⟨rfl, rfl⟩
  | some m =>
    simp only []
    cases m.dataChannel <;> exact ⟨rfl, rfl⟩

theorem Grows.grows_showChatInterface : Grows showChatInterface := by
  unfold P2PChat.showChatInterface
  refine Grows.grows_bind (Grows.grows_update fun w => ?_) fun _ =>
    Grows.grows_bind Grows.grows_read fun _ =>
    Grows.grows_bind (Grows.grows_ite Grows.grows_stopScanner (Grows.grows_ret _)) fun _ =>
    Grows.grows_setMessageHandler _
  by_cases h : w.browser.messages.isNone = true <;> simp [h]

theorem Grows.grows_checkUnreadMessages (P : Platform) : Grows (checkUnreadMessages P) := by
  unfold P2PChat.checkUnreadMessages
  refine Grows.grows_tryCatch ?_ (fun _ => Grows.grows_emit _)
  exact Grows.grows_bind Grows.grows_read fun _ =>
    Grows.grows_bind (Grows.grows_downloadFromIPFS P _) fun _ =>
    Grows.grows_bind (Grows.grows_parseJson P _) fun unreadList =>
    Grows.grows_bind (Grows.grows_lift _) fun length =>
    Grows.grows_ite
      (Grows.grows_bind (Grows.grows_iterate _) fun items =>
        Grows.grows_bind (Grows.grows_drainLoop P items) fun _ =>
        Grows.grows_bind Grows.grows_scrollMessages fun _ =>
        Grows.grows_bind (Grows.grows_uploadToIPFS P _) fun _ =>
        Grows.grows_update fun _ => ⟨rfl, rfl⟩)
      (Grows.grows_ret _)

theorem SameStorage.sameStorage_checkUnreadMessages (P : Platform) :
    Along SameStorage (checkUnreadMessages P) := by
  unfold P2PChat.checkUnreadMessages
  refine Along.along_tryCatch SameStorage.sameStorage_trans ?_ (fun _ => (Spares.spares_emit _).sameStorage)
  exact Along.along_bind SameStorage.sameStorage_trans Spares.spares_read.sameStorage fun _ =>
    Along.along_bind SameStorage.sameStorage_trans (Spares.spares_downloadFromIPFS P _).sameStorage fun _ =>
    Along.along_bind SameStorage.sameStorage_trans (Spares.spares_parseJson P _).sameStorage fun unreadList =>
    Along.along_bind SameStorage.sameStorage_trans (Spares.spares_lift _).sameStorage fun length =>
    Along.along_ite
      (Along.along_bind SameStorage.sameStorage_trans (Spares.spares_iterate _).sameStorage fun items =>
        Along.along_bind SameStorage.sameStorage_trans (Spares.spares_drainLoop P items).sameStorage fun _ =>
        Along.along_bind SameStorage.sameStorage_trans Spares.spares_scrollMessages.sameStorage fun _ =>
        Along.along_bind SameStorage.sameStorage_trans (Spares.spares_uploadToIPFS P _).sameStorage fun _ =>
        fun _ => rfl)
      (Along.along_ret SameStorage.sameStorage_refl _)

theorem connected_run (P : Platform) (w : World) (m : WebRTCManager) (channel : DataChannel)
    (cm : CryptoManager) (salt : List Byte) (saltText : String)
    (hm : w.app.webRtcManager = some m)
    (hh : m.peerConnection.onconnectionstatechange = .invitation salt ∨
      m.peerConnection.onconnectionstatechange = .scanned salt)
    (hdc : m.dataChannel = some channel) (hcm : w.app.cryptoManager = some cm)
    (hsalt : arrayBufferToBase64 salt = .ok saltText) :
    connectionStateChange P "connected" w
      = (showChatInterface >>= fun _ => checkUnreadMessages P)
        { w with
          app := { w.app with
            webRtcManager := some { m with
              peerConnection := { m.peerConnection with
                native := { m.peerConnection.native with connectionState := "connected" } }
              onIceRestartNeeded := true
              dataChannel := some { channel with onmessage := .chatHandlers } } }
          browser := { w.browser with
            localStorage := (SESSION_STORAGE_KEY,
              P.jsonStringify (.obj [("peerPushSubscription", w.app.peerPushSubscription),
                ("myUnreadListCid", w.app.myUnreadListCid),
                ("peerUnreadListCid", w.app.peerUnreadListCid), ("salt", .str saltText)])) ::
              w.browser.localStorage.filter (fun kv => kv.1 ≠ SESSION_STORAGE_KEY) } } := by
  unfold connectionStateChange
  simp only [hm]
  refine JS.bind_eq (show JS.update _ _ = .ok () _ from rfl) ?_
  have hon : (match m.peerConnection.onconnectionstatechange with
      | .manager => WebRTCManager.onconnectionstatechange P
      | .invitation salt => onConnected P salt
      | .scanned salt => onConnected P salt) = onConnected P salt := by
    rcases hh with hh | hh <;> rw [hh]
  rw [hon]
  unfold onConnected
  dsimp only
  rw [if_pos rfl]
  refine JS.bind_eq (show setupChatHandlers _ = .ok () _ by
    simp only [setupChatHandlers, withManager, setMessageHandler, JS.bind_run, JS.andThen, hdc]
    rfl) ?_
  refine JS.bind_eq (show sessionData salt _ = .ok _ _ by
    simp only [sessionData, hcm, hsalt, JS.lift, JS.ret, JS.bind_run, JS.andThen]
    rfl) ?_
  refine JS.bind_eq (show StorageManager.saveSession P _ _ = .ok () _ from rfl) ?_
  dsimp only
  rw [← hcm]

theorem connected_saves (P : Platform) (w : World) (m : WebRTCManager) (channel : DataChannel)
    (cm : CryptoManager) (salt : List Byte) (saltText : String)
    (hm : w.app.webRtcManager = some m)
    (hh : m.peerConnection.onconnectionstatechange = .invitation salt ∨
      m.peerConnection.onconnectionstatechange = .scanned salt)
    (hdc : m.dataChannel = some channel) (hcm : w.app.cryptoManager = some cm)
    (hsalt : arrayBufferToBase64 salt = .ok saltText) :
    (connectionStateChange P "connected" w).world.browser.localStorage.lookup SESSION_STORAGE_KEY
      = some (P.jsonStringify (.obj [("peerPushSubscription", w.app.peerPushSubscription),
          ("myUnreadListCid", w.app.myUnreadListCid),
          ("peerUnreadListCid", w.app.peerUnreadListCid), ("salt", .str saltText)])) ∧
    ∃ extra, (connectionStateChange P "connected" w).world.relay.blobs
      = w.relay.blobs ++ extra := by
  have hrun := connected_run P w m channel cm salt saltText hm hh hdc hcm hsalt
  rw [hrun]
  have hstore := Along.along_bind SameStorage.sameStorage_trans Spares.spares_showChatInterface.sameStorage
    (fun _ => SameStorage.sameStorage_checkUnreadMessages P)
  have hgrow := Grows.grows_bind Grows.grows_showChatInterface (fun _ => Grows.grows_checkUnreadMessages P)
  constructor
  · rw [hstore _]
    simp [SESSION_STORAGE_KEY]
  · obtain ⟨_, extra, _, hb⟩ := hgrow
      { w with
        app := { w.app with
          webRtcManager := some { m with
            peerConnection := { m.peerConnection with
              native := { m.peerConnection.native with connectionState := "connected" } }
            onIceRestartNeeded := true
            dataChannel := some { channel with onmessage := .chatHandlers } } }
        browser := { w.browser with
          localStorage := (SESSION_STORAGE_KEY,
            P.jsonStringify (.obj [("peerPushSubscription", w.app.peerPushSubscription),
              ("myUnreadListCid", w.app.myUnreadListCid),
              ("peerUnreadListCid", w.app.peerUnreadListCid), ("salt", .str saltText)])) ::
            w.browser.localStorage.filter (fun kv => kv.1 ≠ SESSION_STORAGE_KEY) } }
    exact ⟨extra, hb⟩

theorem lastQr_snoc (events : List Event) (text : String) :
    lastQr (events ++ [.qrCode text]) = some text := by
  induction events with
  | nil => rfl
  | cons e rest ih =>
    show lastQr (e :: (rest ++ [.qrCode text])) = some text
    simp only [lastQr, ih]

theorem connected_without_channel (P : Platform) (w : World) (m : WebRTCManager)
    (salt : List Byte) (hm : w.app.webRtcManager = some m)
    (hh : m.peerConnection.onconnectionstatechange = .invitation salt ∨
      m.peerConnection.onconnectionstatechange = .scanned salt)
    (hdc : m.dataChannel = none) :
    connectionStateChange P "connected" w = .err (.typeError "onmessage")
      { w with
        app := { w.app with
          webRtcManager := some { m with
            peerConnection := { m.peerConnection with
              native := { m.peerConnection.native with connectionState := "connected" } }
            onIceRestartNeeded := true } } } := by
  unfold connectionStateChange
  simp only [hm]
  refine JS.bind_eq (show JS.update _ _ = .ok () _ from rfl) ?_
  have hon : (match m.peerConnection.onconnectionstatechange with
      | .manager => WebRTCManager.onconnectionstatechange P
      | .invitation salt => onConnected P salt
      | .scanned salt => onConnected P salt) = onConnected P salt := by
    rcases hh with hh | hh <;> rw [hh]
  rw [hon]
  unfold onConnected
  dsimp only
  rw [if_pos rfl]
  exact JS.bind_err (show setupChatHandlers _ = .err _ _ by
    simp only [setupChatHandlers, withManager, setMessageHandler, JS.bind_run, JS.andThen, hdc])

theorem handshake_run (P : Platform) (peerA peerB : World)
    (passwordA passwordB saltText : String) (subA subB offer answer : JsVal)
    (a1 a2 b0 b1 b2 a3 : RtcState)
    (h : Completes P peerA peerB passwordA passwordB saltText subA subB offer answer
      a1 a2 b0 b1 b2 a3) (channelFirst : Bool) :
    base64ToArrayBuffer saltText = .ok (peerA.randomBytes 16) ∧
    (handshake P peerA peerB channelFirst).invited.app.cryptoManager
      = some { key := some (P.pbkdf2 passwordA (peerA.randomBytes 16)) } ∧
    (handshake P peerA peerB channelFirst).answering.app.cryptoManager
      = some { key := some (P.pbkdf2 passwordB (peerA.randomBytes 16)) } ∧
    (handshake P peerA peerB channelFirst).offerer.browser.localStorage.lookup
        SESSION_STORAGE_KEY
      = some (P.jsonStringify (savedSession subB (P.cidOf (P.jsonStringify (.arr [])))
          (P.cidOf (P.jsonStringify (.arr []))) saltText)) ∧
    (channelFirst = true →
      (handshake P peerA peerB channelFirst).answerer.browser.localStorage.lookup
          SESSION_STORAGE_KEY
        = some (P.jsonStringify (savedSession subA (P.cidOf (P.jsonStringify (.arr [])))
            (P.cidOf (P.jsonStringify (.arr []))) saltText))) ∧
    (channelFirst = false →
      (∃ w1, (handshake P peerA peerB channelFirst).listenerB
        = .err (.typeError "onmessage") w1) ∧
      (handshake P peerA peerB channelFirst).answerer.browser.localStorage
        = peerB.browser.localStorage ∧
      (handshake P peerA peerB channelFirst).answerer.app.webRtcManager.map
          (fun m => m.dataChannel.map (fun channel => channel.onmessage))
        = some (some .manager)) ∧
    P.jsonStringify (.arr []) ∈ (handshake P peerA peerB channelFirst).offerer.relay.blobs ∧
    P.jsonStringify (.arr []) ∈ (handshake P peerA peerB channelFirst).answerer.relay.blobs := by
  obtain ⟨huiA, hcamA, hpromptA, hpwA, hsupA, hreadyA, hsubA, htruthyA, hclientA, hfaultsA,
    huiB, hcamB, hpromptB, hpwB, hsupB, hreadyB, hsubB, hclientB, hfaultsB, hofferA, hlocalA,
    hnotA, hgatherA, hremoteB, hanswerB, hlocalB, hnotB, hgatherB, hremoteA, hsalt, hjsonOffer,
    hjsonInvitation, hjsonAnswer, hjsonReply, hserveOffer, hserveAnswer⟩ := h
  have hdecode : base64ToArrayBuffer saltText = .ok (peerA.randomBytes 16) := by
    obtain ⟨s, hs, hd⟩ := base64_roundtrip (peerA.randomBytes 16)
    rw [hs] at hsalt
    cases hsalt
    exact hd
  refine ⟨hdecode, ?_⟩
  unfold offerPayload at hjsonOffer hjsonInvitation hserveOffer hserveAnswer
  unfold answerPayload at hjsonAnswer hjsonReply hserveAnswer
  unfold qrPayload at hjsonInvitation hjsonReply
  unfold RoundTrips at hjsonOffer hjsonInvitation hjsonAnswer hjsonReply
  unfold savedSession
  -- peer A creates the invitation
  unfold handshake
  simp only []
  generalize hA1 : (createInvitation P peerA).world = wA1
  rw [createInvitation_ok P peerA passwordA subA offer a1 a2 huiA hcamA
    hpromptA hpwA hsupA hreadyA hsubA htruthyA hclientA hfaultsA hofferA hlocalA hnotA hgatherA
    saltText hsalt] at hA1
  dsimp only [Res.world] at hA1
  have fA1qr : (lastQr wA1.trace).getD "" = P.jsonStringify (.obj [("type", .str "offer"),
      ("cid", .str (P.cidOf (P.jsonStringify (.obj [("sdp", a2.localDescription),
        ("pushSubscription", subA),
        ("unreadListCid", .str (P.cidOf (P.jsonStringify (.arr [])))),
        ("salt", .str saltText)]))))]) := by
    rw [← hA1]
    dsimp only
    rw [show ∀ (t : List Event) (a b c d e f : Event), t ++ [a, b, c, d, e, f]
      = (t ++ [a, b, c, d, e]) ++ [f] from fun t a b c d e f => by simp, lastQr_snoc]
    rfl
  have fA1blobs : wA1.relay.blobs = peerA.relay.blobs ++ [P.jsonStringify (.arr []),
      P.jsonStringify (.obj [("sdp", a2.localDescription), ("pushSubscription", subA),
        ("unreadListCid", .str (P.cidOf (P.jsonStringify (.arr [])))),
        ("salt", .str saltText)])] := by rw [← hA1]
  have fA1key : wA1.app.cryptoManager
      = some { key := some (P.pbkdf2 passwordA (peerA.randomBytes 16)) } := by rw [← hA1]
  rw [fA1qr]
  -- peer B scans it
  generalize hB1 : ((scanInvitation >>= fun _ => tick P "offer" _)
    (peerB.seeing wA1.relay.blobs)).world = wB1
  rw [scanOffer_ok P (peerB.seeing wA1.relay.blobs) _ _ _ passwordB saltText
    (peerA.randomBytes 16) subA subB a2.localDescription
    (.str (P.cidOf (P.jsonStringify (.arr [])))) answer b0 b1 b2 huiB hcamB hpromptB hpwB hsupB
    hreadyB hsubB hclientB hfaultsB hjsonInvitation
    (by rw [fA1blobs]; exact hserveOffer) hjsonOffer hdecode hremoteB hanswerB hlocalB hnotB
    hgatherB] at hB1
  dsimp only [Res.world] at hB1
  have fB1qr : (lastQr wB1.trace).getD "" = P.jsonStringify (.obj [("type", .str "answer"),
      ("cid", .str (P.cidOf (P.jsonStringify (.obj [("sdp", b2.localDescription),
        ("pushSubscription", subB),
        ("unreadListCid", .str (P.cidOf (P.jsonStringify (.arr []))))]))))]) := by
    rw [← hB1]
    dsimp only
    rw [show ∀ (t : List Event) (a b c d e f g : Event), t ++ [a, b, c, d, e, f, g]
      = (t ++ [a, b, c, d, e, f]) ++ [g] from fun t a b c d e f g => by simp, lastQr_snoc]
    rfl
  have fB1blobs : wB1.relay.blobs = wA1.relay.blobs ++ [P.jsonStringify (.arr []),
      P.jsonStringify (.obj [("sdp", b2.localDescription), ("pushSubscription", subB),
        ("unreadListCid", .str (P.cidOf (P.jsonStringify (.arr []))))])] := by rw [← hB1]; rfl
  have fB1key : wB1.app.cryptoManager
      = some { key := some (P.pbkdf2 passwordB (peerA.randomBytes 16)) } := by rw [← hB1]
  have fB1storage : wB1.browser.localStorage = peerB.browser.localStorage := by rw [← hB1]; rfl
  rw [fB1qr]
  -- peer A scans the answer
  generalize hA2 : (tick P "answer" _ (wA1.seeing wB1.relay.blobs)).world = wA2
  rw [scanAnswer_ok P (wA1.seeing wB1.relay.blobs) _ _ _ subB b2.localDescription
    (.str (P.cidOf (P.jsonStringify (.arr []))))
    { peerConnection :=
        { native := a2, onconnectionstatechange := .invitation (peerA.randomBytes 16) }
      dataChannel := some { readyState := "connecting", onmessage := .manager }
      isOfferer := true
      onIceRestartNeeded := false
      keepAliveInterval := false } a3
    (by rw [← hA1]; exact huiA) (by rw [← hA1]; rfl) hjsonReply
    (by
      show (wB1.relay.blobs).find? _ = _
      rw [fB1blobs, fA1blobs]
      exact hserveAnswer)
    hjsonAnswer (by rw [← hA1]; rfl) hremoteA] at hA2
  dsimp only [Res.world] at hA2
  -- the connection of A reports `connected`
  have hsaveA := connected_saves P wA2
    { peerConnection :=
        { native := a3, onconnectionstatechange := .invitation (peerA.randomBytes 16) }
      dataChannel := some { readyState := "connecting", onmessage := .manager }
      isOfferer := true
      onIceRestartNeeded := false
      keepAliveInterval := false }
    { readyState := "connecting", onmessage := .manager }
    { key := some (P.pbkdf2 passwordA (peerA.randomBytes 16)) } (peerA.randomBytes 16) saltText
    (by rw [← hA2]) (Or.inl rfl) rfl (by rw [← hA2, ← hA1]; rfl) hsalt
  generalize (connectionStateChange P "connected" wA2).world = wA3 at hsaveA ⊢
  obtain ⟨hrecordA, extraA, hblobsA⟩ := hsaveA
  have fA2blobs : wA2.relay.blobs = wB1.relay.blobs := by rw [← hA2]; rfl
  have hrecordA2 : wA3.browser.localStorage.lookup SESSION_STORAGE_KEY
      = some (P.jsonStringify (.obj [("peerPushSubscription", subB),
        ("myUnreadListCid", .str (P.cidOf (P.jsonStringify (.arr [])))),
        ("peerUnreadListCid", .str (P.cidOf (P.jsonStringify (.arr [])))),
        ("salt", .str saltText)])) := by
    rw [hrecordA, ← hA2, ← hA1]
    rfl
  have hemptyA : P.jsonStringify (.arr []) ∈ wA3.relay.blobs := by
    rw [hblobsA, fA2blobs, fB1blobs]
    simp
  have hchannel : (WebRTCManager.ondatachannel "open" (wB1.seeing wA3.relay.blobs)).world
      = { wB1.seeing wA3.relay.blobs with
          app := { wB1.app with
            webRtcManager := some
              { peerConnection :=
                  { native := b2, onconnectionstatechange := .scanned (peerA.randomBytes 16) }
                dataChannel := some { readyState := "open", onmessage := .manager }
                isOfferer := false
                onIceRestartNeeded := false
                keepAliveInterval := false } } } := by
    rw [← hB1]
    rfl
  have hsaveB := connected_saves P
    { wB1.seeing wA3.relay.blobs with
      app := { wB1.app with
        webRtcManager := some
          { peerConnection :=
              { native := b2, onconnectionstatechange := .scanned (peerA.randomBytes 16) }
            dataChannel := some { readyState := "open", onmessage := .manager }
            isOfferer := false
            onIceRestartNeeded := false
            keepAliveInterval := false } } }
    { peerConnection :=
        { native := b2, onconnectionstatechange := .scanned (peerA.randomBytes 16) }
      dataChannel := some { readyState := "open", onmessage := .manager }
      isOfferer := false
      onIceRestartNeeded := false
      keepAliveInterval := false }
    { readyState := "open", onmessage := .manager }
    { key := some (P.pbkdf2 passwordB (peerA.randomBytes 16)) } (peerA.randomBytes 16) saltText
    rfl (Or.inr rfl) rfl (by rw [← hB1]) hsalt
  obtain ⟨hrecordB, extraB, hblobsB⟩ := hsaveB
  have hrunB := connected_without_channel P (wB1.seeing wA3.relay.blobs)
    { peerConnection :=
        { native := b2, onconnectionstatechange := .scanned (peerA.randomBytes 16) }
      dataChannel := none
      isOfferer := false
      onIceRestartNeeded := false
      keepAliveInterval := false } (peerA.randomBytes 16) (by rw [← hB1]; rfl) (Or.inr rfl) rfl
  refine ⟨fA1key, fB1key, hrecordA2, fun htrue => ?_, fun hfalse => ?_, hemptyA, ?_⟩
  · -- the data channel arrives at B, then its connection reports `connected`
    subst htrue
    simp only [if_true]
    rw [hchannel, hrecordB, ← hB1]
  · -- the connection of B reports `connected`, then the data channel arrives
    subst hfalse
    simp only [Bool.false_eq_true, if_false]
    rw [hrunB]
    exact ⟨⟨_, rfl⟩, fB1storage, rfl⟩
  · cases channelFirst with
    | true =>
      simp only [if_true]
      rw [hchannel, hblobsB]
      show _ ∈ wA3.relay.blobs ++ extraB
      exact List.mem_append_left _ hemptyA
    | false =>
      simp only [Bool.false_eq_true, if_false]
      rw [hrunB]
      exact hemptyA

/-- Claim C17, on the code. A handshake in which every step succeeds (`Completes`), with
the two events on peer B in either order.  The session record peer A saves at `connected`
has, as `myUnreadListCid` and as `peerUnreadListCid`, the identifier of the empty list, a
string and not `null`, and the empty list is stored on the relay.  Peer B saves the like
record, with each side's `peerUnreadListCid` the other side's `myUnreadListCid`, when the
data channel arrives before `connected`.  When `connected` comes first, the listener of B
raises a `TypeError` in `setupChatHandlers`, which writes `onmessage` on the data channel B
does not have yet: B saves no record, its `localStorage` is what it was before the
handshake, and the data channel that arrives then keeps the listener of the constructor,
the chat never installed. -/
theorem answerer_saves_only_when_channel_first (P : Platform) (peerA peerB : World)
    (passwordA passwordB saltText : String) (subA subB offer answer : JsVal)
    (a1 a2 b0 b1 b2 a3 : RtcState)
    (h : Completes P peerA peerB passwordA passwordB saltText subA subB offer answer
      a1 a2 b0 b1 b2 a3) (channelFirst : Bool) :
    (handshake P peerA peerB channelFirst).offerer.browser.localStorage.lookup
        SESSION_STORAGE_KEY
      = some (P.jsonStringify (savedSession subB (P.cidOf (P.jsonStringify (.arr [])))
          (P.cidOf (P.jsonStringify (.arr []))) saltText)) ∧
    (channelFirst = true →
      (handshake P peerA peerB channelFirst).answerer.browser.localStorage.lookup
          SESSION_STORAGE_KEY
        = some (P.jsonStringify (savedSession subA (P.cidOf (P.jsonStringify (.arr [])))
            (P.cidOf (P.jsonStringify (.arr []))) saltText))) ∧
    (channelFirst = false →
      (∃ w1, (handshake P peerA peerB channelFirst).listenerB
        = .err (.typeError "onmessage") w1) ∧
      (handshake P peerA peerB channelFirst).answerer.browser.localStorage
        = peerB.browser.localStorage ∧
      (handshake P peerA peerB channelFirst).answerer.app.webRtcManager.map
          (fun m => m.dataChannel.map (fun channel => channel.onmessage))
        = some (some .manager)) ∧
    P.jsonStringify (.arr []) ∈ (handshake P peerA peerB channelFirst).offerer.relay.blobs ∧
    P.jsonStringify (.arr []) ∈ (handshake P peerA peerB channelFirst).answerer.relay.blobs :=
  (handshake_run P peerA peerB passwordA passwordB saltText subA subB offer answer
    a1 a2 b0 b1 b2 a3 h channelFirst).2.2.2

set_option maxRecDepth 1000000 in
set_option maxHeartbeats 1000000 in
theorem sample_completes :
    Completes Sample.platform Sample.newcomer Sample.joiner "secret" "secret"
      "AxQlNkdYaXqLnK2+z+DxAg==" Sample.subscriptionA Sample.subscriptionB Sample.firstOffer
      Sample.reply
      { RtcState.fresh with
        localDescription := Sample.firstOffer, iceGatheringState := "gathering" }
      Sample.offered
      { RtcState.fresh with remoteDescription := Sample.firstOffer }
      { RtcState.fresh with
        remoteDescription := Sample.firstOffer, localDescription := Sample.reply
        iceGatheringState := "gathering" }
      Sample.answered
      { Sample.offered with remoteDescription := Sample.reply } :=
  ⟨rfl, rfl, rfl, by decide, rfl, rfl, rfl, rfl, rfl, rfl,
    rfl, rfl, rfl, by decide, rfl, rfl, rfl, rfl, rfl,
    rfl, rfl, by decide, rfl,
    rfl, rfl, rfl, by decide, rfl,
    rfl,
    by rfl, by rfl, by rfl, by rfl, by rfl, by rfl, by rfl⟩

/-- The two sample tabs complete a handshake; `connected` reaches the tab of peer B before
the data channel does.  Peer A has saved its record; the listener of peer B has raised and
its `localStorage`, which holds the token and the worker URL, has no session. -/
theorem answerer_saves_only_when_channel_first_witness :
    (handshake Sample.platform Sample.newcomer Sample.joiner false).offerer.browser.localStorage.lookup
        SESSION_STORAGE_KEY
      = some (Sample.platform.jsonStringify (savedSession Sample.subscriptionB
          (Sample.platform.cidOf (Sample.platform.jsonStringify (.arr [])))
          (Sample.platform.cidOf (Sample.platform.jsonStringify (.arr [])))
          "AxQlNkdYaXqLnK2+z+DxAg==")) ∧
    (∃ w1, (handshake Sample.platform Sample.newcomer Sample.joiner false).listenerB
      = .err (.typeError "onmessage") w1) ∧
    (handshake Sample.platform Sample.newcomer Sample.joiner false).answerer.browser.localStorage
      = [("web3StorageApiToken", "token"), ("pushWorkerUrl", "https://push.example/send")] := by
  have h := answerer_saves_only_when_channel_first Sample.platform Sample.newcomer Sample.joiner
    "secret" "secret" "AxQlNkdYaXqLnK2+z+DxAg==" Sample.subscriptionA Sample.subscriptionB
    Sample.firstOffer Sample.reply _ _ _ _ _ _ sample_completes false
  exact ⟨h.1, (h.2.2.1 rfl).1, (h.2.2.1 rfl).2.1⟩

/-! ## The salt -/

theorem showChatInterface_keeps_key (w : World) (h : w.app.webRtcManager = none) :
    (showChatInterface w).world.app.cryptoManager = w.app.cryptoManager := by
  unfold showChatInterface
  simp only [JS.bind_run, JS.andThen, JS.update, JS.read]
  by_cases hm : w.browser.messages.isNone = true
  · simp [hm, JS.ret, setMessageHandler, h, Res.world]
  · by_cases hs : w.browser.setupUi = true
    · simp [hm, hs, JS.ret, setMessageHandler, h, stopScanner, JS.andThen, JS.update, Res.world]
    · simp [hm, hs, JS.ret, setMessageHandler, h, Res.world]

theorem unlock_derives (P : Platform) (session : JsVal) (password : String) (w : World)
    (hpw : password ≠ "") (token : String) (v1 v2 v3 v4 : JsVal) (salt : List Byte)
    (htoken : w.browser.localStorage.lookup W3S_TOKEN_KEY = some token) (hne : token ≠ "")
    (h1 : session.getProp "peerPushSubscription" = .ok v1)
    (h2 : session.getProp "myUnreadListCid" = .ok v2)
    (h3 : session.getProp "peerUnreadListCid" = .ok v3)
    (h4 : session.getProp "salt" = .ok v4)
    (h5 : base64ToArrayBuffer v4.toText = .ok salt) :
    (unlock P session password w).world.app.cryptoManager
      = some { key := some (P.pbkdf2 password salt) } := by
  unfold unlock
  rw [if_neg hpw]
  simp only [JS.bind_run, JS.andThen, StorageManager.loadApiToken, getItem, initializeIpfsClient,
    htoken, falsyItem, hne, decide_False, Bool.false_eq_true, if_false, JS.update, h1, h2, h3, h4,
    h5, JS.lift, JS.ret, deriveKeyFromPassword]
  have hkey := showChatInterface_keeps_key
    { w with
      relay := { w.relay with client := true }
      app := { w.app.reset with
        peerPushSubscription := v1, myUnreadListCid := v2, peerUnreadListCid := v3
        cryptoManager := some { key := some (P.pbkdf2 password salt) } } } rfl
  obtain ⟨w1, hw1, _⟩ := showChatInterface_without_manager
    { w with
      relay := { w.relay with client := true }
      app := { w.app.reset with
        peerPushSubscription := v1, myUnreadListCid := v2, peerUnreadListCid := v3
        cryptoManager := some { key := some (P.pbkdf2 password salt) } } } rfl
  rw [hw1] at hkey
  simp only [] at hw1
  rw [hw1]
  exact hkey

theorem activateChat_saved (P : Platform) (w : World) (record : JsVal)
    (hstored : w.browser.localStorage.lookup SESSION_STORAGE_KEY = some (P.jsonStringify record))
    (hjson : RoundTrips P record) (hempty : P.jsonParse "" = none)
    (htruthy : record.truthy = true) :
    activateChat P w = .ok (some record)
      { w with browser := { w.browser with messages := none, setupUi := false } } := by
  have hne : P.jsonStringify record ≠ "" := by
    intro h
    unfold RoundTrips at hjson
    rw [h, hempty] at hjson
    cases hjson
  unfold activateChat StorageManager.loadSession
  simp only [JS.bind_run, JS.andThen, JS.tryCatch, getItem, hstored, falsyItem, hne,
    decide_False, Bool.false_eq_true, if_false, Option.getD, parseJson]
  unfold RoundTrips at hjson
  simp only [hjson, JS.ret, htruthy, if_true, showPasswordUI, JS.update]
  rfl

/-- Claim C16. In a handshake in which every step succeeds (`Completes`), with the two
events on peer B in either order, the offerer draws a salt of 16 bytes and
`createInvitation` derives its key from the password typed there and that salt; the text
of the salt in the offer payload decodes to the same bytes, and `handleScannedData` on the
answerer derives its key from the password typed there and those bytes.  The record a side
saves at `connected` carries that text (peer B saves one when the data channel is there
before `connected`): on a tab that holds the record of either side, with `JSON.parse`
giving back the record, `activateChat` hands the record to the unlock listener, and the
unlock derives the key from the password typed and the same salt again. -/
theorem both_peers_same_salt (P : Platform) (peerA peerB : World)
    (passwordA passwordB saltText : String) (subA subB offer answer : JsVal)
    (a1 a2 b0 b1 b2 a3 : RtcState)
    (h : Completes P peerA peerB passwordA passwordB saltText subA subB offer answer
      a1 a2 b0 b1 b2 a3) (channelFirst : Bool)
    (hjsonA : RoundTrips P (savedSession subB (P.cidOf (P.jsonStringify (.arr [])))
      (P.cidOf (P.jsonStringify (.arr []))) saltText))
    (hjsonB : RoundTrips P (savedSession subA (P.cidOf (P.jsonStringify (.arr [])))
      (P.cidOf (P.jsonStringify (.arr []))) saltText))
    (hempty : P.jsonParse "" = none) :
    (peerA.randomBytes 16).length = 16 ∧
    generateSalt peerA = .ok (peerA.randomBytes 16) (peerA.drew 16) ∧
    base64ToArrayBuffer saltText = .ok (peerA.randomBytes 16) ∧
    (handshake P peerA peerB channelFirst).invited.app.cryptoManager
      = some { key := some (P.pbkdf2 passwordA (peerA.randomBytes 16)) } ∧
    (handshake P peerA peerB channelFirst).answering.app.cryptoManager
      = some { key := some (P.pbkdf2 passwordB (peerA.randomBytes 16)) } ∧
    ∀ (tab : World) (password token : String),
      (tab.browser.localStorage.lookup SESSION_STORAGE_KEY
          = (handshake P peerA peerB channelFirst).offerer.browser.localStorage.lookup
            SESSION_STORAGE_KEY ∨
        (channelFirst = true ∧
          tab.browser.localStorage.lookup SESSION_STORAGE_KEY
            = (handshake P peerA peerB channelFirst).answerer.browser.localStorage.lookup
              SESSION_STORAGE_KEY)) →
      tab.browser.localStorage.lookup W3S_TOKEN_KEY = some token → token ≠ "" →
      password ≠ "" →
      ∃ session, (activateChat P tab).value = some (some session) ∧
        (unlock P session password (activateChat P tab).world).world.app.cryptoManager
          = some { key := some (P.pbkdf2 password (peerA.randomBytes 16)) } := by
  obtain ⟨hdecode, hkeyA, hkeyB, hrecordA, hrecordB, _, _, _⟩ :=
    handshake_run P peerA peerB passwordA passwordB saltText subA subB offer answer
      a1 a2 b0 b1 b2 a3 h channelFirst
  refine ⟨by simp [World.randomBytes], rfl, hdecode, hkeyA, hkeyB, ?_⟩
  intro tab password token hstored htoken hne hpw
  have hcase : ∃ sub, tab.browser.localStorage.lookup SESSION_STORAGE_KEY
      = some (P.jsonStringify (savedSession sub (P.cidOf (P.jsonStringify (.arr [])))
          (P.cidOf (P.jsonStringify (.arr []))) saltText)) ∧
      RoundTrips P (savedSession sub (P.cidOf (P.jsonStringify (.arr [])))
          (P.cidOf (P.jsonStringify (.arr []))) saltText) := by
    rcases hstored with hs | ⟨hfirst, hs⟩
    · exact ⟨subB, by rw [hs, hrecordA], hjsonA⟩
    · exact ⟨subA, by rw [hs, hrecordB hfirst], hjsonB⟩
  obtain ⟨sub, hs, hjson⟩ := hcase
  have hrun := activateChat_saved P tab _ hs hjson hempty rfl
  refine ⟨_, by rw [hrun]; rfl, ?_⟩
  rw [hrun]
  exact unlock_derives P _ password _ hpw token sub
    (.str (P.cidOf (P.jsonStringify (.arr [])))) (.str (P.cidOf (P.jsonStringify (.arr []))))
    (.str saltText) _ htoken hne rfl rfl rfl rfl hdecode

set_option maxRecDepth 1000000 in
set_option maxHeartbeats 1000000 in
/-- The two sample tabs: both derive their key from the password `secret` and the 16 bytes
peer A drew, and the sample tab opened again, which holds the record peer A saved, derives
from the password typed at the unlock and those bytes again. -/
theorem both_peers_same_salt_witness :
    (handshake Sample.platform Sample.newcomer Sample.joiner true).invited.app.cryptoManager
      = some { key := some (Sample.platform.pbkdf2 "secret" (Sample.newcomer.randomBytes 16)) } ∧
    (handshake Sample.platform Sample.newcomer Sample.joiner true).answering.app.cryptoManager
      = some { key := some (Sample.platform.pbkdf2 "secret" (Sample.newcomer.randomBytes 16)) } ∧
    ∃ session, (activateChat Sample.platform Sample.reopened).value = some (some session) ∧
      (unlock Sample.platform session "secret"
          (activateChat Sample.platform Sample.reopened).world).world.app.cryptoManager
        = some { key := some (Sample.platform.pbkdf2 "secret"
            (Sample.newcomer.randomBytes 16)) } := by
  have h := both_peers_same_salt Sample.platform Sample.newcomer Sample.joiner
    "secret" "secret" "AxQlNkdYaXqLnK2+z+DxAg==" Sample.subscriptionA Sample.subscriptionB
    Sample.firstOffer Sample.reply _ _ _ _ _ _ sample_completes true (by rfl) (by rfl) (by rfl)
  have hstored := (handshake_run Sample.platform Sample.newcomer Sample.joiner
    "secret" "secret" "AxQlNkdYaXqLnK2+z+DxAg==" Sample.subscriptionA Sample.subscriptionB
    Sample.firstOffer Sample.reply _ _ _ _ _ _ sample_completes true).2.2.2.1
  exact ⟨h.2.2.2.1, h.2.2.2.2.1,
    h.2.2.2.2.2 Sample.reopened "secret" "token" (Or.inl (by rw [hstored]; rfl)) (by rfl)
      (by decide) (by decide)⟩

/-! ## The way of a restart envelope -/

theorem bind_ret_unit (x : JS Unit) (w : World) : (x >>= fun _ => JS.ret ()) w = x w := by
  simp only [JS.bind_run, JS.andThen]
  cases x w <;> rfl

theorem notifyPeer_traced (payload : JsVal) (url : String) (w : World) (pm : PushManager)
    (hpm : w.app.pushManager = some pm) :
    ∃ events, (notifyPeer payload url w).world.trace
      = w.trace ++ Event.pushPost url w.app.peerPushSubscription payload :: events := by
  unfold notifyPeer PushManager.sendNotification
  simp only [hpm, JS.tryCatch, JS.bind_run, JS.andThen, JS.emit, JS.update, nextPushOutcome]
  cases w.browser.pushOutcomes.headD (.response 200) with
  | reject =>
    exact ⟨[.consoleError "Error sending push notification:" .pushFetch],
      by simp [JS.throw, Res.world]⟩
  | response status =>
    by_cases h : 200 ≤ status ∧ status ≤ 299
    · exact ⟨[], by simp [h, JS.ret, Res.world]⟩
    · exact ⟨[.consoleError "Error sending push notification:" (.pushServerStatus status)],
        by simp [h, JS.throw, Res.world]⟩

theorem routed_to_offer_handler (P : Platform) (cid : String) (v : World) :
    receiveActions P
        (notificationclick (.obj [("type", .str "ice_restart"), ("cid", .str cid)]) true) v
      = handleIceRestartOffer P (.obj [("type", .str "ice_restart"), ("cid", .str cid)]) v := by
  have h : notificationclick (.obj [("type", .str "ice_restart"), ("cid", .str cid)]) true
      = [.focus, .postMessage (.obj [("type", .str "ice_restart_offer"),
          ("payload", .obj [("type", .str "ice_restart"), ("cid", .str cid)])])] := by
    simp [notificationclick, JsVal.truthy, JsVal.getProp, JsVal.isStr]
  rw [h]
  simp only [receiveActions]
  rw [bind_ret_unit]
  simp [onServiceWorkerMessage, JsVal.getProp, JS.lift, JS.ret, JS.andThen, JsVal.isStr,
    List.lookup]

theorem routed_to_answer_handler (P : Platform) (cid : String) (v : World) :
    receiveActions P
        (notificationclick (.obj [("type", .str "ice_restart_answer"), ("cid", .str cid)]) true) v
      = handleIceRestartAnswer P (.obj [("type", .str "ice_restart_answer"), ("cid", .str cid)])
        v := by
  have h : notificationclick (.obj [("type", .str "ice_restart_answer"), ("cid", .str cid)]) true
      = [.focus, .postMessage (.obj [("type", .str "ice_restart_answer"),
          ("payload", .obj [("type", .str "ice_restart_answer"), ("cid", .str cid)])])] := by
    simp [notificationclick, JsVal.truthy, JsVal.getProp, JsVal.isStr]
  rw [h]
  simp only [receiveActions]
  rw [bind_ret_unit]
  simp [onServiceWorkerMessage, JsVal.getProp, JS.lift, JS.ret, JS.andThen, JsVal.isStr,
    List.lookup]

theorem iceRestartNeeded_pushes (P : Platform) (w : World) (offerSdp : JsVal) (url : String)
    (pm : PushManager) (hclient : w.relay.client = true) (hquiet : w.relay.nextFails = false)
    (hurl : w.browser.localStorage.lookup WORKER_URL_KEY = some url) (hne : url ≠ "")
    (hpm : w.app.pushManager = some pm) :
    ∃ events, (iceRestartNeeded P offerSdp w).world.trace
      = w.trace ++ [.relayPut (P.jsonStringify offerSdp),
          .pushPost url w.app.peerPushSubscription
            (.obj [("type", .str "ice_restart"),
              ("cid", .str (P.cidOf (P.jsonStringify offerSdp)))])] ++ events := by
  obtain ⟨events, hn⟩ := notifyPeer_traced
    (.obj [("type", .str "ice_restart"), ("cid", .str (P.cidOf (P.jsonStringify offerSdp)))]) url
    ((w.afterRequest [.relayPut (P.jsonStringify offerSdp)]).stored (P.jsonStringify offerSdp))
    pm hpm
  have hbody : (uploadToIPFS P (P.jsonStringify offerSdp) >>= fun cid =>
      StorageManager.loadWorkerUrl >>= fun workerUrl =>
      if falsyItem workerUrl then
        JS.emit (.alert "Push Worker URL is not set. Cannot send ICE restart notification.")
      else
        notifyPeer (.obj [("type", .str "ice_restart"), ("cid", .str cid)]) (workerUrl.getD "")) w
      = notifyPeer (.obj [("type", .str "ice_restart"),
          ("cid", .str (P.cidOf (P.jsonStringify offerSdp)))]) url
        ((w.afterRequest [.relayPut (P.jsonStringify offerSdp)]).stored
          (P.jsonStringify offerSdp)) := by
    refine JS.bind_eq (uploadToIPFS_ok P _ w hclient hquiet) ?_
    refine JS.bind_eq (show StorageManager.loadWorkerUrl _ = .ok (some url)
        ((w.afterRequest [.relayPut (P.jsonStringify offerSdp)]).stored
          (P.jsonStringify offerSdp)) by
      simp only [StorageManager.loadWorkerUrl, stored_browser, afterRequest_browser, hurl]) ?_
    simp [falsyItem, hne]
  refine ⟨events ++ (match notifyPeer (.obj [("type", .str "ice_restart"),
      ("cid", .str (P.cidOf (P.jsonStringify offerSdp)))]) url
      ((w.afterRequest [.relayPut (P.jsonStringify offerSdp)]).stored
        (P.jsonStringify offerSdp)) with
    | .err e _ => [.consoleError "Failed to send ICE restart offer:" e]
    | _ => []), ?_⟩
  unfold iceRestartNeeded
  simp only [JS.tryCatch, hbody]
  cases hr : notifyPeer (.obj [("type", .str "ice_restart"),
      ("cid", .str (P.cidOf (P.jsonStringify offerSdp)))]) url
      ((w.afterRequest [.relayPut (P.jsonStringify offerSdp)]).stored
        (P.jsonStringify offerSdp)) with
  | ok a w1 =>
    rw [hr] at hn
    simp only [Res.world] at hn ⊢
    rw [hn]
    simp
  | err e w1 =>
    rw [hr] at hn
    simp only [Res.world, JS.emit, JS.update] at hn ⊢
    rw [hn]
    simp
  | pending w1 =>
    rw [hr] at hn
    simp only [Res.world] at hn ⊢
    rw [hn]
    simp

theorem handleIceRestartOffer_pushes (P : Platform) (w : World) (payload cid : JsVal)
    (text : String) (offerSdp answerSdp : JsVal) (w1 w2 : World) (url : String) (pm : PushManager)
    (hready : w.app.webRtcManager.isNone = false) (hsub : w.app.peerPushSubscription.truthy = true)
    (hcid : payload.getProp "cid" = .ok cid)
    (hdl : downloadFromIPFS P cid w = .ok text w1)
    (hparse : P.jsonParse text = some offerSdp)
    (hanswer : WebRTCManager.createAnswer P offerSdp w1 = .ok answerSdp w2)
    (hclient : w2.relay.client = true) (hquiet : w2.relay.nextFails = false)
    (hurl : w2.browser.localStorage.lookup WORKER_URL_KEY = some url) (hne : url ≠ "")
    (hpm : w2.app.pushManager = some pm) :
    ∃ events, (handleIceRestartOffer P payload w).world.trace
      = w2.trace ++ [.relayPut (P.jsonStringify answerSdp),
          .pushPost url w2.app.peerPushSubscription
            (.obj [("type", .str "ice_restart_answer"),
              ("cid", .str (P.cidOf (P.jsonStringify answerSdp)))])] ++ events := by
  obtain ⟨events, hn⟩ := notifyPeer_traced
    (.obj [("type", .str "ice_restart_answer"),
      ("cid", .str (P.cidOf (P.jsonStringify answerSdp)))]) url
    ((w2.afterRequest [.relayPut (P.jsonStringify answerSdp)]).stored (P.jsonStringify answerSdp))
    pm hpm
  have hbody : (JS.lift (payload.getProp "cid") >>= fun cid =>
      downloadFromIPFS P cid >>= fun text =>
      parseJson P text >>= fun offerSdp =>
      WebRTCManager.createAnswer P offerSdp >>= fun answerSdp =>
      uploadToIPFS P (P.jsonStringify answerSdp) >>= fun answerCid =>
      StorageManager.loadWorkerUrl >>= fun workerUrl =>
      if falsyItem workerUrl then
        JS.emit (.alert "Push Worker URL is not set. Cannot send ICE restart notification.")
      else
        notifyPeer (.obj [("type", .str "ice_restart_answer"), ("cid", .str answerCid)])
          (workerUrl.getD "")) w
      = notifyPeer (.obj [("type", .str "ice_restart_answer"),
          ("cid", .str (P.cidOf (P.jsonStringify answerSdp)))]) url
        ((w2.afterRequest [.relayPut (P.jsonStringify answerSdp)]).stored
          (P.jsonStringify answerSdp)) := by
    refine JS.bind_eq (show JS.lift (payload.getProp "cid") w = .ok cid w by rw [hcid]; rfl) ?_
    refine JS.bind_eq hdl ?_
    refine JS.bind_eq (show parseJson P text w1 = .ok offerSdp w1 by
      simp only [parseJson, hparse]; rfl) ?_
    refine JS.bind_eq hanswer ?_
    refine JS.bind_eq (uploadToIPFS_ok P _ w2 hclient hquiet) ?_
    refine JS.bind_eq (show StorageManager.loadWorkerUrl _ = .ok (some url)
        ((w2.afterRequest [.relayPut (P.jsonStringify answerSdp)]).stored
          (P.jsonStringify answerSdp)) by
      simp only [StorageManager.loadWorkerUrl, stored_browser, afterRequest_browser, hurl]) ?_
    simp [falsyItem, hne]
  refine ⟨events ++ (match notifyPeer (.obj [("type", .str "ice_restart_answer"),
      ("cid", .str (P.cidOf (P.jsonStringify answerSdp)))]) url
      ((w2.afterRequest [.relayPut (P.jsonStringify answerSdp)]).stored
        (P.jsonStringify answerSdp)) with
    | .err e _ => [.consoleError "Failed to handle ICE restart offer:" e]
    | _ => []), ?_⟩
  unfold handleIceRestartOffer
  simp only [hready, hsub, Bool.false_eq_true, Bool.true_eq_false, or_self, if_false, JS.tryCatch,
    hbody]
  cases hr : notifyPeer (.obj [("type", .str "ice_restart_answer"),
      ("cid", .str (P.cidOf (P.jsonStringify answerSdp)))]) url
      ((w2.afterRequest [.relayPut (P.jsonStringify answerSdp)]).stored
        (P.jsonStringify answerSdp)) with
  | ok a w3 =>
    rw [hr] at hn
    simp only [Res.world] at hn ⊢
    rw [hn]
    simp
  | err e w3 =>
    rw [hr] at hn
    simp only [Res.world, JS.emit, JS.update] at hn ⊢
    rw [hn]
    simp
  | pending w3 =>
    rw [hr] at hn
    simp only [Res.world] at hn ⊢
    rw [hn]
    simp

/-- Claim C12. The envelope the offerer's `onIceRestartNeeded` posts to the push worker has
the type `ice_restart` and the identifier under which it has just uploaded the offer; on a
click with a window open, the service worker and the page's listener hand exactly this
envelope to `handleIceRestartOffer`. The envelope `handleIceRestartOffer` posts, once it
has downloaded the offer and built the answer, has the type `ice_restart_answer` and the
identifier under which it has just uploaded the answer, and it is handed to
`handleIceRestartAnswer`. Both handlers read that identifier as `payload.cid`. -/
theorem restart_envelopes_routed (P : Platform) (w : World) (offerSdp : JsVal) (url : String)
    (pm : PushManager) (hclient : w.relay.client = true) (hquiet : w.relay.nextFails = false)
    (hurl : w.browser.localStorage.lookup WORKER_URL_KEY = some url) (hne : url ≠ "")
    (hpm : w.app.pushManager = some pm) :
    (∃ events, (iceRestartNeeded P offerSdp w).world.trace
      = w.trace ++ [.relayPut (P.jsonStringify offerSdp),
          .pushPost url w.app.peerPushSubscription
            (.obj [("type", .str "ice_restart"),
              ("cid", .str (P.cidOf (P.jsonStringify offerSdp)))])] ++ events) ∧
    (∀ cid v, receiveActions P
        (notificationclick (.obj [("type", .str "ice_restart"), ("cid", .str cid)]) true) v
      = handleIceRestartOffer P (.obj [("type", .str "ice_restart"), ("cid", .str cid)]) v) ∧
    (∀ v payload cid text sdp answerSdp v1 v2 url2 pm2,
      v.app.webRtcManager.isNone = false → v.app.peerPushSubscription.truthy = true →
      payload.getProp "cid" = .ok cid → downloadFromIPFS P cid v = .ok text v1 →
      P.jsonParse text = some sdp → WebRTCManager.createAnswer P sdp v1 = .ok answerSdp v2 →
      v2.relay.client = true → v2.relay.nextFails = false →
      v2.browser.localStorage.lookup WORKER_URL_KEY = some url2 → url2 ≠ "" →
      v2.app.pushManager = some pm2 →
      ∃ events, (handleIceRestartOffer P payload v).world.trace
        = v2.trace ++ [.relayPut (P.jsonStringify answerSdp),
            .pushPost url2 v2.app.peerPushSubscription
              (.obj [("type", .str "ice_restart_answer"),
                ("cid", .str (P.cidOf (P.jsonStringify answerSdp)))])] ++ events) ∧
    (∀ cid v, receiveActions P
        (notificationclick (.obj [("type", .str "ice_restart_answer"), ("cid", .str cid)]) true) v
      = handleIceRestartAnswer P (.obj [("type", .str "ice_restart_answer"), ("cid", .str cid)])
        v) ∧
    (∀ type cid, (JsVal.obj [("type", .str type), ("cid", .str cid)]).getProp "cid"
      = .ok (.str cid)) :=
  ⟨iceRestartNeeded_pushes P w offerSdp url pm hclient hquiet hurl hne hpm,
    routed_to_offer_handler P,
    fun v payload cid text sdp answerSdp v1 v2 url2 pm2 h1 h2 h3 h4 h5 h6 h7 h8 h9 h10 h11 =>
      handleIceRestartOffer_pushes P v payload cid text sdp answerSdp v1 v2 url2 pm2 h1 h2 h3 h4
        h5 h6 h7 h8 h9 h10 h11,
    routed_to_answer_handler P,
    fun type cid => by simp [JsVal.getProp, List.lookup]⟩

set_option maxRecDepth 1000000 in
/-- The hypotheses of `restart_envelopes_routed` hold on the sample offerer, and the first
part there: the upload of the restart offer and the envelope naming it. -/
theorem restart_envelopes_routed_witness :
    ∃ events, (iceRestartNeeded Sample.platform Sample.firstOffer Sample.offerer).world.trace
      = Sample.offerer.trace ++ [.relayPut (Sample.platform.jsonStringify Sample.firstOffer),
          .pushPost "https://push.example/send" Sample.offerer.app.peerPushSubscription
            (.obj [("type", .str "ice_restart"),
              ("cid", .str (Sample.platform.cidOf
                (Sample.platform.jsonStringify Sample.firstOffer)))])] ++ events :=
  (restart_envelopes_routed Sample.platform Sample.offerer Sample.firstOffer
    "https://push.example/send" PushManager.new rfl rfl rfl (by decide) rfl).1

/-! ## The restart that does not come -/

theorem SameConnection.sameConnection_refl (w : World) : SameConnection w w := rfl

theorem SameConnection.sameConnection_trans (a b c : World) (h1 : SameConnection a b)
    (h2 : SameConnection b c) : SameConnection a c := by
  unfold SameConnection at *
  rw [h2, h1]

theorem sameConnection_of_manager {α : Type} {x : JS α}
    (h : ∀ w, (x w).world.app.webRtcManager = w.app.webRtcManager) : Along SameConnection x := by
  intro w
  unfold SameConnection
  rw [h w]

theorem sameConnection_of_quietly {α : Type} {x : JS α} (h : Along Quietly x) :
    Along SameConnection x :=
  sameConnection_of_manager fun w => by rw [(h w).1]

theorem SameConnection.sameConnection_drainLoop (P : Platform) (items : List JsVal) :
    Along SameConnection (drainLoop P items) := by
  induction items with
  | nil => exact Along.along_ret SameConnection.sameConnection_refl _
  | cons messageCid rest ih =>
    unfold drainLoop
    refine Along.along_bind SameConnection.sameConnection_trans
      (sameConnection_of_quietly (Quietly.quietly_downloadFromIPFS P _)) fun _ =>
      Along.along_bind SameConnection.sameConnection_trans
        (sameConnection_of_manager fun w => ?_) fun _ =>
      Along.along_bind SameConnection.sameConnection_trans
        (sameConnection_of_manager fun w => ?_) fun _ => ih
    · unfold decryptMessage
      cases w.app.cryptoManager with
      | none => rfl
      | some cm =>
        simp only []
        cases cm.decrypt P _ <;> rfl
    · unfold appendMessage
      cases w.browser.messages <;> rfl

theorem SameConnection.sameConnection_checkUnreadMessages (P : Platform) :
    Along SameConnection (checkUnreadMessages P) := by
  unfold checkUnreadMessages
  refine Along.along_tryCatch SameConnection.sameConnection_trans ?_
    (fun _ => sameConnection_of_manager fun _ => rfl)
  refine Along.along_bind SameConnection.sameConnection_trans
    (Along.along_read SameConnection.sameConnection_refl) fun _ =>
    Along.along_bind SameConnection.sameConnection_trans
      (sameConnection_of_quietly (Quietly.quietly_downloadFromIPFS P _)) fun _ =>
    Along.along_bind SameConnection.sameConnection_trans
      (sameConnection_of_manager fun w => ?_) fun unreadList =>
    Along.along_bind SameConnection.sameConnection_trans
      (Along.along_lift SameConnection.sameConnection_refl _) fun length =>
    Along.along_ite
      (Along.along_bind SameConnection.sameConnection_trans
        (sameConnection_of_manager fun w => ?_) fun items =>
        Along.along_bind SameConnection.sameConnection_trans
          (SameConnection.sameConnection_drainLoop P items) fun _ =>
        Along.along_bind SameConnection.sameConnection_trans
          (sameConnection_of_manager fun w => ?_) fun _ =>
        Along.along_bind SameConnection.sameConnection_trans
          (sameConnection_of_quietly (Quietly.quietly_uploadToIPFS P _)) fun _ =>
        sameConnection_of_manager fun _ => rfl)
      (Along.along_ret SameConnection.sameConnection_refl _)
  · unfold parseJson
    cases P.jsonParse _ <;> rfl
  · unfold iterate
    cases unreadList <;> rfl
  · unfold scrollMessages
    cases w.browser.messages <;> rfl

theorem SameConnection.sameConnection_showChatInterface : Along SameConnection showChatInterface := by
  unfold showChatInterface
  refine Along.along_bind SameConnection.sameConnection_trans
    (sameConnection_of_manager fun w => ?_) fun _ =>
    Along.along_bind SameConnection.sameConnection_trans
      (Along.along_read SameConnection.sameConnection_refl) fun _ =>
    Along.along_bind SameConnection.sameConnection_trans
      (Along.along_ite (sameConnection_of_manager fun w => ?_)
        (Along.along_ret SameConnection.sameConnection_refl _)) fun _ => ?_
  · by_cases h : w.browser.messages.isNone = true <;> simp [JS.update, h, Res.world]
  · unfold stopScanner
    by_cases h : w.browser.setupUi = false <;> simp [JS.andThen, JS.update, h, Res.world]
  · intro w
    unfold SameConnection setMessageHandler
    cases hm : w.app.webRtcManager with
    | none => simp [Res.world, hm]
    | some m =>
      simp only []
      cases m.dataChannel <;> simp [Res.world, hm]

theorem failed_ignored (P : Platform) (w : World) (m : WebRTCManager)
    (salt : List Byte) (hm : w.app.webRtcManager = some m)
    (hh : m.peerConnection.onconnectionstatechange = .invitation salt ∨
      m.peerConnection.onconnectionstatechange = .scanned salt) :
    connectionStateChange P "failed" w = .ok ()
      { w with
        app := { w.app with
          webRtcManager := some { m with
            peerConnection := { m.peerConnection with
              native := { m.peerConnection.native with connectionState := "failed" } } } } } := by
  unfold connectionStateChange
  simp only [hm]
  refine JS.bind_eq (show JS.update _ _ = .ok () _ from rfl) ?_
  have hon : (match m.peerConnection.onconnectionstatechange with
      | .manager => WebRTCManager.onconnectionstatechange P
      | .invitation salt => onConnected P salt
      | .scanned salt => onConnected P salt) = onConnected P salt := by
    rcases hh with hh | hh <;> rw [hh]
  rw [hon]
  unfold onConnected
  dsimp only
  rw [if_neg (by decide)]

/-- Claim C11, on the code. Take a tab whose connection carries the listener
`createInvitation` assigned, with a data channel and a `CryptoManager`, and let the
connection report `connected`: the listener installs the chat handlers, among them
`onIceRestartNeeded`, and the tab is still the offerer with the same listener. When the
connection then reports `failed`, nothing happens but the change of the state: no
`createOffer`, no upload, no request to the push worker; the trace and the relay are as
before. The listener of the constructor, which holds the restart, was replaced by the
assignment in `createInvitation`. -/
theorem failed_connection_not_restarted (P : Platform) (w : World) (m : WebRTCManager)
    (channel : DataChannel) (cm : CryptoManager) (salt : List Byte) (saltText : String)
    (hm : w.app.webRtcManager = some m)
    (hh : m.peerConnection.onconnectionstatechange = .invitation salt)
    (hoff : m.isOfferer = true)
    (hdc : m.dataChannel = some channel) (hcm : w.app.cryptoManager = some cm)
    (hsalt : arrayBufferToBase64 salt = .ok saltText) :
    (∃ m1, (connectionStateChange P "connected" w).world.app.webRtcManager = some m1 ∧
      m1.peerConnection.onconnectionstatechange = .invitation salt ∧ m1.isOfferer = true) ∧
    (connectionStateChange P "failed" (connectionStateChange P "connected" w).world).world.trace
      = (connectionStateChange P "connected" w).world.trace ∧
    (connectionStateChange P "failed" (connectionStateChange P "connected" w).world).world.relay
      = (connectionStateChange P "connected" w).world.relay := by
  have hsame := Along.along_bind SameConnection.sameConnection_trans
    SameConnection.sameConnection_showChatInterface
    (fun _ => SameConnection.sameConnection_checkUnreadMessages P)
    { w with
      app := { w.app with
        webRtcManager := some { m with
          peerConnection := { m.peerConnection with
            native := { m.peerConnection.native with connectionState := "connected" } }
          onIceRestartNeeded := true
          dataChannel := some { channel with onmessage := .chatHandlers } } }
      browser := { w.browser with
        localStorage := (SESSION_STORAGE_KEY,
          P.jsonStringify (.obj [("peerPushSubscription", w.app.peerPushSubscription),
            ("myUnreadListCid", w.app.myUnreadListCid),
            ("peerUnreadListCid", w.app.peerUnreadListCid), ("salt", .str saltText)])) ::
          w.browser.localStorage.filter (fun kv => kv.1 ≠ SESSION_STORAGE_KEY) } }
  rw [← connected_run P w m channel cm salt saltText hm (Or.inl hh) hdc hcm hsalt] at hsame
  unfold SameConnection at hsame
  generalize (connectionStateChange P "connected" w).world = v at hsame ⊢
  cases hv : v.app.webRtcManager with
  | none => simp [hv] at hsame
  | some m1 =>
    simp only [hv, Option.map_some', Option.some.injEq, Prod.mk.injEq] at hsame
    have hh1 : m1.peerConnection.onconnectionstatechange = .invitation salt := by
      rw [hsame.1, hh]
    refine ⟨⟨m1, rfl, hh1, by rw [hsame.2, hoff]⟩, ?_⟩
    rw [failed_ignored P v m1 salt hv (Or.inl hh1)]
    exact ⟨rfl, rfl⟩

set_option maxRecDepth 1000000 in
/-- The hypotheses of `failed_connection_not_restarted` hold in the sample tab after
`createInvitation`: the connection carries the listener of `createInvitation`, the tab is
the offerer. After `connected`, the state `failed` adds nothing to the trace. -/
theorem failed_connection_not_restarted_witness :
    (connectionStateChange Sample.platform "failed"
      (connectionStateChange Sample.platform "connected"
        (createInvitation Sample.platform Sample.newcomer).world).world).world.trace
      = (connectionStateChange Sample.platform "connected"
        (createInvitation Sample.platform Sample.newcomer).world).world.trace := by
  have hrun := createInvitation_ok Sample.platform Sample.newcomer "secret" Sample.subscriptionA
    Sample.firstOffer
    { RtcState.fresh with localDescription := Sample.firstOffer, iceGatheringState := "gathering" }
    Sample.offered rfl rfl rfl (by decide) rfl rfl rfl rfl rfl rfl rfl rfl (by decide) rfl
    "AxQlNkdYaXqLnK2+z+DxAg==" (by rfl)
  exact (failed_connection_not_restarted Sample.platform
    (createInvitation Sample.platform Sample.newcomer).world
    { peerConnection :=
        { native := Sample.offered
          onconnectionstatechange := .invitation (Sample.newcomer.randomBytes 16) }
      dataChannel := some { readyState := "connecting", onmessage := .manager }
      isOfferer := true
      onIceRestartNeeded := false
      keepAliveInterval := false }
    { readyState := "connecting", onmessage := .manager }
    { key := some (Sample.platform.pbkdf2 "secret" (Sample.newcomer.randomBytes 16)) }
    (Sample.newcomer.randomBytes 16) "AxQlNkdYaXqLnK2+z+DxAg=="
    (by rw [hrun]; rfl) rfl rfl rfl (by rw [hrun]; rfl) (by rfl)).2.1

/-! ## The mailbox of the tab itself -/

theorem keeps_bind {α β : Type} {P : Platform} {x : JS α} {f : α → JS β} {Q : α → Prop}
    {R : β → Prop} (hx : Keeps P x Q) (hf : ∀ a, Q a → Keeps P (f a) R) : Keeps P (x >>= f) R := by
  intro w hw
  obtain ⟨h1, h2⟩ := hx w hw
  simp only [JS.bind_run, JS.andThen]
  cases hr : x w with
  | ok a w1 =>
    rw [hr] at h1
    exact hf a (h2 a w1 hr) w1 h1
  | err e w1 => rw [hr] at h1; exact ⟨h1, fun a w2 h => by cases h⟩
  | pending w1 => rw [hr] at h1; exact ⟨h1, fun a w2 h => by cases h⟩

theorem keeps_tryCatch {α : Type} {P : Platform} {body : JS α} {handler : JsError → JS α}
    {Q : α → Prop} (hx : Keeps P body Q) (hf : ∀ e, Keeps P (handler e) Q) :
    Keeps P (JS.tryCatch body handler) Q := by
  intro w hw
  obtain ⟨h1, h2⟩ := hx w hw
  simp only [JS.tryCatch]
  cases hr : body w with
  | ok a w1 =>
    rw [hr] at h1
    refine ⟨h1, fun b w2 h => ?_⟩
    cases h
    exact h2 a w1 hr
  | err e w1 => rw [hr] at h1; exact hf e w1 h1
  | pending w1 => rw [hr] at h1; exact ⟨h1, fun a w2 h => by cases h⟩

theorem keeps_ite {α : Type} {P : Platform} {c : Prop} [Decidable c] {x y : JS α} {Q : α → Prop}
    (hx : Keeps P x Q) (hy : Keeps P y Q) : Keeps P (if c then x else y) Q := by
  split
  · exact hx
  · exact hy

theorem keeps_weaken {α : Type} {P : Platform} {x : JS α} {Q R : α → Prop} (hx : Keeps P x Q)
    (h : ∀ a, Q a → R a) : Keeps P x R :=
  fun w hw => ⟨(hx w hw).1, fun a w1 hr => h a ((hx w hw).2 a w1 hr)⟩

theorem Spares.keeps {α : Type} (P : Platform) {x : JS α} (h : Spares x) :
    Keeps P x (fun _ => True) := by
  intro w hw
  obtain ⟨h1, h2⟩ := h w
  refine ⟨?_, fun _ _ _ => trivial⟩
  unfold MailboxSound at hw ⊢
  rw [h1, h2]
  exact hw

theorem keeps_update {P : Platform} {f : World → World}
    (h : ∀ w, MailboxSound P w → MailboxSound P (f w)) : Keeps P (JS.update f) (fun _ => True) :=
  fun w hw => ⟨h w hw, fun _ _ _ => trivial⟩

theorem keeps_uploadToIPFS (P : Platform) (data : String) :
    Keeps P (uploadToIPFS P data) (fun cid => cid = P.cidOf data) := by
  intro w hw
  refine ⟨((Spares.spares_uploadToIPFS P data).keeps P w hw).1, fun a w1 h => ?_⟩
  unfold P2PChat.uploadToIPFS at h
  by_cases hc : w.relay.client = false
  · simp [hc] at h
  · by_cases hf : w.relay.nextFails = true
    · simp [hc, hf] at h
    · simp [hc, hf] at h
      exact h.1.symm

theorem keeps_setMailbox (P : Platform) (v : JsVal) (hv : NullOrEmptyList P v) :
    Keeps P (JS.update (fun w => { w with app := { w.app with myUnreadListCid := v } }))
      (fun _ => True) :=
  keeps_update fun _ hw => ⟨hv, hw.2⟩

theorem nullOrEmptyList_cid (P : Platform) :
    NullOrEmptyList P (.str (P.cidOf (P.jsonStringify (.arr [])))) := Or.inr rfl

/-! ### What leaves the mailbox alone -/

theorem Spares.spares_prompt : Spares prompt := fun _ => ⟨rfl, rfl⟩

theorem Spares.spares_getRandomValues (n : Nat) : Spares (getRandomValues n) := fun _ => ⟨rfl, rfl⟩

theorem Spares.spares_deriveKeyFromPassword (P : Platform) (password : String) (salt : List Byte) :
    Spares (deriveKeyFromPassword P password salt) := by
  intro w
  unfold P2PChat.deriveKeyFromPassword
  cases w.app.cryptoManager <;> exact ⟨rfl, rfl⟩

theorem Spares.spares_setPushManager (f : PushManager → PushManager) : Spares (setPushManager f) :=
  Spares.spares_update fun _ => ⟨rfl, rfl⟩

theorem Spares.spares_initialize : Spares PushManager.initialize := by
  intro w
  unfold PushManager.initialize
  by_cases h1 : w.browser.pushSupported = false
  · rw [if_pos h1]; exact ⟨rfl, rfl⟩
  · rw [if_neg h1]
    by_cases h2 : w.browser.swReady = true
    · rw [if_pos h2]; exact ⟨rfl, rfl⟩
    · rw [if_neg h2]; exact ⟨rfl, rfl⟩

theorem Spares.spares_subscribeUser (key : String) : Spares (PushManager.subscribeUser key) := by
  intro w
  unfold PushManager.subscribeUser
  cases w.app.pushManager with
  | none => exact ⟨rfl, rfl⟩
  | some pm =>
    refine Spares.spares_bind (Spares.spares_ite Spares.spares_initialize (Spares.spares_ret _))
      (fun _ => Spares.spares_bind (Spares.spares_lift _) fun _ =>
        Spares.spares_tryCatch (Spares.spares_bind Spares.spares_read fun w1 =>
          Spares.spares_ite (Spares.spares_throw _) ?_)
          (fun _ => Spares.spares_bind (Spares.spares_emit _) fun _ =>
            Spares.spares_bind Spares.spares_read fun _ =>
            Spares.spares_bind (Spares.spares_ite (Spares.spares_emit _) (Spares.spares_ret _))
              fun _ => Spares.spares_ret _)) w
    cases w1.browser.subscribeResult with
    | none => exact Spares.spares_throw _
    | some subscription =>
      exact Spares.spares_bind (Spares.spares_setPushManager _) fun _ => Spares.spares_ret _

theorem Spares.spares_rtcCall {α : Type} (method : String) (arg : JsVal)
    (run : RtcState → Option (α × RtcState)) : Spares (rtcCall method arg run) := by
  intro w
  unfold P2PChat.rtcCall
  cases w.app.webRtcManager with
  | none => exact ⟨rfl, rfl⟩
  | some m =>
    simp only []
    cases run m.peerConnection.native <;> exact ⟨rfl, rfl⟩

theorem Spares.spares_waitForIceGathering (P : Platform) :
    Spares (WebRTCManager.waitForIceGathering P) := by
  intro w
  unfold WebRTCManager.waitForIceGathering
  cases w.app.webRtcManager with
  | none => exact ⟨rfl, rfl⟩
  | some m =>
    simp only []
    split
    · exact ⟨rfl, rfl⟩
    · cases checkState (P.rtcGatheringEvents m.peerConnection.native) <;> exact ⟨rfl, rfl⟩

theorem Spares.spares_localDescription : Spares localDescription := by
  intro w
  unfold P2PChat.localDescription
  cases w.app.webRtcManager <;> exact ⟨rfl, rfl⟩

theorem Spares.spares_withManager (what : String) (f : WebRTCManager → WebRTCManager) :
    Spares (withManager what f) := by
  intro w
  unfold P2PChat.withManager
  cases w.app.webRtcManager <;> exact ⟨rfl, rfl⟩

theorem Spares.spares_createOffer (P : Platform) : Spares (WebRTCManager.createOffer P) :=
  Spares.spares_bind
    (Spares.spares_bind (Spares.spares_withManager _ _) fun _ => Spares.spares_emit _) fun _ =>
  Spares.spares_bind (Spares.spares_rtcCall _ _ _) fun _ =>
  Spares.spares_bind (Spares.spares_rtcCall _ _ _) fun _ =>
  Spares.spares_bind (Spares.spares_waitForIceGathering P) fun _ => Spares.spares_localDescription

theorem Spares.spares_createAnswer (P : Platform) (offerSdp : JsVal) :
    Spares (WebRTCManager.createAnswer P offerSdp) :=
  Spares.spares_bind (Spares.spares_rtcCall _ _ _) fun _ =>
  Spares.spares_bind (Spares.spares_rtcCall _ _ _) fun _ =>
  Spares.spares_bind (Spares.spares_rtcCall _ _ _) fun _ =>
  Spares.spares_bind (Spares.spares_waitForIceGathering P) fun _ => Spares.spares_localDescription

theorem Spares.spares_setConnectionHandler (handler : ConnectionHandler) :
    Spares (setConnectionHandler handler) := by
  intro w
  unfold P2PChat.setConnectionHandler
  cases w.app.webRtcManager <;> exact ⟨rfl, rfl⟩

theorem Spares.spares_hideConnectionSetup : Spares hideConnectionSetup := by
  intro w
  unfold P2PChat.hideConnectionSetup
  split <;> exact ⟨rfl, rfl⟩

theorem Spares.spares_startScanner : Spares startScanner := by
  intro w
  unfold P2PChat.startScanner
  split
  · exact ⟨rfl, rfl⟩
  · split <;> exact ⟨rfl, rfl⟩

theorem Spares.spares_showAnswerQr (text : String) : Spares (showAnswerQr text) := by
  intro w
  unfold P2PChat.showAnswerQr
  split <;> exact ⟨rfl, rfl⟩

theorem Spares.spares_iceRestartNeeded (P : Platform) (offerSdp : JsVal) :
    Spares (iceRestartNeeded P offerSdp) :=
  Spares.spares_tryCatch
    (Spares.spares_bind (Spares.spares_uploadToIPFS P _) fun _ =>
      Spares.spares_bind Spares.spares_loadWorkerUrl fun _ =>
      Spares.spares_ite (Spares.spares_emit _) (Spares.spares_notifyPeer _ _))
    (fun _ => Spares.spares_emit _)

theorem Spares.spares_onconnectionstatechange (P : Platform) :
    Spares (WebRTCManager.onconnectionstatechange P) := by
  intro w
  unfold WebRTCManager.onconnectionstatechange
  cases w.app.webRtcManager with
  | none => exact ⟨rfl, rfl⟩
  | some this =>
    simp only []
    split
    · exact Spares.spares_tryCatch
        (Spares.spares_bind (Spares.spares_rtcCall _ _ _) fun _ =>
          Spares.spares_bind (Spares.spares_rtcCall _ _ _) fun _ =>
          Spares.spares_bind (Spares.spares_waitForIceGathering P) fun _ =>
          Spares.spares_bind Spares.spares_read fun _ =>
          Spares.spares_ite
            (Spares.spares_bind Spares.spares_localDescription fun _ =>
              Spares.spares_iceRestartNeeded P _)
            (Spares.spares_ret _))
        (fun _ => Spares.spares_emit _) w
    · exact ⟨rfl, rfl⟩

theorem Spares.spares_branch {α : Type} {c : World → Prop} [DecidablePred c] {x y : JS α}
    (hx : Spares x) (hy : Spares y) : Spares (fun w => if c w then x w else y w) := by
  intro w
  by_cases h : c w
  · simp only [if_pos h]; exact hx w
  · simp only [if_neg h]; exact hy w

theorem Spares.spares_setFinalRemoteDescription (P : Platform) (answerSdp : JsVal) :
    Spares (WebRTCManager.setFinalRemoteDescription P answerSdp) := by
  unfold WebRTCManager.setFinalRemoteDescription
  exact Spares.spares_rtcCall _ _ _

theorem Spares.spares_handleIceRestartOffer (P : Platform) (payload : JsVal) :
    Spares (handleIceRestartOffer P payload) := by
  unfold P2PChat.handleIceRestartOffer
  refine Spares.spares_branch (Spares.spares_emit _) (Spares.spares_tryCatch ?_
    (fun _ => Spares.spares_emit _))
  exact Spares.spares_bind (Spares.spares_lift _) fun _ =>
    Spares.spares_bind (Spares.spares_downloadFromIPFS P _) fun _ =>
    Spares.spares_bind (Spares.spares_parseJson P _) fun _ =>
    Spares.spares_bind (Spares.spares_createAnswer P _) fun _ =>
    Spares.spares_bind (Spares.spares_uploadToIPFS P _) fun _ =>
    Spares.spares_bind Spares.spares_loadWorkerUrl fun _ =>
    Spares.spares_ite (Spares.spares_emit _) (Spares.spares_notifyPeer _ _)

theorem Spares.spares_handleIceRestartAnswer (P : Platform) (payload : JsVal) :
    Spares (handleIceRestartAnswer P payload) := by
  unfold P2PChat.handleIceRestartAnswer
  refine Spares.spares_branch (Spares.spares_emit _) (Spares.spares_tryCatch ?_
    (fun _ => Spares.spares_emit _))
  exact Spares.spares_bind (Spares.spares_lift _) fun _ =>
    Spares.spares_bind (Spares.spares_downloadFromIPFS P _) fun _ =>
    Spares.spares_bind (Spares.spares_parseJson P _) fun _ =>
    Spares.spares_setFinalRemoteDescription P _

theorem Spares.spares_onServiceWorkerMessage (P : Platform) (data : JsVal) :
    Spares (onServiceWorkerMessage P data) :=
  Spares.spares_bind (Spares.spares_lift _) fun _ =>
  Spares.spares_bind (Spares.spares_lift _) fun _ =>
  Spares.spares_ite (Spares.spares_handleIceRestartOffer P _)
    (Spares.spares_ite (Spares.spares_handleIceRestartAnswer P _) (Spares.spares_ret _))

theorem Spares.spares_receiveActions (P : Platform) (actions : List SwAction) :
    Spares (receiveActions P actions) := by
  induction actions with
  | nil => exact Spares.spares_ret _
  | cons action rest ih =>
    cases action with
    | focus => exact ih
    | openWindow url => exact ih
    | postMessage data =>
      exact Spares.spares_bind (Spares.spares_onServiceWorkerMessage P data) fun _ => ih

theorem Spares.spares_sendMessage (message : String) : Spares (WebRTCManager.sendMessage message) := by
  intro w
  unfold WebRTCManager.sendMessage
  cases w.app.webRtcManager with
  | none => exact ⟨rfl, rfl⟩
  | some m =>
    simp only []
    split <;> exact ⟨rfl, rfl⟩

theorem Spares.spares_onmessage (data : String) : Spares (WebRTCManager.onmessage data) :=
  Spares.spares_ite (Spares.spares_sendMessage _)
    (Spares.spares_ite (Spares.spares_ret _) (Spares.spares_ret _))

theorem Spares.spares_displayMessage (text sender : String) : Spares (displayMessage text sender) :=
  Spares.spares_bind (Spares.spares_appendMessage _) fun _ => Spares.spares_scrollMessages

theorem Spares.spares_chatHandlersMessage (P : Platform) (data : String) :
    Spares (chatHandlersMessage P data) := by
  intro w
  unfold P2PChat.chatHandlersMessage
  split
  · exact ⟨rfl, rfl⟩
  · cases w.app.cryptoManager with
    | none => exact ⟨rfl, rfl⟩
    | some cm =>
      exact Spares.spares_tryCatch
        (Spares.spares_bind (Spares.spares_lift _) fun _ => Spares.spares_throw _)
        (fun _ => Spares.spares_emit _) w

theorem Spares.spares_chatInterfaceMessage (P : Platform) (data : String) :
    Spares (chatInterfaceMessage P data) := by
  intro w
  unfold P2PChat.chatInterfaceMessage
  split
  · exact ⟨rfl, rfl⟩
  · cases w.app.cryptoManager with
    | none => exact ⟨rfl, rfl⟩
    | some cm =>
      exact Spares.spares_tryCatch
        (Spares.spares_bind (Spares.spares_lift _) fun _ => Spares.spares_displayMessage _ _)
        (fun _ => Spares.spares_emit _) w

theorem Spares.spares_dataChannelMessage (P : Platform) (data : String) :
    Spares (dataChannelMessage P data) := by
  intro w
  unfold P2PChat.dataChannelMessage
  cases w.app.webRtcManager with
  | none => exact ⟨rfl, rfl⟩
  | some m =>
    simp only []
    cases m.dataChannel with
    | none => exact ⟨rfl, rfl⟩
    | some channel =>
      simp only []
      cases channel.onmessage with
      | manager => exact Spares.spares_onmessage data w
      | chatHandlers => exact Spares.spares_chatHandlersMessage P data w
      | chatInterface => exact Spares.spares_chatInterfaceMessage P data w

theorem Spares.spares_ondatachannel (readyState : String) :
    Spares (WebRTCManager.ondatachannel readyState) := by
  intro w
  unfold WebRTCManager.ondatachannel
  cases w.app.webRtcManager <;> exact ⟨rfl, rfl⟩

theorem Spares.spares_onSendClick (P : Platform) (message : String) :
    Spares (onSendClick P message) := by
  unfold P2PChat.onSendClick
  refine Spares.spares_ite (Spares.spares_ret _)
    (Spares.spares_bind (Spares.spares_displayMessage _ _) fun _ =>
      Spares.spares_bind Spares.spares_read fun w =>
      Spares.spares_ite ?_ (Spares.spares_sendOfflineMessage P message))
  cases w.app.cryptoManager with
  | none => exact Spares.spares_throw _
  | some cm =>
    exact Spares.spares_tryCatch
      (Spares.spares_bind (Spares.spares_encryptMessage P message) fun _ =>
        Spares.spares_sendMessage _)
      (fun _ => Spares.spares_ret _)

theorem Spares.spares_setupChatHandlers : Spares setupChatHandlers :=
  Spares.spares_bind (Spares.spares_withManager _ _) fun _ => Spares.spares_setMessageHandler _

theorem Spares.spares_scanInvitation : Spares scanInvitation :=
  Spares.spares_bind Spares.spares_hideConnectionSetup fun _ => Spares.spares_startScanner

theorem Spares.spares_getItem (key : String) : Spares (getItem key) := fun _ => ⟨rfl, rfl⟩

theorem Spares.spares_initializeIpfsClient (token : Option String) :
    Spares (initializeIpfsClient token) := by
  intro w
  unfold P2PChat.initializeIpfsClient
  split <;> exact ⟨rfl, rfl⟩

theorem Spares.spares_setStatusText : Spares setStatusText := by
  intro w
  unfold P2PChat.setStatusText
  split <;> exact ⟨rfl, rfl⟩

theorem Spares.spares_showPasswordUI : Spares showPasswordUI :=
  Spares.spares_update fun _ => ⟨rfl, rfl⟩

theorem Spares.spares_handleScannedAnswer (P : Platform) (parsedData : JsVal) :
    Spares (handleScannedAnswer P parsedData) := by
  unfold P2PChat.handleScannedAnswer
  refine Spares.spares_bind (Spares.spares_lift _) fun _ =>
    Spares.spares_bind (Spares.spares_downloadFromIPFS P _) fun _ =>
    Spares.spares_bind (Spares.spares_parseJson P _) fun _ =>
    Spares.spares_bind (Spares.spares_lift _) fun _ =>
    Spares.spares_bind (Spares.spares_update fun _ => ⟨rfl, rfl⟩) fun _ =>
    Spares.spares_bind (Spares.spares_lift _) fun _ =>
    Spares.spares_bind (Spares.spares_update fun _ => ⟨rfl, rfl⟩) fun _ =>
    Spares.spares_bind Spares.spares_read fun w => ?_
  cases w.app.webRtcManager with
  | none => exact Spares.spares_throw _
  | some m =>
    exact Spares.spares_bind (Spares.spares_lift _) fun _ =>
      Spares.spares_setFinalRemoteDescription P _

/-! ### What writes the mailbox or the session -/

theorem keeps_checkUnreadMessages (P : Platform) :
    Keeps P (checkUnreadMessages P) (fun _ => True) := by
  unfold P2PChat.checkUnreadMessages
  refine keeps_tryCatch ?_ (fun _ => (Spares.spares_emit _).keeps P)
  exact keeps_bind (Spares.spares_read.keeps P) fun _ _ =>
    keeps_bind ((Spares.spares_downloadFromIPFS P _).keeps P) fun _ _ =>
    keeps_bind ((Spares.spares_parseJson P _).keeps P) fun unreadList _ =>
    keeps_bind ((Spares.spares_lift _).keeps P) fun length _ =>
    keeps_ite
      (keeps_bind ((Spares.spares_iterate _).keeps P) fun items _ =>
        keeps_bind ((Spares.spares_drainLoop P items).keeps P) fun _ _ =>
        keeps_bind (Spares.spares_scrollMessages.keeps P) fun _ _ =>
        keeps_bind (keeps_uploadToIPFS P _) fun cid hcid =>
        keeps_setMailbox P _ (by rw [hcid]; exact nullOrEmptyList_cid P))
      ((Spares.spares_ret _).keeps P)

theorem keeps_createInvitation (P : Platform) : Keeps P (createInvitation P) (fun _ => True) := by
  unfold P2PChat.createInvitation
  refine keeps_bind (Spares.spares_hideConnectionSetup.keeps P) fun _ _ =>
    keeps_bind (keeps_update fun w hw => ⟨Or.inl rfl, hw.2⟩) fun _ _ =>
    keeps_tryCatch
      (keeps_bind (Spares.spares_prompt.keeps P) fun password _ =>
        keeps_ite ((Spares.spares_emit _).keeps P)
          (keeps_bind ((Spares.spares_subscribeUser _).keeps P) fun mySubscription _ =>
            keeps_ite ((Spares.spares_throw _).keeps P)
              (keeps_bind (keeps_uploadToIPFS P _) fun myCid hcid =>
                keeps_bind (keeps_setMailbox P _ (by rw [hcid]; exact nullOrEmptyList_cid P))
                  fun _ _ => Spares.keeps P ?_)))
      (fun _ => Spares.keeps P
        (Spares.spares_bind (Spares.spares_emit _) fun _ => Spares.spares_emit _))
  refine Spares.spares_bind (Spares.spares_getRandomValues 16) fun salt =>
    Spares.spares_bind (Spares.spares_deriveKeyFromPassword P _ _) fun _ =>
    Spares.spares_bind (fun w => ?_) fun offerSdp =>
    Spares.spares_bind (Spares.spares_lift _) fun _ =>
    Spares.spares_bind Spares.spares_read fun _ =>
    Spares.spares_bind (Spares.spares_uploadToIPFS P _) fun _ =>
    Spares.spares_bind (Spares.spares_emit _) fun _ =>
    Spares.spares_bind (Spares.spares_setConnectionHandler _) fun _ => Spares.spares_startScanner
  cases w.app.webRtcManager with
  | none => exact ⟨rfl, rfl⟩
  | some m => exact Spares.spares_createOffer P w

theorem keeps_handleScannedOffer (P : Platform) (parsedData : JsVal) :
    Keeps P (handleScannedOffer P parsedData) (fun _ => True) := by
  unfold P2PChat.handleScannedOffer
  refine keeps_bind (keeps_update fun w hw => ⟨Or.inl rfl, hw.2⟩) fun _ _ =>
    keeps_bind ((Spares.spares_lift _).keeps P) fun _ _ =>
    keeps_bind ((Spares.spares_downloadFromIPFS P _).keeps P) fun _ _ =>
    keeps_bind ((Spares.spares_parseJson P _).keeps P) fun _ _ =>
    keeps_bind ((Spares.spares_lift _).keeps P) fun _ _ =>
    keeps_bind (Spares.keeps P (Spares.spares_update fun _ => ⟨rfl, rfl⟩)) fun _ _ =>
    keeps_bind ((Spares.spares_lift _).keeps P) fun _ _ =>
    keeps_bind (Spares.keeps P (Spares.spares_update fun _ => ⟨rfl, rfl⟩)) fun _ _ =>
    keeps_bind (Spares.spares_prompt.keeps P) fun password _ =>
    keeps_ite ((Spares.spares_emit _).keeps P)
      (keeps_bind ((Spares.spares_lift _).keeps P) fun _ _ =>
        keeps_bind ((Spares.spares_lift _).keeps P) fun _ _ =>
        keeps_bind ((Spares.spares_deriveKeyFromPassword P _ _).keeps P) fun _ _ =>
        keeps_bind ((Spares.spares_subscribeUser _).keeps P) fun _ _ =>
        keeps_bind (keeps_uploadToIPFS P _) fun myCid hcid =>
        keeps_bind (keeps_setMailbox P _ (by rw [hcid]; exact nullOrEmptyList_cid P))
          fun _ _ => Spares.keeps P ?_)
  refine Spares.spares_bind (Spares.spares_lift _) fun offerSdp =>
    Spares.spares_bind (fun w => ?_) fun _ =>
    Spares.spares_bind Spares.spares_read fun _ =>
    Spares.spares_bind (Spares.spares_uploadToIPFS P _) fun _ =>
    Spares.spares_bind (Spares.spares_showAnswerQr _) fun _ => Spares.spares_setConnectionHandler _
  cases w.app.webRtcManager with
  | none => exact ⟨rfl, rfl⟩
  | some m => exact Spares.spares_createAnswer P offerSdp w

theorem keeps_handleScannedData (P : Platform) (data expectedType : String) :
    Keeps P (handleScannedData P data expectedType) (fun _ => True) := by
  unfold P2PChat.handleScannedData
  exact keeps_tryCatch
    (keeps_bind ((Spares.spares_parseJson P _).keeps P) fun parsedData _ =>
      keeps_bind ((Spares.spares_lift _).keeps P) fun type _ =>
      keeps_ite ((Spares.spares_throw _).keeps P)
        (keeps_ite (keeps_handleScannedOffer P parsedData)
          (keeps_ite ((Spares.spares_handleScannedAnswer P parsedData).keeps P)
            ((Spares.spares_ret _).keeps P))))
    (fun _ => Spares.keeps P
      (Spares.spares_bind (Spares.spares_emit _) fun _ => Spares.spares_emit _))

theorem keeps_tick (P : Platform) (scanType data : String) :
    Keeps P (tick P scanType data) (fun _ => True) :=
  keeps_bind (Spares.spares_stopScanner.keeps P) fun _ _ => keeps_handleScannedData P data scanType

theorem keeps_setItem (P : Platform) (key value : String) (hkey : key ≠ SESSION_STORAGE_KEY) :
    Keeps P (setItem key value) (fun _ => True) := by
  refine keeps_update fun w hw => ⟨hw.1, fun text session htext => ?_⟩
  have hne : (SESSION_STORAGE_KEY == key) = false := by
    simpa using fun h => hkey h.symm
  simp only [List.lookup, hne] at htext
  rw [lookup_filter_ne _ _ _ hkey] at htext
  exact hw.2 text session htext

theorem keeps_clearSession (P : Platform) : Keeps P StorageManager.clearSession (fun _ => True) := by
  refine keeps_update fun w hw => ⟨hw.1, fun text session htext => ?_⟩
  simp only [] at htext
  rw [lookup_filter_self] at htext
  cases htext

theorem keeps_saveSession (P : Platform) (data : JsVal)
    (hdata : ∀ session, P.jsonParse (P.jsonStringify data) = some session → SessionSound P session) :
    Keeps P (StorageManager.saveSession P data) (fun _ => True) := by
  unfold StorageManager.saveSession
  refine keeps_tryCatch (keeps_update fun w hw => ⟨hw.1, fun text session htext hparse => ?_⟩)
    (fun _ => (Spares.spares_emit _).keeps P)
  have hself : (SESSION_STORAGE_KEY == SESSION_STORAGE_KEY) = true := by simp
  simp only [List.lookup, hself] at htext
  cases htext
  exact hdata session hparse

theorem keeps_loadSession (P : Platform) :
    Keeps P (StorageManager.loadSession P) (SessionSound P) := by
  intro w hw
  have hnull : SessionSound P .null := fun v h => by cases h
  refine ⟨((?_ : Spares (StorageManager.loadSession P)).keeps P w hw).1, fun a w1 h => ?_⟩
  · exact Spares.spares_tryCatch
      (Spares.spares_bind (Spares.spares_getItem _) fun _ =>
        Spares.spares_ite (Spares.spares_ret _) (Spares.spares_parseJson P _))
      (fun _ => Spares.spares_bind (Spares.spares_emit _) fun _ => Spares.spares_ret _)
  · unfold StorageManager.loadSession at h
    simp only [JS.tryCatch, JS.bind_run, JS.andThen, getItem] at h
    cases hitem : w.browser.localStorage.lookup SESSION_STORAGE_KEY with
    | none =>
      simp [hitem, falsyItem, JS.ret] at h
      rw [← h.1]; exact hnull
    | some text =>
      rw [hitem] at h
      by_cases hfalsy : falsyItem (some text) = true
      · simp [hfalsy, JS.ret] at h
        rw [← h.1]; exact hnull
      · simp only [hfalsy, Option.getD, parseJson] at h
        cases hparse : P.jsonParse text with
        | none =>
          simp [hparse, JS.throw, JS.emit, JS.update, JS.ret] at h
          rw [← h.1]; exact hnull
        | some session =>
          simp [hparse, JS.ret] at h
          rw [← h.1]
          exact hw.2 text session hitem hparse

theorem keeps_updateApiToken (P : Platform) : Keeps P updateApiToken (fun _ => True) :=
  keeps_bind (Spares.spares_prompt.keeps P) fun _ _ =>
    keeps_ite
      (keeps_bind (keeps_setItem P _ _ (by decide)) fun _ _ =>
        keeps_bind ((Spares.spares_initializeIpfsClient _).keeps P) fun _ _ =>
        Spares.spares_setStatusText.keeps P)
      (keeps_bind ((Spares.spares_getItem _).keeps P) fun _ _ =>
        keeps_ite ((Spares.spares_emit _).keeps P) ((Spares.spares_ret _).keeps P))

theorem keeps_updateWorkerUrl (P : Platform) : Keeps P updateWorkerUrl (fun _ => True) :=
  keeps_bind (Spares.spares_prompt.keeps P) fun _ _ =>
    keeps_ite
      (keeps_bind (keeps_setItem P _ _ (by decide)) fun _ _ => Spares.spares_setStatusText.keeps P)
      (keeps_bind (Spares.spares_loadWorkerUrl.keeps P) fun _ _ =>
        keeps_ite ((Spares.spares_emit _).keeps P) ((Spares.spares_ret _).keeps P))

theorem keeps_showInitialConnectionUI (P : Platform) :
    Keeps P showInitialConnectionUI (fun _ => True) :=
  keeps_bind ((Spares.spares_getItem _).keeps P) fun _ _ =>
    keeps_bind
      (keeps_ite
        (keeps_bind (keeps_updateApiToken P) fun _ _ =>
          keeps_weaken ((Spares.spares_getItem _).keeps P) fun _ _ => trivial)
        (keeps_bind ((Spares.spares_initializeIpfsClient _).keeps P) fun _ _ =>
          (Spares.spares_ret _).keeps P)) fun _ _ =>
    keeps_ite ((Spares.spares_ret _).keeps P)
      (keeps_bind (Spares.spares_loadWorkerUrl.keeps P) fun _ _ =>
        keeps_bind
          (keeps_ite
            (keeps_bind (keeps_updateWorkerUrl P) fun _ _ => Spares.spares_loadWorkerUrl.keeps P)
            ((Spares.spares_ret _).keeps P)) fun _ _ =>
        keeps_ite ((Spares.spares_ret _).keeps P)
          (Spares.keeps P (Spares.spares_update fun _ => ⟨rfl, rfl⟩)))

theorem keeps_ret {α : Type} (P : Platform) (a : α) : Keeps P (JS.ret a) (fun b => b = a) :=
  fun w hw => ⟨hw, fun b w1 h => by cases h; rfl⟩

theorem keeps_activateChat (P : Platform) :
    Keeps P (activateChat P) (fun held => ∀ session, held = some session → SessionSound P session) :=
  keeps_bind (keeps_loadSession P) fun savedSession hsound =>
    keeps_ite
      (keeps_bind (Spares.spares_showPasswordUI.keeps P) fun _ _ =>
        keeps_weaken (keeps_ret P _) fun held hheld session h => by
          rw [hheld] at h; cases h; exact hsound)
      (keeps_bind (keeps_showInitialConnectionUI P) fun _ _ =>
        keeps_weaken (keeps_ret P _) fun held hheld session h => by
          rw [hheld] at h; cases h)

theorem keeps_resetSessionSetup (P : Platform) :
    Keeps P (resetSessionSetup P)
      (fun held => ∀ session, held = some session → SessionSound P session) :=
  keeps_bind (keeps_clearSession P) fun _ _ =>
    keeps_bind (keeps_setItem P _ _ (by decide)) fun _ _ =>
    keeps_bind ((Spares.spares_emit _).keeps P) fun _ _ => keeps_activateChat P

theorem keeps_resetSessionChat (P : Platform) :
    Keeps P (resetSessionChat P)
      (fun held => ∀ session, held = some session → SessionSound P session) :=
  keeps_bind (keeps_clearSession P) fun _ _ =>
    keeps_bind ((Spares.spares_emit _).keeps P) fun _ _ => keeps_activateChat P

theorem keeps_unlock (P : Platform) (session : JsVal) (password : String)
    (hsession : SessionSound P session) : Keeps P (unlock P session password) (fun _ => True) := by
  unfold P2PChat.unlock
  exact keeps_ite ((Spares.spares_emit _).keeps P)
    (keeps_bind ((Spares.spares_getItem _).keeps P) fun _ _ =>
      keeps_bind ((Spares.spares_initializeIpfsClient _).keeps P) fun _ _ =>
      keeps_bind (keeps_update fun w hw => ⟨Or.inl rfl, hw.2⟩) fun _ _ =>
      keeps_bind ((Spares.spares_lift _).keeps P) fun _ _ =>
      keeps_bind (Spares.keeps P (Spares.spares_update fun _ => ⟨rfl, rfl⟩)) fun _ _ =>
      keeps_bind
        (fun w hw => ⟨((Spares.spares_lift (session.getProp "myUnreadListCid")).keeps P w hw).1,
          fun v w1 h => show NullOrEmptyList P v from hsession v (by
            cases hget : session.getProp "myUnreadListCid" with
            | error e => rw [hget] at h; cases h
            | ok v1 => rw [hget] at h; cases h; rfl)⟩) fun myUnreadListCid hv =>
      keeps_bind (keeps_setMailbox P _ hv) fun _ _ =>
      keeps_bind ((Spares.spares_lift _).keeps P) fun _ _ =>
      keeps_bind (Spares.keeps P (Spares.spares_update fun _ => ⟨rfl, rfl⟩)) fun _ _ =>
      keeps_bind (Spares.keeps P (Spares.spares_update fun _ => ⟨rfl, rfl⟩)) fun _ _ =>
      keeps_bind ((Spares.spares_lift _).keeps P) fun _ _ =>
      keeps_bind ((Spares.spares_lift _).keeps P) fun _ _ =>
      keeps_bind ((Spares.spares_deriveKeyFromPassword P _ _).keeps P) fun _ _ =>
      keeps_bind (Spares.spares_showChatInterface.keeps P) fun _ _ =>
      keeps_checkUnreadMessages P)

theorem Spares.spares_sessionData (salt : List Byte) : Spares (sessionData salt) := by
  intro w
  unfold P2PChat.sessionData
  cases w.app.cryptoManager with
  | none => exact ⟨rfl, rfl⟩
  | some cm =>
    exact Spares.spares_bind (Spares.spares_lift _) (fun _ => Spares.spares_ret _) w

theorem sameRecord_setupChatHandlers : Along SameRecord setupChatHandlers := by
  intro w
  unfold P2PChat.setupChatHandlers
  simp only [JS.bind_run, JS.andThen, withManager, setMessageHandler]
  cases hm : w.app.webRtcManager with
  | none => exact ⟨rfl, rfl, rfl, rfl⟩
  | some m =>
    simp only []
    cases hc : m.dataChannel <;> exact ⟨rfl, rfl, rfl, rfl⟩

theorem sessionData_ok_inv {salt : List Byte} {w w1 : World} {data : JsVal}
    (h : sessionData salt w = .ok data w1) :
    w1 = w ∧ ∃ saltText, arrayBufferToBase64 salt = .ok saltText ∧
      data = .obj [("peerPushSubscription", w.app.peerPushSubscription),
        ("myUnreadListCid", w.app.myUnreadListCid),
        ("peerUnreadListCid", w.app.peerUnreadListCid), ("salt", .str saltText)] := by
  unfold P2PChat.sessionData at h
  cases hcm : w.app.cryptoManager with
  | none => rw [hcm] at h; cases h
  | some cm =>
    rw [hcm] at h
    simp only [JS.bind_run, JS.andThen] at h
    cases hs : arrayBufferToBase64 salt with
    | error e => rw [hs] at h; simp [JS.lift, JS.throw] at h
    | ok saltText =>
      rw [hs] at h
      simp only [JS.lift, JS.ret] at h
      cases h
      exact ⟨rfl, saltText, rfl, rfl⟩

theorem onConnected_sound (P : Platform) (salt : List Byte) (w : World) (hw : MailboxSound P w)
    (hread : ∀ saltText, arrayBufferToBase64 salt = .ok saltText →
      ReadsBack P w.app.peerPushSubscription w.app.myUnreadListCid w.app.peerUnreadListCid
        saltText) :
    MailboxSound P (onConnected P salt w).world := by
  unfold P2PChat.onConnected
  cases hm : w.app.webRtcManager with
  | none => exact hw
  | some m =>
    simp only []
    split
    · simp only [JS.bind_run, JS.andThen]
      have hkeep := (Spares.spares_setupChatHandlers.keeps P w hw).1
      have hsame := sameRecord_setupChatHandlers w
      cases h1 : setupChatHandlers w with
      | err e w1 => rw [h1] at hkeep; exact hkeep
      | pending w1 => rw [h1] at hkeep; exact hkeep
      | ok u w1 =>
        rw [h1] at hkeep hsame
        dsimp only [Res.world] at hkeep hsame
        dsimp only
        have hdata := ((Spares.spares_sessionData salt).keeps P w1 hkeep).1
        cases h2 : sessionData salt w1 with
        | err e w2 => rw [h2] at hdata; exact hdata
        | pending w2 => rw [h2] at hdata; exact hdata
        | ok data w2 =>
          obtain ⟨hw2, saltText, hsalt, hrecord⟩ := sessionData_ok_inv h2
          subst hw2
          dsimp only
          have hrest : Keeps P (StorageManager.saveSession P data >>= fun _ =>
              showChatInterface >>= fun _ => checkUnreadMessages P) (fun _ => True) := by
            refine keeps_bind (keeps_saveSession P data ?_) fun _ _ =>
              keeps_bind (Spares.spares_showChatInterface.keeps P) fun _ _ =>
              keeps_checkUnreadMessages P
            intro session hparse v hv
            rw [hrecord, hsame.1, hsame.2.1, hsame.2.2.1] at hparse
            rw [hread saltText hsalt session hparse] at hv
            cases hv
            exact hw.1
          exact (hrest w2 hkeep).1
    · exact hw

theorem connectionStateChange_sound (P : Platform) (state : String) (w : World)
    (hw : MailboxSound P w) (hjson : SavesFaithfully P w) :
    MailboxSound P (connectionStateChange P state w).world := by
  unfold P2PChat.connectionStateChange
  cases hm : w.app.webRtcManager with
  | none => exact hw
  | some m =>
    simp only [JS.bind_run, JS.andThen, JS.update]
    cases hh : m.peerConnection.onconnectionstatechange with
    | manager =>
      dsimp only
      refine ((Spares.spares_onconnectionstatechange P).keeps P _ ?_).1
      exact ⟨hw.1, hw.2⟩
    | invitation salt =>
      dsimp only
      refine onConnected_sound P salt _ ?_ fun saltText hs =>
        hjson salt saltText (by simp [World.capturedSalt, hm, hh]) hs
      exact ⟨hw.1, hw.2⟩
    | scanned salt =>
      dsimp only
      refine onConnected_sound P salt _ ?_ fun saltText hs =>
        hjson salt saltText (by simp [World.capturedSalt, hm, hh]) hs
      exact ⟨hw.1, hw.2⟩

theorem heldSession_sound {P : Platform} {x : JS (Option JsVal)}
    (hx : Keeps P x (fun held => ∀ session, held = some session → SessionSound P session))
    {w : World} {held : Option JsVal}
    (ih : MailboxSound P w ∧ ∀ session, held = some session → SessionSound P session) :
    MailboxSound P (x w).world ∧
      ∀ session, heldSession held (x w) = some session → SessionSound P session := by
  obtain ⟨h1, h2⟩ := hx w ih.1
  refine ⟨h1, ?_⟩
  cases hr : x w with
  | ok a w1 => exact h2 a w1 hr
  | err e w1 => exact ih.2
  | pending w1 => exact ih.2

theorem reachable_sound (P : Platform) (w : World) (held : Option JsVal)
    (h : Reachable P w held) :
    MailboxSound P w ∧ ∀ session, held = some session → SessionSound P session := by
  induction h with
  | fresh w happ hstorage =>
    refine ⟨⟨?_, ?_⟩, fun _ h => by cases h⟩
    · rw [happ]; exact Or.inl rfl
    · intro text session htext
      rw [hstorage] at htext
      cases htext
  | outside v hr happ hstorage ih =>
    exact ⟨⟨by rw [happ]; exact ih.1.1, by rw [hstorage]; exact ih.1.2⟩, ih.2⟩
  | reload v hr happ hstorage ih =>
    exact ⟨⟨by rw [happ]; exact Or.inl rfl, by rw [hstorage]; exact ih.1.2⟩,
      fun _ h => by cases h⟩
  | activateChat hr ih => exact heldSession_sound (keeps_activateChat P) ih
  | resetSessionSetup hr ih => exact heldSession_sound (keeps_resetSessionSetup P) ih
  | resetSessionChat hr ih => exact heldSession_sound (keeps_resetSessionChat P) ih
  | updateApiToken hr ih => exact ⟨(keeps_updateApiToken P _ ih.1).1, ih.2⟩
  | updateWorkerUrl hr ih => exact ⟨(keeps_updateWorkerUrl P _ ih.1).1, ih.2⟩
  | unlock password hr ih => exact ⟨(keeps_unlock P _ password (ih.2 _ rfl) _ ih.1).1, ih.2⟩
  | createInvitation hr ih => exact ⟨(keeps_createInvitation P _ ih.1).1, ih.2⟩
  | scanInvitation hr ih => exact ⟨(Spares.spares_scanInvitation.keeps P _ ih.1).1, ih.2⟩
  | tick scanType data hr ih => exact ⟨(keeps_tick P scanType data _ ih.1).1, ih.2⟩
  | handleScannedData data expectedType hr ih =>
    exact ⟨(keeps_handleScannedData P data expectedType _ ih.1).1, ih.2⟩
  | connectionStateChange state hr hjson ih =>
    exact ⟨connectionStateChange_sound P state _ ih.1 hjson, ih.2⟩
  | ondatachannel readyState hr ih =>
    exact ⟨((Spares.spares_ondatachannel readyState).keeps P _ ih.1).1, ih.2⟩
  | dataChannelMessage data hr ih =>
    exact ⟨((Spares.spares_dataChannelMessage P data).keeps P _ ih.1).1, ih.2⟩
  | onSendClick message hr ih =>
    exact ⟨((Spares.spares_onSendClick P message).keeps P _ ih.1).1, ih.2⟩
  | sendOfflineMessage message hr ih =>
    exact ⟨((Spares.spares_sendOfflineMessage P message).keeps P _ ih.1).1, ih.2⟩
  | checkUnreadMessages hr ih => exact ⟨(keeps_checkUnreadMessages P _ ih.1).1, ih.2⟩
  | push notificationData clientOpen hr ih =>
    exact ⟨((Spares.spares_receiveActions P _).keeps P _ ih.1).1, ih.2⟩

/-! ### The invariant -/

set_option maxRecDepth 1000000 in
theorem paired_saves_faithfully : SavesFaithfully Sample.platform Sample.paired := by
  intro salt saltText hsalt htext session hparse
  have h1 : Sample.paired.capturedSalt
      = some [3, 20, 37, 54, 71, 88, 105, 122, 139, 156, 173, 190, 207, 224, 241, 2] := by rfl
  rw [h1] at hsalt
  cases hsalt
  have h2 : arrayBufferToBase64
      [3, 20, 37, 54, 71, 88, 105, 122, 139, 156, 173, 190, 207, 224, 241, 2]
        = .ok "AxQlNkdYaXqLnK2+z+DxAg==" := by rfl
  rw [h2] at htext
  cases htext
  have h3 : Sample.paired.app.peerPushSubscription = Sample.subscriptionB := by rfl
  have h4 : Sample.paired.app.myUnreadListCid = .str (Sample.cidOf "[]") := by rfl
  have h5 : Sample.paired.app.peerUnreadListCid = .str (Sample.cidOf "[]") := by rfl
  rw [h3, h4, h5] at hparse
  rw [h4]
  have h6 : Sample.platform.jsonParse (Sample.platform.jsonStringify
      (.obj [("peerPushSubscription", Sample.subscriptionB),
        ("myUnreadListCid", .str (Sample.cidOf "[]")),
        ("peerUnreadListCid", .str (Sample.cidOf "[]")),
        ("salt", .str "AxQlNkdYaXqLnK2+z+DxAg==")])) = some Sample.restored := by rfl
  rw [h6] at hparse
  cases hparse
  rfl

set_option maxRecDepth 1000000 in
set_option maxHeartbeats 4000000 in
theorem connected_storage : Sample.connected.browser.localStorage =
    [("secureP2pChatSession", Sample.stringify Sample.restored),
      ("pushWorkerUrl", "https://push.example/send"), ("web3StorageApiToken", "token")] := by rfl

set_option maxRecDepth 1000000 in
theorem sample_tab_reachable :
    Reachable Sample.platform Sample.unlocked (some Sample.restored) :=
  Reachable.unlock "secret"
    (Reachable.activateChat
      (Reachable.reload Sample.reopened
        (Reachable.connectionStateChange "connected"
          (Reachable.tick "answer" (Sample.stringify (qrPayload "answer" (Sample.cidOf Sample.answerText)))
            (Reachable.outside Sample.awaited
              (Reachable.createInvitation
                (Reachable.activateChat
                  (Reachable.activateChat
                    (Reachable.activateChat
                      (Reachable.fresh Sample.firstVisit rfl rfl)))))
              rfl rfl))
          paired_saves_faithfully)
        rfl connected_storage.symm))

/-- **C25** (local mailbox pointer invariant).  In every state a tab reaches from a
fresh start (a new `AppState`, an empty `localStorage`) through runs of the handlers of
the scripts (`activateChat` and the resets, `createInvitation`, the scanner with
`handleScannedData`, the listeners on the connection and on the data channel, the send
button, `sendOfflineMessage`, `checkUnreadMessages`, the unlock listener, a click on a
pushed notification), with reloads and changes of the world outside the scripts in
between, `AppState.myUnreadListCid` is `null` or the content identifier of the text
`JSON.stringify([])`, the identifier being a function of the text; and a click on a
pushed notification, whatever its data, a `new_message` among them, leaves it as it is.
The handlers run one at a time, and where the listener on the connection saves a
session, `JSON.parse` reads back from the saved text the `myUnreadListCid` that was
written (`SavesFaithfully`). -/
theorem mailbox_pointer_null_or_empty (P : Platform) (w : World) (held : Option JsVal)
    (h : Reachable P w held) :
    NullOrEmptyList P w.app.myUnreadListCid ∧
      ∀ notificationData clientOpen,
        (receiveActions P (notificationclick notificationData clientOpen) w).world.app.myUnreadListCid
          = w.app.myUnreadListCid :=
  ⟨(reachable_sound P w held h).1.1, fun _ _ => (Spares.spares_receiveActions P _ w).1⟩

set_option maxRecDepth 1000000 in
/-- The invariant on the sample platform.  A tab on its first visit types the key
sequence three times (the first two runs of `activateChat` save the token and the
worker URL and raise on the status line the page does not have yet), creates an
invitation, scans the answer of the other peer, reports `connected` and saves its
session; opened again, it shows the password page and the user unlocks it.  The state
is reachable and the unlock has restored the identifier of the empty list. -/
theorem mailbox_pointer_null_or_empty_witness :
    Reachable Sample.platform Sample.unlocked (some Sample.restored) ∧
      Sample.unlocked.app.myUnreadListCid = .str (Sample.cidOf "[]") ∧
      (NullOrEmptyList Sample.platform Sample.unlocked.app.myUnreadListCid ∧
        ∀ notificationData clientOpen,
          (receiveActions Sample.platform (notificationclick notificationData clientOpen)
            Sample.unlocked).world.app.myUnreadListCid = Sample.unlocked.app.myUnreadListCid) :=
  ⟨sample_tab_reachable, by rfl,
    mailbox_pointer_null_or_empty Sample.platform Sample.unlocked (some Sample.restored)
      sample_tab_reachable⟩

/-! ## The envelopes of the push channel -/

theorem Grows.grows_rtcCall {α : Type} (method : String) (arg : JsVal)
    (run : RtcState → Option (α × RtcState)) : Grows (rtcCall method arg run) := by
  intro w
  unfold P2PChat.rtcCall
  cases w.app.webRtcManager with
  | none => exact ⟨[], [], by simp [Res.world], by simp [Res.world]⟩
  | some m =>
    simp only []
    cases run m.peerConnection.native with
    | none => exact ⟨[.rtcCall method arg], [], rfl, by simp [Res.world]⟩
    | some r => exact ⟨[.rtcCall method arg], [], rfl, by simp [Res.world]⟩

theorem Grows.grows_waitForIceGathering (P : Platform) :
    Grows (WebRTCManager.waitForIceGathering P) := by
  apply Grows.of_same
  intro w
  unfold WebRTCManager.waitForIceGathering
  cases w.app.webRtcManager with
  | none => exact ⟨rfl, rfl⟩
  | some m =>
    simp only []
    split
    · exact ⟨rfl, rfl⟩
    · cases checkState (P.rtcGatheringEvents m.peerConnection.native) <;> exact ⟨rfl, rfl⟩

theorem Grows.grows_localDescription : Grows localDescription := by
  apply Grows.of_same
  intro w
  unfold P2PChat.localDescription
  cases w.app.webRtcManager <;> exact ⟨rfl, rfl⟩

theorem Grows.grows_createAnswer (P : Platform) (offerSdp : JsVal) :
    Grows (WebRTCManager.createAnswer P offerSdp) :=
  Grows.grows_bind (Grows.grows_rtcCall _ _ _) fun _ =>
  Grows.grows_bind (Grows.grows_rtcCall _ _ _) fun _ =>
  Grows.grows_bind (Grows.grows_rtcCall _ _ _) fun _ =>
  Grows.grows_bind (Grows.grows_waitForIceGathering P) fun _ => Grows.grows_localDescription

theorem Grows.grows_setFinalRemoteDescription (P : Platform) (answerSdp : JsVal) :
    Grows (WebRTCManager.setFinalRemoteDescription P answerSdp) := by
  unfold WebRTCManager.setFinalRemoteDescription
  exact Grows.grows_rtcCall _ _ _

theorem clicked_restart_offer (P : Platform) (w : World) (data type : JsVal)
    (hdata : data.truthy = true) (htype : data.getProp "type" = .ok type)
    (ho : type.isStr "ice_restart" = true) :
    receiveActions P (notificationclick data true) w = handleIceRestartOffer P data w := by
  have h : notificationclick data true
      = [.focus, .postMessage (.obj [("type", .str "ice_restart_offer"), ("payload", data)])] := by
    simp [notificationclick, hdata, htype, ho]
  rw [h]
  simp only [receiveActions]
  rw [bind_ret_unit]
  simp [onServiceWorkerMessage, JsVal.getProp, JS.lift, JS.ret, JS.andThen, JsVal.isStr,
    List.lookup]

theorem clicked_restart_answer (P : Platform) (w : World) (data type : JsVal)
    (hdata : data.truthy = true) (htype : data.getProp "type" = .ok type)
    (ha : type.isStr "ice_restart_answer" = true) :
    receiveActions P (notificationclick data true) w = handleIceRestartAnswer P data w := by
  have hno : type.isStr "ice_restart" = false := by
    cases type <;> simp [JsVal.isStr] at ha ⊢
    rw [ha]
    decide
  have h : notificationclick data true
      = [.focus, .postMessage (.obj [("type", .str "ice_restart_answer"), ("payload", data)])] := by
    simp [notificationclick, hdata, htype, ha, hno]
  rw [h]
  simp only [receiveActions]
  rw [bind_ret_unit]
  simp [onServiceWorkerMessage, JsVal.getProp, JS.lift, JS.ret, JS.andThen, JsVal.isStr,
    List.lookup]

/-- Claim C9, as the code has it. An envelope from the push channel, the data of a clicked
notification, is dispatched by its type alone; whether this side is the offerer is not
looked at.  With no window of the app open, or with a type other than `ice_restart` and
`ice_restart_answer`, it is dropped and the page is left as it was, nothing logged.  A
restart offer (`ice_restart`) that meets a page without `WebRTCManager` or without
`peerPushSubscription`, and a restart answer that meets a page without `WebRTCManager`,
are dropped with exactly one warning logged and nothing else changed.  A restart offer
that meets a page with both, and a restart answer that meets a page with a
`WebRTCManager`, are not dropped, whatever the role: the first thing the page does is to
request the blob the envelope names from the relay. -/
theorem push_envelope_dispatched_by_type (P : Platform) (w : World) (data type : JsVal)
    (clientOpen : Bool) (hdata : data.truthy = true)
    (htype : data.getProp "type" = .ok type) :
    ((clientOpen = false ∨
        (type.isStr "ice_restart" = false ∧ type.isStr "ice_restart_answer" = false)) →
      receiveActions P (notificationclick data clientOpen) w = .ok () w) ∧
    (clientOpen = true → type.isStr "ice_restart" = true →
      (w.app.webRtcManager = none ∨ w.app.peerPushSubscription.truthy = false) →
      receiveActions P (notificationclick data clientOpen) w = .ok ()
        { w with trace := w.trace ++
            [.consoleWarn "Received ICE restart offer but not ready to handle it."] }) ∧
    (clientOpen = true → type.isStr "ice_restart_answer" = true → w.app.webRtcManager = none →
      receiveActions P (notificationclick data clientOpen) w = .ok ()
        { w with trace := w.trace ++
            [.consoleWarn "Received ICE restart answer but WebRTCManager is not initialized."] }) ∧
    (clientOpen = true → type.isStr "ice_restart" = true →
      ∀ m cid, w.app.webRtcManager = some m → w.app.peerPushSubscription.truthy = true →
        data.getProp "cid" = .ok cid →
        ∃ events, (receiveActions P (notificationclick data clientOpen) w).world.trace
          = w.trace ++ Event.relayGet cid.toText :: events) ∧
    (clientOpen = true → type.isStr "ice_restart_answer" = true →
      ∀ m cid, w.app.webRtcManager = some m → data.getProp "cid" = .ok cid →
        ∃ events, (receiveActions P (notificationclick data clientOpen) w).world.trace
          = w.trace ++ Event.relayGet cid.toText :: events) := by
  refine ⟨?_, ?_, ?_, ?_, ?_⟩
  · rintro (hclosed | ⟨ho, ha⟩)
    · simp [notificationclick, hclosed, receiveActions, JS.ret]
    · cases clientOpen <;>
        simp [notificationclick, hdata, htype, ho, ha, receiveActions, JS.ret]
  · intro hopen ho hnot
    rw [hopen, clicked_restart_offer P w data type hdata htype ho]
    have hcond : w.app.webRtcManager.isNone = true ∨ w.app.peerPushSubscription.truthy = false := by
      rcases hnot with h | h
      · left; simp [h]
      · right; exact h
    simp only [handleIceRestartOffer, hcond, if_true]
    rfl
  · intro hopen ha hnone
    rw [hopen, clicked_restart_answer P w data type hdata htype ha]
    simp [handleIceRestartAnswer, hnone, JS.emit, JS.update]
  · intro hopen ho m cid hm hsub hcid
    rw [hopen, clicked_restart_offer P w data type hdata htype ho]
    have hcond : ¬ (w.app.webRtcManager.isNone = true ∨
        w.app.peerPushSubscription.truthy = false) := by
      simp [hm, hsub]
    simp only [handleIceRestartOffer, hcond, if_false]
    refine traced_tryCatch ?_ (fun _ => Grows.grows_emit _)
    simp only [hcid, JS.lift]
    rw [show ∀ (f : JsVal → JS Unit), (JS.ret cid >>= f) w = f cid w from fun _ => rfl]
    exact traced_bind (downloadFromIPFS_traced P cid w) fun _ =>
      Grows.grows_bind (Grows.grows_parseJson P _) fun _ =>
      Grows.grows_bind (Grows.grows_createAnswer P _) fun _ =>
      Grows.grows_bind (Grows.grows_uploadToIPFS P _) fun _ =>
      Grows.grows_bind Grows.grows_loadWorkerUrl fun _ =>
      Grows.grows_ite (Grows.grows_emit _) (Grows.grows_notifyPeer _ _)
  · intro hopen ha m cid hm hcid
    rw [hopen, clicked_restart_answer P w data type hdata htype ha]
    have hcond : ¬ (w.app.webRtcManager.isNone = true) := by simp [hm]
    simp only [handleIceRestartAnswer, hcond, if_false]
    refine traced_tryCatch ?_ (fun _ => Grows.grows_emit _)
    simp only [hcid, JS.lift]
    rw [show ∀ (f : JsVal → JS Unit), (JS.ret cid >>= f) w = f cid w from fun _ => rfl]
    exact traced_bind (downloadFromIPFS_traced P cid w) fun _ =>
      Grows.grows_bind (Grows.grows_parseJson P _) fun _ =>
      Grows.grows_setFinalRemoteDescription P _

set_option maxRecDepth 1000000 in
/-- The cases of `push_envelope_dispatched_by_type` on the sample tabs.  A clicked restart
offer that meets the sample peer, which has no `WebRTCManager`, leaves one warning; the
same envelope meets the sample offerer, whose role does not fit it, and the blob it names
is requested from the relay. -/
theorem push_envelope_dispatched_by_type_witness :
    receiveActions Sample.platform
        (notificationclick (.obj [("type", .str "ice_restart"),
          ("cid", .str (Sample.cidOf Sample.restartOfferText))]) true) Sample.peer
      = .ok () { Sample.peer with trace := Sample.peer.trace ++
          [.consoleWarn "Received ICE restart offer but not ready to handle it."] } ∧
    (Sample.offerer.app.webRtcManager.map (fun m => m.isOfferer)) = some true ∧
    ∃ events, (receiveActions Sample.platform
        (notificationclick (.obj [("type", .str "ice_restart"),
          ("cid", .str (Sample.cidOf Sample.restartOfferText))]) true) Sample.offerer).world.trace
        = Sample.offerer.trace ++
          Event.relayGet (JsVal.str (Sample.cidOf Sample.restartOfferText)).toText :: events :=
  ⟨(push_envelope_dispatched_by_type Sample.platform Sample.peer
      (.obj [("type", .str "ice_restart"), ("cid", .str (Sample.cidOf Sample.restartOfferText))])
      (.str "ice_restart") true (by rfl) (by rfl)).2.1 rfl (by rfl) (Or.inl rfl),
    by rfl,
    (push_envelope_dispatched_by_type Sample.platform Sample.offerer
      (.obj [("type", .str "ice_restart"), ("cid", .str (Sample.cidOf Sample.restartOfferText))])
      (.str "ice_restart") true (by rfl) (by rfl)).2.2.2.1 rfl (by rfl) Sample.offererManager
      (.str (Sample.cidOf Sample.restartOfferText)) (by rfl) (by rfl) (by rfl)⟩

end P2PChat
